import Mathlib

/-!
# NSS responder: reply encoders, override policy, ID/name searches and enumeration

A shallow embedding of parts of `src/responder/nss/nsssrv_cmd.c`.

Conventions of the embedding

* A C string (`const char *`) is a list of byte values; the string it denotes
  is the part before the first zero byte (`cstr`), so every list is a valid
  value.  A `NULL` pointer is `none`.
* An `ldb_message` carries the attributes the code reads, already parsed;
  `ldb_msg_find_attr_as_uint64` and friends become `Option.getD` followed by
  the truncation of the C type the value is assigned to.
* `talloc` copies (`talloc_strdup`) succeed; functions of other modules whose
  failure the code branches on (`sss_packet_grow`, `sss_get_cased_name`, the
  persistent cache, the provider, the negative cache) are parameters.
* A loop over the domains or over the records of a snapshot takes fuel, one
  unit for each iteration; the function that holds the loop fixes the fuel, and
  a result `none` stands for a loop that does not end within it.
* The enumeration snapshot (`struct getent_ctx`) and the read pointers of a
  client are explicit state (`enum_ctx`); the counts of records are `int`
  where the code holds them in an `int`.
-/

namespace NssSrv

/-! ## errno values -/

abbrev EOK : Nat := 0
abbrev ENOENT : Nat := 2
abbrev EIO : Nat := 5
abbrev EAGAIN : Nat := 11
abbrev ENOMEM : Nat := 12
abbrev EFAULT : Nat := 14
abbrev EEXIST : Nat := 17
abbrev EINVAL : Nat := 22

/-! ## C strings -/

/-- Bytes of a C string; the denoted string stops at the first zero byte. -/
abbrev CStr := List Nat

/-- The string denoted by a byte list: everything before the first NUL. -/
def cstr (s : CStr) : List Nat := s.takeWhile (fun b => b != 0)

/-- Length of the denoted string, as computed by the C library. -/
def strlen (s : CStr) : Nat := (cstr s).length

/-- Comparison of two strings byte by byte, the bytes as `unsigned char`: the sign of
the result of `strcmp`. -/
def strcmp_bytes : List Nat → List Nat → Int
  | [], [] => 0
  | [], _ :: _ => -1
  | _ :: _, [] => 1
  | a :: as, b :: bs =>
    if a < b then -1 else if b < a then 1 else strcmp_bytes as bs

/-- Result of the C comparison, by its sign: negative, zero or positive as the first
string is less than, equal to or greater than the second. -/
def strcmp (a b : CStr) : Int := strcmp_bytes (cstr a) (cstr b)

/-- Copy of a string made on a talloc context: it denotes the same string, and a
NULL argument gives NULL. -/
def talloc_strdup (s : Option CStr) : Option CStr := s

/-- Counted string of `util.h`: the pointer and `strlen + 1`. -/
structure sized_string where
  str : CStr
  len : Nat
deriving DecidableEq, Repr

/-- Sets `str` and `len = strlen(str) + 1`. -/
def to_sized_string (s : CStr) : sized_string := { str := s, len := strlen s + 1 }

/-- The `len` bytes that `memcpy(dst, s.str, s.len)` copies: the string and its NUL. -/
def sized_bytes (s : sized_string) : List Nat := cstr s.str ++ [0]

/-! ## Records, domains and responder configuration -/

/-- Attributes of a persistent-cache record that the responder reads. -/
structure ldb_message where
  name : Option CStr := none
  uidNumber : Option Nat := none
  gidNumber : Option Nat := none
  gecos : Option CStr := none
  homeDirectory : Option CStr := none
  loginShell : Option CStr := none
  isPosix : Option CStr := none
  origPrimaryGroupGidNumber : Option Nat := none
  dataExpireTimestamp : Option Nat := none
  initgrExpireTimestamp : Option Nat := none
  /-- Values of the element `objectClass`, each with its `length` bytes of data. -/
  objectClass : Option (List (List Nat)) := none
  /-- Values of the element `memberuid`, each a string. -/
  memberuid : Option (List CStr) := none
  /-- Values of the element `ghost`, each a string. -/
  ghost : Option (List CStr) := none
  /-- The attribute `SYSDB_SID_STR`. -/
  objectSIDString : Option CStr := none
deriving DecidableEq, Repr

/-- Value of `ldb_msg_find_attr_as_uint64(msg, attr, dflt)` for a parsed attribute. -/
def ldb_msg_find_attr_as_uint64 (attr : Option Nat) (dflt : Nat) : Nat :=
  (attr.getD dflt) % 2 ^ 64

/-- Fields of `struct sss_domain_info` used by the NSS commands.
`parent` is `IS_SUBDOMAIN(dom)`, `sysdb` is `dom->sysdb != NULL`, and
`provider` is `NEED_CHECK_PROVIDER(dom->provider)`. -/
structure sss_domain_info where
  name : CStr
  id_min : Nat := 0
  id_max : Nat := 0
  fqnames : Bool := false
  case_sensitive : Bool := true
  parent : Bool := false
  sysdb : Bool := true
  provider : Bool := false
  override_gid : Nat := 0
  override_homedir : Option CStr := none
  fallback_homedir : Option CStr := none
  override_shell : Option CStr := none
  default_shell : Option CStr := none
  enumerate : Bool := false
  ignore_group_members : Bool := false
  mpg : Bool := false
deriving DecidableEq, Repr

/-- Fields of `struct nss_ctx` used by the NSS commands. -/
structure nss_ctx where
  pwfield : CStr := [42]
  override_homedir : Option CStr := none
  fallback_homedir : Option CStr := none
  override_shell : Option CStr := none
  default_shell : Option CStr := none
  shell_fallback : Option CStr := none
  allowed_shells : Option (List CStr) := none
  vetoed_shells : Option (List CStr) := none
  etc_shells : Option (List CStr) := none
  neg_timeout : Nat := 15
  cache_refresh_percent : Nat := 0
  pwd_mc_ctx : Bool := false
  /-- Whether `grp_mc_ctx` is set. -/
  grp_mc_ctx : Bool := false
  filter_users_in_groups : Bool := false
deriving DecidableEq, Repr

/-- Functions and build-time constants of other modules that the encoders call. -/
structure Ext where
  /-- The template expander of `util`: template, user name, uid, original homedir, domain name. -/
  expand_homedir_template : CStr → CStr → Nat → Option CStr → CStr → Option CStr
  /-- Name in the case of the domain; NULL on failure. -/
  sss_get_cased_name : CStr → Bool → Option CStr
  /-- Build-time constant naming the no-login shell. -/
  NOLOGIN_SHELL : CStr
  /-- Return code of `sss_packet_grow` for a body of the given length and a size. -/
  grow_ret : Nat → Nat → Nat
  /-- Content of freshly grown packet memory at an offset of the body. -/
  junk : Nat → Nat
  /-- The fully qualified name that the domain's name format produces for a user name. -/
  sss_fqname : sss_domain_info → CStr → CStr
  /-- Length of the domain part of a fully qualified name. -/
  sss_fqdom_len : sss_domain_info → Nat
  /-- Return code of `sss_packet_shrink` for a body of the given length and a size. -/
  shrink_ret : Nat → Nat → Nat := fun _ _ => EOK
  /-- Return code of `sss_packet_set_size`. -/
  set_size_ret : Nat := EOK
  /-- Build-time constant naming the object class of groups. -/
  SYSDB_GROUP_CLASS : CStr := [103, 114, 111, 117, 112]
  /-- Build-time constant naming the object class of users. -/
  SYSDB_USER_CLASS : CStr := [117, 115, 101, 114]
  /-- Numeric values of the constants of `enum sss_id_type`. -/
  SSS_ID_TYPE_UID : Nat := 1
  SSS_ID_TYPE_GID : Nat := 2
  SSS_ID_TYPE_BOTH : Nat := 3

/-! ## Override policy (`get_gid_override`, `get_homedir_override`, `get_shell_override`) -/

/-- The domain's `override_gid` when non-zero, else the record's `gidNumber`;
the result has type `gid_t` (32 bits). -/
def get_gid_override (msg : ldb_message) (dom : sss_domain_info) : Nat :=
  (if dom.override_gid != 0 then dom.override_gid
   else ldb_msg_find_attr_as_uint64 msg.gidNumber 0) % 2 ^ 32

/-- The test `!homedir || *homedir == 0`. -/
def homedir_missing (homedir : Option CStr) : Bool :=
  match homedir with
  | none => true
  | some h => strlen h == 0

/-- Home directory reported for a record. -/
def get_homedir_override (x : Ext) (msg : ldb_message) (nctx : nss_ctx)
    (dom : sss_domain_info) (name : CStr) (uid : Nat) : Option CStr :=
  let homedir := msg.homeDirectory
  match dom.override_homedir with
  | some t => x.expand_homedir_template t name uid homedir dom.name
  | none =>
    match nctx.override_homedir with
    | some t => x.expand_homedir_template t name uid homedir dom.name
    | none =>
      if homedir_missing homedir then
        match dom.fallback_homedir with
        | some t => x.expand_homedir_template t name uid homedir dom.name
        | none =>
          match nctx.fallback_homedir with
          | some t => x.expand_homedir_template t name uid homedir dom.name
          | none => talloc_strdup homedir
      else talloc_strdup homedir

/-- The loop `for (i = 0; list[i]; i++) if (strcmp(list[i], shell) == 0) ...`:
whether it stops at a matching element. -/
def shell_loop (list : List CStr) (shell : CStr) : Bool :=
  match list with
  | [] => false
  | s :: rest => if strcmp s shell == 0 then true else shell_loop rest shell

/-- Login shell reported for a record. -/
def get_shell_override (x : Ext) (msg : ldb_message) (nctx : nss_ctx)
    (dom : sss_domain_info) : Option CStr :=
  match dom.override_shell with
  | some s => some s
  | none =>
    match nctx.override_shell with
    | some s => some s
    | none =>
      match msg.loginShell with
      | none =>
        match dom.default_shell with
        | some s => talloc_strdup (some s)
        | none =>
          match nctx.default_shell with
          | some s => talloc_strdup (some s)
          | none => none
      | some user_shell =>
        if nctx.allowed_shells.isNone && nctx.vetoed_shells.isNone then
          talloc_strdup (some user_shell)
        else if (match nctx.vetoed_shells with
                 | some l => shell_loop l user_shell
                 | none => false) then
          talloc_strdup nctx.shell_fallback
        else if (match nctx.etc_shells with
                 | some l => shell_loop l user_shell
                 | none => false) then
          talloc_strdup (some user_shell)
        else if (match nctx.allowed_shells with
                 | some l => shell_loop l user_shell
                 | none => false) then
          talloc_strdup nctx.shell_fallback
        else talloc_strdup (some x.NOLOGIN_SHELL)

/-! ## Negative cache -/

/-- Key of a negative-cache entry; a domain is named by its `name`. -/
inductive nc_key where
  | user (dom : List Nat) (name : List Nat)
  | group (dom : List Nat) (name : List Nat)
  | uid (id : Nat)
  | gid (id : Nat)
  | sid (sid : List Nat)
deriving DecidableEq, Repr

/-- Entry of the negative cache: key, insertion time, permanent flag. -/
structure nc_entry where
  key : nc_key
  ts : Nat
  permanent : Bool
deriving DecidableEq, Repr

/-- Modelled from the spec: the negative cache (`responder/common/negcache.c` is not
among the sources) is a store of entries, at most one per key. -/
abbrev sss_nc_ctx := List nc_entry

/-- Modelled from the spec: `check(key)` is a hit (`EEXIST`) when an entry for the key
is permanent or younger than the timeout, and a miss (`ENOENT`) otherwise. -/
def sss_ncache_check (nc : sss_nc_ctx) (now ttl : Nat) (k : nc_key) : Nat :=
  if nc.any (fun e => e.key == k && (e.permanent || decide (now - e.ts < ttl)))
  then EEXIST else ENOENT

/-- Modelled from the spec: `set(key, permanent?)` inserts or overwrites the entry. -/
def sss_ncache_set (nc : sss_nc_ctx) (now : Nat) (permanent : Bool) (k : nc_key) : sss_nc_ctx :=
  { key := k, ts := now, permanent := permanent } :: nc.filter (fun e => e.key != k)

/-- Key of a group-name entry for a name in a domain. -/
def nc_group_key (dom : sss_domain_info) (name : CStr) : nc_key :=
  nc_key.group (cstr dom.name) (cstr name)

/-- Key of a user-name entry for a name in a domain. -/
def nc_user_key (dom : sss_domain_info) (name : CStr) : nc_key :=
  nc_key.user (cstr dom.name) (cstr name)

/-- Lookup of a user name of a domain in the negative cache. -/
def sss_ncache_check_user (nc : sss_nc_ctx) (now ttl : Nat) (dom : sss_domain_info)
    (name : CStr) : Nat :=
  sss_ncache_check nc now ttl (nc_user_key dom name)

/-- Lookup of a group name of a domain in the negative cache. -/
def sss_ncache_check_group (nc : sss_nc_ctx) (now ttl : Nat) (dom : sss_domain_info)
    (name : CStr) : Nat :=
  sss_ncache_check nc now ttl (nc_group_key dom name)

/-! ## Reply packets -/

/-- Little-endian bytes of a 32-bit value, as stored by `SAFEALIGN_SET_UINT32`. -/
def le32 (v : Nat) : List Nat :=
  [v % 256, v / 256 % 256, v / 65536 % 256, v / 16777216 % 256]

/-- Store of bytes at an offset of the body. -/
def write_at (body : List Nat) (off : Nat) (bytes : List Nat) : List Nat :=
  body.take off ++ bytes ++ body.drop (off + bytes.length)

/-- Content of `size` bytes of fresh packet memory from offset `off` on. -/
def junk_bytes (x : Ext) (off size : Nat) : List Nat :=
  (List.range size).map (fun i => x.junk (off + i))

/-- Growth of the body by `size` bytes: the return code and the new body. -/
def sss_packet_grow (x : Ext) (body : List Nat) (size : Nat) : Nat × List Nat :=
  if x.grow_ret body.length size != EOK then (x.grow_ret body.length size, body)
  else (EOK, body ++ junk_bytes x body.length size)

/-- The home directory `fill_pwent` encodes for the result of `get_homedir_override`:
`"/"` when that is NULL. -/
def pw_homedir_field (tmpstr : Option CStr) : CStr :=
  match tmpstr with
  | none => [47]
  | some h => h

/-- The shell `fill_pwent` encodes for the result of `get_shell_override`: the empty
string when that is NULL. -/
def pw_shell_field (tmpstr : Option CStr) : CStr :=
  match tmpstr with
  | none => []
  | some sh => sh

/-- The gecos `fill_pwent` encodes: the empty string when the attribute is missing. -/
def pw_gecos_field (tmpstr : Option CStr) : CStr :=
  match tmpstr with
  | none => []
  | some g => g

/-- Formatted print of the fully qualified name into `size` bytes at `off`:
the body after the print and the length the full name has. -/
def sss_fqname_print (x : Ext) (body : List Nat) (off size : Nat) (dom : sss_domain_info)
    (name : CStr) : List Nat × Nat :=
  let full := cstr (x.sss_fqname dom name)
  (if size == 0 then body else write_at body off (full.take (size - 1) ++ [0]), full.length)

/-- Record handed to `sss_mmap_cache_pw_store`. -/
structure mc_pw_entry where
  fullname : List Nat
  pwfield : List Nat
  uid : Nat
  gid : Nat
  gecos : List Nat
  homedir : List Nat
  shell : List Nat
deriving DecidableEq, Repr

/-- Local variables of `fill_pwent` that live across loop iterations. -/
structure pw_state where
  body : List Nat
  rp : Nat := 8
  num : Nat := 0
  packet_initialized : Bool := false
  delim : Nat := 0
  mc : List mc_pw_entry := []
deriving DecidableEq, Repr

/-- How the loop of `fill_pwent` is left. -/
inductive pw_exit where
  | ret (code : Nat)
  | done (i : Nat) (s : pw_state)
deriving DecidableEq, Repr

/-- Outcome of `fill_pwent`: return code, `*count`, body, shared-memory stores. -/
structure pw_result where
  ret : Nat
  count : Nat
  body : List Nat
  mc : List mc_pw_entry
deriving DecidableEq, Repr

/-- The tail of one iteration of `fill_pwent`, after the entry's `rsize` bytes were
added: uid, gid, the name, and the remaining fields.  The left result is the state
at a `goto done`, the right one the state at the end of the iteration (also at the
`continue` of a name that could not be qualified). -/
def fill_pwent_entry (x : Ext) (dom : sss_domain_info) (nctx : nss_ctx) (pw_mmap_cache : Bool)
    (add_domain : Bool) (dom_len : Nat) (uid gid : Nat)
    (name gecos homedir shell pwfield : sized_string) (body : List Nat) (s : pw_state) :
    pw_state ⊕ pw_state :=
  let body := write_at body s.rp (le32 uid)
  let rp := s.rp + 4
  let body := write_at body rp (le32 gid)
  let rp := rp + 4
  let finish (body : List Nat) (delim : Nat) : pw_state :=
    let fullname := to_sized_string (body.drop rp)
    let rp := rp + fullname.len
    let body := write_at body rp (sized_bytes pwfield)
    let rp := rp + pwfield.len
    let body := write_at body rp (sized_bytes gecos)
    let rp := rp + gecos.len
    let body := write_at body rp (sized_bytes homedir)
    let rp := rp + homedir.len
    let body := write_at body rp (sized_bytes shell)
    let rp := rp + shell.len
    let mc :=
      if pw_mmap_cache && nctx.pwd_mc_ctx then
        s.mc ++ [{ fullname := cstr fullname.str, pwfield := cstr pwfield.str, uid := uid,
                   gid := gid, gecos := cstr gecos.str, homedir := cstr homedir.str,
                   shell := cstr shell.str }]
      else s.mc
    { s with body := body, rp := rp, num := s.num + 1, delim := delim, mc := mc }
  let check (body : List Nat) (ret delim : Nat) : pw_state ⊕ pw_state :=
    if ret != name.len + delim + dom_len - 1 then
      Sum.inr { s with body := body, rp := rp, delim := delim }
    else Sum.inr (finish body delim)
  if add_domain then
    let p := sss_fqname_print x body rp (name.len + s.delim + dom_len) dom name.str
    if p.2 ≥ name.len + s.delim + dom_len then
      let t := p.2 - (name.len + s.delim + dom_len) + 1
      let g := sss_packet_grow x p.1 t
      if g.1 != EOK then Sum.inl { s with body := g.2, rp := rp, num := 0 }
      else
        let delim := s.delim + t
        let q := sss_fqname_print x g.2 rp (name.len + delim + dom_len) dom name.str
        check q.1 q.2 delim
    else check p.1 p.2 s.delim
  else Sum.inr (finish (write_at body rp (sized_bytes name)) s.delim)

/-- The loop `for (i = 0; i < *count; i++)` of `fill_pwent` over the records. -/
def fill_pwent_loop (x : Ext) (dom : sss_domain_info) (nctx : nss_ctx) (nc : sss_nc_ctx)
    (now : Nat) (filter_users pw_mmap_cache : Bool) (add_domain : Bool) (dom_len : Nat) :
    List ldb_message → Nat → pw_state → pw_exit
  | [], i, s => pw_exit.done i s
  | msg :: rest, i, s =>
    let continue_ := fill_pwent_loop x dom nctx nc now filter_users pw_mmap_cache add_domain
      dom_len rest (i + 1)
    let uid := ldb_msg_find_attr_as_uint64 msg.uidNumber 0 % 2 ^ 32
    let gid := get_gid_override msg dom
    match msg.name with
    | none => continue_ s
    | some orig_name =>
      if uid == 0 || gid == 0 then continue_ s
      else if filter_users &&
          sss_ncache_check_user nc now nctx.neg_timeout dom orig_name == EEXIST then
        continue_ s
      else
        let g0 := if s.packet_initialized then (EOK, s.body) else sss_packet_grow x s.body 8
        if g0.1 != EOK then pw_exit.ret g0.1
        else
          let s := { s with body := g0.2, packet_initialized := true }
          match x.sss_get_cased_name orig_name dom.case_sensitive with
          | none => continue_ s
          | some tmpstr =>
            let name := to_sized_string tmpstr
            let gecos := to_sized_string (pw_gecos_field msg.gecos)
            let homedir := to_sized_string
              (pw_homedir_field (get_homedir_override x msg nctx dom name.str uid))
            let shell := to_sized_string (pw_shell_field (get_shell_override x msg nctx dom))
            let pwfield := to_sized_string nctx.pwfield
            let rsize := 2 * 4 + name.len + gecos.len + homedir.len + shell.len + pwfield.len
            let rsize := if add_domain then rsize + (s.delim + dom_len) else rsize
            let g := sss_packet_grow x s.body rsize
            if g.1 != EOK then pw_exit.done i { s with num := 0 }
            else
              match fill_pwent_entry x dom nctx pw_mmap_cache add_domain dom_len uid gid
                  name gecos homedir shell pwfield g.2 s with
              | Sum.inl s1 => pw_exit.done i s1
              | Sum.inr s1 => continue_ s1

/-- Encoder of passwd entries; `msgs` are the `*count` records handed in and `body`
is the body of the packet on entry. -/
def fill_pwent (x : Ext) (body : List Nat) (dom : sss_domain_info) (nctx : nss_ctx)
    (nc : sss_nc_ctx) (now : Nat) (filter_users pw_mmap_cache : Bool)
    (msgs : List ldb_message) : pw_result :=
  let add_domain := !dom.parent && dom.fqnames
  let delim := if add_domain then 1 else 0
  let dom_len := if add_domain then x.sss_fqdom_len dom else 0
  match fill_pwent_loop x dom nctx nc now filter_users pw_mmap_cache add_domain dom_len
      msgs 0 { body := body, delim := delim } with
  | pw_exit.ret code => { ret := code, count := msgs.length, body := body, mc := [] }
  | pw_exit.done i s =>
    if !s.packet_initialized then { ret := ENOENT, count := i, body := s.body, mc := s.mc }
    else { ret := EOK, count := i,
           body := write_at (write_at s.body 0 (le32 s.num)) 4 (le32 0), mc := s.mc }

/-! ## Initgroups reply (`fill_initgr`) -/

/-- Store `((uint32_t *)body)[idx] = v`. -/
def set_word (body : List Nat) (idx : Nat) (v : Nat) : List Nat :=
  write_at body (4 * idx) (le32 v)

/-- The value of `gidNumber` as the `gid_t` the code holds it in. -/
def msg_gid (msg : ldb_message) : Nat :=
  ldb_msg_find_attr_as_uint64 msg.gidNumber 0 % 2 ^ 32

/-- The test `posix && strcmp(posix, "FALSE") == 0`. -/
def posix_false (msg : ldb_message) : Bool :=
  match msg.isPosix with
  | some p => strcmp p [70, 65, 76, 83, 69] == 0
  | none => false

/-- Local variables of `fill_initgr` that the loop over the groups changes. -/
structure initgr_state where
  body : List Nat
  bindex : Nat := 0
  skipped : Nat := 0
  orig_primary_gid : Nat
deriving DecidableEq, Repr

/-- The loop `for (i = 0; i < num; i++)` of `fill_initgr` over `msgs[1 ..]`;
`none` is the `return EFAULT` inside the loop. -/
def fill_initgr_loop : List ldb_message → initgr_state → Option initgr_state
  | [], s => some s
  | msg :: rest, s =>
    let gid := msg_gid msg
    if gid == 0 then
      if posix_false msg then fill_initgr_loop rest { s with skipped := s.skipped + 1 }
      else none
    else
      let body := set_word s.body (2 + s.bindex) gid
      let orig := if s.orig_primary_gid == gid then 0 else s.orig_primary_gid
      fill_initgr_loop rest { s with body := body, bindex := s.bindex + 1,
                                     orig_primary_gid := orig }

/-- The body of the packet at the `return EFAULT` inside the loop of `fill_initgr`: the
gids stored by the iterations before it are in the body. -/
def fill_initgr_abort_body : List ldb_message → initgr_state → List Nat
  | [], s => s.body
  | msg :: rest, s =>
    let gid := msg_gid msg
    if gid == 0 then
      if posix_false msg then fill_initgr_abort_body rest { s with skipped := s.skipped + 1 }
      else s.body
    else
      let body := set_word s.body (2 + s.bindex) gid
      let orig := if s.orig_primary_gid == gid then 0 else s.orig_primary_gid
      fill_initgr_abort_body rest { s with body := body, bindex := s.bindex + 1,
                                           orig_primary_gid := orig }

/-- Encoder of the initgroups reply: return code and body of the packet. -/
def fill_initgr (x : Ext) (body : List Nat) (res : List ldb_message) : Nat × List Nat :=
  match res with
  | [] => (ENOENT, body)
  | user :: groups =>
    let num := res.length - 1
    let g := sss_packet_grow x body ((2 + res.length) * 4)
    if g.1 != EOK then (g.1, g.2)
    else
      let orig0 := ldb_msg_find_attr_as_uint64 user.origPrimaryGroupGidNumber 0 % 2 ^ 32
      let orig :=
        if orig0 != 0 then (if orig0 == msg_gid user then 0 else orig0) else orig0
      match fill_initgr_loop groups { body := g.2, orig_primary_gid := orig } with
      | none => (EFAULT, fill_initgr_abort_body groups { body := g.2, orig_primary_gid := orig })
      | some s =>
        let appended := s.orig_primary_gid != 0
        let body := if appended then set_word s.body (2 + s.bindex) s.orig_primary_gid
                    else s.body
        let num := if appended then num + 1 else num
        let body := set_word body 0 (num - s.skipped)
        let body := set_word body 1 0
        (EOK, body)

/-! ## Request pipeline: domain iteration, cache check, searches -/

/-- Modelled from the spec: `get_next_domain` (`util/domain_info_utils.c` is not among
the sources).  A domain pointer is the list of the domains from it onward in the order of
the descending traversal (every primary domain followed by its subdomains); `NULL` is the
empty list.  With `descend` the next domain is the next of that order; without it the next
of a primary domain is the next primary domain, and the next of a subdomain is its next
sibling, if any. -/
def get_next_domain (dom : List sss_domain_info) (descend : Bool) : List sss_domain_info :=
  match dom with
  | [] => []
  | d :: rest =>
    if descend then rest
    else if d.parent then
      (match rest with
       | n :: _ => if n.parent then rest else []
       | [] => [])
    else rest.dropWhile (fun n => n.parent)

/-- Commands of the NSS responder that reach the searches. -/
inductive sss_cli_command where
  | SSS_NSS_GETPWNAM
  | SSS_NSS_GETPWUID
  | SSS_NSS_GETGRNAM
  | SSS_NSS_GETGRGID
  | SSS_NSS_INITGR
  | SSS_NSS_GETSIDBYNAME
  | SSS_NSS_GETSIDBYID
  | SSS_NSS_GETNAMEBYSID
  | SSS_NSS_GETIDBYSID
deriving DecidableEq, Repr

/-- Request types of the provider interface. -/
inductive sss_dp_type where
  | SSS_DP_USER
  | SSS_DP_GROUP
  | SSS_DP_INITGROUPS
  | SSS_DP_NETGR
  | SSS_DP_USER_AND_GROUP
  | SSS_DP_SECID
deriving DecidableEq, Repr

/-- Fields of `struct nss_cmd_ctx` read by the searches. -/
structure nss_cmd_ctx where
  cmd : sss_cli_command
  name : CStr := []
  id : Nat := 0
  check_next : Bool := false
  secid : CStr := []
deriving DecidableEq, Repr

/-- Fields of `struct nss_dom_ctx`: `res` is `none` while the pointer is NULL. -/
structure nss_dom_ctx where
  domain : List sss_domain_info
  check_provider : Bool
  res : Option (List ldb_message) := none
deriving DecidableEq, Repr

/-- A lookup made in the persistent cache. -/
inductive sysdb_query where
  | getpwnam (dom : sss_domain_info) (name : List Nat)
  | getpwuid (dom : sss_domain_info) (id : Nat)
  | getgrgid (dom : sss_domain_info) (id : Nat)
  | search_user_by_uid (dom : sss_domain_info) (id : Nat)
  | search_group_by_gid (dom : sss_domain_info) (id : Nat)
  | search_user_by_name (dom : sss_domain_info) (name : List Nat)
  | search_group_by_name (dom : sss_domain_info) (name : List Nat)
  | getgrnam (dom : sss_domain_info) (name : List Nat)
  | initgroups (dom : sss_domain_info) (name : List Nat)
  | search_object_by_sid (dom : sss_domain_info) (sid : List Nat)
deriving DecidableEq, Repr

/-- The domain a persistent-cache lookup was made in. -/
def sysdb_query.dom : sysdb_query → sss_domain_info
  | sysdb_query.getpwnam d _ => d
  | sysdb_query.getpwuid d _ => d
  | sysdb_query.getgrgid d _ => d
  | sysdb_query.search_user_by_uid d _ => d
  | sysdb_query.search_group_by_gid d _ => d
  | sysdb_query.search_user_by_name d _ => d
  | sysdb_query.search_group_by_name d _ => d
  | sysdb_query.getgrnam d _ => d
  | sysdb_query.initgroups d _ => d
  | sysdb_query.search_object_by_sid d _ => d

/-- A request handed to `sss_dp_get_account_send`; `callback` tells whether a
completion callback was registered on it. -/
structure dp_request where
  dom : sss_domain_info
  req_type : sss_dp_type
  opt_name : Option (List Nat)
  opt_id : Nat
  callback : Bool
deriving DecidableEq, Repr

/-- What a search leaves behind outside its own context: the negative cache and the
calls it made to the persistent cache, the provider, the client connection and the
shared-memory cache, each in call order. -/
structure resp_state where
  ncache : sss_nc_ctx := []
  sysdb_log : List sysdb_query := []
  dp_log : List dp_request := []
  err_sent : List Nat := []
  cmd_done : Bool := false
  killed : Bool := false
  mc_invalidated : List (List Nat) := []
  /-- Names invalidated in the shared-memory cache of groups. -/
  grp_mc_invalidated : List (List Nat) := []
  /-- Lookups of a name of a domain in the negative cache: domain and key, in call order. -/
  nc_checked : List (sss_domain_info × nc_key) := []
  /-- Whether `sss_cmd_send_empty` was called. -/
  empty_sent : Bool := false
deriving DecidableEq, Repr

/-- The collaborators of the searches: the clock, the content of the persistent cache
as its lookups report it (`none` is a failed lookup), and the return codes of calls
that can fail. -/
structure Env where
  now : Nat := 0
  sysdb_getpwnam : sss_domain_info → CStr → Option (List ldb_message) := fun _ _ => some []
  sysdb_getpwuid : sss_domain_info → Nat → Option (List ldb_message) := fun _ _ => some []
  sysdb_getgrgid : sss_domain_info → Nat → Option (List ldb_message) := fun _ _ => some []
  /-- Single-record searches: `none` is an error, `some none` is `ENOENT`. -/
  sysdb_search_user_by_uid : sss_domain_info → Nat → Option (Option ldb_message) :=
    fun _ _ => some none
  sysdb_search_group_by_gid : sss_domain_info → Nat → Option (Option ldb_message) :=
    fun _ _ => some none
  sysdb_search_user_by_name : sss_domain_info → CStr → Option (Option ldb_message) :=
    fun _ _ => some none
  sysdb_search_group_by_name : sss_domain_info → CStr → Option (Option ldb_message) :=
    fun _ _ => some none
  /-- Freshness of a record for a refresh percentage and an expiry time. -/
  sss_cmd_check_cache : ldb_message → Nat → Nat → Nat := fun _ _ _ => EOK
  /-- Whether `sss_dp_get_account_send` returns a request. -/
  dp_send_ok : Bool := true
  /-- Return code of a store into the negative cache. -/
  ncache_set_ret : Nat := EOK
  /-- Return code of `sss_cmd_send_error`. -/
  send_error_ret : Nat := EOK
  sss_get_cased_name : CStr → Bool → Option CStr := fun n _ => some n
  sss_tc_fqname : sss_domain_info → CStr → Option CStr := fun _ n => some n
  /-- Return code of `sss_mmap_cache_pw_invalidate`. -/
  mc_invalidate_ret : Nat := EOK
  sysdb_getgrnam : sss_domain_info → CStr → Option (List ldb_message) := fun _ _ => some []
  sysdb_initgroups : sss_domain_info → CStr → Option (List ldb_message) := fun _ _ => some []
  /-- Return code of `sysdb_initgroups` when it fails. -/
  sysdb_initgroups_ret : sss_domain_info → CStr → Nat := fun _ _ => EIO
  /-- The lookup `sysdb_search_object_by_sid`: `none` is a failed lookup. -/
  sysdb_search_object_by_sid : sss_domain_info → CStr → Option (List ldb_message) :=
    fun _ _ => some []
  /-- Enumerations of the persistent cache: `none` is a failed enumeration. -/
  sysdb_enumpwent : sss_domain_info → Option (List ldb_message) := fun _ => some []
  sysdb_enumgrent : sss_domain_info → Option (List ldb_message) := fun _ => some []
  /-- Return code of `sss_packet_new` for the reply. -/
  packet_new_ret : Nat := EOK
  /-- Return code of `nss_setent_add_ref`. -/
  setent_add_ref_ret : Nat := EOK
  /-- The encoder `sss_cmd_empty_packet` of the common responder code: return code and
  body. -/
  sss_cmd_empty_packet : List Nat → Nat × List Nat :=
    fun body => (EOK, body ++ [0, 0, 0, 0, 0, 0, 0, 0])
  /-- Return code of `sss_cmd_send_empty`. -/
  send_empty_ret : Nat := EOK
  /-- The check `sss_utf8_check` on the bytes of a name. -/
  sss_utf8_check : List Nat → Bool := fun _ => true
  /-- The parser `sss_parse_name_for_domains` on a raw name: return code, domain name
  (`none` is NULL) and name. -/
  sss_parse_name_for_domains : List sss_domain_info → CStr → Nat × Option CStr × CStr :=
    fun _ raw => (EOK, none, raw)
  /-- The lookup `responder_get_domain` of a domain by name: the domain pointer. -/
  responder_get_domain : List sss_domain_info → CStr → List sss_domain_info := fun _ _ => []
  /-- Whether `sss_dp_get_domains_send` returns a request. -/
  dp_get_domains_ok : Bool := true
  /-- The field `get_domains_last_call.tv_sec` of the responder context. -/
  get_domains_last_call_sec : Nat := 1

/-- Store into the negative cache: the return code, and the cache with the entry when
the store succeeded. -/
def ncache_set (e : Env) (nc : sss_nc_ctx) (permanent : Bool) (k : nc_key) :
    Nat × sss_nc_ctx :=
  if e.ncache_set_ret != EOK then (e.ncache_set_ret, nc)
  else (EOK, sss_ncache_set nc e.now permanent k)

/-- Result of a search or of `check_cache`: return code, context, effects. -/
structure search_out where
  ret : Nat
  dctx : nss_dom_ctx
  st : resp_state
deriving DecidableEq, Repr

/-- The expiry time that `check_cache` hands to `sss_cmd_check_cache`. -/
def check_cache_expire (req_type : sss_dp_type) (msg : ldb_message) : Nat :=
  let cacheExpire :=
    if req_type == sss_dp_type.SSS_DP_INITGROUPS then
      ldb_msg_find_attr_as_uint64 msg.initgrExpireTimestamp 1
    else 0
  if cacheExpire == 0 then ldb_msg_find_attr_as_uint64 msg.dataExpireTimestamp 0
  else cacheExpire

/-- The `error:` exit of `check_cache`. -/
def check_cache_error (e : Env) (dctx : nss_dom_ctx) (st : resp_state) (ret : Nat) :
    search_out :=
  let st := { st with err_sent := st.err_sent ++ [ret] }
  if e.send_error_ret != EOK then
    { ret := e.send_error_ret, dctx := dctx, st := { st with killed := true } }
  else { ret := EOK, dctx := dctx, st := { st with cmd_done := true } }

/-- Freshness check of a cached result, with dispatch of a provider refresh. -/
def check_cache (e : Env) (dctx : nss_dom_ctx) (nctx : nss_ctx) (st : resp_state)
    (res : List ldb_message) (req_type : sss_dp_type) (opt_name : Option CStr)
    (opt_id : Nat) : search_out :=
  let dom := dctx.domain.headD { name := [] }
  if (req_type == sss_dp_type.SSS_DP_USER || req_type == sss_dp_type.SSS_DP_NETGR)
      && decide (res.length > 1) then
    { ret := ENOENT, dctx := dctx, st := st }
  else
    let ret :=
      match res with
      | msg :: _ => e.sss_cmd_check_cache msg nctx.cache_refresh_percent
                      (check_cache_expire req_type msg)
      | [] => ENOENT
    if decide (res.length > 0) && ret == EOK then { ret := EOK, dctx := dctx, st := st }
    else if decide (res.length > 0) && ret != EAGAIN && ret != ENOENT then
      check_cache_error e dctx st ret
    else if ret == EAGAIN then
      let req : dp_request :=
        { dom := dom, req_type := req_type, opt_name := opt_name, opt_id := opt_id,
          callback := false }
      let st := if e.dp_send_ok then { st with dp_log := st.dp_log ++ [req] } else st
      { ret := EOK, dctx := dctx, st := st }
    else
      let dctx := { dctx with check_provider := false }
      let dctx := if res.length != 0 then { dctx with res := some res } else dctx
      if !e.dp_send_ok then check_cache_error e dctx st ENOMEM
      else
        let req : dp_request :=
          { dom := dom, req_type := req_type, opt_name := opt_name, opt_id := opt_id,
            callback := true }
        { ret := EAGAIN, dctx := dctx, st := { st with dp_log := st.dp_log ++ [req] } }

/-- The range test of the ID searches:
`(dom->id_min && id < dom->id_min) || (dom->id_max && id > dom->id_max)`. -/
def id_out_of_range (dom : sss_domain_info) (id : Nat) : Bool :=
  (dom.id_min != 0 && decide (id < dom.id_min)) || (dom.id_max != 0 && decide (id > dom.id_max))

/-- What distinguishes `nss_cmd_getpwuid_search` from `nss_cmd_getgrgid_search`: the
lookup, its entry in the log, the provider request type and the negative-cache key. -/
structure id_kind where
  lookup : Env → sss_domain_info → Nat → Option (List ldb_message)
  query : sss_domain_info → Nat → sysdb_query
  req_type : sss_dp_type
  key : Nat → nc_key

/-- The parts of `nss_cmd_getpwuid_search`. -/
def pw_kind : id_kind :=
  { lookup := fun e => e.sysdb_getpwuid, query := sysdb_query.getpwuid,
    req_type := sss_dp_type.SSS_DP_USER, key := nc_key.uid }

/-- The parts of `nss_cmd_getgrgid_search`. -/
def gr_kind : id_kind :=
  { lookup := fun e => e.sysdb_getgrgid, query := sysdb_query.getgrgid,
    req_type := sss_dp_type.SSS_DP_GROUP, key := nc_key.gid }

/-- The loop `while (dom)` of the two ID searches, up to the label `done`; the
result is the value of `ret` there.  One unit of fuel is one iteration. -/
def getbyid_loop (k : id_kind) (e : Env) (nctx : nss_ctx) (cmdctx : nss_cmd_ctx) :
    Nat → List sss_domain_info → nss_dom_ctx → resp_state → Option search_out
  | 0, _, _, _ => none
  | _ + 1, [], dctx, st => some { ret := ENOENT, dctx := dctx, st := st }
  | fuel + 1, d :: rest, dctx, st =>
    let dom := d :: rest
    if id_out_of_range d cmdctx.id then
      if cmdctx.check_next then
        getbyid_loop k e nctx cmdctx fuel (get_next_domain dom true) dctx st
      else some { ret := ENOENT, dctx := dctx, st := st }
    else
      let dctx := if dom != dctx.domain then { dctx with check_provider := d.provider }
                  else dctx
      let dctx := { dctx with domain := dom }
      if !d.sysdb then some { ret := EIO, dctx := dctx, st := st }
      else
        let st := { st with sysdb_log := st.sysdb_log ++ [k.query d cmdctx.id] }
        match k.lookup e d cmdctx.id with
        | none => some { ret := EIO, dctx := dctx, st := st }
        | some res =>
          let dctx := { dctx with res := some res }
          if res.length > 1 then some { ret := ENOENT, dctx := dctx, st := st }
          else if res.length == 0 && !dctx.check_provider then
            if cmdctx.check_next then
              getbyid_loop k e nctx cmdctx fuel (get_next_domain dom true) dctx st
            else some { ret := ENOENT, dctx := dctx, st := st }
          else if dctx.check_provider then
            let c := check_cache e dctx nctx st res k.req_type none cmdctx.id
            if c.ret != EOK then some c
            else some { c with ret := EOK }
          else some { ret := EOK, dctx := dctx, st := st }

/-- The code after the label `done` of the two ID searches. -/
def getbyid_done (k : id_kind) (e : Env) (cmdctx : nss_cmd_ctx) (r : search_out) :
    search_out :=
  if r.ret == ENOENT then
    let n := ncache_set e r.st.ncache false (k.key cmdctx.id)
    { r with ret := n.1, st := { r.st with ncache := n.2 } }
  else r

/-- Search for a uid, starting at `dctx->domain`. -/
def nss_cmd_getpwuid_search (e : Env) (nctx : nss_ctx) (cmdctx : nss_cmd_ctx)
    (dctx : nss_dom_ctx) (st : resp_state) : Option search_out :=
  (getbyid_loop pw_kind e nctx cmdctx (dctx.domain.length + 1) dctx.domain dctx st).map
    (getbyid_done pw_kind e cmdctx)

/-- Search for a gid, starting at `dctx->domain`. -/
def nss_cmd_getgrgid_search (e : Env) (nctx : nss_ctx) (cmdctx : nss_cmd_ctx)
    (dctx : nss_dom_ctx) (st : resp_state) : Option search_out :=
  (getbyid_loop gr_kind e nctx cmdctx (dctx.domain.length + 1) dctx.domain dctx st).map
    (getbyid_done gr_kind e cmdctx)

/-- Removal of a name from a shared-memory cache after a miss in the persistent
cache: the return code and the effects.  `grp_mc` tells that `mc_ctx` is the cache of
groups (`nctx->grp_mc_ctx`) and not the cache of users (`nctx->pwd_mc_ctx`). -/
def delete_entry_from_memcache (e : Env) (dom : sss_domain_info) (name : CStr)
    (grp_mc : Bool) (st : resp_state) : Nat × resp_state :=
  let inval (n : CStr) : Nat × resp_state :=
    let st := if grp_mc then { st with grp_mc_invalidated := st.grp_mc_invalidated ++ [cstr n] }
              else { st with mc_invalidated := st.mc_invalidated ++ [cstr n] }
    if e.mc_invalidate_ret != EOK && e.mc_invalidate_ret != ENOENT then
      (e.mc_invalidate_ret, st)
    else (EOK, st)
  if dom.fqnames then
    match e.sss_tc_fqname dom name with
    | none => (ENOMEM, st)
    | some fqdn => inval fqdn
  else inval name

/-- The loop `while (dom)` of `nss_cmd_getpwnam_search` with every `return` inside it;
`none` is lack of fuel.  One unit of fuel is one iteration of the outer loop or of the
inner loop that skips the domains requiring qualified names; leaving the inner loop with
`dom == NULL` and leaving the outer one both end in the final `return ENOENT`. -/
def getpwnam_loop (e : Env) (nctx : nss_ctx) (cmdctx : nss_cmd_ctx) :
    Nat → List sss_domain_info → nss_dom_ctx → resp_state → Option search_out
  | 0, _, _, _ => none
  | _ + 1, [], dctx, st => some { ret := ENOENT, dctx := dctx, st := st }
  | fuel + 1, d :: rest, dctx, st =>
    let dom := d :: rest
    if cmdctx.check_next && d.fqnames then
      getpwnam_loop e nctx cmdctx fuel (get_next_domain dom false) dctx st
    else
      let dctx := if dom != dctx.domain then { dctx with check_provider := d.provider }
                  else dctx
      let dctx := { dctx with domain := dom }
      match e.sss_get_cased_name cmdctx.name d.case_sensitive with
      | none => some { ret := ENOMEM, dctx := dctx, st := st }
      | some name =>
        let st := { st with nc_checked := st.nc_checked ++ [(d, nc_user_key d name)] }
        if sss_ncache_check_user st.ncache e.now nctx.neg_timeout d name == EEXIST then
          if cmdctx.check_next then
            getpwnam_loop e nctx cmdctx fuel (get_next_domain dom false) dctx st
          else some { ret := ENOENT, dctx := dctx, st := st }
        else if !d.sysdb then some { ret := EIO, dctx := dctx, st := st }
        else
          let st := { st with sysdb_log := st.sysdb_log ++ [sysdb_query.getpwnam d (cstr name)] }
          match e.sysdb_getpwnam d name with
          | none => some { ret := EIO, dctx := dctx, st := st }
          | some res =>
            let dctx := { dctx with res := some res }
            if res.length > 1 then some { ret := ENOENT, dctx := dctx, st := st }
            else if res.length == 0 && !dctx.check_provider then
              let n := ncache_set e st.ncache false (nc_user_key d name)
              if n.1 != EOK then some { ret := n.1, dctx := dctx, st := st }
              else
                let st := { st with ncache := n.2 }
                if cmdctx.check_next && get_next_domain dom false != [] then
                  getpwnam_loop e nctx cmdctx fuel (get_next_domain dom false) dctx st
                else
                  let m := delete_entry_from_memcache e d name false st
                  some { ret := ENOENT, dctx := dctx, st := m.2 }
            else if dctx.check_provider then
              let c := check_cache e dctx nctx st res sss_dp_type.SSS_DP_USER (some name) 0
              if c.ret != EOK then some c
              else some { c with ret := EOK }
            else some { ret := EOK, dctx := dctx, st := st }

/-- Search for a user name, starting at `dctx->domain`. -/
def nss_cmd_getpwnam_search (e : Env) (nctx : nss_ctx) (cmdctx : nss_cmd_ctx)
    (dctx : nss_dom_ctx) (st : resp_state) : Option search_out :=
  getpwnam_loop e nctx cmdctx (dctx.domain.length + 1) dctx.domain dctx st

/-- The loop `while (dom)` of `nss_cmd_getgrnam_search` with every `return` inside it;
fuel as in `getpwnam_loop`. -/
def getgrnam_loop (e : Env) (nctx : nss_ctx) (cmdctx : nss_cmd_ctx) :
    Nat → List sss_domain_info → nss_dom_ctx → resp_state → Option search_out
  | 0, _, _, _ => none
  | _ + 1, [], dctx, st => some { ret := ENOENT, dctx := dctx, st := st }
  | fuel + 1, d :: rest, dctx, st =>
    let dom := d :: rest
    if cmdctx.check_next && d.fqnames then
      getgrnam_loop e nctx cmdctx fuel (get_next_domain dom false) dctx st
    else
      let dctx := if dom != dctx.domain then { dctx with check_provider := d.provider }
                  else dctx
      let dctx := { dctx with domain := dom }
      match e.sss_get_cased_name cmdctx.name d.case_sensitive with
      | none => some { ret := ENOMEM, dctx := dctx, st := st }
      | some name =>
        let st := { st with nc_checked := st.nc_checked ++ [(d, nc_group_key d name)] }
        if sss_ncache_check_group st.ncache e.now nctx.neg_timeout d name == EEXIST then
          if cmdctx.check_next then
            getgrnam_loop e nctx cmdctx fuel (get_next_domain dom false) dctx st
          else some { ret := ENOENT, dctx := dctx, st := st }
        else if !d.sysdb then some { ret := EIO, dctx := dctx, st := st }
        else
          let st := { st with sysdb_log := st.sysdb_log ++ [sysdb_query.getgrnam d (cstr name)] }
          match e.sysdb_getgrnam d name with
          | none => some { ret := EIO, dctx := dctx, st := st }
          | some res =>
            let dctx := { dctx with res := some res }
            if res.length > 1 then some { ret := ENOENT, dctx := dctx, st := st }
            else if res.length == 0 && !dctx.check_provider then
              let n := ncache_set e st.ncache false (nc_group_key d name)
              if n.1 != EOK then some { ret := n.1, dctx := dctx, st := st }
              else
                let st := { st with ncache := n.2 }
                if cmdctx.check_next && get_next_domain dom false != [] then
                  getgrnam_loop e nctx cmdctx fuel (get_next_domain dom false) dctx st
                else
                  let m := delete_entry_from_memcache e d name true st
                  some { ret := ENOENT, dctx := dctx, st := m.2 }
            else if dctx.check_provider then
              let c := check_cache e dctx nctx st res sss_dp_type.SSS_DP_GROUP (some name) 0
              if c.ret != EOK then some c
              else some { c with ret := EOK }
            else some { ret := EOK, dctx := dctx, st := st }

/-- Search for a group name, starting at `dctx->domain`. -/
def nss_cmd_getgrnam_search (e : Env) (nctx : nss_ctx) (cmdctx : nss_cmd_ctx)
    (dctx : nss_dom_ctx) (st : resp_state) : Option search_out :=
  getgrnam_loop e nctx cmdctx (dctx.domain.length + 1) dctx.domain dctx st

/-- The loop `while (dom)` of `nss_cmd_initgroups_search` with every `return` inside it;
fuel as in `getpwnam_loop`. -/
def initgroups_loop (e : Env) (nctx : nss_ctx) (cmdctx : nss_cmd_ctx) :
    Nat → List sss_domain_info → nss_dom_ctx → resp_state → Option search_out
  | 0, _, _, _ => none
  | _ + 1, [], dctx, st => some { ret := ENOENT, dctx := dctx, st := st }
  | fuel + 1, d :: rest, dctx, st =>
    let dom := d :: rest
    if cmdctx.check_next && d.fqnames then
      initgroups_loop e nctx cmdctx fuel (get_next_domain dom false) dctx st
    else
      let dctx := if dom != dctx.domain then { dctx with check_provider := d.provider }
                  else dctx
      let dctx := { dctx with domain := dom }
      match e.sss_get_cased_name cmdctx.name d.case_sensitive with
      | none => some { ret := ENOMEM, dctx := dctx, st := st }
      | some name =>
        let st := { st with nc_checked := st.nc_checked ++ [(d, nc_user_key d name)] }
        if sss_ncache_check_user st.ncache e.now nctx.neg_timeout d name == EEXIST then
          if cmdctx.check_next then
            initgroups_loop e nctx cmdctx fuel (get_next_domain dom false) dctx st
          else some { ret := ENOENT, dctx := dctx, st := st }
        else if !d.sysdb then some { ret := EIO, dctx := dctx, st := st }
        else
          let st := { st with sysdb_log := st.sysdb_log ++
                        [sysdb_query.initgroups d (cstr name)] }
          match e.sysdb_initgroups d name with
          | none => some { ret := EIO, dctx := dctx, st := st }
          | some res =>
            let dctx := { dctx with res := some res }
            if res.length == 0 && !dctx.check_provider then
              let n := ncache_set e st.ncache false (nc_user_key d name)
              if n.1 != EOK then some { ret := n.1, dctx := dctx, st := st }
              else
                let st := { st with ncache := n.2 }
                if cmdctx.check_next && get_next_domain dom false != [] then
                  initgroups_loop e nctx cmdctx fuel (get_next_domain dom false) dctx st
                else some { ret := ENOENT, dctx := dctx, st := st }
            else if dctx.check_provider then
              let c := check_cache e dctx nctx st res sss_dp_type.SSS_DP_INITGROUPS
                (some name) 0
              if c.ret != EOK then some c
              else some { c with ret := EOK }
            else some { ret := EOK, dctx := dctx, st := st }

/-- Search for the groups of a user name, starting at `dctx->domain`. -/
def nss_cmd_initgroups_search (e : Env) (nctx : nss_ctx) (cmdctx : nss_cmd_ctx)
    (dctx : nss_dom_ctx) (st : resp_state) : Option search_out :=
  initgroups_loop e nctx cmdctx (dctx.domain.length + 1) dctx.domain dctx st

/-- One of the paired single-record lookups of `nss_cmd_getsidby_search`: the user
search and, after its `ENOENT`, the group search.  `none` is a failed request;
otherwise the flags `user_found`, `group_found` and the record. -/
def getsidby_lookup (user group : Option (Option ldb_message)) :
    Option (Bool × Bool × Option ldb_message) :=
  match user with
  | none => none
  | some (some msg) => some (true, false, some msg)
  | some none =>
    match group with
    | none => none
    | some (some msg) => some (false, true, some msg)
    | some none => some (false, false, none)

/-- The loop `while (dom)` of `nss_cmd_getsidby_search`.  The flag of the result tells
whether the label `done` is reached (`true`) or the function returns from inside the loop
(`false`); `none` is lack of fuel.  The inner loop that skips the domains requiring
qualified names takes one unit of fuel per domain, as in `getpwnam_loop`. -/
def getsidby_loop (e : Env) (nctx : nss_ctx) (cmdctx : nss_cmd_ctx) :
    Nat → List sss_domain_info → nss_dom_ctx → resp_state → Option (Bool × search_out)
  | 0, _, _, _ => none
  | _ + 1, [], dctx, st => some (true, { ret := ENOENT, dctx := dctx, st := st })
  | fuel + 1, d :: rest, dctx, st =>
    let dom := d :: rest
    let byid := cmdctx.cmd == sss_cli_command.SSS_NSS_GETSIDBYID
    if byid && id_out_of_range d cmdctx.id then
      if cmdctx.check_next then
        getsidby_loop e nctx cmdctx fuel (get_next_domain dom true) dctx st
      else some (true, { ret := ENOENT, dctx := dctx, st := st })
    else if !byid && (cmdctx.check_next && d.fqnames) then
      getsidby_loop e nctx cmdctx fuel (get_next_domain dom false) dctx st
    else
      let dctx := if dom != dctx.domain then { dctx with check_provider := d.provider }
                  else dctx
      let dctx := { dctx with domain := dom }
      /- the name part: `none` is an exit, otherwise the name and the name for sysdb -/
      let named : (Option (Bool × search_out)) ⊕ (CStr × CStr) :=
        if byid then Sum.inr ([], [])
        else
          match e.sss_get_cased_name cmdctx.name d.case_sensitive with
          | none => Sum.inl (some (true, { ret := ENOMEM, dctx := dctx, st := st }))
          | some name =>
            match (if d.parent then e.sss_tc_fqname d name else some name) with
            | none => Sum.inl (some (true, { ret := ENOMEM, dctx := dctx, st := st }))
            | some sysdb_name =>
              let st := { st with nc_checked := st.nc_checked ++ [(d, nc_user_key d name)] }
              if sss_ncache_check_user st.ncache e.now nctx.neg_timeout d name == EEXIST then
                if cmdctx.check_next then
                  Sum.inl (getsidby_loop e nctx cmdctx fuel (get_next_domain dom false) dctx st)
                else Sum.inl (some (true, { ret := ENOENT, dctx := dctx, st := st }))
              else Sum.inr (name, sysdb_name)
      match named with
      | Sum.inl out => out
      | Sum.inr (name, sysdb_name) =>
        let st := if byid then st
                  else { st with nc_checked := st.nc_checked ++ [(d, nc_user_key d name)] }
        if !d.sysdb then some (true, { ret := EIO, dctx := dctx, st := st })
        else
          let q1 := if byid then sysdb_query.search_user_by_uid d cmdctx.id
                    else sysdb_query.search_user_by_name d (cstr sysdb_name)
          let q2 := if byid then sysdb_query.search_group_by_gid d cmdctx.id
                    else sysdb_query.search_group_by_name d (cstr sysdb_name)
          let r1 := if byid then e.sysdb_search_user_by_uid d cmdctx.id
                    else e.sysdb_search_user_by_name d sysdb_name
          let r2 := if byid then e.sysdb_search_group_by_gid d cmdctx.id
                    else e.sysdb_search_group_by_name d sysdb_name
          let st := { st with sysdb_log := st.sysdb_log ++
                        (if r1 == some none then [q1, q2] else [q1]) }
          match getsidby_lookup r1 r2 with
          | none => some (true, { ret := EIO, dctx := dctx, st := st })
          | some (user_found, group_found, msg) =>
            let res := if user_found || group_found then msg.toList else []
            let dctx := { dctx with res := some res }
            if res.length == 0 && !dctx.check_provider then
              let n1 := if cmdctx.cmd == sss_cli_command.SSS_NSS_GETSIDBYNAME
                        then ncache_set e st.ncache false (nc_user_key d name)
                        else (EOK, st.ncache)
              if n1.1 != EOK then some (false, { ret := n1.1, dctx := dctx, st := st })
              else
                let n2 := if cmdctx.cmd == sss_cli_command.SSS_NSS_GETSIDBYNAME
                          then ncache_set e n1.2 false (nc_group_key d name)
                          else (EOK, n1.2)
                if n2.1 != EOK then
                  some (false, { ret := n2.1, dctx := dctx, st := { st with ncache := n1.2 } })
                else
                  let st := { st with ncache := n2.2 }
                  if cmdctx.check_next then
                    getsidby_loop e nctx cmdctx fuel (get_next_domain dom true) dctx st
                  else some (true, { ret := ENOENT, dctx := dctx, st := st })
            else if dctx.check_provider then
              let req_name := if byid then none else some name
              let req_id := if byid then cmdctx.id else 0
              let req_type :=
                if user_found then sss_dp_type.SSS_DP_USER
                else if group_found then sss_dp_type.SSS_DP_GROUP
                else sss_dp_type.SSS_DP_USER_AND_GROUP
              let c := check_cache e dctx nctx st res req_type req_name req_id
              if c.ret != EOK then some (true, c)
              else some (true, { c with ret := EOK })
            else some (true, { ret := EOK, dctx := dctx, st := st })

/-- The code after the label `done` of `nss_cmd_getsidby_search`. -/
def getsidby_done (e : Env) (cmdctx : nss_cmd_ctx) (r : search_out) : search_out :=
  if r.ret == ENOENT && cmdctx.cmd == sss_cli_command.SSS_NSS_GETSIDBYID then
    let n1 := ncache_set e r.st.ncache false (nc_key.uid cmdctx.id)
    if n1.1 != EOK then { r with ret := n1.1 }
    else
      let n2 := ncache_set e n1.2 false (nc_key.gid cmdctx.id)
      if n2.1 != EOK then { r with ret := n2.1, st := { r.st with ncache := n1.2 } }
      else { r with ret := n2.1, st := { r.st with ncache := n2.2 } }
  else r

/-- Search for the SID of a name or of an ID, starting at `dctx->domain`. -/
def nss_cmd_getsidby_search (e : Env) (nctx : nss_ctx) (cmdctx : nss_cmd_ctx)
    (dctx : nss_dom_ctx) (st : resp_state) : Option search_out :=
  (getsidby_loop e nctx cmdctx (dctx.domain.length + 1) dctx.domain dctx st).map
    (fun r => if r.1 then getsidby_done e cmdctx r.2 else r.2)

/-! ## Statements of the specification, for comparison with the code -/

/-- Whether a configured list names the shell; a list that is not configured names
no shell. -/
def shell_listed (list : Option (List CStr)) (shell : CStr) : Prop :=
  ∃ s ∈ list.getD [], cstr s = cstr shell

instance (list : Option (List CStr)) (shell : CStr) : Decidable (shell_listed list shell) :=
  inferInstanceAs (Decidable (∃ s ∈ list.getD [], cstr s = cstr shell))

/-- The shell policy in the words of the specification: a decision list, first match
wins. -/
def get_shell_override_spec (x : Ext) (msg : ldb_message) (nctx : nss_ctx)
    (dom : sss_domain_info) : Option CStr :=
  if dom.override_shell ≠ none then dom.override_shell
  else if nctx.override_shell ≠ none then nctx.override_shell
  else
    match msg.loginShell with
    | none =>
      if dom.default_shell ≠ none then dom.default_shell
      else if nctx.default_shell ≠ none then nctx.default_shell
      else none
    | some shell =>
      if nctx.allowed_shells = none ∧ nctx.vetoed_shells = none then some shell
      else if shell_listed nctx.vetoed_shells shell then nctx.shell_fallback
      else if nctx.etc_shells ≠ none ∧ shell_listed nctx.etc_shells shell then some shell
      else if shell_listed nctx.allowed_shells shell then nctx.shell_fallback
      else some x.NOLOGIN_SHELL

/-- A passwd entry of the reply in the words of the specification:
`uid(4) | gid(4) | name\0 | pwfield\0 | gecos\0 | homedir\0 | shell\0`. -/
def pw_entry (uid gid : Nat) (name pwfield gecos homedir shell : CStr) : List Nat :=
  le32 uid ++ le32 gid ++ (cstr name ++ [0]) ++ (cstr pwfield ++ [0]) ++ (cstr gecos ++ [0])
    ++ (cstr homedir ++ [0]) ++ (cstr shell ++ [0])

/-- The entry of a record in a domain that does not qualify names: the fields as
`fill_pwent` computes them, laid out as `pw_entry`. -/
def pw_entry_of (x : Ext) (dom : sss_domain_info) (nctx : nss_ctx) (msg : ldb_message) :
    List Nat :=
  let uid := ldb_msg_find_attr_as_uint64 msg.uidNumber 0 % 2 ^ 32
  let name := (x.sss_get_cased_name (msg.name.getD []) dom.case_sensitive).getD []
  pw_entry uid (get_gid_override msg dom) name nctx.pwfield (pw_gecos_field msg.gecos)
    (pw_homedir_field (get_homedir_override x msg nctx dom name uid))
    (pw_shell_field (get_shell_override x msg nctx dom))

/-- The record handed to the shared-memory cache for a record in a domain that does not
qualify names. -/
def pw_mc_of (x : Ext) (dom : sss_domain_info) (nctx : nss_ctx) (msg : ldb_message) :
    mc_pw_entry :=
  let uid := ldb_msg_find_attr_as_uint64 msg.uidNumber 0 % 2 ^ 32
  let name := (x.sss_get_cased_name (msg.name.getD []) dom.case_sensitive).getD []
  { fullname := cstr name, pwfield := cstr nctx.pwfield, uid := uid,
    gid := get_gid_override msg dom, gecos := cstr (pw_gecos_field msg.gecos),
    homedir := cstr (pw_homedir_field (get_homedir_override x msg nctx dom name uid)),
    shell := cstr (pw_shell_field (get_shell_override x msg nctx dom)) }

/-- A record that `fill_pwent` does not skip: name present, uid and effective gid
non-zero, not filtered by the negative cache, and a name in the case of the domain. -/
def pw_complete (x : Ext) (dom : sss_domain_info) (nctx : nss_ctx) (nc : sss_nc_ctx)
    (now : Nat) (filter_users : Bool) (msg : ldb_message) : Prop :=
  ∃ n, msg.name = some n ∧ ldb_msg_find_attr_as_uint64 msg.uidNumber 0 % 2 ^ 32 ≠ 0 ∧
    get_gid_override msg dom ≠ 0 ∧
    (filter_users = true → sss_ncache_check_user nc now nctx.neg_timeout dom n ≠ EEXIST) ∧
    (x.sss_get_cased_name n dom.case_sensitive).isSome

/-- The gid list of an initgroups reply in the words of the specification: the gids of
the group records in result order, followed by the original primary GID of the user when
that is non-zero, differs from the current gid and is none of the listed gids. -/
def initgr_gids (user : ldb_message) (groups : List ldb_message) : List Nat :=
  let orig := ldb_msg_find_attr_as_uint64 user.origPrimaryGroupGidNumber 0 % 2 ^ 32
  groups.map msg_gid ++
    (if orig ≠ 0 ∧ orig ≠ msg_gid user ∧ orig ∉ groups.map msg_gid then [orig] else [])

/-- The body `count(4) | reserved 0 (4) | gids`. -/
def initgr_body (gids : List Nat) : List Nat :=
  le32 gids.length ++ le32 0 ++ gids.flatMap le32

/-- A search returned and made a lookup for the domain in the persistent cache. -/
def dom_queried (r : Option search_out) (d : sss_domain_info) : Prop :=
  ∃ o, r = some o ∧ ∃ q ∈ o.st.sysdb_log, q.dom = d

/-- A search returned and made no lookup for the domain in the persistent cache. -/
def dom_not_queried (r : Option search_out) (d : sss_domain_info) : Prop :=
  ∃ o, r = some o ∧ ∀ q ∈ o.st.sysdb_log, q.dom ≠ d

/-- Each of the three ID-based searches, run for the id from the context `dctx`, returns
and has queried the persistent cache of the domain. -/
def id_searches_query (e : Env) (nctx : nss_ctx) (c : nss_cmd_ctx) (dctx : nss_dom_ctx)
    (st : resp_state) (d : sss_domain_info) (id : Nat) : Prop :=
  dom_queried (nss_cmd_getpwuid_search e nctx { c with id := id } dctx st) d ∧
  dom_queried (nss_cmd_getgrgid_search e nctx { c with id := id } dctx st) d ∧
  dom_queried (nss_cmd_getsidby_search e nctx
    { c with cmd := sss_cli_command.SSS_NSS_GETSIDBYID, id := id } dctx st) d

/-- Each of the three ID-based searches, run for the id from the context `dctx`, returns
without a query to the persistent cache of the domain. -/
def id_searches_skip (e : Env) (nctx : nss_ctx) (c : nss_cmd_ctx) (dctx : nss_dom_ctx)
    (st : resp_state) (d : sss_domain_info) (id : Nat) : Prop :=
  dom_not_queried (nss_cmd_getpwuid_search e nctx { c with id := id } dctx st) d ∧
  dom_not_queried (nss_cmd_getgrgid_search e nctx { c with id := id } dctx st) d ∧
  dom_not_queried (nss_cmd_getsidby_search e nctx
    { c with cmd := sss_cli_command.SSS_NSS_GETSIDBYID, id := id } dctx st) d

/-- The negative cache holds an entry for the key. -/
def ncache_holds (nc : sss_nc_ctx) (k : nc_key) : Prop := ∃ en ∈ nc, en.key = k

/-- The negative cache holds a user-name entry for the requested name, in the case of
the domain, in the domain left in `dctx->domain`, provided that domain is one the search
does not skip (the search is single-domain, or the domain has `fqnames = false`). -/
def pwnam_entry_held (e : Env) (c : nss_cmd_ctx) (dctx : nss_dom_ctx) (st : resp_state) :
    Prop :=
  ∀ d rest, dctx.domain = d :: rest → ¬ (c.check_next = true ∧ d.fqnames = true) →
    ∃ name, e.sss_get_cased_name c.name d.case_sensitive = some name ∧
      ncache_holds st.ncache (nc_user_key d name)

/-! ## Concrete inputs used by the witnesses and counterexamples -/

/-- Collaborators with no name transformation, a template expander that returns the
template, and packet memory filled with `0xff`. -/
def ex_ext : Ext :=
  { expand_homedir_template := fun t _ _ _ _ => some t
    sss_get_cased_name := fun n _ => some n
    NOLOGIN_SHELL := [47, 115, 98, 105, 110, 47, 110, 111, 108, 111, 103, 105, 110]
    grow_ret := fun _ _ => EOK
    junk := fun _ => 255
    sss_fqname := fun d n => n ++ [64] ++ d.name
    sss_fqdom_len := fun d => d.name.length }

/-- A domain `EX` without qualified names and without ID limits. -/
def ex_dom : sss_domain_info := { name := [69, 88] }

/-- A user `a` with uid and gid 1000 and no other attribute. -/
def ex_user : ldb_message := { name := some [97], uidNumber := some 1000, gidNumber := some 1000 }

/-- The domain `EX`, requiring qualified names. -/
def ex_dom_fq : sss_domain_info := { name := [69, 88], fqnames := true }

/-- Two domains with the ID range `[1, 100000]`. -/
def ex_dom_a : sss_domain_info := { name := [65], id_min := 1, id_max := 100000 }

/-- The second domain with the ID range `[1, 100000]`. -/
def ex_dom_b : sss_domain_info := { name := [66], id_min := 1, id_max := 100000 }

/-- A domain with the ID range `[1000, 2000]`. -/
def ex_dom_r : sss_domain_info := { name := [82], id_min := 1000, id_max := 2000 }

/-- A group record with the given gid. -/
def ex_group (gid : Nat) : ldb_message := { gidNumber := some gid }

/-- The gid list of an initgroups reply when non-POSIX records are present: the gids of
the group records that carry a non-zero gid, in result order, followed by the original
primary GID of the user when that is non-zero, differs from the current gid and is none
of the listed gids. -/
def initgr_posix_gids (user : ldb_message) (groups : List ldb_message) : List Nat :=
  let orig := ldb_msg_find_attr_as_uint64 user.origPrimaryGroupGidNumber 0 % 2 ^ 32
  let listed := (groups.filter (fun g => msg_gid g != 0)).map msg_gid
  listed ++ (if orig ≠ 0 ∧ orig ≠ msg_gid user ∧ orig ∉ listed then [orig] else [])

/-- The expiry time handed to the freshness check, by cases on the request type and on the
presence and value of the attributes of the record: for an initgroups request the
initgroups-expire timestamp when the record has it with a non-zero value, the cache-expire
timestamp when the record has it with the value 0, and 1 when the record has none; for
every other request type the cache-expire timestamp (0 when the record has none). -/
def check_cache_expire_cases (req_type : sss_dp_type) (msg : ldb_message) : Nat :=
  if req_type = sss_dp_type.SSS_DP_INITGROUPS then
    match msg.initgrExpireTimestamp with
    | none => 1
    | some v =>
      if v % 2 ^ 64 = 0 then ldb_msg_find_attr_as_uint64 msg.dataExpireTimestamp 0
      else v % 2 ^ 64
  else ldb_msg_find_attr_as_uint64 msg.dataExpireTimestamp 0

/-- A responder in which a record is fresh exactly when its expiry time lies after the
time 100. -/
def ex_env_fresh : Env :=
  { now := 100, sss_cmd_check_cache := fun _ _ exp => if 100 < exp then EOK else ENOENT }

/-! ## Enumeration: the snapshot and the client cursor -/

/-- One element of `getent_ctx->doms`: the domain (the pointer, as for `nss_dom_ctx`) and
the records enumerated from it. -/
structure dom_ctx where
  domain : List sss_domain_info
  res : List ldb_message
deriving DecidableEq, Repr

/-- The snapshot `struct getent_ctx`; `num` is the length of `doms`. -/
structure getent_ctx where
  doms : List dom_ctx := []
  ready : Bool := false
deriving DecidableEq, Repr

/-- The read pointers of a client: `pwent_dom_idx` and `pwent_cur` (`grent_dom_idx` and
`grent_cur` for groups). -/
structure cli_cursor where
  dom_idx : Nat := 0
  cur : Nat := 0
deriving DecidableEq, Repr

/-- The enumeration state of the responder and of one client: `nctx->pctx`, `nctx->gctx`
(`none` is NULL) and the client's read pointers. -/
structure enum_ctx where
  pctx : Option getent_ctx := none
  gctx : Option getent_ctx := none
  pwent : cli_cursor := {}
  grent : cli_cursor := {}
deriving DecidableEq, Repr

/-- Conversion of a value to `int` (32 bits, two's complement). -/
def to_int32 (z : Int) : Int :=
  (z + 2 ^ 31) % 2 ^ 32 - 2 ^ 31

/-- Outcome of `nss_cmd_retpwent`: return code, read pointers, body of the reply, and
the records each call of `fill_pwent` went through, in call order. -/
structure retent_out where
  ret : Nat
  cursor : cli_cursor
  body : List Nat
  filled : List (List ldb_message) := []
deriving DecidableEq, Repr

/-- The loop `while (ret == ENOENT)` of `nss_cmd_retpwent`, up to the label `none`; one
unit of fuel is one iteration. -/
def retpwent_loop (x : Ext) (nctx : nss_ctx) (nc : sss_nc_ctx) (now : Nat)
    (pctx : getent_ctx) (num : Int) :
    Nat → cli_cursor → List Nat → List (List ldb_message) → Option retent_out
  | 0, _, _, _ => none
  | fuel + 1, c, body, filled =>
    if c.dom_idx ≥ pctx.doms.length then
      some { ret := ENOENT, cursor := c, body := body, filled := filled }
    else
      let pdom := pctx.doms.getD c.dom_idx { domain := [], res := [] }
      let n := to_int32 ((pdom.res.length : Int) - (c.cur : Int))
      let adv := decide (n ≤ 0) && decide (c.dom_idx + 1 < pctx.doms.length)
      let c : cli_cursor := if adv then { dom_idx := c.dom_idx + 1, cur := 0 } else c
      let pdom := if adv then pctx.doms.getD c.dom_idx { domain := [], res := [] } else pdom
      let n := if adv then to_int32 (pdom.res.length : Int) else n
      if n == 0 then some { ret := ENOENT, cursor := c, body := body, filled := filled }
      else if n < 0 then some { ret := ENOENT, cursor := c, body := body, filled := filled }
      else
        let n := if n > num then num else n
        let msgs := (pdom.res.drop c.cur).take n.toNat
        let r := fill_pwent x body (pdom.domain.headD { name := [] }) nctx nc now true false msgs
        let c : cli_cursor := { c with cur := c.cur + r.count }
        let filled := filled ++ [msgs.take r.count]
        if r.ret == ENOENT then retpwent_loop x nctx nc now pctx num fuel c r.body filled
        else some { ret := r.ret, cursor := c, body := r.body, filled := filled }

/-- The number of records of a snapshot. -/
def getent_ctx.total (pctx : getent_ctx) : Nat :=
  (pctx.doms.map (fun d => d.res.length)).sum

/-- Reply of one batch of passwd entries to an enumerating client: `body` is the body of
the reply packet on entry, `num` the requested maximum as the `int` it is passed as.  The
loop is given one iteration for each record of the snapshot and one more. -/
def nss_cmd_retpwent (x : Ext) (e : Env) (nctx : nss_ctx) (nc : sss_nc_ctx)
    (pctx : Option getent_ctx) (c : cli_cursor) (body : List Nat) (num : Int) :
    Option retent_out :=
  let none_ (o : retent_out) : retent_out :=
    if o.ret == ENOENT then
      { o with ret := (e.sss_cmd_empty_packet o.body).1, body := (e.sss_cmd_empty_packet o.body).2 }
    else o
  match pctx with
  | none => some (none_ { ret := ENOENT, cursor := c, body := body })
  | some p =>
    match retpwent_loop x nctx nc e.now p num (p.total + 1) c body [] with
    | none => none
    | some o => some (none_ o)

/-- Outcome of a command of the enumeration interface: return code, enumeration state and
effects. -/
structure ent_out where
  ret : Nat
  s : enum_ctx
  st : resp_state
deriving DecidableEq, Repr

/-- The command `endpwent`. -/
def nss_cmd_endpwent (e : Env) (s : enum_ctx) (st : resp_state) : ent_out :=
  if e.packet_new_ret != EOK then { ret := e.packet_new_ret, s := s, st := st }
  else
    let s := if s.pctx.isNone then s else { s with pwent := { dom_idx := 0, cur := 0 } }
    { ret := EOK, s := s, st := { st with cmd_done := true } }

/-- The command `endgrent`. -/
def nss_cmd_endgrent (e : Env) (s : enum_ctx) (st : resp_state) : ent_out :=
  if e.packet_new_ret != EOK then { ret := e.packet_new_ret, s := s, st := st }
  else
    let s := if s.gctx.isNone then s else { s with grent := { dom_idx := 0, cur := 0 } }
    { ret := EOK, s := s, st := { st with cmd_done := true } }

/-- A subdomain `S` of the domain that precedes it. -/
def ex_dom_sub : sss_domain_info := { name := [83], parent := true }

/-- A name search that had the state `st` and the context `dctx` on entry and ended in
`r` consulted no domain that requires qualified names: every lookup it added to the log of
the persistent cache and to the log of the negative cache is for a domain with
`fqnames = false`, and the domain left in `dctx->domain` has `fqnames = false`, unless the
search returned `ENOENT` with the context as it was on entry. -/
def fq_skipped (st : resp_state) (dctx : nss_dom_ctx) (r : search_out) : Prop :=
  (∀ q ∈ r.st.sysdb_log, q ∈ st.sysdb_log ∨ q.dom.fqnames = false) ∧
  (∀ p ∈ r.st.nc_checked, p ∈ st.nc_checked ∨ p.1.fqnames = false) ∧
  ((r.ret = ENOENT ∧ r.dctx = dctx) ∨
    ∃ d rest, r.dctx.domain = d :: rest ∧ d.fqnames = false)

/-- A property of the result of a search that returns. -/
def returns_with (P : search_out → Prop) (o : Option search_out) : Prop :=
  ∃ r, o = some r ∧ P r

/-- A name search returned; every lookup it added to the logs of the persistent cache and
of the negative cache is for a domain with `fqnames = false`; and if it returned `EOK` or
`EAGAIN`, the domain left in `dctx->domain` has `fqnames = false`. -/
def name_search_skips_fq (st : resp_state) (o : Option search_out) : Prop :=
  ∃ r, o = some r ∧
    (∀ q ∈ r.st.sysdb_log, q ∈ st.sysdb_log ∨ q.dom.fqnames = false) ∧
    (∀ p ∈ r.st.nc_checked, p ∈ st.nc_checked ∨ p.1.fqnames = false) ∧
    (r.ret = EOK ∨ r.ret = EAGAIN → ∃ d rest, r.dctx.domain = d :: rest ∧ d.fqnames = false)

/-! ## Completion of a request -/

/-- Completion of a request for an outcome `ret`: the return code and the effects. -/
def nss_cmd_done (e : Env) (st : resp_state) (ret : Nat) : Nat × resp_state :=
  if ret == EOK then (EOK, st)
  else if ret == ENOENT then
    let st := { st with empty_sent := true }
    if e.send_empty_ret != EOK then (EFAULT, st) else (EOK, st)
  else if ret == EAGAIN then (EOK, st)
  else if ret == EFAULT then (EFAULT, st)
  else
    let st := { st with err_sent := st.err_sent ++ [ret] }
    if e.send_error_ret != EOK then (EFAULT, st)
    else (EOK, { st with cmd_done := true })

/-! ## Enumeration: construction of the snapshot -/

/-- What distinguishes `nss_cmd_setpwent_step` from `nss_cmd_setgrent_step`: the
enumeration of the persistent cache and the provider request type. -/
structure ent_kind where
  enum : Env → sss_domain_info → Option (List ldb_message)
  req_type : sss_dp_type

/-- The parts of `nss_cmd_setpwent_step`. -/
def pw_ent : ent_kind :=
  { enum := fun e => e.sysdb_enumpwent, req_type := sss_dp_type.SSS_DP_USER }

/-- The parts of `nss_cmd_setgrent_step`. -/
def gr_ent : ent_kind :=
  { enum := fun e => e.sysdb_enumgrent, req_type := sss_dp_type.SSS_DP_GROUP }

/-- Fields of `struct setent_step_ctx`; `getent_ctx` is the snapshot under construction,
the one `nctx->pctx` (or `nctx->gctx`) points to. -/
structure setent_step_ctx where
  dctx : nss_dom_ctx
  getent_ctx : getent_ctx := {}
  returned_to_mainloop : Bool := false
deriving DecidableEq, Repr

/-- Outcome of a step of the construction: return code, step context, effects. -/
structure step_out where
  ret : Nat
  step_ctx : setent_step_ctx
  st : resp_state
deriving DecidableEq, Repr

/-- The loop `while (dom)` of `nss_cmd_setpwent_step` and `nss_cmd_setgrent_step` and the
code after it.  One unit of fuel is one iteration of the outer loop or of the inner loop
that skips the domains without enumeration; leaving the inner loop with `dom == NULL`
and leaving the outer one both continue after the loop. -/
def setent_step_loop (k : ent_kind) (e : Env) :
    Nat → List sss_domain_info → setent_step_ctx → resp_state → Option step_out
  | 0, _, _, _ => none
  | _ + 1, [], sc, st =>
    some { ret := if sc.returned_to_mainloop then EAGAIN else EOK
           step_ctx := { sc with getent_ctx := { sc.getent_ctx with ready := true } }
           st := st }
  | fuel + 1, d :: rest, sc, st =>
    let dom := d :: rest
    if d.enumerate == false then
      setent_step_loop k e fuel (get_next_domain dom true) sc st
    else
      let dctx := if dom != sc.dctx.domain then { sc.dctx with check_provider := d.provider }
                  else sc.dctx
      let dctx := { dctx with domain := dom }
      if !d.sysdb then some { ret := EIO, step_ctx := { sc with dctx := dctx }, st := st }
      else
        let req : dp_request :=
          { dom := d, req_type := k.req_type, opt_name := none, opt_id := 0, callback := true }
        let sc1 : setent_step_ctx :=
          if dctx.check_provider then
            { sc with dctx := { dctx with check_provider := false }, returned_to_mainloop := true }
          else { sc with dctx := dctx }
        if dctx.check_provider && e.dp_send_ok then
          some { ret := EAGAIN, step_ctx := sc1, st := { st with dp_log := st.dp_log ++ [req] } }
        else
          match k.enum e d with
          | none => setent_step_loop k e fuel (get_next_domain dom true) sc1 st
          | some res =>
            if res.length == 0 then setent_step_loop k e fuel (get_next_domain dom true) sc1 st
            else
              let entry : dom_ctx := { domain := sc1.dctx.domain, res := res }
              setent_step_loop k e fuel (get_next_domain dom true)
                { sc1 with getent_ctx :=
                    { sc1.getent_ctx with doms := sc1.getent_ctx.doms ++ [entry] } } st

/-- One step of the construction of a snapshot, from `step_ctx->dctx->domain` on. -/
def setent_step (k : ent_kind) (e : Env) (sc : setent_step_ctx) (st : resp_state) :
    Option step_out :=
  setent_step_loop k e (sc.dctx.domain.length + 1) sc.dctx.domain sc st

/-- The step of the construction of the passwd snapshot. -/
def nss_cmd_setpwent_step (e : Env) (sc : setent_step_ctx) (st : resp_state) :
    Option step_out :=
  setent_step pw_ent e sc st

/-- The step of the construction of the group snapshot. -/
def nss_cmd_setgrent_step (e : Env) (sc : setent_step_ctx) (st : resp_state) :
    Option step_out :=
  setent_step gr_ent e sc st

/-- The construction of a snapshot from a step context on: a step, and for as long as
the step returns `EAGAIN` with the snapshot not ready (a provider request is outstanding),
the step that the provider callback (`nss_cmd_setpwent_dp_callback`,
`nss_cmd_setgrent_dp_callback`) runs when the provider has answered.  One unit of fuel is
one step. -/
def setent_build (k : ent_kind) (e : Env) :
    Nat → setent_step_ctx → resp_state → Option step_out
  | 0, _, _ => none
  | n + 1, sc, st =>
    match setent_step k e sc st with
    | none => none
    | some o =>
      if o.ret == EAGAIN && !o.step_ctx.getent_ctx.ready then setent_build k e n o.step_ctx o.st
      else some o

/-- The entries the specification expects in a ready snapshot, for the domains from `dom` on: one
for each domain with enumeration whose cache enumeration returned at least one record,
in the order of the domains. -/
def enum_expected (k : ent_kind) (e : Env) : List sss_domain_info → List dom_ctx
  | [] => []
  | d :: rest =>
    (if d.enumerate then
      match k.enum e d with
      | some res => if res.length ≠ 0 then [{ domain := d :: rest, res := res }] else []
      | none => []
     else []) ++ enum_expected k e rest

/-- What a step of the construction that started at `dom` with the step context `sc`
leaves in `o`: either the snapshot is ready and holds, after the entries it had, the
expected entries of all the domains from `dom` on; or a provider request is outstanding
(`EAGAIN`, snapshot not ready) and the entries still to come are those of the domains
from `dctx->domain` on, whose provider is not asked again; or the step failed with `EIO`
and the snapshot is not ready. -/
def step_post (k : ent_kind) (e : Env) (dom : List sss_domain_info) (sc : setent_step_ctx)
    (o : step_out) : Prop :=
  (o.step_ctx.getent_ctx.ready = true ∧
    o.step_ctx.getent_ctx.doms = sc.getent_ctx.doms ++ enum_expected k e dom ∧
    (o.ret = EOK ∨ o.ret = EAGAIN)) ∨
  (o.step_ctx.getent_ctx.ready = false ∧ o.ret = EAGAIN ∧
    o.step_ctx.getent_ctx.doms ++ enum_expected k e o.step_ctx.dctx.domain =
      sc.getent_ctx.doms ++ enum_expected k e dom ∧
    o.step_ctx.dctx.check_provider = false ∧
    (o.step_ctx.dctx.domain.length < dom.length ∨
      (o.step_ctx.dctx.domain = dom ∧
        (dom ≠ sc.dctx.domain ∨ sc.dctx.check_provider = true)))) ∨
  (o.step_ctx.getent_ctx.ready = false ∧ o.ret = EIO)

/-- The construction of a snapshot with the number of steps it can take: two for each
domain from `dctx->domain` on, and two more. -/
def setent_run (k : ent_kind) (e : Env) (sc : setent_step_ctx) (st : resp_state) :
    Option step_out :=
  setent_build k e (2 * sc.dctx.domain.length + 2) sc st

/-- The construction of a snapshot (of users or of groups, by `k`) from the step context
`sc`, whose snapshot is not ready: every step returns, and marks the snapshot ready only
with the entries of all the domains from `dctx->domain` on added; the construction as a
whole returns, with the same entries when it ends with the snapshot ready, and with `EIO`
otherwise. -/
def snapshot_built (k : ent_kind) (e : Env) (sc : setent_step_ctx) (st : resp_state) : Prop :=
  (∃ o, setent_step k e sc st = some o ∧
    (o.step_ctx.getent_ctx.ready = true →
      o.step_ctx.getent_ctx.doms = sc.getent_ctx.doms ++ enum_expected k e sc.dctx.domain) ∧
    (o.step_ctx.getent_ctx.ready = false → o.ret = EAGAIN ∨ o.ret = EIO)) ∧
  (∃ o, setent_run k e sc st = some o ∧
    (o.step_ctx.getent_ctx.ready = true →
      o.step_ctx.getent_ctx.doms = sc.getent_ctx.doms ++ enum_expected k e sc.dctx.domain) ∧
    (o.step_ctx.getent_ctx.ready = false → o.ret = EIO))

/-- A domain `E` with enumeration. -/
def ex_dom_enum : sss_domain_info := { name := [69], enumerate := true }

/-- A responder whose cache enumerates the user `a` and the group 5 in every domain. -/
def ex_env_enum : Env :=
  { sysdb_enumpwent := fun _ => some [ex_user]
    sysdb_enumgrent := fun _ => some [ex_group 5] }

/-! ## Enumeration: what a sequence of `getpwent` calls consumes -/

/-- The records of a snapshot, in domain order and then record order. -/
def getent_ctx.records (p : getent_ctx) : List ldb_message :=
  p.doms.flatMap (fun d => d.res)

/-- The records of a snapshot from a cursor on: the rest of the current domain, then the
domains after it. -/
def getent_ctx.remaining (p : getent_ctx) (c : cli_cursor) : List ldb_message :=
  (p.doms.getD c.dom_idx { domain := [], res := [] }).res.drop c.cur ++
    (p.doms.drop (c.dom_idx + 1)).flatMap (fun d => d.res)

/-- A cursor that points into a snapshot: at an entry of the per-domain list, and at a
record of it or right after its last record. -/
def cursor_valid (p : getent_ctx) (c : cli_cursor) : Prop :=
  c.dom_idx < p.doms.length ∧
    c.cur ≤ (p.doms.getD c.dom_idx { domain := [], res := [] }).res.length

/-- A snapshot in which each per-domain entry holds at least one record, and fewer than
`2^31` of them (the counts are read as `int`). -/
def snapshot_ok (p : getent_ctx) : Prop :=
  ∀ dc ∈ p.doms, dc.res.length ≠ 0 ∧ dc.res.length < 2 ^ 31

/-- Successive calls of `nss_cmd_retpwent(num)` by one client, each into a fresh reply
packet: the cursor after `k` calls and the outcomes of the calls. -/
def retpwent_calls (x : Ext) (e : Env) (nctx : nss_ctx) (nc : sss_nc_ctx)
    (pctx : Option getent_ctx) (num : Int) : Nat → cli_cursor →
    Option (cli_cursor × List retent_out)
  | 0, c => some (c, [])
  | k + 1, c =>
    match nss_cmd_retpwent x e nctx nc pctx c [] num with
    | none => none
    | some o =>
      match retpwent_calls x e nctx nc pctx num k o.cursor with
      | none => none
      | some r => some (r.1, o :: r.2)

/-- What one run of the loop of `nss_cmd_retpwent` that started at the cursor `c` with the
body `body` and the log `filled` leaves in `o`: the cursor points into the snapshot; the
records the run went through, in order, are those that stood between the two cursors;
it went through at least one record unless none remained; and either it ends with
`ENOENT`, the body untouched and no record remaining, or it ends with `EOK` and the body
is what `fill_pwent` made of the last batch, which is a run of at most `num` records of
one per-domain entry, the count word of the body being at most the size of that batch. -/
def retent_post (x : Ext) (nctx : nss_ctx) (nc : sss_nc_ctx) (now : Nat) (p : getent_ctx)
    (num : Int) (c : cli_cursor) (body : List Nat) (filled : List (List ldb_message))
    (o : retent_out) : Prop :=
  cursor_valid p o.cursor ∧
  ∃ new, o.filled = filled ++ new ∧
    new.flatten ++ p.remaining o.cursor = p.remaining c ∧
    (p.remaining c ≠ [] → new.flatten ≠ []) ∧
    ((o.ret = ENOENT ∧ o.body = body ∧ p.remaining o.cursor = []) ∨
     (o.ret = EOK ∧ ∃ dc ∈ p.doms, ∃ batch, new.getLast? = some batch ∧
        (batch.length : Int) ≤ num ∧ batch <:+: dc.res ∧
        o.body = (fill_pwent x body (dc.domain.headD { name := [] }) nctx nc now true false
          batch).body ∧
        ∃ k, k ≤ batch.length ∧ o.body.take 4 = le32 k))

/-- The reply of `nss_cmd_retpwent` with no entries: the result of
`sss_cmd_empty_packet` on the body, the cursor as given, and no record gone through. -/
def retpwent_empty (e : Env) (c : cli_cursor) (body : List Nat) : retent_out :=
  { ret := (e.sss_cmd_empty_packet body).1, cursor := c,
    body := (e.sss_cmd_empty_packet body).2, filled := [] }

/-- What a call of `nss_cmd_retpwent` at the cursor `c` with the reply body `body` leaves
in `o`: the records it went through, in order, are those between `c` and the new cursor
(so the cursor advanced by their number), at least one unless none remained; and either
no record remains and the reply is the empty packet, or the call returns `EOK` and the
reply is what `fill_pwent` made of one batch, a run of at most `num` records of one
per-domain entry, with a count word of at most the size of the batch. -/
def retpwent_post (x : Ext) (e : Env) (nctx : nss_ctx) (nc : sss_nc_ctx) (p : getent_ctx)
    (num : Int) (c : cli_cursor) (body : List Nat) (o : retent_out) : Prop :=
  o.filled.flatten ++ p.remaining o.cursor = p.remaining c ∧
  (p.remaining o.cursor).length + o.filled.flatten.length = (p.remaining c).length ∧
  (p.remaining c ≠ [] → o.filled.flatten ≠ []) ∧
  ((p.remaining o.cursor = [] ∧ o.ret = (e.sss_cmd_empty_packet body).1 ∧
      o.body = (e.sss_cmd_empty_packet body).2) ∨
   (o.ret = EOK ∧ ∃ dc ∈ p.doms, ∃ batch, o.filled.getLast? = some batch ∧
      (batch.length : Int) ≤ num ∧ batch <:+: dc.res ∧
      o.body = (fill_pwent x body (dc.domain.headD { name := [] }) nctx nc e.now true false
        batch).body ∧
      ∃ k, k ≤ batch.length ∧ o.body.take 4 = le32 k))

/-- A cursor that points into the snapshot or whose domain index is out of range. -/
def cursor_ok (p : getent_ctx) (c : cli_cursor) : Prop :=
  cursor_valid p c ∨ p.doms.length ≤ c.dom_idx

/-- A ready snapshot of two domains: the users `a` and `b` in `EX` and the user `a` in
`A`. -/
def ex_snapshot : getent_ctx :=
  { doms := [{ domain := [ex_dom], res := [ex_user, { ex_user with name := some [98] }] },
             { domain := [ex_dom_a], res := [ex_user] }]
    ready := true }

/-! ## Enumeration: the commands `setpwent` and `getpwent` -/

/-- A call that invalidates an entry of a shared-memory cache: in the cache of users by a
key (`sss_mmap_cache_pw_invalidate`) or by the value of the `uidNumber` attribute whose
string is the key, and in the cache of groups by the value of the `gidNumber` attribute
whose string is the key (`sss_mmap_cache_gr_invalidate`) or by a GID
(`sss_mmap_cache_gr_invalidate_gid`). -/
inductive mc_call where
  | pw_invalidate (key : List Nat)
  | pw_invalidate_id (uidNumber : Nat)
  | gr_invalidate_id (gidNumber : Nat)
  | gr_invalidate_gid (gid : Nat)
deriving DecidableEq, Repr

/-- What distinguishes `nss_update_pw_memcache` from `nss_update_gr_memcache`: the
enumeration of the persistent cache, the attribute that gives the key, and the call. -/
structure mc_kind where
  enum : Env → sss_domain_info → Option (List ldb_message)
  id : ldb_message → Option Nat
  call : Nat → mc_call

/-- The parts of `nss_update_pw_memcache`. -/
def pw_mc : mc_kind :=
  { enum := fun e => e.sysdb_enumpwent, id := fun m => m.uidNumber,
    call := mc_call.pw_invalidate_id }

/-- The parts of `nss_update_gr_memcache`. -/
def gr_mc : mc_kind :=
  { enum := fun e => e.sysdb_enumgrent, id := fun m => m.gidNumber,
    call := mc_call.gr_invalidate_id }

/-- The inner loop of the two updaters, over the records of one domain: the calls made,
in order. -/
def update_memcache_records (k : mc_kind) (now : Nat) : List ldb_message → List mc_call
  | [] => []
  | msg :: rest =>
    let exp := ldb_msg_find_attr_as_uint64 msg.dataExpireTimestamp 0
    if exp ≥ now then update_memcache_records k now rest
    else
      match k.id msg with
      | none => update_memcache_records k now rest
      | some id => k.call id :: update_memcache_records k now rest

/-- The loop of the two updaters over the domains, `dom = get_next_domain(dom, false)`;
one unit of fuel is one iteration. -/
def update_memcache_loop (k : mc_kind) (e : Env) :
    Nat → List sss_domain_info → Option (List mc_call)
  | 0, _ => none
  | _ + 1, [] => some []
  | fuel + 1, d :: rest =>
    let calls :=
      match k.enum e d with
      | none => []
      | some res => update_memcache_records k e.now res
    match update_memcache_loop k e fuel (get_next_domain (d :: rest) false) with
    | none => none
    | some more => some (calls ++ more)

/-- Periodic update of the shared-memory cache of users; `domains` is
`nctx->rctx->domains` and the result lists the invalidations made. -/
def nss_update_pw_memcache (e : Env) (domains : List sss_domain_info) : Option (List mc_call) :=
  update_memcache_loop pw_mc e (domains.length + 1) domains

/-- Periodic update of the shared-memory cache of groups. -/
def nss_update_gr_memcache (e : Env) (domains : List sss_domain_info) : Option (List mc_call) :=
  update_memcache_loop gr_mc e (domains.length + 1) domains

/-- The invalidations the amended claim describes for a list of domains that starts with
a primary domain: for each primary domain whose enumeration succeeds, one for each record
whose cache-expire timestamp lies before `now` and that has the ID attribute. -/
def update_memcache_spec (k : mc_kind) (e : Env) (domains : List sss_domain_info) :
    List mc_call :=
  (domains.filter (fun d => !d.parent)).flatMap (fun d =>
    match k.enum e d with
    | none => []
    | some res =>
      (res.filter (fun m =>
        decide (ldb_msg_find_attr_as_uint64 m.dataExpireTimestamp 0 < e.now))).filterMap
        (fun m => (k.id m).map k.call))

/-- A responder at the time 100 whose cache enumerates, in every domain, a user with uid
1000 that expires at 100 and a user with uid 1001 that expired at 99, and likewise two
groups with the gids 5 and 6. -/
def ex_env_expiry : Env :=
  { now := 100
    sysdb_enumpwent := fun _ =>
      some [{ uidNumber := some 1000, dataExpireTimestamp := some 100 },
            { uidNumber := some 1001, dataExpireTimestamp := some 99 }]
    sysdb_enumgrent := fun _ =>
      some [{ gidNumber := some 5, dataExpireTimestamp := some 100 },
            { gidNumber := some 6, dataExpireTimestamp := some 99 }] }

/-! ## Update of the shared-memory caches after an initgroups refresh -/

/-- The C function `tolower` on a byte, in the C locale. -/
def tolower (c : Nat) : Nat := if 65 ≤ c ∧ c ≤ 90 then c + 32 else c

/-- Result of `strcasecmp`, by its sign. -/
def strcasecmp (a b : CStr) : Int :=
  strcmp_bytes ((cstr a).map tolower) ((cstr b).map tolower)

/-- Value of `ldb_msg_find_attr_as_uint(msg, attr, dflt)` for a parsed attribute. -/
def ldb_msg_find_attr_as_uint (attr : Option Nat) (dflt : Nat) : Nat :=
  (attr.getD dflt) % 2 ^ 32

/-- The loop of `nss_update_initgr_memcache` that looks for the domain by name; one unit
of fuel is one iteration, and the result is the domain found (`some []` is NULL). -/
def initgr_find_domain (domain : CStr) : Nat → List sss_domain_info →
    Option (List sss_domain_info)
  | 0, _ => none
  | _ + 1, [] => some []
  | fuel + 1, d :: rest =>
    if strcasecmp d.name domain == 0 then some (d :: rest)
    else initgr_find_domain domain fuel (get_next_domain (d :: rest) false)

/-- The loop `for (j = 0; j < gnum; j++) if (gids[j] == id) { gids[j] = 0; break; }`:
the array after the loop and whether a match was found (`j < gnum`). -/
def initgr_clear_first (id : Nat) : List Nat → List Nat × Bool
  | [] => ([], false)
  | g :: rest =>
    if g == id then (0 :: rest, true)
    else ((g :: (initgr_clear_first id rest).1), (initgr_clear_first id rest).2)

/-- The loop of `nss_update_initgr_memcache` over the records of the result: the flag
`changed` and the array `gids` after the loop. -/
def initgr_match_loop : List ldb_message → List Nat → Bool × List Nat
  | [], gids => (false, gids)
  | msg :: rest, gids =>
    let id := ldb_msg_find_attr_as_uint msg.gidNumber 0
    if id == 0 then initgr_match_loop rest gids
    else
      let r := initgr_clear_first id gids
      if !r.2 then (true, r.1) else initgr_match_loop rest r.1

/-- Update of the shared-memory caches for the user `name` of the domain named `domain`
after the provider has refreshed the user's groups; `groups` is the array of `gnum` GIDs
the provider hands in, `domains` is `nctx->rctx->domains`, and the result lists the
invalidations made. -/
def nss_update_initgr_memcache (e : Env) (domains : List sss_domain_info) (name domain : CStr)
    (groups : List Nat) : Option (List mc_call) :=
  match initgr_find_domain domain (domains.length + 1) domains with
  | none => none
  | some [] => some []
  | some (dom :: _) =>
    let res := e.sysdb_initgroups dom name
    let ret := if res.isSome then EOK else e.sysdb_initgroups_ret dom name
    if ret != EOK && ret != ENOENT then some []
    else
      let gone := ret == ENOENT || (res.getD []).length == 0
      let pw : List mc_call := if gone then [mc_call.pw_invalidate (cstr name)] else []
      let changed :=
        if gone then true
        else
          let m := initgr_match_loop (res.getD []) groups
          if !m.1 then m.2.any (fun g => g != 0) else m.1
      some (pw ++ (if changed then groups.map mc_call.gr_invalidate_gid else []))

/-- The non-zero GIDs of the records of an initgroups result, the user record included,
in result order. -/
def initgr_record_gids (res : List ldb_message) : List Nat :=
  (res.map (fun m => ldb_msg_find_attr_as_uint m.gidNumber 0)).filter (fun g => g != 0)

/-- A responder whose cache holds, for every user of every domain, the user record with
gid 1000 and the groups 5 and 6. -/
def ex_env_initgr : Env :=
  { sysdb_initgroups := fun _ _ => some [ex_user, ex_group 5, ex_group 6] }

/-! ## Classification of a record found by SID -/

/-- The type `enum sss_id_type`, with the values that `find_sss_id_type` hands out. -/
inductive sss_id_type
  | SSS_ID_TYPE_UID
  | SSS_ID_TYPE_GID
  | SSS_ID_TYPE_BOTH
deriving DecidableEq, Repr

/-- Comparison loop of `strncasecmp` over at most `n` bytes; the byte read behind the end
of a list is the terminating NUL. -/
def strncasecmp_bytes : Nat → List Nat → List Nat → Int
  | 0, _, _ => 0
  | n + 1, a, b =>
    let ca := tolower (a.headD 0)
    let cb := tolower (b.headD 0)
    if ca < cb then -1
    else if cb < ca then 1
    else if ca == 0 then 0
    else strncasecmp_bytes n a.tail b.tail

/-- Result of `strncasecmp(s1, s2, n)`, by its sign. -/
def strncasecmp (s1 s2 : CStr) (n : Nat) : Int := strncasecmp_bytes n (cstr s1) (cstr s2)

/-- The loop of `find_sss_id_type` over the values of the element: `true` when it leaves
by `break` (`c < el->num_values`). `user_class` is the constant `SYSDB_USER_CLASS`. -/
def find_sss_id_type_loop (user_class : CStr) : List (List Nat) → Bool
  | [] => false
  | val :: rest =>
    if strncasecmp user_class val val.length == 0 then true
    else find_sss_id_type_loop user_class rest

/-- Classification of a record by its object classes: the return code and the value written
to `*id_type`. `user_class` is the constant `SYSDB_USER_CLASS`. -/
def find_sss_id_type (user_class : CStr) (msg : ldb_message) (mpg : Bool) :
    Nat × Option sss_id_type :=
  match msg.objectClass with
  | none => (EINVAL, none)
  | some values =>
    if !(find_sss_id_type_loop user_class values) then (EOK, some sss_id_type.SSS_ID_TYPE_GID)
    else if mpg then (EOK, some sss_id_type.SSS_ID_TYPE_BOTH)
    else (EOK, some sss_id_type.SSS_ID_TYPE_UID)

/-- A value is an abbreviation of the user class: its bytes, in lower case, are the first
bytes of the user class in lower case. -/
def user_class_abbreviated (user_class : CStr) (val : List Nat) : Bool :=
  (val.map tolower).isPrefixOf ((cstr user_class).map tolower)

/-- The string "user". -/
def ex_user_class : CStr := [117, 115, 101, 114, 0]

/-! ## Provider requests of a search entered again -/

/-- What a search started at the domains `doms` with the context `dctx` adds to the log of
provider requests: at most one request, for a domain of `doms`, and for a domain behind the
first one when the search is entered for the domain of `dctx` with `check_provider` cleared. -/
def dp_once (doms : List sss_domain_info) (dctx : nss_dom_ctx) (st : resp_state)
    (r : search_out) : Prop :=
  ∃ added, r.st.dp_log = st.dp_log ++ added ∧ added.length ≤ 1 ∧
    ∀ q ∈ added, q.dom ∈ doms ∧
      (dctx.domain = doms → dctx.check_provider = false → q.dom ∈ doms.tail)

/-- A search entered again returns, and adds to the log of provider requests at most one
request, for one of the domains `rest`. -/
def reentry_quiet (rest : List sss_domain_info) (st : resp_state) (o : Option search_out) :
    Prop :=
  ∃ r, o = some r ∧ ∃ added, r.st.dp_log = st.dp_log ++ added ∧ added.length ≤ 1 ∧
    ∀ q ∈ added, q.dom ∈ rest

/-- A domain served by a provider. -/
def ex_dom_prov : sss_domain_info := { name := [80], provider := true }

/-! ## Entries of the passwd encoder in a domain that qualifies names -/

/-- The passwd entry of a record in a domain that adds the domain to names: as
`pw_entry_of`, with the fully qualified name in the name field; the home directory is
still expanded from the plain name. -/
def pw_entry_fq_of (x : Ext) (dom : sss_domain_info) (nctx : nss_ctx) (msg : ldb_message) :
    List Nat :=
  let uid := ldb_msg_find_attr_as_uint64 msg.uidNumber 0 % 2 ^ 32
  let name := (x.sss_get_cased_name (msg.name.getD []) dom.case_sensitive).getD []
  pw_entry uid (get_gid_override msg dom) (x.sss_fqname dom name) nctx.pwfield
    (pw_gecos_field msg.gecos)
    (pw_homedir_field (get_homedir_override x msg nctx dom name uid))
    (pw_shell_field (get_shell_override x msg nctx dom))

/-- The record handed to the shared-memory cache for a record in a domain that adds the
domain to names. -/
def pw_mc_fq_of (x : Ext) (dom : sss_domain_info) (nctx : nss_ctx) (msg : ldb_message) :
    mc_pw_entry :=
  let uid := ldb_msg_find_attr_as_uint64 msg.uidNumber 0 % 2 ^ 32
  let name := (x.sss_get_cased_name (msg.name.getD []) dom.case_sensitive).getD []
  { fullname := cstr (x.sss_fqname dom name), pwfield := cstr nctx.pwfield, uid := uid,
    gid := get_gid_override msg dom, gecos := cstr (pw_gecos_field msg.gecos),
    homedir := cstr (pw_homedir_field (get_homedir_override x msg nctx dom name uid)),
    shell := cstr (pw_shell_field (get_shell_override x msg nctx dom)) }

/-- The fully qualified name of a record has the length that `fill_pwent` reserves for it:
the length of the name, one delimiter and `sss_fqdom_len`. -/
def fq_presized (x : Ext) (dom : sss_domain_info) (msg : ldb_message) : Prop :=
  let name := (x.sss_get_cased_name (msg.name.getD []) dom.case_sensitive).getD []
  strlen (x.sss_fqname dom name) = strlen name + 1 + x.sss_fqdom_len dom

/-! ## The group encoder (`fill_members`, `fill_grent`) -/

/-- Give-back of the last `size` bytes of the body: the return code and the new body. -/
def sss_packet_shrink (x : Ext) (body : List Nat) (size : Nat) : Nat × List Nat :=
  if x.shrink_ret body.length size != EOK then (x.shrink_ret body.length size, body)
  else (EOK, body.take (body.length - size))

/-- The test `ldb_msg_check_string_attribute(msg, "objectClass", value)`: some value of
the element is the string. -/
def ldb_msg_check_string_attribute (el : Option (List (List Nat))) (value : CStr) : Bool :=
  match el with
  | none => false
  | some values => values.any (fun v => v == cstr value)

/-- Local variables of `fill_members`: the body, the `rzero`, `rsize` and `memnum` it
takes and hands back through pointers, and its own `delim`. -/
structure mem_state where
  body : List Nat
  rzero : Nat
  rsize : Nat
  memnum : Nat
  delim : Nat
deriving DecidableEq, Repr

/-- The size that `fill_members` adds after a qualified name did not fit:
`int t = ret - name.len + delim + dom_len + 1;` (lengths are taken below 2^31, where the
conversions between `int` and `size_t` keep the value). -/
def fill_members_t (ret name_len delim dom_len : Nat) : Nat :=
  ret - name_len + delim + dom_len + 1

/-- The size that `fill_pwent` and `fill_grent` add after a qualified name did not fit:
`t = ret - (name.len + delim + dom_len) + 1;`. -/
def fill_entry_t (ret name_len delim dom_len : Nat) : Nat :=
  ret - (name_len + delim + dom_len) + 1

/-- The loop of `fill_members` over the values of the element, with the label `done`: the
return code and the variables. -/
def fill_members_loop (x : Ext) (dom : sss_domain_info) (nctx : nss_ctx) (nc : sss_nc_ctx)
    (now : Nat) (add_domain : Bool) (dom_len : Nat) :
    List CStr → mem_state → Nat × mem_state
  | [], s => (0, s)
  | v :: rest, s =>
    let continue_ := fill_members_loop x dom nctx nc now add_domain dom_len rest
    match x.sss_get_cased_name v dom.case_sensitive with
    | none => continue_ s
    | some tmpstr =>
      if nctx.filter_users_in_groups &&
          sss_ncache_check_user nc now nctx.neg_timeout dom tmpstr == EEXIST then
        continue_ s
      else
        let name := to_sized_string tmpstr
        let g := sss_packet_grow x s.body (name.len + s.delim + dom_len)
        if g.1 != EOK then (g.1, { s with body := g.2 })
        else if add_domain then
          let p := sss_fqname_print x g.2 (s.rzero + s.rsize) (name.len + s.delim + dom_len)
            dom name.str
          if p.2 ≥ name.len + s.delim + dom_len then
            let t := fill_members_t p.2 name.len s.delim dom_len
            let g2 := sss_packet_grow x p.1 t
            if g2.1 != EOK then (g2.1, { s with body := g2.2 })
            else
              let delim := s.delim + t
              let q := sss_fqname_print x g2.2 (s.rzero + s.rsize) (name.len + delim + dom_len)
                dom name.str
              if q.2 != name.len + delim + dom_len - 1 then
                let k := sss_packet_shrink x q.1 (name.len + delim + dom_len)
                if k.1 != EOK then (k.1, { s with body := k.2, delim := delim })
                else continue_ { s with body := k.2, delim := delim }
              else
                continue_ { s with body := q.1, delim := delim,
                                   rsize := s.rsize + (name.len + delim + dom_len),
                                   memnum := s.memnum + 1 }
          else if p.2 != name.len + s.delim + dom_len - 1 then
            let k := sss_packet_shrink x p.1 (name.len + s.delim + dom_len)
            if k.1 != EOK then (k.1, { s with body := k.2 })
            else continue_ { s with body := k.2 }
          else
            continue_ { s with body := p.1,
                               rsize := s.rsize + (name.len + s.delim + dom_len),
                               memnum := s.memnum + 1 }
        else
          continue_ { s with body := write_at g.2 (s.rzero + s.rsize) (sized_bytes name),
                             rsize := s.rsize + (name.len + s.delim + dom_len),
                             memnum := s.memnum + 1 }

/-- Encoder of the members of a group: `el` holds the values of the element, `body` is
the body of the packet; the return code and the variables handed back. -/
def fill_members (x : Ext) (body : List Nat) (dom : sss_domain_info) (nctx : nss_ctx)
    (nc : sss_nc_ctx) (now : Nat) (el : List CStr) (rzero rsize memnum : Nat) :
    Nat × mem_state :=
  let add_domain := !dom.parent && dom.fqnames
  let delim := if add_domain then 1 else 0
  let dom_len := if add_domain then x.sss_fqdom_len dom else 0
  fill_members_loop x dom nctx nc now add_domain dom_len el
    { body := body, rzero := rzero, rsize := rsize, memnum := memnum, delim := delim }

/-- Record handed to `sss_mmap_cache_gr_store`. -/
structure mc_gr_entry where
  fullname : List Nat
  pwfield : List Nat
  gid : Nat
  memnum : Nat
  membuf : List Nat
deriving DecidableEq, Repr

/-- Local variables of `fill_grent` that live across loop iterations. -/
structure gr_state where
  body : List Nat
  rzero : Nat := 8
  rsize : Nat := 0
  num : Nat := 0
  delim : Nat := 0
  mc : List mc_gr_entry := []
deriving DecidableEq, Repr

/-- Outcome of `fill_grent`: return code, `*count`, body, shared-memory stores. -/
structure gr_result where
  ret : Nat
  count : Nat
  body : List Nat
  mc : List mc_gr_entry
deriving DecidableEq, Repr

/-- The members of one group in `fill_grent`: the two calls of `fill_members`, for the
elements `memberuid` and `ghost`; the return code and the variables. -/
def fill_grent_members (x : Ext) (dom : sss_domain_info) (nctx : nss_ctx) (nc : sss_nc_ctx)
    (now : Nat) (msg : ldb_message) (body : List Nat) (rzero rsize : Nat) : Nat × mem_state :=
  let m0 : mem_state := { body := body, rzero := rzero, rsize := rsize, memnum := 0, delim := 0 }
  if dom.ignore_group_members then (EOK, m0)
  else
    let m1 := match msg.memberuid with
      | some el => fill_members x body dom nctx nc now el rzero rsize 0
      | none => (EOK, m0)
    if msg.memberuid.isSome && m1.1 != EOK then m1
    else
      match msg.ghost with
      | some el => fill_members x m1.2.body dom nctx nc now el m1.2.rzero m1.2.rsize m1.2.memnum
      | none => (EOK, m1.2)

/-- The tail of one iteration of `fill_grent`, after the entry's `rsize` bytes were added:
gid, count of members, name, password field and members.  The left result is the state at
a `goto done`, the right one the state at a `continue`. -/
def fill_grent_entry (x : Ext) (dom : sss_domain_info) (nctx : nss_ctx) (nc : sss_nc_ctx)
    (now : Nat) (gr_mmap_cache : Bool) (add_domain : Bool) (dom_len : Nat) (gid : Nat)
    (name pwfield : sized_string) (msg : ldb_message) (body : List Nat) (rsize : Nat)
    (s : gr_state) : gr_state ⊕ gr_state :=
  let body := write_at body s.rzero (le32 gid)
  let body := write_at body (s.rzero + 4) (le32 0)
  let finish (body : List Nat) (rsize delim : Nat) : gr_state ⊕ gr_state :=
    let fullname := to_sized_string (body.drop (s.rzero + 8))
    let body := write_at body (s.rzero + 8 + fullname.len) (sized_bytes pwfield)
    let m := fill_grent_members x dom nctx nc now msg body s.rzero rsize
    if m.1 != EOK then
      Sum.inl { s with body := m.2.body, rsize := m.2.rsize, delim := delim, num := 0 }
    else
      let body := if m.2.memnum != 0 then write_at m.2.body (s.rzero + 4) (le32 m.2.memnum)
                  else m.2.body
      let fullname := to_sized_string (body.drop (s.rzero + 8))
      let mc :=
        if gr_mmap_cache && nctx.grp_mc_ctx then
          s.mc ++ [{ fullname := cstr fullname.str, pwfield := cstr pwfield.str, gid := gid,
                     memnum := m.2.memnum,
                     membuf := (body.drop (s.rzero + 8 + fullname.len + pwfield.len)).take
                                 (m.2.rsize - 8 - fullname.len - pwfield.len) }]
        else s.mc
      Sum.inr { s with body := body, rsize := m.2.rsize, delim := delim, num := s.num + 1,
                       mc := mc }
  let check (body : List Nat) (ret rsize delim : Nat) : gr_state ⊕ gr_state :=
    if ret != name.len + delim + dom_len - 1 then
      let k := sss_packet_shrink x body rsize
      if k.1 != EOK then Sum.inl { s with body := k.2, rsize := rsize, delim := delim, num := 0 }
      else Sum.inr { s with body := k.2, rsize := 0, delim := delim }
    else finish body rsize delim
  if add_domain then
    let p := sss_fqname_print x body (s.rzero + 8) (name.len + s.delim + dom_len) dom name.str
    if p.2 ≥ name.len + s.delim + dom_len then
      let t := fill_entry_t p.2 name.len s.delim dom_len
      let g := sss_packet_grow x p.1 t
      if g.1 != EOK then Sum.inl { s with body := g.2, rsize := rsize, num := 0 }
      else
        let rsize := rsize + t
        let delim := s.delim + t
        let q := sss_fqname_print x g.2 (s.rzero + 8) (name.len + delim + dom_len) dom name.str
        check q.1 q.2 rsize delim
    else check p.1 p.2 rsize s.delim
  else finish (write_at body (s.rzero + 8) (sized_bytes name)) rsize s.delim

/-- The loop `for (i = 0; i < *count; i++)` of `fill_grent` over the records: the index
`i` and the variables at the label `done`. -/
def fill_grent_loop (x : Ext) (dom : sss_domain_info) (nctx : nss_ctx) (nc : sss_nc_ctx)
    (now : Nat) (filter_groups gr_mmap_cache : Bool) (add_domain : Bool) (dom_len : Nat) :
    List ldb_message → Nat → gr_state → Nat × gr_state
  | [], i, s => (i, s)
  | msg :: rest, i, s =>
    let continue_ := fill_grent_loop x dom nctx nc now filter_groups gr_mmap_cache add_domain
      dom_len rest (i + 1)
    if !ldb_msg_check_string_attribute msg.objectClass x.SYSDB_GROUP_CLASS then continue_ s
    else
      let s := { s with rzero := s.rzero + s.rsize, rsize := 0 }
      let gid := ldb_msg_find_attr_as_uint64 msg.gidNumber 0 % 2 ^ 32
      match msg.name with
      | none => continue_ s
      | some orig_name =>
        if gid == 0 then continue_ s
        else if filter_groups &&
            sss_ncache_check_group nc now nctx.neg_timeout dom orig_name == EEXIST then
          continue_ s
        else
          match x.sss_get_cased_name orig_name dom.case_sensitive with
          | none => continue_ s
          | some tmpstr =>
            let name := to_sized_string tmpstr
            let pwfield := to_sized_string nctx.pwfield
            let rsize := 8 + name.len + pwfield.len
            let rsize := if add_domain then rsize + (s.delim + dom_len) else rsize
            let g := sss_packet_grow x s.body rsize
            if g.1 != EOK then (i, { s with body := g.2, rsize := rsize, num := 0 })
            else
              match fill_grent_entry x dom nctx nc now gr_mmap_cache add_domain dom_len gid
                  name pwfield msg g.2 rsize s with
              | Sum.inl s1 => (i, s1)
              | Sum.inr s1 => continue_ s1

/-- Encoder of group entries; `msgs` are the `*count` records handed in (none for a count
that is not positive) and `body` is the body of the packet on entry. -/
def fill_grent (x : Ext) (body : List Nat) (dom : sss_domain_info) (nctx : nss_ctx)
    (nc : sss_nc_ctx) (now : Nat) (filter_groups gr_mmap_cache : Bool)
    (msgs : List ldb_message) : gr_result :=
  let add_domain := !dom.parent && dom.fqnames
  let delim := if add_domain then 1 else 0
  let dom_len := if add_domain then x.sss_fqdom_len dom else 0
  let g0 := sss_packet_grow x body 8
  let done (i : Nat) (s : gr_state) : gr_result :=
    if s.num == 0 then
      if x.set_size_ret != EOK then
        { ret := x.set_size_ret, count := i, body := s.body, mc := s.mc }
      else { ret := ENOENT, count := i, body := [], mc := s.mc }
    else { ret := EOK, count := i,
           body := write_at (write_at s.body 0 (le32 s.num)) 4 (le32 0), mc := s.mc }
  if g0.1 != EOK then done 0 { body := g0.2, delim := delim }
  else
    let r := fill_grent_loop x dom nctx nc now filter_groups gr_mmap_cache add_domain dom_len
      msgs 0 { body := g0.2, delim := delim }
    done r.1 r.2

/-- Collaborators whose name format puts two delimiters between name and domain, one more
than the length `sss_fqdom_len` accounts for. -/
def ex_ext_long : Ext :=
  { ex_ext with sss_fqname := fun d n => cstr n ++ [64, 64] ++ d.name }

/-- A group `g` with gid 5 and the member `a`. -/
def ex_group_a : ldb_message :=
  { name := some [103], gidNumber := some 5, objectClass := some [[103, 114, 111, 117, 112]],
    memberuid := some [[97]] }

/-! ## Enumeration: a batch of group entries (`nss_cmd_retgrent`) -/

/-- The loop `while (ret == ENOENT)` of `nss_cmd_retgrent`, up to the label `none`; one
unit of fuel is one iteration.  The loop has no test for a negative `n`. -/
def retgrent_loop (x : Ext) (nctx : nss_ctx) (nc : sss_nc_ctx) (now : Nat)
    (gctx : getent_ctx) (num : Int) :
    Nat → cli_cursor → List Nat → List (List ldb_message) → Option retent_out
  | 0, _, _, _ => none
  | fuel + 1, c, body, filled =>
    if c.dom_idx ≥ gctx.doms.length then
      some { ret := ENOENT, cursor := c, body := body, filled := filled }
    else
      let gdom := gctx.doms.getD c.dom_idx { domain := [], res := [] }
      let n := to_int32 ((gdom.res.length : Int) - (c.cur : Int))
      let adv := decide (n ≤ 0) && decide (c.dom_idx + 1 < gctx.doms.length)
      let c : cli_cursor := if adv then { dom_idx := c.dom_idx + 1, cur := 0 } else c
      let gdom := if adv then gctx.doms.getD c.dom_idx { domain := [], res := [] } else gdom
      let n := if adv then to_int32 (gdom.res.length : Int) else n
      if n == 0 then some { ret := ENOENT, cursor := c, body := body, filled := filled }
      else
        let n := if n > num then num else n
        let msgs := (gdom.res.drop c.cur).take n.toNat
        let r := fill_grent x body (gdom.domain.headD { name := [] }) nctx nc now true false msgs
        let c : cli_cursor := { c with cur := c.cur + r.count }
        let filled := filled ++ [msgs.take r.count]
        if r.ret == ENOENT then retgrent_loop x nctx nc now gctx num fuel c r.body filled
        else some { ret := r.ret, cursor := c, body := r.body, filled := filled }

/-- Reply of one batch of group entries to an enumerating client: `body` is the body of
the reply packet on entry, `num` the requested maximum as the `int` it is passed as.  The
loop is given one iteration for each record of the snapshot and one more. -/
def nss_cmd_retgrent (x : Ext) (e : Env) (nctx : nss_ctx) (nc : sss_nc_ctx)
    (gctx : Option getent_ctx) (c : cli_cursor) (body : List Nat) (num : Int) :
    Option retent_out :=
  let none_ (o : retent_out) : retent_out :=
    if o.ret == ENOENT then
      { o with ret := (e.sss_cmd_empty_packet o.body).1, body := (e.sss_cmd_empty_packet o.body).2 }
    else o
  match gctx with
  | none => some (none_ { ret := ENOENT, cursor := c, body := body })
  | some p =>
    match retgrent_loop x nctx nc e.now p num (p.total + 1) c body [] with
    | none => none
    | some o => some (none_ o)

/-- A snapshot of groups: one domain with one group. -/
def ex_snapshot_gr : getent_ctx :=
  { doms := [{ domain := [ex_dom], res := [ex_group_a] }], ready := true }

/-- Records remain for the client in the domain its read pointer is in (with a count of
records that an `int` holds). -/
def records_remain (p : getent_ctx) (c : cli_cursor) : Prop :=
  c.dom_idx < p.doms.length ∧
  c.cur < (p.doms.getD c.dom_idx { domain := [], res := [] }).res.length ∧
  (p.doms.getD c.dom_idx { domain := [], res := [] }).res.length < 2 ^ 31

/-- The read pointer of the client is in the last domain of the snapshot, at an entry
index beyond the records of that domain. -/
def cursor_beyond_last (p : getent_ctx) (c : cli_cursor) : Prop :=
  c.dom_idx + 1 = p.doms.length ∧
  (p.doms.getD c.dom_idx { domain := [], res := [] }).res.length < c.cur ∧
  c.cur < 2 ^ 31

/-! ## Saving of services fetched from LDAP (`sdap_save_service`, `sdap_save_services`) -/

/-- One service of a batch, as `sdap_save_service` sees it: the return codes of the steps
it takes on the attributes, and the values of the USN element (`usn_el_ret` is the return
code of `sysdb_attrs_get_el` for it). -/
structure sdap_service where
  primary_name_ret : Nat := EOK
  aliases_ret : Nat := EOK
  port_ret : Nat := EOK
  protocols_ret : Nat := EOK
  usn_el_ret : Nat := EOK
  usn_values : List CStr := []
  add_string_ret : Nat := EOK
  /-- Whether `talloc_strdup` of the USN value succeeds. -/
  strdup_ok : Bool := true
  list_missing_ret : Nat := EOK
  store_ret : Nat := EOK
deriving DecidableEq, Repr

/-- Return codes of the transaction calls of the persistent cache. -/
structure sdap_sysdb where
  transaction_start_ret : Nat := EOK
  transaction_commit_ret : Nat := EOK
deriving DecidableEq, Repr

/-- Saving of one service: the return code and the value left in `*_usn_value` (`none` is
NULL, as the caller set it before the call). -/
def sdap_save_service (svc : sdap_service) : Nat × Option CStr :=
  if svc.primary_name_ret != EOK then (svc.primary_name_ret, none)
  else if svc.aliases_ret != EOK then (svc.aliases_ret, none)
  else if svc.port_ret != EOK then (svc.port_ret, none)
  else if svc.protocols_ret != EOK then (svc.protocols_ret, none)
  else if svc.usn_el_ret != 0 && svc.usn_el_ret != ENOENT then (svc.usn_el_ret, none)
  else
    let usn : Nat ⊕ Option CStr :=
      if svc.usn_el_ret == ENOENT || svc.usn_values.length == 0 then Sum.inr none
      else if svc.add_string_ret != 0 then Sum.inl svc.add_string_ret
      else if !svc.strdup_ok then Sum.inl ENOMEM
      else Sum.inr (some (cstr (svc.usn_values.headD [])))
    match usn with
    | Sum.inl ret => (ret, none)
    | Sum.inr usn_value =>
      if svc.list_missing_ret != EOK then (svc.list_missing_ret, none)
      else if svc.store_ret != EOK then (svc.store_ret, none)
      else (EOK, usn_value)

/-- The loop of `sdap_save_services` over the services: the value of `higher_usn`. -/
def sdap_save_services_loop : List sdap_service → Option CStr → Option CStr
  | [], higher_usn => higher_usn
  | svc :: rest, higher_usn =>
    match (sdap_save_service svc).2 with
    | none => sdap_save_services_loop rest higher_usn
    | some usn_value =>
      match higher_usn with
      | none => sdap_save_services_loop rest (some usn_value)
      | some higher =>
        if decide (strlen usn_value > strlen higher) || decide (strcmp usn_value higher > 0) then
          sdap_save_services_loop rest (some usn_value)
        else sdap_save_services_loop rest (some higher)

/-- Saving of a batch of services in one transaction: the return code and the value handed
back in `*_usn_value` (`none` when nothing is handed back or the value is NULL). -/
def sdap_save_services (db : sdap_sysdb) (services : List sdap_service) : Nat × Option CStr :=
  if services.length == 0 then (ENOENT, none)
  else if db.transaction_start_ret != EOK then (db.transaction_start_ret, none)
  else
    let higher_usn := sdap_save_services_loop services none
    if db.transaction_commit_ret != EOK then (db.transaction_commit_ret, none)
    else (EOK, higher_usn)

/-- The number that a string of decimal digits stands for. -/
def usn_number (s : List Nat) : Nat :=
  s.foldl (fun acc b => 10 * acc + (b - 48)) 0

/-- A service that is saved and carries the given USN. -/
def ex_service (usn : CStr) : sdap_service := { usn_values := [usn] }

/-! ## Search by SID (`nss_cmd_getbysid_search`) -/

/-- Search for the object with the SID `cmdctx->secid` in the domain `dctx->domain`; `none`
is the dereference of a NULL `dctx->domain`. -/
def nss_cmd_getbysid_search (e : Env) (nctx : nss_ctx) (cmdctx : nss_cmd_ctx)
    (dctx : nss_dom_ctx) (st : resp_state) : Option search_out :=
  match dctx.domain with
  | [] => none
  | d :: _ =>
    if !d.sysdb then some { ret := EIO, dctx := dctx, st := st }
    else
      let st := { st with sysdb_log := st.sysdb_log ++
                    [sysdb_query.search_object_by_sid d (cstr cmdctx.secid)] }
      match e.sysdb_search_object_by_sid d cmdctx.secid with
      | none => some { ret := EIO, dctx := dctx, st := st }
      | some res =>
        let dctx := { dctx with res := some res }
        if decide (res.length > 1) then some { ret := ENOENT, dctx := dctx, st := st }
        else if res.length == 0 && !dctx.check_provider then
          let n := ncache_set e st.ncache false (nc_key.sid (cstr cmdctx.secid))
          if n.1 != EOK then some { ret := n.1, dctx := dctx, st := st }
          else some { ret := ENOENT, dctx := dctx, st := { st with ncache := n.2 } }
        else if dctx.check_provider then
          let c := check_cache e dctx nctx st res sss_dp_type.SSS_DP_SECID
            (some cmdctx.secid) 0
          if c.ret != EOK then some c
          else some { c with ret := EOK }
        else some { ret := EOK, dctx := dctx, st := st }

/-! ## Replies to the requests by SID (`fill_sid`, `fill_name`, `fill_id`) -/

/-- The number of a constant of `enum sss_id_type`. -/
def id_type_value (x : Ext) (t : sss_id_type) : Nat :=
  match t with
  | sss_id_type.SSS_ID_TYPE_UID => x.SSS_ID_TYPE_UID
  | sss_id_type.SSS_ID_TYPE_GID => x.SSS_ID_TYPE_GID
  | sss_id_type.SSS_ID_TYPE_BOTH => x.SSS_ID_TYPE_BOTH

/-- Encoder of a SID: the return code and the body of the packet. -/
def fill_sid (x : Ext) (body : List Nat) (id_type : sss_id_type) (msg : ldb_message) :
    Nat × List Nat :=
  match msg.objectSIDString with
  | none => (EINVAL, body)
  | some sid_str =>
    let sid := to_sized_string sid_str
    let g := sss_packet_grow x body (sid.len + 3 * 4)
    if g.1 != EOK then (g.1, g.2)
    else
      let body := set_word (set_word (set_word g.2 0 1) 1 0) 2 (id_type_value x id_type)
      (EOK, write_at body (3 * 4) (sized_bytes sid))

/-- Encoder of a name: the return code and the body of the packet. -/
def fill_name (x : Ext) (e : Env) (body : List Nat) (dom : sss_domain_info)
    (id_type : sss_id_type) (msg : ldb_message) : Nat × List Nat :=
  let add_domain := !dom.parent && dom.fqnames
  match msg.name with
  | none => (EINVAL, body)
  | some orig_name =>
    match x.sss_get_cased_name orig_name dom.case_sensitive with
    | none => (ENOMEM, body)
    | some cased_name =>
      match (if add_domain then e.sss_tc_fqname dom cased_name else some cased_name) with
      | none => (ENOMEM, body)
      | some n =>
        let name := to_sized_string n
        let g := sss_packet_grow x body (name.len + 3 * 4)
        if g.1 != EOK then (g.1, g.2)
        else
          let body := set_word (set_word (set_word g.2 0 1) 1 0) 2 (id_type_value x id_type)
          (EOK, write_at body (3 * 4) (sized_bytes name))

/-- Encoder of a POSIX ID: the return code and the body of the packet. -/
def fill_id (x : Ext) (body : List Nat) (id_type : sss_id_type) (msg : ldb_message) :
    Nat × List Nat :=
  let id :=
    if id_type == sss_id_type.SSS_ID_TYPE_GID then ldb_msg_find_attr_as_uint64 msg.gidNumber 0
    else ldb_msg_find_attr_as_uint64 msg.uidNumber 0
  if id == 0 || decide (id ≥ 2 ^ 32 - 1) then (EINVAL, body)
  else
    let g := sss_packet_grow x body (4 * 4)
    if g.1 != EOK then (g.1, g.2)
    else
      (EOK, set_word (set_word (set_word (set_word g.2 0 1) 1 0) 2 (id_type_value x id_type))
              3 (id % 2 ^ 32))

/-! ## Senders of the replies -/

/-- What a sender of a reply leaves behind: its return code, the effects, the body of the
packet `cctx->creq->out` when the sender made one, the status written into the header of
that packet, and the records stored in the shared-memory caches. -/
structure reply_out where
  ret : Nat
  st : resp_state
  out : Option (List Nat) := none
  status : Option Nat := none
  pw_mc : List mc_pw_entry := []
  gr_mc : List mc_gr_entry := []
deriving DecidableEq, Repr

/-- Reply of getpwnam and getpwuid from `dctx->res`; `none` is the dereference of a NULL
`dctx->res` or `dctx->domain`. -/
def nss_cmd_getpw_send_reply (x : Ext) (e : Env) (nctx : nss_ctx) (dctx : nss_dom_ctx)
    (filter : Bool) (st : resp_state) : Option reply_out :=
  if e.packet_new_ret != EOK then some { ret := EFAULT, st := st }
  else
    match dctx.res, dctx.domain with
    | some res, d :: _ =>
      let r := fill_pwent x [] d nctx st.ncache e.now filter true res
      if r.ret != 0 then some { ret := r.ret, st := st, out := some r.body, pw_mc := r.mc }
      else
        some { ret := EOK, st := { st with cmd_done := true }, out := some r.body,
               status := some EOK, pw_mc := r.mc }
    | _, _ => none

/-- Reply of getgrnam and getgrgid from `dctx->res`; `none` is the dereference of a NULL
`dctx->res` or `dctx->domain`. -/
def nss_cmd_getgr_send_reply (x : Ext) (e : Env) (nctx : nss_ctx) (dctx : nss_dom_ctx)
    (filter : Bool) (st : resp_state) : Option reply_out :=
  if e.packet_new_ret != EOK then some { ret := EFAULT, st := st }
  else
    match dctx.res, dctx.domain with
    | some res, d :: _ =>
      let r := fill_grent x [] d nctx st.ncache e.now filter true res
      if r.ret != 0 then some { ret := r.ret, st := st, out := some r.body, gr_mc := r.mc }
      else
        some { ret := EOK, st := { st with cmd_done := true }, out := some r.body,
               status := some EOK, gr_mc := r.mc }
    | _, _ => none

/-- Reply of initgroups from `dctx->res`; `none` is the dereference of a NULL `dctx->res`. -/
def nss_cmd_initgr_send_reply (x : Ext) (e : Env) (dctx : nss_dom_ctx) (st : resp_state) :
    Option reply_out :=
  if e.packet_new_ret != EOK then some { ret := EFAULT, st := st }
  else
    match dctx.res with
    | none => none
    | some res =>
      let r := fill_initgr x [] res
      if r.1 != 0 then some { ret := r.1, st := st, out := some r.2 }
      else
        some { ret := EOK, st := { st with cmd_done := true }, out := some r.2,
               status := some EOK }

/-- Reply of the four requests that involve a SID, from the one record of `dctx->res`;
`none` is the dereference of a NULL `dctx->res` or `dctx->domain`. -/
def nss_cmd_getbysid_send_reply (x : Ext) (e : Env) (cmdctx : nss_cmd_ctx)
    (dctx : nss_dom_ctx) (st : resp_state) : Option reply_out :=
  match dctx.res with
  | none => none
  | some [] => some { ret := ENOENT, st := st }
  | some (_ :: _ :: _) => some { ret := EINVAL, st := st }
  | some [msg] =>
    if e.packet_new_ret != EOK then some { ret := EFAULT, st := st }
    else
      match dctx.domain with
      | [] => none
      | d :: _ =>
        match find_sss_id_type x.SYSDB_USER_CLASS msg d.mpg with
        | (_, none) =>
          some { ret := (find_sss_id_type x.SYSDB_USER_CLASS msg d.mpg).1, st := st,
                 out := some [] }
        | (_, some id_type) =>
          let filled (r : Nat × List Nat) : Option reply_out :=
            if r.1 != EOK then some { ret := r.1, st := st, out := some r.2 }
            else
              some { ret := EOK, st := { st with cmd_done := true }, out := some r.2,
                     status := some EOK }
          match cmdctx.cmd with
          | sss_cli_command.SSS_NSS_GETNAMEBYSID => filled (fill_name x e [] d id_type msg)
          | sss_cli_command.SSS_NSS_GETIDBYSID => filled (fill_id x [] id_type msg)
          | sss_cli_command.SSS_NSS_GETSIDBYNAME => filled (fill_sid x [] id_type msg)
          | sss_cli_command.SSS_NSS_GETSIDBYID => filled (fill_sid x [] id_type msg)
          | _ => some { ret := EINVAL, st := st, out := some [] }

/-! ## The provider callback (`nss_cmd_getby_dp_callback`) -/

/-- What the provider callback leaves behind: the context, the effects, and the reply
packet of the sender it ran, if it ran one. -/
structure cb_out where
  dctx : nss_dom_ctx
  st : resp_state
  out : Option (List Nat) := none
  status : Option Nat := none
  pw_mc : List mc_pw_entry := []
  gr_mc : List mc_gr_entry := []
deriving DecidableEq, Repr

/-- The test of `nss_cmd_getby_dp_callback` for a retained result:
`(dctx->res && dctx->res->count == 1) || (cmd == SSS_NSS_INITGR && dctx->res &&
dctx->res->count != 0)`. -/
def cb_retained (cmdctx : nss_cmd_ctx) (dctx : nss_dom_ctx) : Bool :=
  match dctx.res with
  | none => false
  | some res =>
    res.length == 1 || (cmdctx.cmd == sss_cli_command.SSS_NSS_INITGR && res.length != 0)

/-- The sender of the reply for each command (the same in both `switch` statements of
the callback). -/
def cb_reply (x : Ext) (e : Env) (nctx : nss_ctx) (cmdctx : nss_cmd_ctx) (dctx : nss_dom_ctx)
    (st : resp_state) : Option reply_out :=
  match cmdctx.cmd with
  | sss_cli_command.SSS_NSS_GETPWNAM => nss_cmd_getpw_send_reply x e nctx dctx false st
  | sss_cli_command.SSS_NSS_GETGRNAM => nss_cmd_getgr_send_reply x e nctx dctx false st
  | sss_cli_command.SSS_NSS_INITGR => nss_cmd_initgr_send_reply x e dctx st
  | sss_cli_command.SSS_NSS_GETPWUID => nss_cmd_getpw_send_reply x e nctx dctx true st
  | sss_cli_command.SSS_NSS_GETGRGID => nss_cmd_getgr_send_reply x e nctx dctx true st
  | sss_cli_command.SSS_NSS_GETNAMEBYSID => nss_cmd_getbysid_send_reply x e cmdctx dctx st
  | sss_cli_command.SSS_NSS_GETIDBYSID => nss_cmd_getbysid_send_reply x e cmdctx dctx st
  | sss_cli_command.SSS_NSS_GETSIDBYNAME => nss_cmd_getbysid_send_reply x e cmdctx dctx st
  | sss_cli_command.SSS_NSS_GETSIDBYID => nss_cmd_getbysid_send_reply x e cmdctx dctx st

/-- The search for each command, in the second `switch` of the callback. -/
def cb_search (e : Env) (nctx : nss_ctx) (cmdctx : nss_cmd_ctx) (dctx : nss_dom_ctx)
    (st : resp_state) : Option search_out :=
  match cmdctx.cmd with
  | sss_cli_command.SSS_NSS_GETPWNAM => nss_cmd_getpwnam_search e nctx cmdctx dctx st
  | sss_cli_command.SSS_NSS_GETGRNAM => nss_cmd_getgrnam_search e nctx cmdctx dctx st
  | sss_cli_command.SSS_NSS_INITGR => nss_cmd_initgroups_search e nctx cmdctx dctx st
  | sss_cli_command.SSS_NSS_GETPWUID => nss_cmd_getpwuid_search e nctx cmdctx dctx st
  | sss_cli_command.SSS_NSS_GETGRGID => nss_cmd_getgrgid_search e nctx cmdctx dctx st
  | sss_cli_command.SSS_NSS_GETNAMEBYSID => nss_cmd_getbysid_search e nctx cmdctx dctx st
  | sss_cli_command.SSS_NSS_GETIDBYSID => nss_cmd_getbysid_search e nctx cmdctx dctx st
  | sss_cli_command.SSS_NSS_GETSIDBYNAME => nss_cmd_getsidby_search e nctx cmdctx dctx st
  | sss_cli_command.SSS_NSS_GETSIDBYID => nss_cmd_getsidby_search e nctx cmdctx dctx st

/-- The label `done` of the callback: `nss_cmd_done` for the return code of the search
or of the sender, and the end of the client connection when that fails. -/
def cb_done (e : Env) (dctx : nss_dom_ctx) (r : reply_out) : cb_out :=
  let d := nss_cmd_done e r.st r.ret
  { dctx := dctx, st := if d.1 != 0 then { d.2 with killed := true } else d.2,
    out := r.out, status := r.status, pw_mc := r.pw_mc, gr_mc := r.gr_mc }

/-- The second `switch` of the callback and the label `done`: the search in the cache
and, when it returns `EOK`, the reply. -/
def cb_search_reply (x : Ext) (e : Env) (nctx : nss_ctx) (cmdctx : nss_cmd_ctx)
    (dctx : nss_dom_ctx) (st : resp_state) : Option cb_out :=
  match cb_search e nctx cmdctx dctx st with
  | none => none
  | some o =>
    if o.ret == EOK then (cb_reply x e nctx cmdctx o.dctx o.st).map (cb_done e o.dctx)
    else some (cb_done e o.dctx { ret := o.ret, st := o.st })

/-- The descent flag `check_subdomains` of the callback. -/
def cb_check_subdomains (cmdctx : nss_cmd_ctx) : Bool :=
  match cmdctx.cmd with
  | sss_cli_command.SSS_NSS_GETPWUID => true
  | sss_cli_command.SSS_NSS_GETGRGID => true
  | sss_cli_command.SSS_NSS_GETSIDBYID => true
  | _ => false

/-- The callback run when the provider has answered a request dispatched by
`check_cache`; `err_maj` is the major error code of the provider.  `none` is a search out
of fuel or a dereference of NULL in a sender of a reply. -/
def nss_cmd_getby_dp_callback (x : Ext) (e : Env) (nctx : nss_ctx) (cmdctx : nss_cmd_ctx)
    (err_maj : Nat) (dctx : nss_dom_ctx) (st : resp_state) : Option cb_out :=
  if err_maj != 0 then
    if cb_retained cmdctx dctx then
      (cb_reply x e nctx cmdctx dctx st).map (cb_done e dctx)
    else
      match get_next_domain dctx.domain (cb_check_subdomains cmdctx) with
      | n :: rest =>
        if cmdctx.check_next then
          cb_search_reply x e nctx cmdctx
            { dctx with domain := n :: rest, check_provider := n.provider } st
        else some (cb_done e dctx { ret := ENOENT, st := st })
      | [] => some (cb_done e dctx { ret := ENOENT, st := st })
  else cb_search_reply x e nctx cmdctx dctx st

/-! ## Entry point of the requests by name (`nss_cmd_getbynam`) -/

/-- What `nss_cmd_getbynam` leaves behind: its return value, the code it handed to
`nss_cmd_done` (`none` when it returned before), the contexts, the effects, the request
for the list of domains it sent (`force` flag and hint), if any, and the reply packet of
the sender it ran, if it ran one. -/
structure getbynam_out where
  ret : Nat
  done_arg : Option Nat
  cmdctx : nss_cmd_ctx
  dctx : nss_dom_ctx
  st : resp_state
  get_domains : Option (Bool × Option CStr) := none
  out : Option (List Nat) := none
  status : Option Nat := none
  pw_mc : List mc_pw_entry := []
  gr_mc : List mc_gr_entry := []
deriving DecidableEq, Repr

/-- The `switch` of `nss_cmd_getbynam` that runs the search and, after `EOK`, the sender
of the reply: the context and what the sender left (for a search that did not return
`EOK`, its return code and effects); `none` is a search out of fuel or a dereference of
NULL in the sender. -/
def getbynam_switch (x : Ext) (e : Env) (nctx : nss_ctx) (cmdctx : nss_cmd_ctx)
    (dctx : nss_dom_ctx) (st : resp_state) : Option (nss_dom_ctx × reply_out) :=
  let reply (o : Option search_out) (send : nss_dom_ctx → resp_state → Option reply_out) :
      Option (nss_dom_ctx × reply_out) :=
    match o with
    | none => none
    | some r =>
      if r.ret == EOK then (send r.dctx r.st).map (fun s => (r.dctx, s))
      else some (r.dctx, { ret := r.ret, st := r.st })
  match cmdctx.cmd with
  | sss_cli_command.SSS_NSS_GETPWNAM =>
    reply (nss_cmd_getpwnam_search e nctx cmdctx dctx st)
      (fun d s => nss_cmd_getpw_send_reply x e nctx d false s)
  | sss_cli_command.SSS_NSS_GETGRNAM =>
    reply (nss_cmd_getgrnam_search e nctx cmdctx dctx st)
      (fun d s => nss_cmd_getgr_send_reply x e nctx d false s)
  | sss_cli_command.SSS_NSS_INITGR =>
    reply (nss_cmd_initgroups_search e nctx cmdctx dctx st) (nss_cmd_initgr_send_reply x e)
  | sss_cli_command.SSS_NSS_GETSIDBYNAME =>
    reply (nss_cmd_getsidby_search e nctx cmdctx dctx st)
      (nss_cmd_getbysid_send_reply x e cmdctx)
  | _ => some (dctx, { ret := EINVAL, st := st })

/-- Entry point of getpwnam, getgrnam, initgroups and getsidbyname; `body` is the body of
the request, of `blen = body.length` bytes, and `domains` is `cctx->rctx->domains`.
`none` is a read outside the body (`body[blen - 1]` of an empty body), a dereference of
NULL (`dctx->domain->provider` without domains, or in a sender of a reply), or a search
out of fuel. -/
def nss_cmd_getbynam (x : Ext) (e : Env) (nctx : nss_ctx)
    (domains : List sss_domain_info) (cmd : sss_cli_command) (body : List Nat)
    (st : resp_state) : Option getbynam_out :=
  let cmdctx : nss_cmd_ctx := { cmd := cmd }
  let dctx : nss_dom_ctx := { domain := [], check_provider := false }
  let done (ret : Nat) (cmdctx : nss_cmd_ctx) (dctx : nss_dom_ctx) (st : resp_state)
      (gd : Option (Bool × Option CStr)) : Option getbynam_out :=
    some { ret := (nss_cmd_done e st ret).1, done_arg := some ret, cmdctx := cmdctx,
           dctx := dctx, st := (nss_cmd_done e st ret).2, get_domains := gd }
  let search (cmdctx : nss_cmd_ctx) (dctx : nss_dom_ctx) : Option getbynam_out :=
    match dctx.domain with
    | [] => none
    | d :: _ =>
      let dctx := { dctx with check_provider := d.provider }
      match getbynam_switch x e nctx cmdctx dctx st with
      | none => none
      | some r =>
        some { ret := (nss_cmd_done e r.2.st r.2.ret).1, done_arg := some r.2.ret,
               cmdctx := cmdctx, dctx := r.1, st := (nss_cmd_done e r.2.st r.2.ret).2,
               out := r.2.out, status := r.2.status, pw_mc := r.2.pw_mc,
               gr_mc := r.2.gr_mc }
  if !(cmd == sss_cli_command.SSS_NSS_GETPWNAM || cmd == sss_cli_command.SSS_NSS_GETGRNAM
        || cmd == sss_cli_command.SSS_NSS_INITGR
        || cmd == sss_cli_command.SSS_NSS_GETSIDBYNAME) then
    some { ret := EINVAL, done_arg := none, cmdctx := cmdctx, dctx := dctx, st := st }
  else
    match body.getLast? with
    | none => none
    | some last =>
      if last != 0 then done EINVAL cmdctx dctx st none
      else if !e.sss_utf8_check body.dropLast then done EINVAL cmdctx dctx st none
      else
        let rawname := body
        let p := e.sss_parse_name_for_domains domains rawname
        let cmdctx := { cmdctx with name := p.2.2 }
        if p.1 == EAGAIN then
          if !e.dp_get_domains_ok then done ENOMEM cmdctx dctx st none
          else done EAGAIN cmdctx dctx st (some (true, p.2.1))
        else if p.1 != EOK then done ENOENT cmdctx dctx st none
        else
          match p.2.1 with
          | some domname =>
            let dctx := { dctx with domain := e.responder_get_domain domains domname }
            if dctx.domain == [] then done ENOENT cmdctx dctx st none
            else search cmdctx dctx
          | none =>
            let dctx := { dctx with domain := domains }
            let cmdctx := { cmdctx with check_next := true }
            if e.get_domains_last_call_sec == 0 then
              if !e.dp_get_domains_ok then done ENOMEM cmdctx dctx st none
              else done EAGAIN cmdctx dctx st (some (false, none))
            else search cmdctx dctx

/-- A responder whose name parser rejects the empty name with `EINVAL` and hands every
other name on unchanged. -/
def ex_env_parse : Env :=
  { sss_parse_name_for_domains := fun _ raw =>
      if cstr raw == [] then (EINVAL, none, []) else (EOK, none, raw) }

/-! # Theorems -/

/-! ## Shell policy -/

theorem strcmp_bytes_eq_zero : ∀ a b : List Nat, strcmp_bytes a b = 0 ↔ a = b := by
  intro a
  induction a with
  | nil =>
    intro b
    cases b <;> simp [strcmp_bytes]
  | cons x xs ih =>
    intro b
    cases b with
    | nil => simp [strcmp_bytes]
    | cons y ys =>
      rw [strcmp_bytes]
      by_cases h1 : x < y
      · simp only [h1, if_true]
        constructor
        · intro h; cases h
        · intro h
          injection h with h2 _
          omega
      · by_cases h2 : y < x
        · simp only [h1, h2, if_false, if_true]
          constructor
          · intro h; cases h
          · intro h
            injection h with h3 _
            omega
        · have hxy : x = y := by omega
          subst hxy
          simp only [h1, if_false, ih, List.cons.injEq, true_and]

theorem strcmp_eq_zero (a b : CStr) : strcmp a b = 0 ↔ cstr a = cstr b :=
  strcmp_bytes_eq_zero _ _

theorem shell_loop_iff (l : List CStr) (shell : CStr) :
    shell_loop l shell = true ↔ ∃ s ∈ l, cstr s = cstr shell := by
  induction l with
  | nil => simp [shell_loop]
  | cons a l ih =>
    unfold shell_loop
    by_cases h : cstr a = cstr shell
    · simp [strcmp_eq_zero, h]
    · simp [strcmp_eq_zero, h, ih]

/-- C5: `get_shell_override` equals the decision list of the specification (domain
override, global override, defaults for a record without shell, the record's shell when
no list is configured, veto before `/etc/shells`, then `/etc/shells`, then the allowed
list, else `NOLOGIN_SHELL`), and `fill_pwent` encodes a NULL shell as the empty string. -/
theorem C5_get_shell_override_decision_list (x : Ext) (msg : ldb_message) (nctx : nss_ctx)
    (dom : sss_domain_info) :
    get_shell_override x msg nctx dom = get_shell_override_spec x msg nctx dom ∧
    pw_shell_field none = [] := by
  refine ⟨?_, rfl⟩
  unfold get_shell_override get_shell_override_spec talloc_strdup shell_listed
  cases h1 : dom.override_shell <;> cases h2 : nctx.override_shell <;>
    cases h3 : msg.loginShell <;> cases h4 : dom.default_shell <;>
    cases h5 : nctx.default_shell <;> cases h6 : nctx.allowed_shells <;>
    cases h7 : nctx.vetoed_shells <;> cases h8 : nctx.etc_shells <;>
    simp [shell_loop_iff]

/-! ## The passwd encoder: the body written for complete records -/

theorem le32_length (v : Nat) : (le32 v).length = 4 := rfl

theorem junk_bytes_length (x : Ext) (off n : Nat) : (junk_bytes x off n).length = n := by
  simp [junk_bytes]

theorem write_at_at (P J bs : List Nat) (n : Nat) (h : n = P.length) :
    write_at (P ++ J) n bs = (P ++ bs) ++ J.drop bs.length := by
  subst h
  simp [write_at]

theorem cstr_sized_append (a r : List Nat) : cstr ((cstr a ++ [0]) ++ r) = cstr a := by
  unfold cstr
  induction a with
  | nil => simp
  | cons b a ih =>
    by_cases hb : b = 0
    · subst hb; simp
    · simp [List.takeWhile_cons, hb]
      simpa using ih

theorem sized_bytes_length (s : CStr) : (sized_bytes (to_sized_string s)).length = strlen s + 1 := by
  simp [sized_bytes, to_sized_string, strlen]

theorem fill_pwent_entry_plain (x : Ext) (dom : sss_domain_info) (nctx : nss_ctx)
    (m : Bool) (dl uid gid : Nat) (n g h sh pf : CStr) (B J : List Nat) (s : pw_state)
    (hB : s.rp = B.length)
    (hJ : J.length = 8 + (strlen n + 1) + (strlen g + 1) + (strlen h + 1) + (strlen sh + 1)
      + (strlen pf + 1)) :
    fill_pwent_entry x dom nctx m false dl uid gid (to_sized_string n) (to_sized_string g)
      (to_sized_string h) (to_sized_string sh) (to_sized_string pf) (B ++ J) s =
    Sum.inr { s with
      body := B ++ pw_entry uid gid n pf g h sh
      rp := s.rp + (pw_entry uid gid n pf g h sh).length
      num := s.num + 1
      mc := if m && nctx.pwd_mc_ctx then
              s.mc ++ [{ fullname := cstr n, pwfield := cstr pf, uid := uid, gid := gid,
                         gecos := cstr g, homedir := cstr h, shell := cstr sh }]
            else s.mc } := by
  unfold fill_pwent_entry
  simp only [Bool.false_eq_true, if_false]
  rw [write_at_at B J (le32 uid) s.rp hB]
  rw [write_at_at (B ++ le32 uid) _ (le32 gid) (s.rp + 4) (by simp [hB, le32_length])]
  rw [write_at_at (B ++ le32 uid ++ le32 gid) _ (sized_bytes (to_sized_string n)) (s.rp + 4 + 4)
    (by simp [hB, le32_length])]
  simp only [to_sized_string, sized_bytes, strlen]
  have e1 : ∀ X : List Nat, List.drop (s.rp + 4 + 4)
      (B ++ le32 uid ++ le32 gid ++ (cstr n ++ [0]) ++ X)
      = (cstr n ++ [0]) ++ X := by
    intro X
    rw [List.append_assoc (B ++ le32 uid ++ le32 gid)]
    have hlen : s.rp + 4 + 4 = (B ++ le32 uid ++ le32 gid).length := by
      simp [hB, le32_length]
    rw [hlen, List.drop_left]
  simp only [e1, cstr_sized_append]
  rw [write_at_at (B ++ le32 uid ++ le32 gid ++ (cstr n ++ [0])) _ (cstr pf ++ [0]) _
    (by simp [hB, le32_length] ; omega)]
  rw [write_at_at (B ++ le32 uid ++ le32 gid ++ (cstr n ++ [0]) ++ (cstr pf ++ [0])) _
    (cstr g ++ [0]) _ (by simp [hB, le32_length] ; omega)]
  rw [write_at_at (B ++ le32 uid ++ le32 gid ++ (cstr n ++ [0]) ++ (cstr pf ++ [0])
      ++ (cstr g ++ [0])) _ (cstr h ++ [0]) _ (by simp [hB, le32_length] ; omega)]
  rw [write_at_at (B ++ le32 uid ++ le32 gid ++ (cstr n ++ [0]) ++ (cstr pf ++ [0])
      ++ (cstr g ++ [0]) ++ (cstr h ++ [0])) _ (cstr sh ++ [0]) _
    (by simp [hB, le32_length] ; omega)]
  have hnil : ∀ k, J.length ≤ k → List.drop k J = [] := fun k hk => List.drop_eq_nil_of_le hk
  simp only [List.drop_drop]
  rw [hnil _ (by simp [hJ, strlen, le32_length] ; omega)]
  simp [pw_entry, le32_length]
  omega
theorem header_write (H E : List Nat) (hH : H.length = 8) (a b : Nat) :
    write_at (write_at (H ++ E) 0 (le32 a)) 4 (le32 b) = le32 a ++ le32 b ++ E := by
  have h0 := write_at_at [] (H ++ E) (le32 a) 0 rfl
  simp only [List.nil_append] at h0
  rw [h0]
  rw [write_at_at (le32 a) _ (le32 b) 4 rfl]
  simp only [List.drop_drop, le32_length]
  rw [List.drop_left' (by simpa using hH)]

theorem fill_pwent_loop_step (x : Ext) (dom : sss_domain_info) (nctx : nss_ctx)
    (nc : sss_nc_ctx) (now : Nat) (f m : Bool) (dl : Nat) (msg : ldb_message)
    (rest : List ldb_message) (i : Nat) (s : pw_state)
    (hc : pw_complete x dom nctx nc now f msg) (hg : ∀ l n, x.grow_ret l n = EOK)
    (hst : (s.packet_initialized = true ∧ s.rp = s.body.length) ∨
           (s.packet_initialized = false ∧ s.body = [] ∧ s.rp = 8)) :
    fill_pwent_loop x dom nctx nc now f m false dl (msg :: rest) i s =
    fill_pwent_loop x dom nctx nc now f m false dl rest (i + 1)
      { body := (if s.packet_initialized then s.body else junk_bytes x 0 8)
                  ++ pw_entry_of x dom nctx msg
        rp := (if s.packet_initialized then s.body else junk_bytes x 0 8).length
                  + (pw_entry_of x dom nctx msg).length
        num := s.num + 1
        packet_initialized := true
        delim := s.delim
        mc := if m && nctx.pwd_mc_ctx then s.mc ++ [pw_mc_of x dom nctx msg] else s.mc } := by
  obtain ⟨n, hn, hu, hgid, hf, hcn⟩ := hc
  obtain ⟨cn, hcn⟩ := Option.isSome_iff_exists.mp hcn
  have hf2 : (f && sss_ncache_check_user nc now nctx.neg_timeout dom n == EEXIST) = false := by
    cases f with
    | false => rfl
    | true => simpa using hf rfl
  have hu2 : (ldb_msg_find_attr_as_uint64 msg.uidNumber 0 % 2 ^ 32 == 0) = false := by
    simpa using hu
  have hg2 : (get_gid_override msg dom == 0) = false := by simpa using hgid
  rw [fill_pwent_loop]
  simp only [hn, hu2, hg2, hf2, hcn, sss_packet_grow, hg, bne_self_eq_false,
    Bool.or_self, Bool.false_eq_true, if_false]
  rcases hst with ⟨h1, h2⟩ | ⟨h1, h2, h3⟩
  · simp only [h1, if_true]
    rw [fill_pwent_entry_plain x dom nctx m dl _ _ cn _ _ _ _ s.body _ _ (by simpa using h2)
      (by simp [junk_bytes_length, to_sized_string])]
    simp [pw_entry_of, pw_mc_of, hn, hcn, h1, h2, to_sized_string]
  · simp only [h1, h2, Bool.false_eq_true, if_false, List.nil_append, List.length_nil]
    rw [fill_pwent_entry_plain x dom nctx m dl _ _ cn _ _ _ _ (junk_bytes x 0 8) _ _
      (by simp [junk_bytes_length, h3]) (by simp [junk_bytes_length, to_sized_string])]
    simp [pw_entry_of, pw_mc_of, hn, hcn, h1, h2, h3, junk_bytes_length, to_sized_string]

theorem fill_pwent_loop_all (x : Ext) (dom : sss_domain_info) (nctx : nss_ctx)
    (nc : sss_nc_ctx) (now : Nat) (f m : Bool) (dl : Nat)
    (hg : ∀ l n, x.grow_ret l n = EOK) :
    ∀ (msgs : List ldb_message) (i : Nat) (s : pw_state),
      (∀ msg ∈ msgs, pw_complete x dom nctx nc now f msg) →
      s.packet_initialized = true → s.rp = s.body.length →
      fill_pwent_loop x dom nctx nc now f m false dl msgs i s =
        pw_exit.done (i + msgs.length)
          { body := s.body ++ msgs.flatMap (pw_entry_of x dom nctx)
            rp := s.rp + (msgs.flatMap (pw_entry_of x dom nctx)).length
            num := s.num + msgs.length
            packet_initialized := true
            delim := s.delim
            mc := if m && nctx.pwd_mc_ctx then s.mc ++ msgs.map (pw_mc_of x dom nctx)
                  else s.mc } := by
  intro msgs
  induction msgs with
  | nil =>
    intro i s _ h1 h2
    cases s
    simp_all [fill_pwent_loop]
  | cons msg rest ih =>
    intro i s hall h1 h2
    rw [fill_pwent_loop_step x dom nctx nc now f m dl msg rest i s
      (hall msg (List.mem_cons_self _ _)) hg (Or.inl ⟨h1, h2⟩)]
    rw [ih _ _ (fun a ha => hall a (List.mem_cons_of_mem _ ha)) rfl (by simp [h1])]
    simp only [h1, if_true, List.flatMap_cons, List.length_cons, List.length_append,
      List.map_cons, List.append_assoc, h2]
    congr 1
    · omega
    · congr 1
      · omega
      · omega
      · split <;> simp

theorem fill_pwent_plain (x : Ext) (dom : sss_domain_info) (nctx : nss_ctx)
    (nc : sss_nc_ctx) (now : Nat) (f m : Bool) (msg : ldb_message) (rest : List ldb_message)
    (hadd : (!dom.parent && dom.fqnames) = false)
    (hg : ∀ l n, x.grow_ret l n = EOK)
    (hall : ∀ a ∈ msg :: rest, pw_complete x dom nctx nc now f a) :
    fill_pwent x [] dom nctx nc now f m (msg :: rest) =
      { ret := EOK
        count := (msg :: rest).length
        body := le32 (msg :: rest).length ++ le32 0
                  ++ (msg :: rest).flatMap (pw_entry_of x dom nctx)
        mc := if m && nctx.pwd_mc_ctx then (msg :: rest).map (pw_mc_of x dom nctx) else [] } := by
  unfold fill_pwent
  simp only [hadd, Bool.false_eq_true, if_false]
  rw [fill_pwent_loop_step x dom nctx nc now f m 0 msg rest 0 _
      (hall msg (List.mem_cons_self _ _)) hg (Or.inr ⟨rfl, rfl, rfl⟩)]
  rw [fill_pwent_loop_all x dom nctx nc now f m 0 hg rest _ _
      (fun a ha => hall a (List.mem_cons_of_mem _ ha)) rfl (by simp)]
  simp only [Bool.false_eq_true, if_false, Bool.not_true, List.append_assoc]
  rw [header_write _ _ (junk_bytes_length x 0 8)]
  simp only [List.flatMap_cons, List.length_cons, List.map_cons, List.nil_append, Nat.zero_add,
    List.append_assoc]
  congr 1
  · omega
  · congr 2
    omega
  · split <;> simp

/-! ## The initgroups encoder -/

theorem fill_initgr_loop_all :
    ∀ (groups : List ldb_message) (s : initgr_state) (P R : List Nat),
      (∀ g ∈ groups, msg_gid g ≠ 0) → s.body = P ++ R → P.length = 4 * (2 + s.bindex) →
      fill_initgr_loop groups s = some
        { body := P ++ (groups.map msg_gid).flatMap le32 ++ R.drop (4 * groups.length)
          bindex := s.bindex + groups.length
          skipped := s.skipped
          orig_primary_gid :=
            if s.orig_primary_gid ∈ groups.map msg_gid then 0 else s.orig_primary_gid } := by
  intro groups
  induction groups with
  | nil =>
    intro s P R _ hb _
    cases s
    simp_all [fill_initgr_loop]
  | cons g rest ih =>
    intro s P R hall hb hP
    have hg : msg_gid g ≠ 0 := hall g (List.mem_cons_self _ _)
    have hg2 : (msg_gid g == 0) = false := by simpa using hg
    have hrest : ∀ a ∈ rest, msg_gid a ≠ 0 := fun a ha => hall a (List.mem_cons_of_mem _ ha)
    rw [fill_initgr_loop]
    simp only [hg2, Bool.false_eq_true, if_false, set_word, hb]
    rw [write_at_at P R (le32 (msg_gid g)) _ hP.symm]
    rw [ih _ (P ++ le32 (msg_gid g)) (R.drop (le32 (msg_gid g)).length) hrest rfl
      (by simp [le32_length, hP]; omega)]
    simp only [List.map_cons, List.flatMap_cons, List.length_cons, List.append_assoc,
      List.drop_drop, le32_length, List.mem_cons]
    congr 1
    congr 1
    · have h4 : 4 + 4 * rest.length = 4 * (rest.length + 1) := by omega
      rw [h4]
    · omega
    · by_cases h1 : s.orig_primary_gid = msg_gid g
      · have h0 : (0 : Nat) ∉ rest.map msg_gid := by
          intro h
          obtain ⟨a, ha, ha2⟩ := List.mem_map.mp h
          exact hrest a ha ha2
        simp [h1, h0]
      · simp [h1]

theorem flatMap_le32_length (l : List Nat) : (l.flatMap le32).length = 4 * l.length := by
  induction l with
  | nil => rfl
  | cons a l ih => simp [List.flatMap_cons, le32_length, ih]; omega

theorem header_set_word (H E : List Nat) (hH : H.length = 8) (a b : Nat) :
    set_word (set_word (H ++ E) 0 a) 1 b = le32 a ++ le32 b ++ E := by
  simp only [set_word, Nat.mul_zero, Nat.mul_one]
  exact header_write H E hH a b

theorem fill_initgr_body (x : Ext) (user : ldb_message) (groups : List ldb_message)
    (hg : ∀ l n, x.grow_ret l n = EOK) (hall : ∀ g ∈ groups, msg_gid g ≠ 0) :
    ∃ T, fill_initgr x [] (user :: groups) =
        (EOK, initgr_body (initgr_gids user groups) ++ T) ∧
      T.length = 4 * (groups.length + 1 - (initgr_gids user groups).length) := by
  have hj : junk_bytes x 0 ((2 + (groups.length + 1)) * 4) =
      (junk_bytes x 0 ((2 + (groups.length + 1)) * 4)).take 8 ++
      (junk_bytes x 0 ((2 + (groups.length + 1)) * 4)).drop 8 := (List.take_append_drop _ _).symm
  generalize hJ : junk_bytes x 0 ((2 + (groups.length + 1)) * 4) = J at hj
  have hJl : J.length = (2 + (groups.length + 1)) * 4 := by rw [← hJ, junk_bytes_length]
  unfold fill_initgr
  simp only [sss_packet_grow, hg, bne_self_eq_false, Bool.false_eq_true, if_false,
    List.length_nil, List.nil_append, List.length_cons, hJ]
  rw [fill_initgr_loop_all groups _ (J.take 8) (J.drop 8) hall hj (by simp [hJl]; omega)]
  simp only []
  have h0 : (0 : Nat) ∉ groups.map msg_gid := by
    intro h
    obtain ⟨a, ha, ha2⟩ := List.mem_map.mp h
    exact hall a ha ha2
  have hGl : ((groups.map msg_gid).flatMap le32).length = 4 * groups.length := by
    rw [flatMap_le32_length, List.length_map]
  have hH : (J.take 8).length = 8 := by simp [hJl]; omega
  unfold initgr_gids initgr_body
  simp only []
  generalize ldb_msg_find_attr_as_uint64 user.origPrimaryGroupGidNumber 0 % 2 ^ 32 = o0
  by_cases c : o0 ≠ 0 ∧ o0 ≠ msg_gid user ∧ o0 ∉ groups.map msg_gid
  · obtain ⟨c1, c2, c3⟩ := c
    simp only [c1, c2, c3, bne_iff_ne, ne_eq, not_false_eq_true, if_true, beq_iff_eq, if_false,
      and_self]
    refine ⟨List.drop 4 (List.drop (4 * groups.length) (List.drop 8 J)), ?_, ?_⟩
    · simp only [set_word]
      rw [write_at_at (J.take 8 ++ (groups.map msg_gid).flatMap le32) _ (le32 o0) _
        (by simp [hGl, hH]; omega)]
      simp only [List.append_assoc]
      rw [header_write _ _ hH]
      simp [List.flatMap_append, le32_length]
    · simp [hJl]; omega
  · rw [if_neg c]
    have fin : ∃ T, (EOK, set_word (set_word (List.take 8 J ++
          (List.map msg_gid groups).flatMap le32 ++
          List.drop (4 * groups.length) (List.drop 8 J)) 0 (groups.length + 1 - 1 - 0)) 1 0) =
        (EOK, le32 (List.map msg_gid groups ++ []).length ++ le32 0 ++
          (List.map msg_gid groups ++ []).flatMap le32 ++ T) ∧
        T.length = 4 * (groups.length + 1 - (List.map msg_gid groups ++ []).length) := by
      refine ⟨List.drop (4 * groups.length) (List.drop 8 J), ?_, ?_⟩
      · simp only [List.append_assoc]
        rw [header_set_word _ _ hH]
        simp
      · simp [hJl]; omega
    by_cases c1 : o0 = 0
    · simpa [c1, h0] using fin
    · by_cases c2 : o0 = msg_gid user
      · simpa [c1, c2, h0] using fin
      · have c3 : o0 ∈ groups.map msg_gid := by
          by_contra h3
          exact c ⟨c1, c2, h3⟩
        simpa [c1, c2, c3] using fin

/-! ## Claims on the passwd encoder -/

/-- C2 (counterexample): for the empty list of records, all of which are trivially
complete, `fill_pwent` does not succeed: it returns `ENOENT` and leaves the body empty
instead of writing a count of 0 and the reserved word. -/
theorem C2_counterexample_empty_list :
    (∀ a ∈ ([] : List ldb_message), pw_complete ex_ext ex_dom {} [] 0 false a) ∧
    (fill_pwent ex_ext [] ex_dom {} [] 0 false false []).ret = ENOENT ∧
    (fill_pwent ex_ext [] ex_dom {} [] 0 false false []).body ≠ le32 0 ++ le32 0 := by
  refine ⟨by simp, by decide, by decide⟩

/-- C2 (amended): for a domain that does not add the domain to names and a non-empty
list of `n` complete, unfiltered records, `fill_pwent` on a fresh packet succeeds (given
that the packet can grow), sets `*count` to `n` and produces exactly
`n | 0 | entries` with the entries in input order, each
`uid | gid | name\0 | pwfield\0 | gecos\0 | homedir\0 | shell\0`; the length is 8 plus
the sum of the entry sizes, the gid is the domain's `override_gid` when set and the
record's otherwise, and a missing gecos is the empty string. -/
theorem C2_fill_pwent_body (x : Ext) (dom : sss_domain_info) (nctx : nss_ctx)
    (nc : sss_nc_ctx) (now : Nat) (f m : Bool) (msgs : List ldb_message)
    (hadd : (!dom.parent && dom.fqnames) = false)
    (hg : ∀ l n, x.grow_ret l n = EOK)
    (hne : msgs ≠ [])
    (hall : ∀ a ∈ msgs, pw_complete x dom nctx nc now f a) :
    (fill_pwent x [] dom nctx nc now f m msgs).ret = EOK ∧
    (fill_pwent x [] dom nctx nc now f m msgs).count = msgs.length ∧
    (fill_pwent x [] dom nctx nc now f m msgs).body =
      le32 msgs.length ++ le32 0 ++ msgs.flatMap (pw_entry_of x dom nctx) ∧
    (fill_pwent x [] dom nctx nc now f m msgs).body.length =
      8 + (msgs.map (fun a => (pw_entry_of x dom nctx a).length)).sum ∧
    (∀ a : ldb_message, get_gid_override a dom =
      (if dom.override_gid ≠ 0 then dom.override_gid else a.gidNumber.getD 0) % 2 ^ 32) ∧
    pw_gecos_field none = [] := by
  cases msgs with
  | nil => exact absurd rfl hne
  | cons msg rest =>
    rw [fill_pwent_plain x dom nctx nc now f m msg rest hadd hg hall]
    refine ⟨rfl, rfl, rfl, ?_, ?_, rfl⟩
    · simp only [List.length_append, le32_length, List.length_flatMap]
      rfl
    · intro a
      unfold get_gid_override ldb_msg_find_attr_as_uint64
      by_cases h : dom.override_gid = 0
      · simp only [h, bne_self_eq_false, Bool.false_eq_true, if_false, ne_eq, not_true_eq_false]
        exact Nat.mod_mod_of_dvd _ (by norm_num)
      · simp [h]

/-- Witness of C2: two records of the domain `EX`. -/
theorem C2_fill_pwent_body_witness :
    (fill_pwent ex_ext [] ex_dom {} [] 0 false false
      [ex_user, { ex_user with gecos := some [65] }]).body =
      le32 2 ++ le32 0 ++ [ex_user, { ex_user with gecos := some [65] }].flatMap
        (pw_entry_of ex_ext ex_dom {}) :=
  (C2_fill_pwent_body ex_ext ex_dom {} [] 0 false false
    [ex_user, { ex_user with gecos := some [65] }] rfl (fun _ _ => rfl) (by simp)
    (by
      intro a ha
      simp only [List.mem_cons, List.mem_singleton, List.not_mem_nil, or_false] at ha
      rcases ha with rfl | rfl <;> exact ⟨[97], rfl, by decide, by decide, by simp, rfl⟩)).2.2.1

/-- C6: `get_homedir_override` expands the override template whenever the domain or the
responder sets one, whatever homedir the record carries, the domain's before the global
one; without an override a present, non-empty record homedir is returned unchanged;
without an override and with a missing or empty record homedir the fallback template is
expanded, the domain's before the global one. -/
theorem C6_get_homedir_override (x : Ext) (msg : ldb_message) (nctx : nss_ctx)
    (dom : sss_domain_info) (name : CStr) (uid : Nat) :
    (∀ t, dom.override_homedir = some t →
      get_homedir_override x msg nctx dom name uid =
        x.expand_homedir_template t name uid msg.homeDirectory dom.name) ∧
    (∀ t, dom.override_homedir = none → nctx.override_homedir = some t →
      get_homedir_override x msg nctx dom name uid =
        x.expand_homedir_template t name uid msg.homeDirectory dom.name) ∧
    (∀ h, dom.override_homedir = none → nctx.override_homedir = none →
      msg.homeDirectory = some h → strlen h ≠ 0 →
      get_homedir_override x msg nctx dom name uid = some h) ∧
    (∀ t, dom.override_homedir = none → nctx.override_homedir = none →
      homedir_missing msg.homeDirectory = true → dom.fallback_homedir = some t →
      get_homedir_override x msg nctx dom name uid =
        x.expand_homedir_template t name uid msg.homeDirectory dom.name) ∧
    (∀ t, dom.override_homedir = none → nctx.override_homedir = none →
      homedir_missing msg.homeDirectory = true → dom.fallback_homedir = none →
      nctx.fallback_homedir = some t →
      get_homedir_override x msg nctx dom name uid =
        x.expand_homedir_template t name uid msg.homeDirectory dom.name) := by
  refine ⟨?_, ?_, ?_, ?_, ?_⟩
  · intro t h1
    simp [get_homedir_override, h1]
  · intro t h1 h2
    simp [get_homedir_override, h1, h2]
  · intro h h1 h2 h3 h4
    simp [get_homedir_override, h1, h2, h3, homedir_missing, h4, talloc_strdup]
  · intro t h1 h2 h3 h4
    simp [get_homedir_override, h1, h2, h3, h4]
  · intro t h1 h2 h3 h4 h5
    simp [get_homedir_override, h1, h2, h3, h4, h5]

/-- Witness of C6: a record with homedir `/h` and a global fallback template keeps `/h`;
the same record under a domain override gets the expanded template. -/
theorem C6_get_homedir_override_witness :
    get_homedir_override ex_ext { ex_user with homeDirectory := some [47, 104] }
      { fallback_homedir := some [47, 102] } ex_dom [97] 1000 = some [47, 104] ∧
    get_homedir_override ex_ext { ex_user with homeDirectory := some [47, 104] }
      {} { ex_dom with override_homedir := some [47, 111] } [97] 1000 = some [47, 111] :=
  ⟨(C6_get_homedir_override ex_ext { ex_user with homeDirectory := some [47, 104] }
      { fallback_homedir := some [47, 102] } ex_dom [97] 1000).2.2.1 [47, 104] rfl rfl rfl
      (by decide),
   (C6_get_homedir_override ex_ext { ex_user with homeDirectory := some [47, 104] }
      {} { ex_dom with override_homedir := some [47, 111] } [97] 1000).1 [47, 111] rfl⟩

/-- C7 (counterexample): the user `a` has no homedir attribute and neither an override
nor a fallback template is configured, yet the homedir field of the reply is `"/"`
(byte 47), not the empty string. -/
theorem C7_counterexample_homedir_slash :
    ex_user.homeDirectory = none ∧
    (fill_pwent ex_ext [] ex_dom {} [] 0 false false [ex_user]).body =
      le32 1 ++ le32 0 ++ pw_entry 1000 1000 [97] [42] [] [47] [] ∧
    (fill_pwent ex_ext [] ex_dom {} [] 0 false false [ex_user]).body ≠
      le32 1 ++ le32 0 ++ pw_entry 1000 1000 [97] [42] [] [] [] := by
  refine ⟨rfl, by decide, by decide⟩

/-! ## Claims on the initgroups encoder -/

theorem initgr_body_length (l : List Nat) : (initgr_body l).length = 8 + 4 * l.length := by
  unfold initgr_body
  rw [List.length_append, List.length_append, flatMap_le32_length, le32_length, le32_length]

/-- C8: for an initgroups result whose group records all have a non-zero gid,
`fill_initgr` on a fresh packet succeeds (given that the packet can grow) and the reply
starts with `count | 0 | gids`, where the gids are those of the group records in result
order, followed by the user's original primary GID exactly when that is non-zero, differs
from the user's gid and is none of the listed gids; the count word is the number of gids
listed, and an appended GID is none of the listed ones. -/
theorem C8_fill_initgr_gid_list (x : Ext) (user : ldb_message) (groups : List ldb_message)
    (hg : ∀ l n, x.grow_ret l n = EOK) (hall : ∀ g ∈ groups, msg_gid g ≠ 0) :
    ∃ body, fill_initgr x [] (user :: groups) = (EOK, body) ∧
      body.take (8 + 4 * (initgr_gids user groups).length) =
        initgr_body (initgr_gids user groups) ∧
      (∀ o, initgr_gids user groups = groups.map msg_gid ++ [o] →
        o ∉ groups.map msg_gid ∧ o ≠ 0 ∧ o ≠ msg_gid user) := by
  obtain ⟨T, h1, _⟩ := fill_initgr_body x user groups hg hall
  refine ⟨_, h1, ?_, ?_⟩
  · rw [← initgr_body_length, List.take_left]
  · intro o ho
    unfold initgr_gids at ho
    simp only [] at ho
    split at ho
    · rename_i hc
      have ho2 := List.append_cancel_left ho
      simp only [List.cons.injEq, and_true] at ho2
      subst ho2
      exact ⟨hc.2.2, hc.1, hc.2.1⟩
    · have ho2 := List.append_cancel_left ho
      simp at ho2

/-- Witness of C8: the user with original primary GID 7 and the groups 5 and 6. -/
theorem C8_fill_initgr_gid_list_witness :
    ∃ body, fill_initgr ex_ext []
        ({ ex_user with origPrimaryGroupGidNumber := some 7 } :: [ex_group 5, ex_group 6]) =
          (EOK, body) ∧
      body.take (8 + 4 * (initgr_gids { ex_user with origPrimaryGroupGidNumber := some 7 }
        [ex_group 5, ex_group 6]).length) =
        initgr_body (initgr_gids { ex_user with origPrimaryGroupGidNumber := some 7 }
          [ex_group 5, ex_group 6]) ∧
      (∀ o, initgr_gids { ex_user with origPrimaryGroupGidNumber := some 7 }
          [ex_group 5, ex_group 6] = [ex_group 5, ex_group 6].map msg_gid ++ [o] →
        o ∉ [ex_group 5, ex_group 6].map msg_gid ∧ o ≠ 0 ∧
          o ≠ msg_gid { ex_user with origPrimaryGroupGidNumber := some 7 }) :=
  C8_fill_initgr_gid_list ex_ext { ex_user with origPrimaryGroupGidNumber := some 7 }
    [ex_group 5, ex_group 6] (fun _ _ => rfl) (by decide)

/-- C9 (the code at the failing inputs): for a result that holds only the user record
the count word is 0 but the body has 12 bytes, not 8; with one skipped non-POSIX group
the count word is 0 and the body has 16 bytes. -/
theorem C9_initgr_body_longer_than_count :
    (fill_initgr ex_ext [] [ex_user]).1 = EOK ∧
    (fill_initgr ex_ext [] [ex_user]).2.take 4 = le32 0 ∧
    (fill_initgr ex_ext [] [ex_user]).2.length = 12 ∧
    (fill_initgr ex_ext [] [ex_user, { isPosix := some [70, 65, 76, 83, 69] }]).1 = EOK ∧
    (fill_initgr ex_ext [] [ex_user, { isPosix := some [70, 65, 76, 83, 69] }]).2.take 4
      = le32 0 ∧
    (fill_initgr ex_ext [] [ex_user, { isPosix := some [70, 65, 76, 83, 69] }]).2.length
      = 16 := by
  decide

/-- C10 (counterexample): the user has the primary GID 1000, which neither group record
carries, and the gid list of the reply is `5, 6`: it does not contain 1000. -/
theorem C10_counterexample_primary_gid_absent :
    msg_gid ex_user = 1000 ∧ 1000 ∉ [ex_group 5, ex_group 6].map msg_gid ∧
    fill_initgr ex_ext [] [ex_user, ex_group 5, ex_group 6] =
      (EOK, initgr_body [5, 6] ++ [255, 255, 255, 255]) ∧
    1000 ∉ [5, 6] := by
  decide

/-- C10 (amended): for an initgroups result whose user record carries a non-zero primary
GID (gidNumber) that none of the group records (all with non-zero gid) carries, the gid
list written by `fill_initgr` does not contain that primary GID: the list holds the gids
of the group records and, after them, the original primary GID of the user when that is
non-zero, differs from the primary GID and is none of the listed gids. -/
theorem C10_primary_gid_not_added (x : Ext) (user : ldb_message) (groups : List ldb_message)
    (hg : ∀ l n, x.grow_ret l n = EOK) (hall : ∀ g ∈ groups, msg_gid g ≠ 0)
    (_hu : msg_gid user ≠ 0) (hn : msg_gid user ∉ groups.map msg_gid) :
    ∃ body, fill_initgr x [] (user :: groups) = (EOK, body) ∧
      body.take (8 + 4 * (initgr_gids user groups).length) =
        initgr_body (initgr_gids user groups) ∧
      msg_gid user ∉ initgr_gids user groups := by
  obtain ⟨T, h1, _⟩ := fill_initgr_body x user groups hg hall
  refine ⟨_, h1, ?_, ?_⟩
  · rw [← initgr_body_length, List.take_left]
  · unfold initgr_gids
    simp only []
    split
    · rename_i hc
      simp only [List.mem_append, List.mem_singleton, not_or]
      exact ⟨hn, fun h => hc.2.1 h.symm⟩
    · simpa using hn

/-- Witness of C10: the user with primary GID 1000 and the groups 5 and 6. -/
theorem C10_primary_gid_not_added_witness :
    ∃ body, fill_initgr ex_ext [] (ex_user :: [ex_group 5, ex_group 6]) = (EOK, body) ∧
      body.take (8 + 4 * (initgr_gids ex_user [ex_group 5, ex_group 6]).length) =
        initgr_body (initgr_gids ex_user [ex_group 5, ex_group 6]) ∧
      msg_gid ex_user ∉ initgr_gids ex_user [ex_group 5, ex_group 6] :=
  C10_primary_gid_not_added ex_ext ex_user [ex_group 5, ex_group 6] (fun _ _ => rfl)
    (by decide) (by decide) (by decide)

/-! ## The searches: persistent-cache lookups and the negative cache -/

theorem check_cache_sysdb_log (e : Env) (dctx : nss_dom_ctx) (nctx : nss_ctx) (st : resp_state)
    (res : List ldb_message) (t : sss_dp_type) (n : Option CStr) (i : Nat) :
    (check_cache e dctx nctx st res t n i).st.sysdb_log = st.sysdb_log := by
  unfold check_cache check_cache_error
  simp only []
  repeat' split
  all_goals rfl

theorem getbyid_loop_log (k : id_kind) (hk : ∀ d i, (k.query d i).dom = d) (e : Env)
    (nctx : nss_ctx) (cmdctx : nss_cmd_ctx) :
    ∀ (fuel : Nat) (dom : List sss_domain_info) (dctx : nss_dom_ctx) (st : resp_state),
      dom.length < fuel →
      ∃ r, getbyid_loop k e nctx cmdctx fuel dom dctx st = some r ∧
        (∀ q ∈ st.sysdb_log, q ∈ r.st.sysdb_log) ∧
        (∀ q ∈ r.st.sysdb_log,
          q ∈ st.sysdb_log ∨ id_out_of_range q.dom cmdctx.id = false) ∧
        (∀ d rest, dom = d :: rest → id_out_of_range d cmdctx.id = false → d.sysdb = true →
          k.query d cmdctx.id ∈ r.st.sysdb_log) := by
  intro fuel
  induction fuel with
  | zero => intro dom dctx st h; omega
  | succ n ih =>
    intro dom dctx st hlen
    cases dom with
    | nil =>
      refine ⟨_, rfl, fun q hq => hq, fun q hq => Or.inl hq, ?_⟩
      intro d rest h; cases h
    | cons d rest =>
      have hrest : rest.length < n := by simp at hlen; omega
      rw [getbyid_loop]
      by_cases hout : id_out_of_range d cmdctx.id = true
      · simp only [hout, if_true, get_next_domain]
        by_cases hcn : cmdctx.check_next = true
        · simp only [hcn, if_true]
          obtain ⟨r, h1, h2, h3, _⟩ := ih rest dctx st hrest
          refine ⟨r, h1, h2, h3, ?_⟩
          intro d' rest' hd hin
          cases hd
          rw [hout] at hin; cases hin
        · simp only [hcn, if_false]
          refine ⟨_, rfl, fun q hq => hq, fun q hq => Or.inl hq, ?_⟩
          intro d' rest' hd hin
          cases hd
          rw [hout] at hin; cases hin
      · have hin : id_out_of_range d cmdctx.id = false := by simpa using hout
        simp only [hin, Bool.false_eq_true, if_false]
        by_cases hs : d.sysdb = true
        · simp only [hs, Bool.not_true, Bool.false_eq_true, if_false]
          have hq0 : ∀ q ∈ st.sysdb_log ++ [k.query d cmdctx.id],
              q ∈ st.sysdb_log ∨ id_out_of_range q.dom cmdctx.id = false := by
            intro q hq
            rcases List.mem_append.mp hq with h | h
            · exact Or.inl h
            · rw [List.mem_singleton.mp h, hk]; exact Or.inr hin
          have close : ∀ r : search_out,
              r.st.sysdb_log = st.sysdb_log ++ [k.query d cmdctx.id] →
              (∀ q ∈ st.sysdb_log, q ∈ r.st.sysdb_log) ∧
              (∀ q ∈ r.st.sysdb_log,
                q ∈ st.sysdb_log ∨ id_out_of_range q.dom cmdctx.id = false) ∧
              (∀ d' rest', d :: rest = d' :: rest' → id_out_of_range d' cmdctx.id = false →
                d'.sysdb = true → k.query d' cmdctx.id ∈ r.st.sysdb_log) := by
            intro r hr
            rw [hr]
            refine ⟨fun q hq => List.mem_append_left _ hq, hq0, ?_⟩
            intro d' rest' hd _ _
            cases hd
            simp
          have rec_case : ∀ dctx2, ∃ r, getbyid_loop k e nctx cmdctx n rest dctx2
                { st with sysdb_log := st.sysdb_log ++ [k.query d cmdctx.id] } = some r ∧
              (∀ q ∈ st.sysdb_log, q ∈ r.st.sysdb_log) ∧
              (∀ q ∈ r.st.sysdb_log,
                q ∈ st.sysdb_log ∨ id_out_of_range q.dom cmdctx.id = false) ∧
              (∀ d' rest', d :: rest = d' :: rest' → id_out_of_range d' cmdctx.id = false →
                d'.sysdb = true → k.query d' cmdctx.id ∈ r.st.sysdb_log) := by
            intro dctx2
            obtain ⟨r, h1, h2, h3, _⟩ := ih rest dctx2
              { st with sysdb_log := st.sysdb_log ++ [k.query d cmdctx.id] } hrest
            refine ⟨r, h1, ?_, ?_, ?_⟩
            · intro q hq
              exact h2 q (List.mem_append_left _ hq)
            · intro q hq
              rcases h3 q hq with h | h
              · exact hq0 q h
              · exact Or.inr h
            · intro d' rest' hd _ _
              cases hd
              exact h2 _ (by simp)
          cases hl : k.lookup e d cmdctx.id with
          | none => exact ⟨_, rfl, close _ rfl⟩
          | some res =>
            simp only []
            repeat' split
            all_goals first
              | exact ⟨_, rfl, close _ rfl⟩
              | exact ⟨_, rfl, close _ (by simp only [check_cache_sysdb_log])⟩
              | exact rec_case _
        · have hs2 : d.sysdb = false := by simpa using hs
          simp only [hs2, Bool.not_false, if_true]
          refine ⟨_, rfl, fun q hq => hq, fun q hq => Or.inl hq, ?_⟩
          intro d' rest' hd _ hsy
          cases hd
          rw [hs2] at hsy; cases hsy

theorem getsidby_loop_log (e : Env) (nctx : nss_ctx) (cmdctx : nss_cmd_ctx)
    (hcmd : cmdctx.cmd = sss_cli_command.SSS_NSS_GETSIDBYID) :
    ∀ (fuel : Nat) (dom : List sss_domain_info) (dctx : nss_dom_ctx) (st : resp_state),
      dom.length < fuel →
      ∃ r, getsidby_loop e nctx cmdctx fuel dom dctx st = some r ∧
        (∀ q ∈ st.sysdb_log, q ∈ r.2.st.sysdb_log) ∧
        (∀ q ∈ r.2.st.sysdb_log,
          q ∈ st.sysdb_log ∨ id_out_of_range q.dom cmdctx.id = false) ∧
        (∀ d rest, dom = d :: rest → id_out_of_range d cmdctx.id = false → d.sysdb = true →
          sysdb_query.search_user_by_uid d cmdctx.id ∈ r.2.st.sysdb_log) := by
  intro fuel
  induction fuel with
  | zero => intro dom dctx st h; omega
  | succ n ih =>
    intro dom dctx st hlen
    cases dom with
    | nil =>
      refine ⟨_, rfl, fun q hq => hq, fun q hq => Or.inl hq, ?_⟩
      intro d rest h; cases h
    | cons d rest =>
      have hrest : rest.length < n := by simp at hlen; omega
      rw [getsidby_loop]
      simp only [hcmd, beq_self_eq_true, Bool.true_and, Bool.not_true, Bool.false_and,
        Bool.false_eq_true, if_false, if_true]
      by_cases hout : id_out_of_range d cmdctx.id = true
      · simp only [hout, if_true, get_next_domain]
        by_cases hcn : cmdctx.check_next = true
        · simp only [hcn, if_true]
          obtain ⟨r, h1, h2, h3, _⟩ := ih rest dctx st hrest
          refine ⟨r, h1, h2, h3, ?_⟩
          intro d' rest' hd hin
          cases hd
          rw [hout] at hin; cases hin
        · simp only [hcn, if_false]
          refine ⟨_, rfl, fun q hq => hq, fun q hq => Or.inl hq, ?_⟩
          intro d' rest' hd hin
          cases hd
          rw [hout] at hin; cases hin
      · have hin : id_out_of_range d cmdctx.id = false := by simpa using hout
        simp only [hin, Bool.false_eq_true, if_false]
        by_cases hs : d.sysdb = true
        · simp only [hs, Bool.not_true, Bool.false_eq_true, if_false]
          generalize hL : (if (e.sysdb_search_user_by_uid d cmdctx.id == some none) = true then
              [sysdb_query.search_user_by_uid d cmdctx.id,
               sysdb_query.search_group_by_gid d cmdctx.id]
            else [sysdb_query.search_user_by_uid d cmdctx.id]) = L
          have hL1 : sysdb_query.search_user_by_uid d cmdctx.id ∈ L := by
            rw [← hL]; split <;> simp
          have hL2 : ∀ q ∈ L, q.dom = d := by
            rw [← hL]; intro q hq
            split at hq
            · simp only [List.mem_cons, List.mem_singleton, List.not_mem_nil, or_false] at hq
              rcases hq with rfl | rfl <;> rfl
            · simp only [List.mem_singleton] at hq
              rw [hq]; rfl
          have hq0 : ∀ q ∈ st.sysdb_log ++ L,
              q ∈ st.sysdb_log ∨ id_out_of_range q.dom cmdctx.id = false := by
            intro q hq
            rcases List.mem_append.mp hq with h | h
            · exact Or.inl h
            · rw [hL2 q h]; exact Or.inr hin
          have close : ∀ r : Bool × search_out,
              r.2.st.sysdb_log = st.sysdb_log ++ L →
              (∀ q ∈ st.sysdb_log, q ∈ r.2.st.sysdb_log) ∧
              (∀ q ∈ r.2.st.sysdb_log,
                q ∈ st.sysdb_log ∨ id_out_of_range q.dom cmdctx.id = false) ∧
              (∀ d' rest', d :: rest = d' :: rest' → id_out_of_range d' cmdctx.id = false →
                d'.sysdb = true →
                sysdb_query.search_user_by_uid d' cmdctx.id ∈ r.2.st.sysdb_log) := by
            intro r hr
            rw [hr]
            refine ⟨fun q hq => List.mem_append_left _ hq, hq0, ?_⟩
            intro d' rest' hd _ _
            cases hd
            exact List.mem_append_right _ hL1
          have rec_case : ∀ dctx2 nc2, ∃ r, getsidby_loop e nctx cmdctx n rest dctx2
                { st with sysdb_log := st.sysdb_log ++ L, ncache := nc2 } = some r ∧
              (∀ q ∈ st.sysdb_log, q ∈ r.2.st.sysdb_log) ∧
              (∀ q ∈ r.2.st.sysdb_log,
                q ∈ st.sysdb_log ∨ id_out_of_range q.dom cmdctx.id = false) ∧
              (∀ d' rest', d :: rest = d' :: rest' → id_out_of_range d' cmdctx.id = false →
                d'.sysdb = true →
                sysdb_query.search_user_by_uid d' cmdctx.id ∈ r.2.st.sysdb_log) := by
            intro dctx2 nc2
            obtain ⟨r, h1, h2, h3, _⟩ := ih rest dctx2
              { st with sysdb_log := st.sysdb_log ++ L, ncache := nc2 } hrest
            refine ⟨r, h1, ?_, ?_, ?_⟩
            · intro q hq
              exact h2 q (List.mem_append_left _ hq)
            · intro q hq
              rcases h3 q hq with h | h
              · exact hq0 q h
              · exact Or.inr h
            · intro d' rest' hd _ _
              cases hd
              exact h2 _ (List.mem_append_right _ hL1)
          have hne : (sss_cli_command.SSS_NSS_GETSIDBYID ==
              sss_cli_command.SSS_NSS_GETSIDBYNAME) = false := rfl
          simp only [hne, Bool.false_eq_true, if_false, bne_self_eq_false]
          generalize (if (d :: rest != dctx.domain) = true then
              { dctx with check_provider := d.provider } else dctx) = dctx1
          cases getsidby_lookup (e.sysdb_search_user_by_uid d cmdctx.id)
              (e.sysdb_search_group_by_gid d cmdctx.id) with
          | none => exact ⟨_, rfl, close _ rfl⟩
          | some t =>
            obtain ⟨uf, gf, msg⟩ := t
            simp only []
            generalize (if (uf || gf) = true then msg.toList else []) = res
            repeat' split
            all_goals first
              | exact ⟨_, rfl, close _ rfl⟩
              | exact ⟨_, rfl, close _ (by simp only [check_cache_sysdb_log])⟩
              | exact rec_case _ _
        · have hs2 : d.sysdb = false := by simpa using hs
          simp only [hs2, Bool.not_false, if_true]
          refine ⟨_, rfl, fun q hq => hq, fun q hq => Or.inl hq, ?_⟩
          intro d' rest' hd _ hsy
          cases hd
          rw [hs2] at hsy; cases hsy

theorem id_out_of_range_false_iff (d : sss_domain_info) (id : Nat) :
    id_out_of_range d id = false ↔
      (d.id_min = 0 ∨ d.id_min ≤ id) ∧ (d.id_max = 0 ∨ id ≤ d.id_max) := by
  unfold id_out_of_range
  simp only [Bool.or_eq_false_iff, Bool.and_eq_false_iff, bne_eq_false_iff_eq,
    decide_eq_false_iff_not, not_lt, gt_iff_lt]

theorem getbyid_done_sysdb_log (k : id_kind) (e : Env) (c : nss_cmd_ctx) (r : search_out) :
    (getbyid_done k e c r).st.sysdb_log = r.st.sysdb_log := by
  unfold getbyid_done
  split <;> rfl

theorem getsidby_done_sysdb_log (e : Env) (c : nss_cmd_ctx) (r : search_out) :
    (getsidby_done e c r).st.sysdb_log = r.st.sysdb_log := by
  unfold getsidby_done
  simp only []
  repeat' split
  all_goals rfl

theorem getbyid_search_core (k : id_kind) (hk : ∀ d i, (k.query d i).dom = d) (e : Env)
    (nctx : nss_ctx) (c : nss_cmd_ctx) (dctx : nss_dom_ctx) (st : resp_state)
    (d : sss_domain_info) (rest : List sss_domain_info)
    (hd : dctx.domain = d :: rest) (hs : d.sysdb = true)
    (hlog : ∀ q ∈ st.sysdb_log, q.dom ≠ d) :
    (id_out_of_range d c.id = false →
      dom_queried ((getbyid_loop k e nctx c (dctx.domain.length + 1) dctx.domain dctx st).map
        (getbyid_done k e c)) d) ∧
    (id_out_of_range d c.id = true →
      dom_not_queried ((getbyid_loop k e nctx c (dctx.domain.length + 1) dctx.domain dctx st).map
        (getbyid_done k e c)) d) := by
  obtain ⟨r, h1, _, h3, h4⟩ :=
    getbyid_loop_log k hk e nctx c (dctx.domain.length + 1) dctx.domain dctx st (by omega)
  rw [h1]
  constructor
  · intro hin
    refine ⟨_, rfl, k.query d c.id, ?_, hk _ _⟩
    rw [getbyid_done_sysdb_log]
    exact h4 d rest hd hin hs
  · intro hout
    refine ⟨_, rfl, ?_⟩
    intro q hq
    rw [getbyid_done_sysdb_log] at hq
    rcases h3 q hq with h | h
    · exact hlog q h
    · intro hqd
      rw [hqd, hout] at h
      cases h

theorem getsidby_search_core (e : Env) (nctx : nss_ctx) (c : nss_cmd_ctx)
    (hcmd : c.cmd = sss_cli_command.SSS_NSS_GETSIDBYID)
    (dctx : nss_dom_ctx) (st : resp_state)
    (d : sss_domain_info) (rest : List sss_domain_info)
    (hd : dctx.domain = d :: rest) (hs : d.sysdb = true)
    (hlog : ∀ q ∈ st.sysdb_log, q.dom ≠ d) :
    (id_out_of_range d c.id = false →
      dom_queried (nss_cmd_getsidby_search e nctx c dctx st) d) ∧
    (id_out_of_range d c.id = true →
      dom_not_queried (nss_cmd_getsidby_search e nctx c dctx st) d) := by
  obtain ⟨r, h1, _, h3, h4⟩ :=
    getsidby_loop_log e nctx c hcmd (dctx.domain.length + 1) dctx.domain dctx st (by omega)
  unfold nss_cmd_getsidby_search
  rw [h1]
  have hlogeq : (if r.1 = true then getsidby_done e c r.2 else r.2).st.sysdb_log
      = r.2.st.sysdb_log := by
    split
    · exact getsidby_done_sysdb_log e c r.2
    · rfl
  constructor
  · intro hin
    refine ⟨_, rfl, sysdb_query.search_user_by_uid d c.id, ?_, rfl⟩
    rw [hlogeq]
    exact h4 d rest hd hin hs
  · intro hout
    refine ⟨_, rfl, ?_⟩
    intro q hq
    rw [hlogeq] at hq
    rcases h3 q hq with h | h
    · exact hlog q h
    · intro hqd
      rw [hqd, hout] at h
      cases h

theorem id_searches_core (e : Env) (nctx : nss_ctx) (c : nss_cmd_ctx) (dctx : nss_dom_ctx)
    (st : resp_state) (d : sss_domain_info) (rest : List sss_domain_info)
    (hd : dctx.domain = d :: rest) (hs : d.sysdb = true)
    (hlog : ∀ q ∈ st.sysdb_log, q.dom ≠ d) (id : Nat) :
    (id_out_of_range d id = false → id_searches_query e nctx c dctx st d id) ∧
    (id_out_of_range d id = true → id_searches_skip e nctx c dctx st d id) := by
  have hp := getbyid_search_core pw_kind (fun _ _ => rfl) e nctx { c with id := id } dctx st d
    rest hd hs hlog
  have hgr := getbyid_search_core gr_kind (fun _ _ => rfl) e nctx { c with id := id } dctx st d
    rest hd hs hlog
  have hsid := getsidby_search_core e nctx
    { c with cmd := sss_cli_command.SSS_NSS_GETSIDBYID, id := id } rfl dctx st d rest hd hs hlog
  exact ⟨fun h => ⟨hp.1 h, hgr.1 h, hsid.1 h⟩, fun h => ⟨hp.2 h, hgr.2 h, hsid.2 h⟩⟩

theorem queried_not_skipped (r : Option search_out) (d : sss_domain_info) :
    dom_queried r d → ¬ dom_not_queried r d := by
  rintro ⟨o, ho, q, hq, hqd⟩ ⟨o', ho', hn⟩
  rw [ho] at ho'
  cases ho'
  exact hn q hq hqd

/-- C4: in each ID-based search (`getpwuid`, `getgrgid`, `getsidbyid`) that stands at a
domain with a persistent cache, the cache of that domain is queried exactly when the id
passes `id_min` (when non-zero) and `id_max` (when non-zero); for non-zero
`id_min <= id_max` that is exactly `id_min <= id <= id_max`, so `id_min` and `id_max`
are accepted and `id_min - 1` and `id_max + 1` are rejected, and a bound of 0 imposes
no limit on its side. -/
theorem C4_id_range_check (e : Env) (nctx : nss_ctx) (c : nss_cmd_ctx) (dctx : nss_dom_ctx)
    (st : resp_state) (d : sss_domain_info) (rest : List sss_domain_info)
    (hd : dctx.domain = d :: rest) (hs : d.sysdb = true)
    (hlog : ∀ q ∈ st.sysdb_log, q.dom ≠ d) :
    (∀ id, (d.id_min = 0 ∨ d.id_min ≤ id) ∧ (d.id_max = 0 ∨ id ≤ d.id_max) →
      id_searches_query e nctx c dctx st d id) ∧
    (∀ id, ¬ ((d.id_min = 0 ∨ d.id_min ≤ id) ∧ (d.id_max = 0 ∨ id ≤ d.id_max)) →
      id_searches_skip e nctx c dctx st d id) ∧
    (d.id_min ≠ 0 → d.id_min ≤ d.id_max →
      id_searches_query e nctx c dctx st d d.id_min ∧
      id_searches_query e nctx c dctx st d d.id_max ∧
      id_searches_skip e nctx c dctx st d (d.id_min - 1) ∧
      id_searches_skip e nctx c dctx st d (d.id_max + 1) ∧
      (∀ id, id_searches_query e nctx c dctx st d id ↔ d.id_min ≤ id ∧ id ≤ d.id_max)) ∧
    (d.id_min = 0 → ∀ id, id_searches_query e nctx c dctx st d id ↔
      (d.id_max = 0 ∨ id ≤ d.id_max)) ∧
    (d.id_max = 0 → ∀ id, id_searches_query e nctx c dctx st d id ↔
      (d.id_min = 0 ∨ d.id_min ≤ id)) := by
  have core := id_searches_core e nctx c dctx st d rest hd hs hlog
  have hq : ∀ id, (d.id_min = 0 ∨ d.id_min ≤ id) ∧ (d.id_max = 0 ∨ id ≤ d.id_max) →
      id_searches_query e nctx c dctx st d id :=
    fun id h => (core id).1 ((id_out_of_range_false_iff d id).mpr h)
  have hn : ∀ id, ¬ ((d.id_min = 0 ∨ d.id_min ≤ id) ∧ (d.id_max = 0 ∨ id ≤ d.id_max)) →
      id_searches_skip e nctx c dctx st d id := by
    intro id h
    apply (core id).2
    cases hb : id_out_of_range d id with
    | true => rfl
    | false => exact absurd ((id_out_of_range_false_iff d id).mp hb) h
  have hiff : ∀ id, id_searches_query e nctx c dctx st d id ↔
      (d.id_min = 0 ∨ d.id_min ≤ id) ∧ (d.id_max = 0 ∨ id ≤ d.id_max) := by
    intro id
    constructor
    · intro hqu
      by_contra hc
      exact queried_not_skipped _ _ hqu.1 (hn id hc).1
    · exact hq id
  refine ⟨hq, hn, ?_, ?_, ?_⟩
  · intro hmin hle
    refine ⟨hq _ ⟨Or.inr (le_refl _), Or.inr hle⟩, hq _ ⟨Or.inr hle, Or.inr (le_refl _)⟩,
      hn _ ?_, hn _ ?_, ?_⟩
    · intro h
      rcases h.1 with h1 | h1
      · exact hmin h1
      · omega
    · intro h
      rcases h.2 with h1 | h1
      · omega
      · omega
    · intro id
      rw [hiff]
      constructor
      · rintro ⟨h1, h2⟩
        constructor
        · rcases h1 with h1 | h1
          · exact absurd h1 hmin
          · exact h1
        · rcases h2 with h2 | h2
          · omega
          · exact h2
      · rintro ⟨h1, h2⟩
        exact ⟨Or.inr h1, Or.inr h2⟩
  · intro hmin id
    rw [hiff]
    simp [hmin]
  · intro hmax id
    rw [hiff]
    simp [hmax]

theorem getbyid_loop_out_of_range (k : id_kind) (e : Env) (nctx : nss_ctx) (c : nss_cmd_ctx)
    (hcn : c.check_next = true) :
    ∀ (doms : List sss_domain_info) (fuel : Nat) (dctx : nss_dom_ctx) (st : resp_state),
      doms.length < fuel → (∀ d ∈ doms, id_out_of_range d c.id = true) →
      getbyid_loop k e nctx c fuel doms dctx st = some { ret := ENOENT, dctx := dctx, st := st } := by
  intro doms
  induction doms with
  | nil =>
    intro fuel dctx st hf _
    cases fuel with
    | zero => simp at hf
    | succ n => rfl
  | cons d rest ih =>
    intro fuel dctx st hf hall
    cases fuel with
    | zero => simp at hf
    | succ n =>
      rw [getbyid_loop]
      simp only [hall d (List.mem_cons_self _ _), hcn, if_true, get_next_domain]
      exact ih n dctx st (by simp at hf; omega) (fun a ha => hall a (List.mem_cons_of_mem _ ha))

theorem ncache_holds_of_check (nc : sss_nc_ctx) (now ttl : Nat) (k : nc_key)
    (h : (sss_ncache_check nc now ttl k == EEXIST) = true) : ncache_holds nc k := by
  unfold sss_ncache_check at h
  split at h
  · rename_i hany
    obtain ⟨en, hen, hk⟩ := List.any_eq_true.mp hany
    simp only [Bool.and_eq_true, beq_iff_eq] at hk
    exact ⟨en, hen, hk.1⟩
  · simp at h

theorem ncache_holds_set (nc : sss_nc_ctx) (now : Nat) (p : Bool) (k : nc_key) :
    ncache_holds (sss_ncache_set nc now p k) k :=
  ⟨_, List.mem_cons_self _ _, rfl⟩

theorem check_cache_ret (e : Env) (dctx : nss_dom_ctx) (nctx : nss_ctx) (st : resp_state)
    (res : List ldb_message) (t : sss_dp_type) (n : Option CStr) (i : Nat)
    (hres : res.length ≤ 1) :
    (check_cache e dctx nctx st res t n i).ret = EOK ∨
    (check_cache e dctx nctx st res t n i).ret = EAGAIN ∨
    (check_cache e dctx nctx st res t n i).ret = e.send_error_ret := by
  have h1 : decide (res.length > 1) = false := by simp; omega
  unfold check_cache check_cache_error
  simp only [h1, Bool.and_false, Bool.false_eq_true, if_false]
  repeat' split
  all_goals simp

theorem check_cache_ret_ne (e : Env) (dctx : nss_dom_ctx) (nctx : nss_ctx) (st : resp_state)
    (res : List ldb_message) (t : sss_dp_type) (n : Option CStr) (i : Nat)
    (hres : res.length ≤ 1) (hsend : e.send_error_ret ≠ ENOENT) :
    (check_cache e dctx nctx st res t n i).ret ≠ ENOENT := by
  intro h
  rcases check_cache_ret e dctx nctx st res t n i hres with hc | hc | hc
  · rw [hc] at h; cases h
  · rw [hc] at h; cases h
  · rw [hc] at h; exact hsend h

theorem getpwnam_loop_held (e : Env) (nctx : nss_ctx) (c : nss_cmd_ctx)
    (hrows : ∀ d n res, e.sysdb_getpwnam d n = some res → res.length ≤ 1)
    (hset : e.ncache_set_ret ≠ ENOENT) (hsend : e.send_error_ret ≠ ENOENT) :
    ∀ (fuel : Nat) (dom : List sss_domain_info) (dctx : nss_dom_ctx) (st : resp_state)
      (r : search_out),
      getpwnam_loop e nctx c fuel dom dctx st = some r → r.ret = ENOENT →
      (dom = dctx.domain ∨ pwnam_entry_held e c dctx st) →
      pwnam_entry_held e c r.dctx r.st := by
  intro fuel
  induction fuel with
  | zero =>
    intro dom dctx st r h
    simp [getpwnam_loop] at h
  | succ n ih =>
    intro dom dctx st r h hret hinv
    cases dom with
    | nil =>
      simp only [getpwnam_loop, Option.some.injEq] at h
      subst h
      rcases hinv with heq | hheld
      · intro d rest hd
        simp only [← heq] at hd
        cases hd
      · exact hheld
    | cons d rest =>
      rw [getpwnam_loop] at h
      by_cases hskip : (c.check_next && d.fqnames) = true
      · simp only [hskip, if_true] at h
        apply ih _ _ _ _ h hret
        right
        rcases hinv with heq | hheld
        · intro d' rest' hd' hns
          rw [← heq] at hd'
          cases hd'
          exact absurd (by simpa using hskip) hns
        · exact hheld
      · simp only [hskip, Bool.false_eq_true, if_false] at h
        generalize (if (d :: rest != dctx.domain) = true then
            { dctx with check_provider := d.provider } else dctx) = dctx1 at h
        cases hcn : e.sss_get_cased_name c.name d.case_sensitive with
        | none =>
          simp only [hcn, Option.some.injEq] at h
          subst h
          cases hret
        | some name =>
          simp only [hcn] at h
          by_cases hhit : (sss_ncache_check_user st.ncache e.now nctx.neg_timeout d name
              == EEXIST) = true
          · have held1 : ∀ cp res, pwnam_entry_held e c
                { domain := d :: rest, check_provider := cp, res := res } st := by
              intro cp res d' rest' hd' _
              cases hd'
              exact ⟨name, hcn, ncache_holds_of_check _ _ _ _ hhit⟩
            simp only [hhit, if_true] at h
            split at h
            · exact ih _ _ _ _ h hret (Or.inr (held1 _ _))
            · simp only [Option.some.injEq] at h
              subst h
              exact held1 _ _
          · simp only [hhit, Bool.false_eq_true, if_false] at h
            split at h
            · simp only [Option.some.injEq] at h
              subst h
              cases hret
            · cases hlk : e.sysdb_getpwnam d name with
              | none =>
                simp only [hlk, Option.some.injEq] at h
                subst h
                cases hret
              | some res =>
                have hres := hrows d name res hlk
                have hres2 : ¬ (res.length > 1) := by omega
                simp only [hlk, hres2, if_false] at h
                split at h
                · -- no result and no provider check: the entry is stored
                  unfold ncache_set at h
                  by_cases hs : e.ncache_set_ret = EOK
                  · simp only [hs, bne_self_eq_false, Bool.false_eq_true, if_false] at h
                    have held2 : ∀ cp res (st1 : resp_state),
                        st1.ncache = sss_ncache_set st.ncache e.now false (nc_user_key d name) →
                        pwnam_entry_held e c
                          { domain := d :: rest, check_provider := cp, res := res } st1 := by
                      intro cp res st1 hst1 d' rest' hd' _
                      cases hd'
                      rw [hst1]
                      exact ⟨name, hcn, ncache_holds_set _ _ _ _⟩
                    split at h
                    · exact ih _ _ _ _ h hret (Or.inr (held2 _ _ _ rfl))
                    · simp only [Option.some.injEq] at h
                      subst h
                      unfold delete_entry_from_memcache
                      simp only []
                      repeat' split
                      all_goals exact held2 _ _ _ rfl
                  · have hs2 : (e.ncache_set_ret != EOK) = true := by simpa using hs
                    simp only [hs2, if_true, Option.some.injEq] at h
                    subst h
                    exact absurd hret hset
                · split at h
                  · split at h
                    · simp only [Option.some.injEq] at h
                      subst h
                      exact absurd hret (check_cache_ret_ne _ _ _ _ _ _ _ _ hres hsend)
                    · simp only [Option.some.injEq] at h
                      subst h
                      cases hret
                  · simp only [Option.some.injEq] at h
                    subst h
                    cases hret

theorem get_next_domain_length (d : sss_domain_info) (rest : List sss_domain_info)
    (b : Bool) : (get_next_domain (d :: rest) b).length ≤ rest.length := by
  unfold get_next_domain
  cases b with
  | true => simp
  | false =>
    simp only [Bool.false_eq_true, if_false]
    split
    · cases rest with
      | nil => simp
      | cons a l =>
        simp only []
        split <;> simp
    · exact (List.dropWhile_sublist _).length_le

theorem getpwnam_loop_returns (e : Env) (nctx : nss_ctx) (c : nss_cmd_ctx) :
    ∀ (fuel : Nat) (dom : List sss_domain_info) (dctx : nss_dom_ctx) (st : resp_state),
      dom.length < fuel → ∃ r, getpwnam_loop e nctx c fuel dom dctx st = some r := by
  intro fuel
  induction fuel with
  | zero => intro dom dctx st h; omega
  | succ n ih =>
    intro dom dctx st hlen
    cases dom with
    | nil => exact ⟨_, rfl⟩
    | cons d rest =>
      have hnext : ∀ b, (get_next_domain (d :: rest) b).length < n := by
        intro b
        have := get_next_domain_length d rest b
        simp at hlen
        omega
      rw [getpwnam_loop]
      simp only []
      generalize (if (d :: rest != dctx.domain) = true then
          { dctx with check_provider := d.provider } else dctx) = dctx1
      split
      · exact ih _ _ _ (hnext _)
      · cases e.sss_get_cased_name c.name d.case_sensitive with
        | none => exact ⟨_, rfl⟩
        | some name =>
          simp only []
          split
          · split
            · exact ih _ _ _ (hnext _)
            · exact ⟨_, rfl⟩
          · split
            · exact ⟨_, rfl⟩
            · cases e.sysdb_getpwnam d name with
              | none => exact ⟨_, rfl⟩
              | some res =>
                simp only []
                split
                · exact ⟨_, rfl⟩
                · split
                  · split
                    · exact ⟨_, rfl⟩
                    · split
                      · exact ih _ _ _ (hnext _)
                      · exact ⟨_, rfl⟩
                  · split
                    · split
                      · exact ⟨_, rfl⟩
                      · exact ⟨_, rfl⟩
                    · exact ⟨_, rfl⟩

/-! ## Claims on the searches -/

/-- C1 (the code at the failing input): the uid 4294967294 lies outside `[1, 100000]`
of both domains of a multi-domain search.  `nss_cmd_getpwuid_search` makes no lookup in
the persistent cache and records the uid in the negative cache, but it returns `EOK`
(the return code of the negative-cache store), not `ENOENT`; `nss_cmd_getgrgid_search`
does the same for the gid. -/
theorem C1_id_search_out_of_range_returns_EOK :
    nss_cmd_getpwuid_search {} {}
      { cmd := sss_cli_command.SSS_NSS_GETPWUID, id := 4294967294, check_next := true }
      { domain := [ex_dom_a, ex_dom_b], check_provider := false } {} =
      some { ret := EOK
             dctx := { domain := [ex_dom_a, ex_dom_b], check_provider := false }
             st := { ncache := [{ key := nc_key.uid 4294967294, ts := 0, permanent := false }],
                     sysdb_log := [] } } ∧
    nss_cmd_getgrgid_search {} {}
      { cmd := sss_cli_command.SSS_NSS_GETGRGID, id := 4294967294, check_next := true }
      { domain := [ex_dom_a, ex_dom_b], check_provider := false } {} =
      some { ret := EOK
             dctx := { domain := [ex_dom_a, ex_dom_b], check_provider := false }
             st := { ncache := [{ key := nc_key.gid 4294967294, ts := 0, permanent := false }],
                     sysdb_log := [] } } ∧
    EOK ≠ ENOENT := by
  decide

/-- C3 (counterexample): `nss_cmd_getpwnam_search` returns `ENOENT` without a provider
request and with an empty negative cache (a) when the persistent cache returns two rows
for the name, and (b) when the only domain of a multi-domain search requires qualified
names and is skipped. -/
theorem C3_counterexample_enoent_without_entry :
    nss_cmd_getpwnam_search { sysdb_getpwnam := fun _ _ => some [ex_user, ex_user] } {}
        { cmd := sss_cli_command.SSS_NSS_GETPWNAM, name := [97] }
        { domain := [ex_dom], check_provider := false } {} =
      some { ret := ENOENT
             dctx := { domain := [ex_dom], check_provider := false,
                       res := some [ex_user, ex_user] }
             st := { ncache := [], dp_log := [],
                     sysdb_log := [sysdb_query.getpwnam ex_dom [97]],
                     nc_checked := [(ex_dom, nc_key.user [69, 88] [97])] } } ∧
    nss_cmd_getpwnam_search {} {}
        { cmd := sss_cli_command.SSS_NSS_GETPWNAM, name := [97], check_next := true }
        { domain := [ex_dom_fq], check_provider := false } {} =
      some { ret := ENOENT
             dctx := { domain := [ex_dom_fq], check_provider := false }
             st := { ncache := [], dp_log := [], sysdb_log := [] } } := by
  refine ⟨by decide, by decide⟩

/-- C3 (amended): `nss_cmd_getpwnam_search` returns, and whenever it returns `ENOENT`
without having dispatched a provider request, no lookup in the persistent cache returned
more than one row, and the domain left in `dctx->domain` is one the search does not skip,
the negative cache holds a user-name entry for the requested name in that domain.  (The
return codes of a failed negative-cache store and of a failed error reply are taken to
differ from `ENOENT`.) -/
theorem C3_getpwnam_enoent_negcache (e : Env) (nctx : nss_ctx) (c : nss_cmd_ctx)
    (dctx : nss_dom_ctx) (st : resp_state)
    (hrows : ∀ d n res, e.sysdb_getpwnam d n = some res → res.length ≤ 1)
    (hset : e.ncache_set_ret ≠ ENOENT) (hsend : e.send_error_ret ≠ ENOENT) :
    ∃ r, nss_cmd_getpwnam_search e nctx c dctx st = some r ∧
      (r.ret = ENOENT → r.st.dp_log = st.dp_log → pwnam_entry_held e c r.dctx r.st) := by
  obtain ⟨r, hr⟩ := getpwnam_loop_returns e nctx c (dctx.domain.length + 1) dctx.domain dctx st
    (by omega)
  exact ⟨r, hr, fun hret _ =>
    getpwnam_loop_held e nctx c hrows hset hsend _ _ _ _ r hr hret (Or.inl rfl)⟩

/-- Witness of C3: the user `a` is missing from the cache of the single domain `EX`,
which has no provider to ask; the search returns `ENOENT` and the entry is held. -/
theorem C3_getpwnam_enoent_negcache_witness :
    ∃ r, nss_cmd_getpwnam_search {} {}
        { cmd := sss_cli_command.SSS_NSS_GETPWNAM, name := [97] }
        { domain := [ex_dom], check_provider := false } {} = some r ∧
      r.ret = ENOENT ∧ r.st.dp_log = [] ∧
      pwnam_entry_held {} { cmd := sss_cli_command.SSS_NSS_GETPWNAM, name := [97] }
        r.dctx r.st := by
  obtain ⟨r, h1, h2⟩ := C3_getpwnam_enoent_negcache {} {}
    { cmd := sss_cli_command.SSS_NSS_GETPWNAM, name := [97] }
    { domain := [ex_dom], check_provider := false } {}
    (by intro d n res h; cases h; decide) (by decide) (by decide)
  have h0 : nss_cmd_getpwnam_search {} {}
      { cmd := sss_cli_command.SSS_NSS_GETPWNAM, name := [97] }
      { domain := [ex_dom], check_provider := false } {} =
      some { ret := ENOENT
             dctx := { domain := [ex_dom], check_provider := false, res := some [] }
             st := { ncache := [{ key := nc_key.user [69, 88] [97], ts := 0,
                                  permanent := false }],
                     sysdb_log := [sysdb_query.getpwnam ex_dom [97]],
                     mc_invalidated := [[97]],
                     nc_checked := [(ex_dom, nc_key.user [69, 88] [97])] } } := by
    decide
  rw [h0] at h1
  cases h1
  exact ⟨_, h0, rfl, rfl, h2 rfl rfl⟩

/-- Witness of C4: a domain with the ID range `[1000, 2000]`. -/
theorem C4_id_range_check_witness :
    id_searches_query {} {} { cmd := sss_cli_command.SSS_NSS_GETPWUID }
      { domain := [ex_dom_r], check_provider := false } {} ex_dom_r 1000 ∧
    id_searches_query {} {} { cmd := sss_cli_command.SSS_NSS_GETPWUID }
      { domain := [ex_dom_r], check_provider := false } {} ex_dom_r 2000 ∧
    id_searches_skip {} {} { cmd := sss_cli_command.SSS_NSS_GETPWUID }
      { domain := [ex_dom_r], check_provider := false } {} ex_dom_r 999 ∧
    id_searches_skip {} {} { cmd := sss_cli_command.SSS_NSS_GETPWUID }
      { domain := [ex_dom_r], check_provider := false } {} ex_dom_r 2001 :=
  have h := (C4_id_range_check {} {} { cmd := sss_cli_command.SSS_NSS_GETPWUID }
    { domain := [ex_dom_r], check_provider := false } {} ex_dom_r [] rfl rfl
    (by intro q hq; cases hq)).2.2.1 (by decide) (by decide)
  ⟨h.1, h.2.1, h.2.2.1, h.2.2.2.1⟩

/-! ## The initgroups encoder: skipped and incomplete records -/

theorem fill_initgr_loop_none_iff :
    ∀ (groups : List ldb_message) (s : initgr_state),
      fill_initgr_loop groups s = none ↔
        ∃ g ∈ groups, msg_gid g = 0 ∧ posix_false g = false := by
  intro groups
  induction groups with
  | nil => intro s; simp [fill_initgr_loop]
  | cons g rest ih =>
    intro s
    rw [fill_initgr_loop]
    by_cases hg : msg_gid g = 0
    · cases hp : posix_false g with
      | true => simp [hg, hp, ih]
      | false => simp [hg, hp]
    · have hg2 : (msg_gid g == 0) = false := by simpa using hg
      simp [hg2, hg, ih]

theorem fill_initgr_loop_skip :
    ∀ (groups : List ldb_message) (s : initgr_state) (P R : List Nat),
      (∀ g ∈ groups, msg_gid g = 0 → posix_false g = true) →
      s.body = P ++ R → P.length = 4 * (2 + s.bindex) →
      fill_initgr_loop groups s = some
        { body := P ++ ((groups.filter (fun g => msg_gid g != 0)).map msg_gid).flatMap le32
                    ++ R.drop (4 * (groups.filter (fun g => msg_gid g != 0)).length)
          bindex := s.bindex + (groups.filter (fun g => msg_gid g != 0)).length
          skipped := s.skipped + (groups.length - (groups.filter (fun g => msg_gid g != 0)).length)
          orig_primary_gid :=
            if s.orig_primary_gid ∈ (groups.filter (fun g => msg_gid g != 0)).map msg_gid
            then 0 else s.orig_primary_gid } := by
  intro groups
  induction groups with
  | nil =>
    intro s P R _ hb _
    cases s
    simp_all [fill_initgr_loop]
  | cons g rest ih =>
    intro s P R hall hb hP
    have hrest : ∀ a ∈ rest, msg_gid a = 0 → posix_false a = true :=
      fun a ha => hall a (List.mem_cons_of_mem _ ha)
    have hfl : (rest.filter (fun g => msg_gid g != 0)).length ≤ rest.length :=
      List.length_filter_le _ _
    rw [fill_initgr_loop]
    by_cases hg : msg_gid g = 0
    · have hp := hall g (List.mem_cons_self _ _) hg
      simp only [hg, beq_self_eq_true, if_true, hp]
      rw [ih { s with skipped := s.skipped + 1 } P R hrest hb hP]
      simp only [List.filter_cons, hg, bne_self_eq_false, Bool.false_eq_true, if_false,
        List.length_cons]
      congr 2
      omega
    · have hg2 : (msg_gid g == 0) = false := by simpa using hg
      have hg3 : (msg_gid g != 0) = true := by simpa using hg
      simp only [hg2, Bool.false_eq_true, if_false, set_word, hb]
      rw [write_at_at P R (le32 (msg_gid g)) _ hP.symm]
      rw [ih _ (P ++ le32 (msg_gid g)) (R.drop (le32 (msg_gid g)).length) hrest rfl
        (by simp [le32_length, hP]; omega)]
      simp only [List.filter_cons, hg3, if_true, List.map_cons, List.flatMap_cons,
        List.length_cons, List.append_assoc, List.drop_drop, le32_length, List.mem_cons]
      congr 1
      congr 1
      · have h4 : 4 + 4 * (rest.filter (fun g => msg_gid g != 0)).length
            = 4 * ((rest.filter (fun g => msg_gid g != 0)).length + 1) := by omega
        rw [h4]
      · omega
      · omega
      · by_cases h1 : s.orig_primary_gid = msg_gid g
        · have h0 : (0 : Nat) ∉ (rest.filter (fun g => msg_gid g != 0)).map msg_gid := by
            intro h
            obtain ⟨a, ha, ha2⟩ := List.mem_map.mp h
            have := (List.mem_filter.mp ha).2
            simp [ha2] at this
          simp [h1, h0]
        · have h1b : (s.orig_primary_gid == msg_gid g) = false := by simpa using h1
          simp only [h1b, Bool.false_eq_true, if_false, h1, false_or]

theorem fill_initgr_body_skip (x : Ext) (user : ldb_message) (groups : List ldb_message)
    (hg : ∀ l n, x.grow_ret l n = EOK)
    (hall : ∀ g ∈ groups, msg_gid g = 0 → posix_false g = true) :
    ∃ T, fill_initgr x [] (user :: groups) =
        (EOK, initgr_body (initgr_posix_gids user groups) ++ T) ∧
      T.length = 4 * (groups.length + 1 - (initgr_posix_gids user groups).length) := by
  have hj : junk_bytes x 0 ((2 + (groups.length + 1)) * 4) =
      (junk_bytes x 0 ((2 + (groups.length + 1)) * 4)).take 8 ++
      (junk_bytes x 0 ((2 + (groups.length + 1)) * 4)).drop 8 := (List.take_append_drop _ _).symm
  generalize hJ : junk_bytes x 0 ((2 + (groups.length + 1)) * 4) = J at hj
  have hJl : J.length = (2 + (groups.length + 1)) * 4 := by rw [← hJ, junk_bytes_length]
  unfold fill_initgr
  simp only [sss_packet_grow, hg, bne_self_eq_false, Bool.false_eq_true, if_false,
    List.length_nil, List.nil_append, List.length_cons, hJ]
  rw [fill_initgr_loop_skip groups _ (J.take 8) (J.drop 8) hall hj (by simp [hJl]; omega)]
  simp only []
  have h0 : (0 : Nat) ∉ (groups.filter (fun g => msg_gid g != 0)).map msg_gid := by
    intro h
    obtain ⟨a, ha, ha2⟩ := List.mem_map.mp h
    have := (List.mem_filter.mp ha).2
    simp [ha2] at this
  have hfl : (groups.filter (fun g => msg_gid g != 0)).length ≤ groups.length :=
    List.length_filter_le _ _
  unfold initgr_posix_gids initgr_body
  simp only []
  generalize groups.filter (fun g => msg_gid g != 0) = F at h0 hfl
  have hGl : ((F.map msg_gid).flatMap le32).length = 4 * F.length := by
    rw [flatMap_le32_length, List.length_map]
  have hH : (J.take 8).length = 8 := by simp [hJl]; omega
  generalize ldb_msg_find_attr_as_uint64 user.origPrimaryGroupGidNumber 0 % 2 ^ 32 = o0
  by_cases c : o0 ≠ 0 ∧ o0 ≠ msg_gid user ∧ o0 ∉ F.map msg_gid
  · obtain ⟨c1, c2, c3⟩ := c
    simp only [c1, c2, c3, bne_iff_ne, ne_eq, not_false_eq_true, if_true, beq_iff_eq, if_false,
      and_self]
    refine ⟨List.drop 4 (List.drop (4 * F.length) (List.drop 8 J)), ?_, ?_⟩
    · simp only [set_word]
      rw [write_at_at (J.take 8 ++ (F.map msg_gid).flatMap le32) _ (le32 o0) _
        (by simp [hGl, hH]; omega)]
      simp only [List.append_assoc]
      rw [header_write _ _ hH]
      simp [List.flatMap_append, le32_length]
      congr 1
      omega
    · simp [hJl]; omega
  · rw [if_neg c]
    have fin : ∃ T, (EOK, set_word (set_word (List.take 8 J ++
          (List.map msg_gid F).flatMap le32 ++
          List.drop (4 * F.length) (List.drop 8 J)) 0
            (groups.length + 1 - 1 - (0 + (groups.length - F.length)))) 1 0) =
        (EOK, le32 (List.map msg_gid F ++ []).length ++ le32 0 ++
          (List.map msg_gid F ++ []).flatMap le32 ++ T) ∧
        T.length = 4 * (groups.length + 1 - (List.map msg_gid F ++ []).length) := by
      refine ⟨List.drop (4 * F.length) (List.drop 8 J), ?_, ?_⟩
      · simp only [List.append_assoc]
        rw [header_set_word _ _ hH]
        simp
        congr 1
        omega
      · simp [hJl]; omega
    by_cases c1 : o0 = 0
    · simpa [c1, h0] using fin
    · by_cases c2 : o0 = msg_gid user
      · simpa [c1, c2, h0] using fin
      · have c3 : o0 ∈ F.map msg_gid := by
          by_contra h3
          exact c ⟨c1, c2, h3⟩
        simpa [c1, c2, c3] using fin

theorem fill_initgr_ret_efault_iff (x : Ext) (body : List Nat) (user : ldb_message)
    (groups : List ldb_message) (hg : ∀ l n, x.grow_ret l n = EOK) :
    (fill_initgr x body (user :: groups)).1 = EFAULT ↔
      ∃ g ∈ groups, msg_gid g = 0 ∧ posix_false g = false := by
  unfold fill_initgr
  simp only [sss_packet_grow, hg, bne_self_eq_false, Bool.false_eq_true, if_false]
  split
  · rename_i h
    exact iff_of_true rfl ((fill_initgr_loop_none_iff _ _).mp h)
  · rename_i s h
    refine iff_of_false (by simp [EOK, EFAULT]) ?_
    intro hex
    rw [(fill_initgr_loop_none_iff _ _).mpr hex] at h
    cases h

/-- C11 (counterexample): the group record with gid 5 is marked `posix=FALSE`, and the
reply of `fill_initgr` counts one group and lists the gid 5. -/
theorem C11_counterexample_posix_false_written :
    posix_false { gidNumber := some 5, isPosix := some [70, 65, 76, 83, 69] } = true ∧
    fill_initgr ex_ext [] [ex_user, { gidNumber := some 5, isPosix := some [70, 65, 76, 83, 69] }]
      = (EOK, initgr_body [5] ++ [255, 255, 255, 255]) := by
  decide

/-- C11 (amended): a group record of an initgroups result is left out of the reply written
by `fill_initgr` and is not counted exactly when it carries the gid 0 and is marked
`posix=FALSE`; a record with a non-zero gid is written and counted whatever its `posix`
attribute.  For a result whose gid-0 group records are all marked `posix=FALSE` the reply
starts with `count | 0 | gids`, the gids being those of the records with a non-zero gid in
result order (followed by the original primary GID under the conditions of the code); the
gid 0 is not among them and every non-zero gid of a record is. -/
theorem C11_posix_false_gid0_skipped (x : Ext) (user : ldb_message)
    (groups : List ldb_message) (hg : ∀ l n, x.grow_ret l n = EOK)
    (hall : ∀ g ∈ groups, msg_gid g = 0 → posix_false g = true) :
    ∃ body, fill_initgr x [] (user :: groups) = (EOK, body) ∧
      body.take (8 + 4 * (initgr_posix_gids user groups).length) =
        initgr_body (initgr_posix_gids user groups) ∧
      (initgr_posix_gids user groups).take (groups.filter (fun g => msg_gid g != 0)).length =
        (groups.filter (fun g => msg_gid g != 0)).map msg_gid ∧
      (initgr_posix_gids user groups).length ≤
        (groups.filter (fun g => msg_gid g != 0)).length + 1 ∧
      0 ∉ initgr_posix_gids user groups ∧
      (∀ g ∈ groups, msg_gid g ≠ 0 → msg_gid g ∈ initgr_posix_gids user groups) := by
  obtain ⟨T, h1, _⟩ := fill_initgr_body_skip x user groups hg hall
  have h0 : (0 : Nat) ∉ (groups.filter (fun g => msg_gid g != 0)).map msg_gid := by
    intro h
    obtain ⟨a, ha, ha2⟩ := List.mem_map.mp h
    have := (List.mem_filter.mp ha).2
    simp [ha2] at this
  refine ⟨_, h1, ?_, ?_, ?_, ?_, ?_⟩
  · rw [← initgr_body_length, List.take_left]
  · unfold initgr_posix_gids
    simp only []
    rw [← List.length_map (groups.filter (fun g => msg_gid g != 0)) msg_gid, List.take_left]
  · unfold initgr_posix_gids
    simp only []
    split <;> simp
  · unfold initgr_posix_gids
    simp only []
    split
    · rename_i hc
      simp only [List.mem_append, List.mem_singleton, not_or]
      exact ⟨h0, fun h => hc.1 h.symm⟩
    · simp [h0]
  · intro g hgm hne
    unfold initgr_posix_gids
    simp only []
    apply List.mem_append_left
    exact List.mem_map.mpr ⟨g, List.mem_filter.mpr ⟨hgm, by simpa using hne⟩, rfl⟩

/-- Witness of C11: the user `a`, a group with gid 5 and a record with gid 0 that is
marked `posix=FALSE`. -/
theorem C11_posix_false_gid0_skipped_witness :
    ∃ body, fill_initgr ex_ext []
        (ex_user :: [ex_group 5, { isPosix := some [70, 65, 76, 83, 69] }]) = (EOK, body) ∧
      body.take (8 + 4 * (initgr_posix_gids ex_user
        [ex_group 5, { isPosix := some [70, 65, 76, 83, 69] }]).length) =
        initgr_body (initgr_posix_gids ex_user
          [ex_group 5, { isPosix := some [70, 65, 76, 83, 69] }]) ∧
      (initgr_posix_gids ex_user [ex_group 5, { isPosix := some [70, 65, 76, 83, 69] }]).take
          ([ex_group 5, { isPosix := some [70, 65, 76, 83, 69] }].filter
            (fun g => msg_gid g != 0)).length =
        ([ex_group 5, { isPosix := some [70, 65, 76, 83, 69] }].filter
          (fun g => msg_gid g != 0)).map msg_gid ∧
      (initgr_posix_gids ex_user [ex_group 5, { isPosix := some [70, 65, 76, 83, 69] }]).length ≤
        ([ex_group 5, { isPosix := some [70, 65, 76, 83, 69] }].filter
          (fun g => msg_gid g != 0)).length + 1 ∧
      0 ∉ initgr_posix_gids ex_user [ex_group 5, { isPosix := some [70, 65, 76, 83, 69] }] ∧
      (∀ g ∈ [ex_group 5, { isPosix := some [70, 65, 76, 83, 69] }], msg_gid g ≠ 0 →
        msg_gid g ∈ initgr_posix_gids ex_user
          [ex_group 5, { isPosix := some [70, 65, 76, 83, 69] }]) :=
  C11_posix_false_gid0_skipped ex_ext ex_user
    [ex_group 5, { isPosix := some [70, 65, 76, 83, 69] }] (fun _ _ => rfl) (by decide)

/-- C12: `fill_initgr` returns `ENOENT` for an empty result and leaves the body as it
was.  When the packet can grow, it returns `EFAULT` exactly when some group record has the
gid 0 and is not marked `posix=FALSE`; in particular a group record with gid 0 and no
`posix` attribute makes it return `EFAULT` whatever records stand before and after it, and
when every group record with gid 0 is marked `posix=FALSE` it returns `EOK`. -/
theorem C12_fill_initgr_enoent_efault (x : Ext) (body : List Nat) (user : ldb_message)
    (groups : List ldb_message) (hg : ∀ l n, x.grow_ret l n = EOK) :
    fill_initgr x body [] = (ENOENT, body) ∧
    ((fill_initgr x body (user :: groups)).1 = EFAULT ↔
      ∃ g ∈ groups, msg_gid g = 0 ∧ posix_false g = false) ∧
    (∀ pre g post, groups = pre ++ g :: post → msg_gid g = 0 → g.isPosix = none →
      (fill_initgr x body (user :: groups)).1 = EFAULT) ∧
    ((∀ g ∈ groups, msg_gid g = 0 → posix_false g = true) →
      (fill_initgr x body (user :: groups)).1 = EOK) := by
  refine ⟨rfl, fill_initgr_ret_efault_iff x body user groups hg, ?_, ?_⟩
  · intro pre g post hgr h0 hp
    rw [fill_initgr_ret_efault_iff x body user groups hg]
    refine ⟨g, by simp [hgr], h0, ?_⟩
    simp [posix_false, hp]
  · intro hall
    unfold fill_initgr
    simp only [sss_packet_grow, hg, bne_self_eq_false, Bool.false_eq_true, if_false]
    split
    · rename_i h
      obtain ⟨g, hgm, h0, hp⟩ := (fill_initgr_loop_none_iff _ _).mp h
      rw [hall g hgm h0] at hp
      exact Bool.noConfusion hp
    · rfl

/-- Witness of C12: a record with gid 0 and no `posix` attribute between a group with
gid 5 and a group with gid 6. -/
theorem C12_fill_initgr_enoent_efault_witness :
    fill_initgr ex_ext [] [] = (ENOENT, []) ∧
    ((fill_initgr ex_ext [] (ex_user :: [ex_group 5, {}, ex_group 6])).1 = EFAULT ↔
      ∃ g ∈ [ex_group 5, {}, ex_group 6], msg_gid g = 0 ∧ posix_false g = false) ∧
    (∀ pre g post, [ex_group 5, {}, ex_group 6] = pre ++ g :: post → msg_gid g = 0 →
      g.isPosix = none →
      (fill_initgr ex_ext [] (ex_user :: [ex_group 5, {}, ex_group 6])).1 = EFAULT) ∧
    ((∀ g ∈ [ex_group 5, {}, ex_group 6], msg_gid g = 0 → posix_false g = true) →
      (fill_initgr ex_ext [] (ex_user :: [ex_group 5, {}, ex_group 6])).1 = EOK) :=
  C12_fill_initgr_enoent_efault ex_ext [] ex_user [ex_group 5, {}, ex_group 6] (fun _ _ => rfl)

/-! ## Claims on the freshness check -/

theorem check_cache_expire_eq (req_type : sss_dp_type) (msg : ldb_message) :
    check_cache_expire req_type msg = check_cache_expire_cases req_type msg := by
  unfold check_cache_expire check_cache_expire_cases
  by_cases h : req_type = sss_dp_type.SSS_DP_INITGROUPS
  · subst h
    cases hm : msg.initgrExpireTimestamp with
    | none => simp [ldb_msg_find_attr_as_uint64]
    | some v =>
      by_cases hv : v % 2 ^ 64 = 0
      · simp [ldb_msg_find_attr_as_uint64, hv]
      · simp [ldb_msg_find_attr_as_uint64, hv]
  · simp [h]

/-- C20 (counterexample): an initgroups request for a record that has no
initgroups-expire attribute and the cache-expire timestamp 5000, at the time 100.  The
freshness check is handed the expiry 1, not 5000: the record counts as expired and
`check_cache` dispatches a provider request and returns `EAGAIN`, where the expiry 5000
would have made the record fresh. -/
theorem C20_counterexample_missing_initgr_expire :
    ({ ex_user with dataExpireTimestamp := some 5000 } : ldb_message).initgrExpireTimestamp
      = none ∧
    check_cache_expire sss_dp_type.SSS_DP_INITGROUPS
      { ex_user with dataExpireTimestamp := some 5000 } = 1 ∧
    ex_env_fresh.sss_cmd_check_cache { ex_user with dataExpireTimestamp := some 5000 } 0 5000
      = EOK ∧
    (check_cache ex_env_fresh { domain := [ex_dom], check_provider := true } {} {}
      [{ ex_user with dataExpireTimestamp := some 5000 }] sss_dp_type.SSS_DP_INITGROUPS
      (some [97]) 0).ret = EAGAIN := by
  decide

/-- C20 (amended): the expiry that `check_cache` hands to the freshness check is, for an
initgroups request, the record's initgroups-expire timestamp when the record has that
attribute with a non-zero value, the record's cache-expire timestamp when the attribute is
present with the value 0, and the constant 1 when the record has no such attribute; for
every other request kind it is the record's cache-expire timestamp.  The outcome of
`check_cache` depends on the freshness check only through its verdict for that expiry. -/
theorem C20_check_cache_expiry (e : Env) (f : ldb_message → Nat → Nat → Nat)
    (dctx : nss_dom_ctx) (nctx : nss_ctx) (st : resp_state) (msg : ldb_message)
    (rest : List ldb_message) (req_type : sss_dp_type) (opt_name : Option CStr) (opt_id : Nat)
    (hf : f msg nctx.cache_refresh_percent (check_cache_expire_cases req_type msg) =
      e.sss_cmd_check_cache msg nctx.cache_refresh_percent
        (check_cache_expire_cases req_type msg)) :
    check_cache_expire req_type msg = check_cache_expire_cases req_type msg ∧
    check_cache { e with sss_cmd_check_cache := f } dctx nctx st (msg :: rest) req_type
        opt_name opt_id =
      check_cache e dctx nctx st (msg :: rest) req_type opt_name opt_id := by
  refine ⟨check_cache_expire_eq req_type msg, ?_⟩
  unfold check_cache check_cache_error
  simp only [check_cache_expire_eq, hf]

/-- Witness of C20: an initgroups request for a record with the initgroups-expire
timestamp 7000, and two freshness checks that agree on the expiry 7000 only. -/
theorem C20_check_cache_expiry_witness :
    check_cache_expire sss_dp_type.SSS_DP_INITGROUPS
        { ex_user with initgrExpireTimestamp := some 7000 } =
      check_cache_expire_cases sss_dp_type.SSS_DP_INITGROUPS
        { ex_user with initgrExpireTimestamp := some 7000 } ∧
    check_cache { ex_env_fresh with
          sss_cmd_check_cache := fun _ _ exp => if exp = 7000 then EOK else EIO }
        { domain := [ex_dom], check_provider := true } {} {}
        ({ ex_user with initgrExpireTimestamp := some 7000 } :: [])
        sss_dp_type.SSS_DP_INITGROUPS (some [97]) 0 =
      check_cache ex_env_fresh { domain := [ex_dom], check_provider := true } {} {}
        ({ ex_user with initgrExpireTimestamp := some 7000 } :: [])
        sss_dp_type.SSS_DP_INITGROUPS (some [97]) 0 :=
  C20_check_cache_expiry ex_env_fresh (fun _ _ exp => if exp = 7000 then EOK else EIO)
    { domain := [ex_dom], check_provider := true } {} {}
    { ex_user with initgrExpireTimestamp := some 7000 } []
    sss_dp_type.SSS_DP_INITGROUPS (some [97]) 0 (by decide)

/-! ## Claims on the enumeration interface -/

/-- C14 (counterexample): with no snapshot (expired or never built) and the client's
passwd cursor at (1, 2) and group cursor at (3, 4), `endpwent` and `endgrent` succeed and
leave the cursors where they were. -/
theorem C14_counterexample_absent_snapshot :
    (nss_cmd_endpwent {} { pwent := { dom_idx := 1, cur := 2 } } {}).ret = EOK ∧
    (nss_cmd_endpwent {} { pwent := { dom_idx := 1, cur := 2 } } {}).s.pwent
      = { dom_idx := 1, cur := 2 } ∧
    (nss_cmd_endgrent {} { grent := { dom_idx := 3, cur := 4 } } {}).ret = EOK ∧
    (nss_cmd_endgrent {} { grent := { dom_idx := 3, cur := 4 } } {}).s.grent
      = { dom_idx := 3, cur := 4 } := by
  decide

/-- C14 (amended): `nss_cmd_endpwent` and `nss_cmd_endgrent` never modify a snapshot nor
the cursor of the other database.  When the reply packet is created and the snapshot of
their database exists (ready or under construction) they leave the client's cursor at
(0, 0); when the snapshot is absent, or the reply packet cannot be created, they leave the
cursor as it was. -/
theorem C14_endent_cursor (e : Env) (s : enum_ctx) (st : resp_state) :
    (nss_cmd_endpwent e s st).s =
      (if e.packet_new_ret = EOK ∧ s.pctx.isSome then { s with pwent := { dom_idx := 0, cur := 0 } }
       else s) ∧
    (nss_cmd_endgrent e s st).s =
      (if e.packet_new_ret = EOK ∧ s.gctx.isSome then { s with grent := { dom_idx := 0, cur := 0 } }
       else s) ∧
    (nss_cmd_endpwent e s st).s.pctx = s.pctx ∧ (nss_cmd_endpwent e s st).s.gctx = s.gctx ∧
    (nss_cmd_endgrent e s st).s.pctx = s.pctx ∧ (nss_cmd_endgrent e s st).s.gctx = s.gctx := by
  unfold nss_cmd_endpwent nss_cmd_endgrent
  by_cases h : e.packet_new_ret = EOK
  · cases hp : s.pctx <;> cases hg : s.gctx <;> simp [h, hp, hg]
  · have h2 : (e.packet_new_ret != EOK) = true := by simpa using h
    simp [h, h2]

/-! ## Claims on the domain iteration -/

/-- C18 (the code at the failing input): the domains are the primary domain `A`, its
subdomain `S` and the primary domain `B`, none with a provider to ask, and no cache holds
the name `a`.  Without descent the next domain of `A` is `B`, and the multi-domain
`getpwnam` search looks into `A` and `B` only; the multi-domain `getsidbyname` search
advances from `A` with descent and looks into the subdomain `S` too. -/
theorem C18_getsidbyname_descends_into_subdomain :
    get_next_domain [ex_dom_a, ex_dom_sub, ex_dom_b] false = [ex_dom_b] ∧
    get_next_domain [ex_dom_a, ex_dom_sub, ex_dom_b] true = [ex_dom_sub, ex_dom_b] ∧
    nss_cmd_getpwnam_search {} {}
        { cmd := sss_cli_command.SSS_NSS_GETPWNAM, name := [97], check_next := true }
        { domain := [ex_dom_a, ex_dom_sub, ex_dom_b], check_provider := false } {} =
      some { ret := ENOENT
             dctx := { domain := [ex_dom_b], check_provider := false, res := some [] }
             st := { ncache := [{ key := nc_key.user [66] [97], ts := 0, permanent := false },
                                { key := nc_key.user [65] [97], ts := 0, permanent := false }]
                     sysdb_log := [sysdb_query.getpwnam ex_dom_a [97],
                                   sysdb_query.getpwnam ex_dom_b [97]]
                     mc_invalidated := [[97]]
                     nc_checked := [(ex_dom_a, nc_key.user [65] [97]),
                                    (ex_dom_b, nc_key.user [66] [97])] } } ∧
    nss_cmd_getsidby_search {} {}
        { cmd := sss_cli_command.SSS_NSS_GETSIDBYNAME, name := [97], check_next := true }
        { domain := [ex_dom_a, ex_dom_sub, ex_dom_b], check_provider := false } {} =
      some { ret := ENOENT
             dctx := { domain := [ex_dom_b], check_provider := false, res := some [] }
             st := { ncache := [{ key := nc_key.group [66] [97], ts := 0, permanent := false },
                                { key := nc_key.user [66] [97], ts := 0, permanent := false },
                                { key := nc_key.group [83] [97], ts := 0, permanent := false },
                                { key := nc_key.user [83] [97], ts := 0, permanent := false },
                                { key := nc_key.group [65] [97], ts := 0, permanent := false },
                                { key := nc_key.user [65] [97], ts := 0, permanent := false }]
                     sysdb_log := [sysdb_query.search_user_by_name ex_dom_a [97],
                                   sysdb_query.search_group_by_name ex_dom_a [97],
                                   sysdb_query.search_user_by_name ex_dom_sub [97],
                                   sysdb_query.search_group_by_name ex_dom_sub [97],
                                   sysdb_query.search_user_by_name ex_dom_b [97],
                                   sysdb_query.search_group_by_name ex_dom_b [97]]
                     nc_checked := [(ex_dom_a, nc_key.user [65] [97]),
                                    (ex_dom_sub, nc_key.user [83] [97]),
                                    (ex_dom_b, nc_key.user [66] [97])] } } := by
  decide

/-! ## The name searches and the domains that require qualified names -/

theorem check_cache_nc_checked (e : Env) (dctx : nss_dom_ctx) (nctx : nss_ctx) (st : resp_state)
    (res : List ldb_message) (t : sss_dp_type) (n : Option CStr) (i : Nat) :
    (check_cache e dctx nctx st res t n i).st.nc_checked = st.nc_checked := by
  unfold check_cache check_cache_error
  simp only []
  repeat' split
  all_goals rfl

theorem check_cache_domain (e : Env) (dctx : nss_dom_ctx) (nctx : nss_ctx) (st : resp_state)
    (res : List ldb_message) (t : sss_dp_type) (n : Option CStr) (i : Nat) :
    (check_cache e dctx nctx st res t n i).dctx.domain = dctx.domain := by
  unfold check_cache check_cache_error
  simp only []
  repeat' split
  all_goals rfl

theorem delete_entry_sysdb_log (e : Env) (d : sss_domain_info) (name : CStr) (g : Bool)
    (st : resp_state) :
    (delete_entry_from_memcache e d name g st).2.sysdb_log = st.sysdb_log ∧
    (delete_entry_from_memcache e d name g st).2.nc_checked = st.nc_checked := by
  unfold delete_entry_from_memcache
  simp only []
  repeat' split
  all_goals exact ⟨rfl, rfl⟩

theorem returns_with_some (P : search_out → Prop) (r : search_out) (h : P r) :
    returns_with P (some r) := ⟨r, rfl, h⟩

theorem returns_with_mono (P Q : search_out → Prop) (o : Option search_out)
    (h : returns_with P o) (hpq : ∀ r, P r → Q r) : returns_with Q o := by
  obtain ⟨r, h1, h2⟩ := h
  exact ⟨r, h1, hpq r h2⟩

theorem fq_skipped_step (st st1 : resp_state) (dctx dctx1 : nss_dom_ctx) (r : search_out)
    (hs : ∀ q ∈ st1.sysdb_log, q ∈ st.sysdb_log ∨ q.dom.fqnames = false)
    (hn : ∀ p ∈ st1.nc_checked, p ∈ st.nc_checked ∨ p.1.fqnames = false)
    (hd : dctx1 = dctx ∨ ∃ d rest, dctx1.domain = d :: rest ∧ d.fqnames = false)
    (h : fq_skipped st1 dctx1 r) : fq_skipped st dctx r := by
  obtain ⟨h1, h2, h3⟩ := h
  refine ⟨?_, ?_, ?_⟩
  · intro q hq
    rcases h1 q hq with h | h
    · exact hs q h
    · exact Or.inr h
  · intro p hp
    rcases h2 p hp with h | h
    · exact hn p h
    · exact Or.inr h
  · rcases h3 with ⟨h3a, h3b⟩ | h3
    · rcases hd with hd | hd
      · exact Or.inl ⟨h3a, by rw [h3b, hd]⟩
      · right
        rw [h3b]
        exact hd
    · exact Or.inr h3

theorem fq_skipped_leaf (st st1 : resp_state) (dctx dctx1 : nss_dom_ctx) (ret : Nat)
    (d : sss_domain_info) (rest : List sss_domain_info)
    (hs : ∀ q ∈ st1.sysdb_log, q ∈ st.sysdb_log ∨ q.dom.fqnames = false)
    (hn : ∀ p ∈ st1.nc_checked, p ∈ st.nc_checked ∨ p.1.fqnames = false)
    (hd : dctx1.domain = d :: rest) (hfq : d.fqnames = false) :
    fq_skipped st dctx { ret := ret, dctx := dctx1, st := st1 } :=
  ⟨hs, hn, Or.inr ⟨d, rest, hd, hfq⟩⟩

theorem getpwnam_loop_fq (e : Env) (nctx : nss_ctx) (c : nss_cmd_ctx)
    (hcn : c.check_next = true) :
    ∀ (fuel : Nat) (dom : List sss_domain_info) (dctx : nss_dom_ctx) (st : resp_state),
      dom.length < fuel →
      returns_with (fq_skipped st dctx) (getpwnam_loop e nctx c fuel dom dctx st) := by
  intro fuel
  induction fuel with
  | zero => intro dom dctx st h; omega
  | succ n ih =>
    intro dom dctx st hlen
    cases dom with
    | nil =>
      exact returns_with_some _ _ ⟨fun q hq => Or.inl hq, fun p hp => Or.inl hp, Or.inl ⟨rfl, rfl⟩⟩
    | cons d rest =>
      have hnext : ∀ b, (get_next_domain (d :: rest) b).length < n := by
        intro b
        have := get_next_domain_length d rest b
        simp at hlen
        omega
      rw [getpwnam_loop]
      simp only [hcn, Bool.true_and]
      by_cases hfq : d.fqnames = true
      · simp only [hfq, if_true]
        exact ih _ _ _ (hnext _)
      · have hfq2 : d.fqnames = false := by simpa using hfq
        simp only [hfq2, Bool.false_eq_true, if_false]
        generalize hd1 : (if (d :: rest != dctx.domain) = true then
            { dctx with check_provider := d.provider } else dctx) = dctx1
        have rec_case : ∀ (dctx2 : nss_dom_ctx) (st2 : resp_state) (b : Bool),
            dctx2.domain = d :: rest →
            (∀ q ∈ st2.sysdb_log, q ∈ st.sysdb_log ∨ q.dom.fqnames = false) →
            (∀ p ∈ st2.nc_checked, p ∈ st.nc_checked ∨ p.1.fqnames = false) →
            returns_with (fq_skipped st dctx)
              (getpwnam_loop e nctx c n (get_next_domain (d :: rest) b) dctx2 st2) := by
          intro dctx2 st2 b hdom hs hn
          exact returns_with_mono _ _ _ (ih _ dctx2 st2 (hnext b))
            (fun r hr => fq_skipped_step st st2 dctx dctx2 r hs hn
              (Or.inr ⟨d, rest, hdom, hfq2⟩) hr)
        have leaf : ∀ (ret : Nat) (dctx2 : nss_dom_ctx) (st2 : resp_state),
            dctx2.domain = d :: rest →
            (∀ q ∈ st2.sysdb_log, q ∈ st.sysdb_log ∨ q.dom.fqnames = false) →
            (∀ p ∈ st2.nc_checked, p ∈ st.nc_checked ∨ p.1.fqnames = false) →
            returns_with (fq_skipped st dctx)
              (some { ret := ret, dctx := dctx2, st := st2 }) := by
          intro ret dctx2 st2 hdom hs hn
          exact returns_with_some _ _ (fq_skipped_leaf st st2 dctx dctx2 ret d rest hs hn hdom hfq2)
        have hs0 : ∀ q ∈ st.sysdb_log, q ∈ st.sysdb_log ∨ q.dom.fqnames = false :=
          fun q hq => Or.inl hq
        have hn0 : ∀ p ∈ st.nc_checked, p ∈ st.nc_checked ∨ p.1.fqnames = false :=
          fun p hp => Or.inl hp
        have hn1 : ∀ k, ∀ p ∈ st.nc_checked ++ [(d, k)],
            p ∈ st.nc_checked ∨ p.1.fqnames = false := by
          intro k p hp
          rcases List.mem_append.mp hp with h | h
          · exact Or.inl h
          · simp only [List.mem_singleton] at h
            subst h
            exact Or.inr hfq2
        have hs1 : ∀ nm, ∀ q ∈ st.sysdb_log ++ [sysdb_query.getpwnam d nm],
            q ∈ st.sysdb_log ∨ q.dom.fqnames = false := by
          intro nm q hq
          rcases List.mem_append.mp hq with h | h
          · exact Or.inl h
          · simp only [List.mem_singleton] at h
            subst h
            exact Or.inr hfq2
        cases e.sss_get_cased_name c.name d.case_sensitive with
        | none => exact leaf _ _ _ rfl hs0 hn0
        | some name =>
          simp only []
          split
          · exact rec_case _ _ _ rfl hs0 (hn1 _)
          · split
            · exact leaf _ _ _ rfl hs0 (hn1 _)
            · cases e.sysdb_getpwnam d name with
              | none => exact leaf _ _ _ rfl (hs1 _) (hn1 _)
              | some res =>
                simp only []
                split
                · exact leaf _ _ _ rfl (hs1 _) (hn1 _)
                · split
                  · split
                    · exact leaf _ _ _ rfl (hs1 _) (hn1 _)
                    · split
                      · exact rec_case _ _ _ rfl (hs1 _) (hn1 _)
                      · refine leaf _ _ _ rfl ?_ ?_
                        · rw [(delete_entry_sysdb_log _ _ _ _ _).1]
                          exact hs1 _
                        · rw [(delete_entry_sysdb_log _ _ _ _ _).2]
                          exact hn1 _
                  · split
                    · split
                      · refine returns_with_some _ _ ⟨?_, ?_, Or.inr ⟨d, rest, ?_, hfq2⟩⟩
                        · rw [check_cache_sysdb_log]
                          exact hs1 _
                        · rw [check_cache_nc_checked]
                          exact hn1 _
                        · rw [check_cache_domain]
                      · refine leaf _ _ _ ?_ ?_ ?_
                        · rw [check_cache_domain]
                        · rw [check_cache_sysdb_log]
                          exact hs1 _
                        · rw [check_cache_nc_checked]
                          exact hn1 _
                    · exact leaf _ _ _ rfl (hs1 _) (hn1 _)

theorem getgrnam_loop_fq (e : Env) (nctx : nss_ctx) (c : nss_cmd_ctx)
    (hcn : c.check_next = true) :
    ∀ (fuel : Nat) (dom : List sss_domain_info) (dctx : nss_dom_ctx) (st : resp_state),
      dom.length < fuel →
      returns_with (fq_skipped st dctx) (getgrnam_loop e nctx c fuel dom dctx st) := by
  intro fuel
  induction fuel with
  | zero => intro dom dctx st h; omega
  | succ n ih =>
    intro dom dctx st hlen
    cases dom with
    | nil =>
      exact returns_with_some _ _ ⟨fun q hq => Or.inl hq, fun p hp => Or.inl hp, Or.inl ⟨rfl, rfl⟩⟩
    | cons d rest =>
      have hnext : ∀ b, (get_next_domain (d :: rest) b).length < n := by
        intro b
        have := get_next_domain_length d rest b
        simp at hlen
        omega
      rw [getgrnam_loop]
      simp only [hcn, Bool.true_and]
      by_cases hfq : d.fqnames = true
      · simp only [hfq, if_true]
        exact ih _ _ _ (hnext _)
      · have hfq2 : d.fqnames = false := by simpa using hfq
        simp only [hfq2, Bool.false_eq_true, if_false]
        generalize hd1 : (if (d :: rest != dctx.domain) = true then
            { dctx with check_provider := d.provider } else dctx) = dctx1
        have rec_case : ∀ (dctx2 : nss_dom_ctx) (st2 : resp_state) (b : Bool),
            dctx2.domain = d :: rest →
            (∀ q ∈ st2.sysdb_log, q ∈ st.sysdb_log ∨ q.dom.fqnames = false) →
            (∀ p ∈ st2.nc_checked, p ∈ st.nc_checked ∨ p.1.fqnames = false) →
            returns_with (fq_skipped st dctx)
              (getgrnam_loop e nctx c n (get_next_domain (d :: rest) b) dctx2 st2) := by
          intro dctx2 st2 b hdom hs hn
          exact returns_with_mono _ _ _ (ih _ dctx2 st2 (hnext b))
            (fun r hr => fq_skipped_step st st2 dctx dctx2 r hs hn
              (Or.inr ⟨d, rest, hdom, hfq2⟩) hr)
        have leaf : ∀ (ret : Nat) (dctx2 : nss_dom_ctx) (st2 : resp_state),
            dctx2.domain = d :: rest →
            (∀ q ∈ st2.sysdb_log, q ∈ st.sysdb_log ∨ q.dom.fqnames = false) →
            (∀ p ∈ st2.nc_checked, p ∈ st.nc_checked ∨ p.1.fqnames = false) →
            returns_with (fq_skipped st dctx)
              (some { ret := ret, dctx := dctx2, st := st2 }) := by
          intro ret dctx2 st2 hdom hs hn
          exact returns_with_some _ _ (fq_skipped_leaf st st2 dctx dctx2 ret d rest hs hn hdom hfq2)
        have hs0 : ∀ q ∈ st.sysdb_log, q ∈ st.sysdb_log ∨ q.dom.fqnames = false :=
          fun q hq => Or.inl hq
        have hn0 : ∀ p ∈ st.nc_checked, p ∈ st.nc_checked ∨ p.1.fqnames = false :=
          fun p hp => Or.inl hp
        have hn1 : ∀ k, ∀ p ∈ st.nc_checked ++ [(d, k)],
            p ∈ st.nc_checked ∨ p.1.fqnames = false := by
          intro k p hp
          rcases List.mem_append.mp hp with h | h
          · exact Or.inl h
          · simp only [List.mem_singleton] at h
            subst h
            exact Or.inr hfq2
        have hs1 : ∀ nm, ∀ q ∈ st.sysdb_log ++ [sysdb_query.getgrnam d nm],
            q ∈ st.sysdb_log ∨ q.dom.fqnames = false := by
          intro nm q hq
          rcases List.mem_append.mp hq with h | h
          · exact Or.inl h
          · simp only [List.mem_singleton] at h
            subst h
            exact Or.inr hfq2
        cases e.sss_get_cased_name c.name d.case_sensitive with
        | none => exact leaf _ _ _ rfl hs0 hn0
        | some name =>
          simp only []
          split
          · exact rec_case _ _ _ rfl hs0 (hn1 _)
          · split
            · exact leaf _ _ _ rfl hs0 (hn1 _)
            · cases e.sysdb_getgrnam d name with
              | none => exact leaf _ _ _ rfl (hs1 _) (hn1 _)
              | some res =>
                simp only []
                split
                · exact leaf _ _ _ rfl (hs1 _) (hn1 _)
                · split
                  · split
                    · exact leaf _ _ _ rfl (hs1 _) (hn1 _)
                    · split
                      · exact rec_case _ _ _ rfl (hs1 _) (hn1 _)
                      · refine leaf _ _ _ rfl ?_ ?_
                        · rw [(delete_entry_sysdb_log _ _ _ _ _).1]
                          exact hs1 _
                        · rw [(delete_entry_sysdb_log _ _ _ _ _).2]
                          exact hn1 _
                  · split
                    · split
                      · refine returns_with_some _ _ ⟨?_, ?_, Or.inr ⟨d, rest, ?_, hfq2⟩⟩
                        · rw [check_cache_sysdb_log]
                          exact hs1 _
                        · rw [check_cache_nc_checked]
                          exact hn1 _
                        · rw [check_cache_domain]
                      · refine leaf _ _ _ ?_ ?_ ?_
                        · rw [check_cache_domain]
                        · rw [check_cache_sysdb_log]
                          exact hs1 _
                        · rw [check_cache_nc_checked]
                          exact hn1 _
                    · exact leaf _ _ _ rfl (hs1 _) (hn1 _)

theorem initgroups_loop_fq (e : Env) (nctx : nss_ctx) (c : nss_cmd_ctx)
    (hcn : c.check_next = true) :
    ∀ (fuel : Nat) (dom : List sss_domain_info) (dctx : nss_dom_ctx) (st : resp_state),
      dom.length < fuel →
      returns_with (fq_skipped st dctx) (initgroups_loop e nctx c fuel dom dctx st) := by
  intro fuel
  induction fuel with
  | zero => intro dom dctx st h; omega
  | succ n ih =>
    intro dom dctx st hlen
    cases dom with
    | nil =>
      exact returns_with_some _ _ ⟨fun q hq => Or.inl hq, fun p hp => Or.inl hp, Or.inl ⟨rfl, rfl⟩⟩
    | cons d rest =>
      have hnext : ∀ b, (get_next_domain (d :: rest) b).length < n := by
        intro b
        have := get_next_domain_length d rest b
        simp at hlen
        omega
      rw [initgroups_loop]
      simp only [hcn, Bool.true_and]
      by_cases hfq : d.fqnames = true
      · simp only [hfq, if_true]
        exact ih _ _ _ (hnext _)
      · have hfq2 : d.fqnames = false := by simpa using hfq
        simp only [hfq2, Bool.false_eq_true, if_false]
        generalize hd1 : (if (d :: rest != dctx.domain) = true then
            { dctx with check_provider := d.provider } else dctx) = dctx1
        have rec_case : ∀ (dctx2 : nss_dom_ctx) (st2 : resp_state) (b : Bool),
            dctx2.domain = d :: rest →
            (∀ q ∈ st2.sysdb_log, q ∈ st.sysdb_log ∨ q.dom.fqnames = false) →
            (∀ p ∈ st2.nc_checked, p ∈ st.nc_checked ∨ p.1.fqnames = false) →
            returns_with (fq_skipped st dctx)
              (initgroups_loop e nctx c n (get_next_domain (d :: rest) b) dctx2 st2) := by
          intro dctx2 st2 b hdom hs hn
          exact returns_with_mono _ _ _ (ih _ dctx2 st2 (hnext b))
            (fun r hr => fq_skipped_step st st2 dctx dctx2 r hs hn
              (Or.inr ⟨d, rest, hdom, hfq2⟩) hr)
        have leaf : ∀ (ret : Nat) (dctx2 : nss_dom_ctx) (st2 : resp_state),
            dctx2.domain = d :: rest →
            (∀ q ∈ st2.sysdb_log, q ∈ st.sysdb_log ∨ q.dom.fqnames = false) →
            (∀ p ∈ st2.nc_checked, p ∈ st.nc_checked ∨ p.1.fqnames = false) →
            returns_with (fq_skipped st dctx)
              (some { ret := ret, dctx := dctx2, st := st2 }) := by
          intro ret dctx2 st2 hdom hs hn
          exact returns_with_some _ _ (fq_skipped_leaf st st2 dctx dctx2 ret d rest hs hn hdom hfq2)
        have hs0 : ∀ q ∈ st.sysdb_log, q ∈ st.sysdb_log ∨ q.dom.fqnames = false :=
          fun q hq => Or.inl hq
        have hn0 : ∀ p ∈ st.nc_checked, p ∈ st.nc_checked ∨ p.1.fqnames = false :=
          fun p hp => Or.inl hp
        have hn1 : ∀ k, ∀ p ∈ st.nc_checked ++ [(d, k)],
            p ∈ st.nc_checked ∨ p.1.fqnames = false := by
          intro k p hp
          rcases List.mem_append.mp hp with h | h
          · exact Or.inl h
          · simp only [List.mem_singleton] at h
            subst h
            exact Or.inr hfq2
        have hs1 : ∀ nm, ∀ q ∈ st.sysdb_log ++ [sysdb_query.initgroups d nm],
            q ∈ st.sysdb_log ∨ q.dom.fqnames = false := by
          intro nm q hq
          rcases List.mem_append.mp hq with h | h
          · exact Or.inl h
          · simp only [List.mem_singleton] at h
            subst h
            exact Or.inr hfq2
        cases e.sss_get_cased_name c.name d.case_sensitive with
        | none => exact leaf _ _ _ rfl hs0 hn0
        | some name =>
          simp only []
          split
          · exact rec_case _ _ _ rfl hs0 (hn1 _)
          · split
            · exact leaf _ _ _ rfl hs0 (hn1 _)
            · cases e.sysdb_initgroups d name with
              | none => exact leaf _ _ _ rfl (hs1 _) (hn1 _)
              | some res =>
                simp only []
                split
                · split
                  · exact leaf _ _ _ rfl (hs1 _) (hn1 _)
                  · split
                    · exact rec_case _ _ _ rfl (hs1 _) (hn1 _)
                    · exact leaf _ _ _ rfl (hs1 _) (hn1 _)
                · split
                  · split
                    · refine returns_with_some _ _ ⟨?_, ?_, Or.inr ⟨d, rest, ?_, hfq2⟩⟩
                      · rw [check_cache_sysdb_log]
                        exact hs1 _
                      · rw [check_cache_nc_checked]
                        exact hn1 _
                      · rw [check_cache_domain]
                    · refine leaf _ _ _ ?_ ?_ ?_
                      · rw [check_cache_domain]
                      · rw [check_cache_sysdb_log]
                        exact hs1 _
                      · rw [check_cache_nc_checked]
                        exact hn1 _
                  · exact leaf _ _ _ rfl (hs1 _) (hn1 _)

/-- C17: in a multi-domain search (`check_next` set), each of `nss_cmd_getpwnam_search`,
`nss_cmd_getgrnam_search` and `nss_cmd_initgroups_search` returns, every lookup it makes
in the negative cache and in the persistent cache is for a domain with `fqnames = false`,
and whenever it returns `EOK` or `EAGAIN` the domain left in `dctx->domain` has
`fqnames = false`. -/
theorem C17_name_searches_skip_fq_domains (e : Env) (nctx : nss_ctx) (c : nss_cmd_ctx)
    (dctx : nss_dom_ctx) (st : resp_state) (hcn : c.check_next = true) :
    name_search_skips_fq st (nss_cmd_getpwnam_search e nctx c dctx st) ∧
    name_search_skips_fq st (nss_cmd_getgrnam_search e nctx c dctx st) ∧
    name_search_skips_fq st (nss_cmd_initgroups_search e nctx c dctx st) := by
  have fin : ∀ o : Option search_out, returns_with (fq_skipped st dctx) o →
      name_search_skips_fq st o := by
    rintro o ⟨r, hr, h1, h2, h3⟩
    refine ⟨r, hr, h1, h2, ?_⟩
    intro hret
    rcases h3 with ⟨h3, _⟩ | h3
    · rcases hret with h | h
      · rw [h3] at h; cases h
      · rw [h3] at h; cases h
    · exact h3
  exact ⟨fin _ (getpwnam_loop_fq e nctx c hcn _ _ _ _ (by omega)),
    fin _ (getgrnam_loop_fq e nctx c hcn _ _ _ _ (by omega)),
    fin _ (initgroups_loop_fq e nctx c hcn _ _ _ _ (by omega))⟩

/-- Witness of C17: the unqualified name `a` searched in the domain `EX`, which requires
qualified names, followed by the domain `A`, which does not. -/
theorem C17_name_searches_skip_fq_domains_witness :
    name_search_skips_fq {}
      (nss_cmd_getpwnam_search {} {}
        { cmd := sss_cli_command.SSS_NSS_GETPWNAM, name := [97], check_next := true }
        { domain := [ex_dom_fq, ex_dom_a], check_provider := false } {}) ∧
    name_search_skips_fq {}
      (nss_cmd_getgrnam_search {} {}
        { cmd := sss_cli_command.SSS_NSS_GETPWNAM, name := [97], check_next := true }
        { domain := [ex_dom_fq, ex_dom_a], check_provider := false } {}) ∧
    name_search_skips_fq {}
      (nss_cmd_initgroups_search {} {}
        { cmd := sss_cli_command.SSS_NSS_GETPWNAM, name := [97], check_next := true }
        { domain := [ex_dom_fq, ex_dom_a], check_provider := false } {}) :=
  C17_name_searches_skip_fq_domains {} {}
    { cmd := sss_cli_command.SSS_NSS_GETPWNAM, name := [97], check_next := true }
    { domain := [ex_dom_fq, ex_dom_a], check_provider := false } {} rfl

/-! ## Claims on the provider callback -/

theorem nss_cmd_done_enoent (e : Env) (st : resp_state) :
    nss_cmd_done e st ENOENT =
      if e.send_empty_ret = EOK then (EOK, { st with empty_sent := true })
      else (EFAULT, { st with empty_sent := true }) := by
  unfold nss_cmd_done
  by_cases h : e.send_empty_ret = EOK
  · simp [h, EOK, ENOENT]
  · have h2 : (e.send_empty_ret != EOK) = true := by simpa using h
    simp [h, h2, EOK, ENOENT]

/-! ## Construction of the enumeration snapshot -/

theorem step_post_lift (k : ent_kind) (e : Env) (d : sss_domain_info)
    (rest : List sss_domain_info) (sc sc1 : setent_step_ctx) (o : step_out)
    (h : step_post k e rest sc1 o)
    (heq : sc1.getent_ctx.doms ++ enum_expected k e rest =
      sc.getent_ctx.doms ++ enum_expected k e (d :: rest)) :
    step_post k e (d :: rest) sc o := by
  rcases h with ⟨h1, h2, h3⟩ | ⟨h1, h2, h3, h4, h5⟩ | h
  · exact Or.inl ⟨h1, by rw [h2, heq], h3⟩
  · refine Or.inr (Or.inl ⟨h1, h2, by rw [h3, heq], h4, Or.inl ?_⟩)
    rcases h5 with h5 | ⟨h5, _⟩
    · simp only [List.length_cons]
      omega
    · rw [h5]
      simp
  · exact Or.inr (Or.inr h)

theorem setent_step_loop_spec (k : ent_kind) (e : Env) :
    ∀ (fuel : Nat) (dom : List sss_domain_info) (sc : setent_step_ctx) (st : resp_state),
      dom.length < fuel → sc.getent_ctx.ready = false →
      ∃ o, setent_step_loop k e fuel dom sc st = some o ∧ step_post k e dom sc o := by
  intro fuel
  induction fuel with
  | zero => intro dom sc st h; omega
  | succ n ih =>
    intro dom sc st hlen hready
    cases dom with
    | nil =>
      refine ⟨_, rfl, Or.inl ⟨rfl, by simp [enum_expected], ?_⟩⟩
      simp only []
      split
      · exact Or.inr rfl
      · exact Or.inl rfl
    | cons d rest =>
      have hl : rest.length < n := by simp at hlen; omega
      have hnext : get_next_domain (d :: rest) true = rest := by simp [get_next_domain]
      have lift2 : ∀ sc1 : setent_step_ctx, sc1.getent_ctx.ready = false →
          sc1.getent_ctx.doms ++ enum_expected k e rest =
            sc.getent_ctx.doms ++ enum_expected k e (d :: rest) →
          ∃ o, setent_step_loop k e n rest sc1 st = some o ∧
            step_post k e (d :: rest) sc o := by
        intro sc1 h1 h2
        obtain ⟨o, ho, hp⟩ := ih rest sc1 st hl h1
        exact ⟨o, ho, step_post_lift k e d rest sc sc1 o hp h2⟩
      rw [setent_step_loop]
      simp only [hnext]
      by_cases hen : d.enumerate = true
      · have hen2 : (d.enumerate == false) = false := by simp [hen]
        simp only [hen2, Bool.false_eq_true, if_false]
        by_cases hsys : d.sysdb = true
        · simp only [hsys, Bool.not_true, Bool.false_eq_true, if_false]
          generalize hd1 : (if (d :: rest != sc.dctx.domain) = true then
              { sc.dctx with check_provider := d.provider } else sc.dctx) = dctx1
          have hcp : dctx1.check_provider = true →
              (d :: rest ≠ sc.dctx.domain ∨ sc.dctx.check_provider = true) := by
            intro hc
            by_cases hne : d :: rest = sc.dctx.domain
            · right
              have : dctx1 = sc.dctx := by
                rw [← hd1]
                simp [hne]
              rw [← this]
              exact hc
            · exact Or.inl hne
          by_cases hc : dctx1.check_provider = true
          · by_cases hsend : e.dp_send_ok = true
            · simp only [hc, hsend, Bool.and_self, if_true]
              refine ⟨_, rfl, Or.inr (Or.inl ⟨hready, rfl, rfl, rfl, Or.inr ⟨rfl, hcp hc⟩⟩)⟩
            · have hsend2 : e.dp_send_ok = false := by simpa using hsend
              simp only [hc, hsend2, Bool.and_false, Bool.false_eq_true, if_false, if_true]
              cases hk : k.enum e d with
              | none =>
                simp only []
                exact lift2 _ hready (by simp [enum_expected, hen, hk])
              | some res =>
                simp only []
                by_cases hres : res.length = 0
                · simp only [hres, beq_self_eq_true, if_true]
                  exact lift2 _ hready (by simp [enum_expected, hen, hk, hres])
                · have hres2 : (res.length == 0) = false := by simpa using hres
                  simp only [hres2, Bool.false_eq_true, if_false]
                  exact lift2 _ hready (by simp [enum_expected, hen, hk, hres])
          · have hc2 : dctx1.check_provider = false := by simpa using hc
            simp only [hc2, Bool.false_and, Bool.false_eq_true, if_false]
            cases hk : k.enum e d with
            | none =>
              simp only []
              exact lift2 _ hready (by simp [enum_expected, hen, hk])
            | some res =>
              simp only []
              by_cases hres : res.length = 0
              · simp only [hres, beq_self_eq_true, if_true]
                exact lift2 _ hready (by simp [enum_expected, hen, hk, hres])
              · have hres2 : (res.length == 0) = false := by simpa using hres
                simp only [hres2, Bool.false_eq_true, if_false]
                exact lift2 _ hready (by simp [enum_expected, hen, hk, hres])
        · have hsys2 : d.sysdb = false := by simpa using hsys
          simp only [hsys2, Bool.not_false, if_true]
          exact ⟨_, rfl, Or.inr (Or.inr ⟨hready, rfl⟩)⟩
      · have hen2 : d.enumerate = false := by simpa using hen
        simp only [hen2, beq_self_eq_true, if_true]
        exact lift2 _ hready (by simp [enum_expected, hen2])

theorem setent_build_spec (k : ent_kind) (e : Env) :
    ∀ (n : Nat) (sc : setent_step_ctx) (st : resp_state),
      2 * sc.dctx.domain.length + (if sc.dctx.check_provider = true then 1 else 0) < n →
      sc.getent_ctx.ready = false →
      ∃ o, setent_build k e n sc st = some o ∧
        ((o.step_ctx.getent_ctx.ready = true ∧
          o.step_ctx.getent_ctx.doms =
            sc.getent_ctx.doms ++ enum_expected k e sc.dctx.domain) ∨
         (o.step_ctx.getent_ctx.ready = false ∧ o.ret = EIO)) := by
  intro n
  induction n with
  | zero => intro sc st h; omega
  | succ n ih =>
    intro sc st hm hready
    obtain ⟨o, ho, hp⟩ := setent_step_loop_spec k e (sc.dctx.domain.length + 1)
      sc.dctx.domain sc st (by omega) hready
    rw [setent_build]
    unfold setent_step
    rw [ho]
    simp only []
    rcases hp with ⟨h1, h2, _⟩ | ⟨h1, h2, h3, h4, h5⟩ | ⟨h1, h2⟩
    · simp only [h1, Bool.not_true, Bool.and_false, Bool.false_eq_true, if_false]
      exact ⟨o, rfl, Or.inl ⟨h1, h2⟩⟩
    · simp only [h1, h2, beq_self_eq_true, Bool.not_false, Bool.and_self, if_true]
      have hm2 : 2 * o.step_ctx.dctx.domain.length +
          (if o.step_ctx.dctx.check_provider = true then 1 else 0) < n := by
        rw [h4]
        simp only [Bool.false_eq_true, if_false]
        rcases h5 with h5 | ⟨h5, h6⟩
        · omega
        · rcases h6 with h6 | h6
          · exact absurd rfl h6
          · rw [h6] at hm
            rw [h5]
            simp only [if_true] at hm
            omega
      obtain ⟨o2, ho2, hp2⟩ := ih o.step_ctx o.st hm2 h1
      refine ⟨o2, ho2, ?_⟩
      rcases hp2 with ⟨g1, g2⟩ | g
      · exact Or.inl ⟨g1, by rw [g2, h3]⟩
      · exact Or.inr g
    · have hne : (o.ret == EAGAIN) = false := by rw [h2]; decide
      simp only [hne, Bool.false_and, Bool.false_eq_true, if_false]
      exact ⟨o, rfl, Or.inr ⟨h1, h2⟩⟩

theorem snapshot_built_holds (k : ent_kind) (e : Env) (sc : setent_step_ctx)
    (st : resp_state) (hready : sc.getent_ctx.ready = false) : snapshot_built k e sc st := by
  constructor
  · obtain ⟨o, ho, hp⟩ := setent_step_loop_spec k e (sc.dctx.domain.length + 1)
      sc.dctx.domain sc st (by omega) hready
    refine ⟨o, ho, ?_, ?_⟩
    · intro hr
      rcases hp with ⟨_, h2, _⟩ | ⟨h1, _⟩ | ⟨h1, _⟩
      · exact h2
      · rw [h1] at hr; cases hr
      · rw [h1] at hr; cases hr
    · intro hr
      rcases hp with ⟨h1, _⟩ | ⟨_, h2, _⟩ | ⟨_, h2⟩
      · rw [h1] at hr; cases hr
      · exact Or.inl h2
      · exact Or.inr h2
  · obtain ⟨o, ho, hp⟩ := setent_build_spec k e (2 * sc.dctx.domain.length + 2) sc st
      (by split <;> omega) hready
    refine ⟨o, ho, ?_, ?_⟩
    · intro hr
      rcases hp with ⟨_, h2⟩ | ⟨h1, _⟩
      · exact h2
      · rw [h1] at hr; cases hr
    · intro hr
      rcases hp with ⟨h1, _⟩ | ⟨_, h2⟩
      · rw [h1] at hr; cases hr
      · exact h2

theorem enum_expected_mem (k : ent_kind) (e : Env) (dc : dom_ctx) :
    ∀ dom : List sss_domain_info,
      dc ∈ enum_expected k e dom ↔
        ∃ d rest, dc.domain = d :: rest ∧ (d :: rest) <:+ dom ∧ d.enumerate = true ∧
          k.enum e d = some dc.res ∧ dc.res.length ≠ 0 := by
  intro dom
  induction dom with
  | nil => simp [enum_expected]
  | cons a l ih =>
    rw [enum_expected, List.mem_append, ih]
    constructor
    · rintro (h | ⟨d, rest, h1, h2, h3⟩)
      · split at h
        · rename_i hen
          split at h
          · rename_i res hk
            split at h
            · rename_i hres
              simp only [List.mem_singleton] at h
              subst h
              exact ⟨a, l, rfl, List.suffix_refl _, hen, hk, hres⟩
            · cases h
          · cases h
        · cases h
      · exact ⟨d, rest, h1, List.IsSuffix.trans h2 (List.suffix_cons a l), h3⟩
    · rintro ⟨d, rest, h1, h2, h3, h4, h5⟩
      rcases List.suffix_cons_iff.mp h2 with h | h
      · left
        cases h
        simp only [h3, if_true, h4]
        simp only [h5, ne_eq, not_false_eq_true, if_true, List.mem_singleton]
        cases dc
        simp_all
      · exact Or.inr ⟨d, rest, h1, h, h3, h4, h5⟩

theorem enum_expected_order (k : ent_kind) (e : Env) :
    ∀ dom : List sss_domain_info,
      (enum_expected k e dom).Pairwise (fun a b => b.domain.length < a.domain.length) := by
  intro dom
  induction dom with
  | nil => simp [enum_expected]
  | cons a l ih =>
    rw [enum_expected, List.pairwise_append]
    refine ⟨?_, ih, ?_⟩
    · split
      · split
        · split <;> simp
        · simp
      · simp
    · intro x hx y hy
      obtain ⟨d, rest, h1, h2, _⟩ := (enum_expected_mem k e y l).mp hy
      have hlen := h2.length_le
      rw [← h1] at hlen
      split at hx
      · split at hx
        · split at hx
          · simp only [List.mem_singleton] at hx
            subst hx
            simp only [List.length_cons]
            omega
          · cases hx
        · cases hx
      · cases hx

/-- C16: for a snapshot under construction (not ready), `nss_cmd_setpwent_step` and
`nss_cmd_setgrent_step` return, and when a step marks the snapshot ready, the per-domain
list holds, after the entries it had on entry, the expected entries of all the domains
from `dctx->domain` to the last one; a step that leaves the snapshot not ready returns
`EAGAIN` or `EIO`.  The construction as a whole (the step and its re-entries from the
provider callback) returns and ends with the snapshot ready and those entries, or with
`EIO`.  The expected entries are exactly those of the domains with `enumerate` set whose
cache enumeration returned at least one record, each with the records enumerated, in
domain order and each domain once (the domains of successive entries are ever shorter
suffixes of the domain list). -/
theorem C16_snapshot_ready_contents (e : Env) (sc : setent_step_ctx) (st : resp_state)
    (hready : sc.getent_ctx.ready = false) :
    snapshot_built pw_ent e sc st ∧ snapshot_built gr_ent e sc st ∧
    nss_cmd_setpwent_step e sc st = setent_step pw_ent e sc st ∧
    nss_cmd_setgrent_step e sc st = setent_step gr_ent e sc st ∧
    (∀ k dc, dc ∈ enum_expected k e sc.dctx.domain ↔
      ∃ d rest, dc.domain = d :: rest ∧ (d :: rest) <:+ sc.dctx.domain ∧
        d.enumerate = true ∧ k.enum e d = some dc.res ∧ dc.res.length ≠ 0) ∧
    (∀ k, (enum_expected k e sc.dctx.domain).Pairwise
      (fun a b => b.domain.length < a.domain.length)) :=
  ⟨snapshot_built_holds pw_ent e sc st hready, snapshot_built_holds gr_ent e sc st hready,
    rfl, rfl, fun k dc => enum_expected_mem k e dc sc.dctx.domain,
    fun k => enum_expected_order k e sc.dctx.domain⟩

/-- Witness of C16: the domain `A` without enumeration followed by the domain `E` with
enumeration, and a fresh snapshot. -/
theorem C16_snapshot_ready_contents_witness :
    snapshot_built pw_ent ex_env_enum
      { dctx := { domain := [ex_dom_a, ex_dom_enum], check_provider := false } } {} ∧
    snapshot_built gr_ent ex_env_enum
      { dctx := { domain := [ex_dom_a, ex_dom_enum], check_provider := false } } {} ∧
    nss_cmd_setpwent_step ex_env_enum
        { dctx := { domain := [ex_dom_a, ex_dom_enum], check_provider := false } } {} =
      setent_step pw_ent ex_env_enum
        { dctx := { domain := [ex_dom_a, ex_dom_enum], check_provider := false } } {} ∧
    nss_cmd_setgrent_step ex_env_enum
        { dctx := { domain := [ex_dom_a, ex_dom_enum], check_provider := false } } {} =
      setent_step gr_ent ex_env_enum
        { dctx := { domain := [ex_dom_a, ex_dom_enum], check_provider := false } } {} ∧
    (∀ k dc, dc ∈ enum_expected k ex_env_enum [ex_dom_a, ex_dom_enum] ↔
      ∃ d rest, dc.domain = d :: rest ∧ (d :: rest) <:+ [ex_dom_a, ex_dom_enum] ∧
        d.enumerate = true ∧ k.enum ex_env_enum d = some dc.res ∧ dc.res.length ≠ 0) ∧
    (∀ k, (enum_expected k ex_env_enum [ex_dom_a, ex_dom_enum]).Pairwise
      (fun a b => b.domain.length < a.domain.length)) :=
  C16_snapshot_ready_contents ex_env_enum
    { dctx := { domain := [ex_dom_a, ex_dom_enum], check_provider := false } } {} rfl

/-! ## The passwd encoder on arbitrary records -/

theorem fill_pwent_entry_grows (x : Ext) (dom : sss_domain_info) (nctx : nss_ctx)
    (m a : Bool) (dl uid gid : Nat) (name gecos homedir shell pwfield : sized_string)
    (body : List Nat) (s : pw_state) (hg : ∀ l n, x.grow_ret l n = EOK) :
    ∃ s1, fill_pwent_entry x dom nctx m a dl uid gid name gecos homedir shell pwfield body s
        = Sum.inr s1 ∧
      s1.num ≤ s.num + 1 ∧ s1.packet_initialized = s.packet_initialized := by
  unfold fill_pwent_entry
  simp only [sss_packet_grow, hg, bne_self_eq_false, Bool.false_eq_true, if_false]
  repeat' split
  all_goals exact ⟨_, rfl, by simp, rfl⟩

theorem fill_pwent_loop_grows (x : Ext) (dom : sss_domain_info) (nctx : nss_ctx)
    (nc : sss_nc_ctx) (now : Nat) (f m a : Bool) (dl : Nat)
    (hg : ∀ l n, x.grow_ret l n = EOK) :
    ∀ (msgs : List ldb_message) (i : Nat) (s : pw_state),
      ∃ s1, fill_pwent_loop x dom nctx nc now f m a dl msgs i s
          = pw_exit.done (i + msgs.length) s1 ∧
        s1.num ≤ s.num + msgs.length ∧
        (s.packet_initialized = true → s1.packet_initialized = true) ∧
        (s1.packet_initialized = false → s1.body = s.body) := by
  intro msgs
  induction msgs with
  | nil => intro i s; exact ⟨s, rfl, by simp, fun h => h, fun _ => rfl⟩
  | cons msg rest ih =>
    intro i s
    have skip : ∃ s1, fill_pwent_loop x dom nctx nc now f m a dl rest (i + 1) s
          = pw_exit.done (i + (msg :: rest).length) s1 ∧
        s1.num ≤ s.num + (msg :: rest).length ∧
        (s.packet_initialized = true → s1.packet_initialized = true) ∧
        (s1.packet_initialized = false → s1.body = s.body) := by
      obtain ⟨s1, h1, h2, h3, h4⟩ := ih (i + 1) s
      refine ⟨s1, ?_, ?_, h3, h4⟩
      · rw [h1]
        simp only [List.length_cons]
        congr 1
        omega
      · simp only [List.length_cons]
        omega
    have init : ∀ s2 : pw_state, s2.packet_initialized = true → s2.num ≤ s.num + 1 →
        ∃ s1, fill_pwent_loop x dom nctx nc now f m a dl rest (i + 1) s2
          = pw_exit.done (i + (msg :: rest).length) s1 ∧
        s1.num ≤ s.num + (msg :: rest).length ∧
        (s.packet_initialized = true → s1.packet_initialized = true) ∧
        (s1.packet_initialized = false → s1.body = s.body) := by
      intro s2 hi hn
      obtain ⟨s1, h1, h2, h3, _⟩ := ih (i + 1) s2
      refine ⟨s1, ?_, ?_, fun _ => h3 hi, ?_⟩
      · rw [h1]
        simp only [List.length_cons]
        congr 1
        omega
      · simp only [List.length_cons]
        omega
      · intro hf
        rw [h3 hi] at hf
        cases hf
    rw [fill_pwent_loop]
    simp only []
    cases msg.name with
    | none => exact skip
    | some orig_name =>
      simp only []
      split
      · exact skip
      · split
        · exact skip
        · have hg0 : ((if s.packet_initialized = true then (EOK, s.body)
              else sss_packet_grow x s.body 8).1 != EOK) = false := by
            split
            · rfl
            · simp [sss_packet_grow, hg]
          simp only [hg0, Bool.false_eq_true, if_false]
          cases x.sss_get_cased_name orig_name dom.case_sensitive with
          | none => exact init _ rfl (by simp)
          | some tmpstr =>
            simp only []
            have hg1 : ∀ b n, ((sss_packet_grow x b n).1 != EOK) = false := by
              intro b n
              simp [sss_packet_grow, hg]
            simp only [hg1, Bool.false_eq_true, if_false]
            obtain ⟨s3, h3, h3n, h3i⟩ := fill_pwent_entry_grows x dom nctx m a dl
              (ldb_msg_find_attr_as_uint64 msg.uidNumber 0 % 2 ^ 32) (get_gid_override msg dom)
              (to_sized_string tmpstr) (to_sized_string (pw_gecos_field msg.gecos))
              (to_sized_string (pw_homedir_field (get_homedir_override x msg nctx dom
                (to_sized_string tmpstr).str
                (ldb_msg_find_attr_as_uint64 msg.uidNumber 0 % 2 ^ 32))))
              (to_sized_string (pw_shell_field (get_shell_override x msg nctx dom)))
              (to_sized_string nctx.pwfield)
              (sss_packet_grow x (if s.packet_initialized = true then (EOK, s.body)
                  else sss_packet_grow x s.body 8).2
                (if a = true then
                  2 * 4 + (to_sized_string tmpstr).len
                    + (to_sized_string (pw_gecos_field msg.gecos)).len
                    + (to_sized_string (pw_homedir_field (get_homedir_override x msg nctx dom
                        (to_sized_string tmpstr).str
                        (ldb_msg_find_attr_as_uint64 msg.uidNumber 0 % 2 ^ 32)))).len
                    + (to_sized_string (pw_shell_field (get_shell_override x msg nctx dom))).len
                    + (to_sized_string nctx.pwfield).len + (s.delim + dl)
                 else
                  2 * 4 + (to_sized_string tmpstr).len
                    + (to_sized_string (pw_gecos_field msg.gecos)).len
                    + (to_sized_string (pw_homedir_field (get_homedir_override x msg nctx dom
                        (to_sized_string tmpstr).str
                        (ldb_msg_find_attr_as_uint64 msg.uidNumber 0 % 2 ^ 32)))).len
                    + (to_sized_string (pw_shell_field (get_shell_override x msg nctx dom))).len
                    + (to_sized_string nctx.pwfield).len)).2
              { s with body := (if s.packet_initialized = true then (EOK, s.body)
                  else sss_packet_grow x s.body 8).2, packet_initialized := true } hg
            rw [h3]
            exact init s3 (by rw [h3i]) (by simpa using h3n)

theorem fill_pwent_grows (x : Ext) (body : List Nat) (dom : sss_domain_info) (nctx : nss_ctx)
    (nc : sss_nc_ctx) (now : Nat) (f m : Bool) (msgs : List ldb_message)
    (hg : ∀ l n, x.grow_ret l n = EOK) :
    (fill_pwent x body dom nctx nc now f m msgs).count = msgs.length ∧
    (((fill_pwent x body dom nctx nc now f m msgs).ret = ENOENT ∧
        (fill_pwent x body dom nctx nc now f m msgs).body = body) ∨
     ((fill_pwent x body dom nctx nc now f m msgs).ret = EOK ∧
        ∃ k, k ≤ msgs.length ∧
          (fill_pwent x body dom nctx nc now f m msgs).body.take 4 = le32 k)) := by
  unfold fill_pwent
  simp only []
  obtain ⟨s1, h1, h2, _, h4⟩ := fill_pwent_loop_grows x dom nctx nc now f m
    (!dom.parent && dom.fqnames)
    (if (!dom.parent && dom.fqnames) = true then x.sss_fqdom_len dom else 0) hg msgs 0
    { body := body, delim := if (!dom.parent && dom.fqnames) = true then 1 else 0 }
  rw [h1]
  simp only [Nat.zero_add]
  cases hi : s1.packet_initialized with
  | false =>
    simp only [Bool.not_false, if_true]
    exact ⟨trivial, Or.inl ⟨trivial, h4 hi⟩⟩
  | true =>
    simp only [Bool.not_true, Bool.false_eq_true, if_false]
    refine ⟨trivial, Or.inr ⟨trivial, s1.num, by simpa using h2, ?_⟩⟩
    simp [write_at, le32]

/-! ## One iteration of the loop of `nss_cmd_retpwent` -/

theorem to_int32_eq (z : Int) (h0 : 0 ≤ z) (h1 : z < 2 ^ 31) : to_int32 z = z := by
  unfold to_int32
  norm_num at h1 ⊢
  omega

theorem retpwent_loop_end (x : Ext) (nctx : nss_ctx) (nc : sss_nc_ctx) (now : Nat)
    (p : getent_ctx) (num : Int) (fuel : Nat) (c : cli_cursor) (body : List Nat)
    (filled : List (List ldb_message))
    (h1 : c.dom_idx < p.doms.length)
    (h2 : c.cur = (p.doms.getD c.dom_idx { domain := [], res := [] }).res.length)
    (h3 : ¬ (c.dom_idx + 1 < p.doms.length)) :
    retpwent_loop x nctx nc now p num (fuel + 1) c body filled =
      some { ret := ENOENT, cursor := c, body := body, filled := filled } := by
  rw [retpwent_loop]
  have h1b : ¬ (c.dom_idx ≥ p.doms.length) := by omega
  have hz : to_int32 (0 : Int) = 0 := by decide
  simp only [h1b, if_false, ← h2, sub_self, hz, h3, decide_False, Bool.and_false,
    Bool.false_eq_true, beq_self_eq_true, if_true]

theorem retpwent_loop_fill (x : Ext) (nctx : nss_ctx) (nc : sss_nc_ctx) (now : Nat)
    (p : getent_ctx) (num : Int) (fuel : Nat) (c : cli_cursor) (body : List Nat)
    (filled : List (List ldb_message))
    (h1 : c.dom_idx < p.doms.length)
    (h2 : c.cur < (p.doms.getD c.dom_idx { domain := [], res := [] }).res.length)
    (h3 : (p.doms.getD c.dom_idx { domain := [], res := [] }).res.length < 2 ^ 31) :
    retpwent_loop x nctx nc now p num (fuel + 1) c body filled =
      (let pdom := p.doms.getD c.dom_idx { domain := [], res := [] }
       let n : Int := (pdom.res.length : Int) - (c.cur : Int)
       let n := if n > num then num else n
       let msgs := (pdom.res.drop c.cur).take n.toNat
       let r := fill_pwent x body (pdom.domain.headD { name := [] }) nctx nc now true false msgs
       if r.ret == ENOENT then
         retpwent_loop x nctx nc now p num fuel { c with cur := c.cur + r.count } r.body
           (filled ++ [msgs.take r.count])
       else some { ret := r.ret, cursor := { c with cur := c.cur + r.count }, body := r.body,
                   filled := filled ++ [msgs.take r.count] }) := by
  rw [retpwent_loop]
  have h1b : ¬ (c.dom_idx ≥ p.doms.length) := by omega
  have hn : to_int32 (((p.doms.getD c.dom_idx { domain := [], res := [] }).res.length : Int)
      - (c.cur : Int)) =
      ((p.doms.getD c.dom_idx { domain := [], res := [] }).res.length : Int) - (c.cur : Int) := by
    apply to_int32_eq
    · omega
    · have : ((p.doms.getD c.dom_idx { domain := [], res := [] }).res.length : Int)
          < 2 ^ 31 := by exact_mod_cast h3
      omega
  have hpos : ¬ (((p.doms.getD c.dom_idx { domain := [], res := [] }).res.length : Int)
      - (c.cur : Int) ≤ 0) := by omega
  have hne : ((((p.doms.getD c.dom_idx { domain := [], res := [] }).res.length : Int)
      - (c.cur : Int)) == 0) = false := by
    simp only [beq_eq_false_iff_ne, ne_eq]
    omega
  have hlt : ¬ (((p.doms.getD c.dom_idx { domain := [], res := [] }).res.length : Int)
      - (c.cur : Int) < 0) := by omega
  simp only [h1b, if_false, hn, hpos, decide_False, Bool.false_and, Bool.false_eq_true, hne,
    hlt]

theorem retpwent_loop_advance (x : Ext) (nctx : nss_ctx) (nc : sss_nc_ctx) (now : Nat)
    (p : getent_ctx) (num : Int) (fuel : Nat) (c : cli_cursor) (body : List Nat)
    (filled : List (List ldb_message))
    (h1 : c.dom_idx + 1 < p.doms.length)
    (h2 : c.cur = (p.doms.getD c.dom_idx { domain := [], res := [] }).res.length)
    (h3 : (p.doms.getD (c.dom_idx + 1) { domain := [], res := [] }).res.length ≠ 0)
    (h4 : (p.doms.getD (c.dom_idx + 1) { domain := [], res := [] }).res.length < 2 ^ 31) :
    retpwent_loop x nctx nc now p num (fuel + 1) c body filled =
      retpwent_loop x nctx nc now p num (fuel + 1) { dom_idx := c.dom_idx + 1, cur := 0 }
        body filled := by
  rw [retpwent_loop_fill x nctx nc now p num fuel { dom_idx := c.dom_idx + 1, cur := 0 } body
    filled h1 (by simpa using Nat.pos_of_ne_zero h3) h4]
  rw [retpwent_loop]
  have h1b : ¬ (c.dom_idx ≥ p.doms.length) := by omega
  have hz : to_int32 (0 : Int) = 0 := by decide
  have hn : to_int32 ((p.doms.getD (c.dom_idx + 1) { domain := [], res := [] }).res.length : Int)
      = ((p.doms.getD (c.dom_idx + 1) { domain := [], res := [] }).res.length : Int) := by
    apply to_int32_eq
    · omega
    · exact_mod_cast h4
  have hne : (((p.doms.getD (c.dom_idx + 1) { domain := [], res := [] }).res.length : Int)
      == 0) = false := by
    simp only [beq_eq_false_iff_ne, ne_eq]
    omega
  have hlt : ¬ (((p.doms.getD (c.dom_idx + 1) { domain := [], res := [] }).res.length : Int)
      < 0) := by omega
  simp only [h1b, if_false, ← h2, sub_self, hz, le_refl, decide_True, h1, Bool.and_self,
    if_true, hn, hne, Bool.false_eq_true, hlt, Nat.cast_zero, sub_zero, List.drop_zero,
    Nat.zero_add]

theorem remaining_advance (p : getent_ctx) (c : cli_cursor)
    (h1 : c.dom_idx + 1 < p.doms.length)
    (h2 : c.cur = (p.doms.getD c.dom_idx { domain := [], res := [] }).res.length) :
    p.remaining c = p.remaining { dom_idx := c.dom_idx + 1, cur := 0 } := by
  unfold getent_ctx.remaining
  simp only [h2, List.drop_length, List.nil_append, List.drop_zero]
  rw [List.drop_eq_getElem_cons h1, List.flatMap_cons, List.getD_eq_getElem _ _ h1]

theorem remaining_end (p : getent_ctx) (c : cli_cursor)
    (h2 : c.cur = (p.doms.getD c.dom_idx { domain := [], res := [] }).res.length)
    (h3 : ¬ (c.dom_idx + 1 < p.doms.length)) :
    p.remaining c = [] := by
  unfold getent_ctx.remaining
  have h4 : p.doms.drop (c.dom_idx + 1) = [] := List.drop_eq_nil_of_le (by omega)
  simp [h2, h4]

theorem remaining_take (p : getent_ctx) (c : cli_cursor) (m : Nat) :
    p.remaining c =
      ((p.doms.getD c.dom_idx { domain := [], res := [] }).res.drop c.cur).take m ++
        p.remaining { c with cur := c.cur + m } := by
  unfold getent_ctx.remaining
  simp only []
  have h : ∀ l : List ldb_message, l.drop c.cur = (l.drop c.cur).take m ++ l.drop (c.cur + m) := by
    intro l
    conv_lhs => rw [← List.take_append_drop m (l.drop c.cur)]
    simp [List.drop_drop, Nat.add_comm]
  conv_lhs => rw [h]
  rw [List.append_assoc]

theorem getD_mem (p : getent_ctx) (i : Nat) (h : i < p.doms.length) :
    p.doms.getD i { domain := [], res := [] } ∈ p.doms := by
  rw [List.getD_eq_getElem _ _ h]
  exact List.getElem_mem h

theorem retpwent_loop_spec (x : Ext) (nctx : nss_ctx) (nc : sss_nc_ctx) (now : Nat)
    (p : getent_ctx) (num : Int) (hg : ∀ l n, x.grow_ret l n = EOK) (hok : snapshot_ok p)
    (hnum : 1 ≤ num) :
    ∀ (fuel : Nat) (c : cli_cursor) (body : List Nat) (filled : List (List ldb_message)),
      cursor_valid p c → (p.remaining c).length < fuel →
      ∃ o, retpwent_loop x nctx nc now p num fuel c body filled = some o ∧
        retent_post x nctx nc now p num c body filled o := by
  intro fuel
  induction fuel with
  | zero => intro c body filled _ h; omega
  | succ fuel ih =>
    -- the iteration at a cursor that stands before a record
    have fill : ∀ (c : cli_cursor) (body : List Nat) (filled : List (List ldb_message)),
        c.dom_idx < p.doms.length →
        c.cur < (p.doms.getD c.dom_idx { domain := [], res := [] }).res.length →
        (p.remaining c).length < fuel + 1 →
        ∃ o, retpwent_loop x nctx nc now p num (fuel + 1) c body filled = some o ∧
          retent_post x nctx nc now p num c body filled o := by
      intro c body filled h1 h2 hlen
      have hmem := getD_mem p c.dom_idx h1
      have h3 := (hok _ hmem).2
      rw [retpwent_loop_fill x nctx nc now p num fuel c body filled h1 h2 h3]
      simp only []
      generalize hpd : p.doms.getD c.dom_idx { domain := [], res := [] } = pdom at *
      obtain ⟨m, hm0, hm1, hm2, hm3⟩ : ∃ m : Nat,
          (if ((pdom.res.length : Int) - (c.cur : Int)) > num then num
            else ((pdom.res.length : Int) - (c.cur : Int))).toNat = m ∧
          1 ≤ m ∧ m ≤ pdom.res.length - c.cur ∧ (m : Int) ≤ num := by
        refine ⟨_, rfl, ?_, ?_, ?_⟩
        · split <;> omega
        · split <;> omega
        · split <;> omega
      rw [hm0]
      have hml : ((pdom.res.drop c.cur).take m).length = m := by
        rw [List.length_take, List.length_drop]
        omega
      generalize hmsgs : (pdom.res.drop c.cur).take m = msgs at *
      obtain ⟨hcount, hret⟩ := fill_pwent_grows x body (pdom.domain.headD { name := [] }) nctx nc
        now true false msgs hg
      have hrem := remaining_take p c m
      rw [hpd, hmsgs] at hrem
      have hv2 : cursor_valid p { c with cur := c.cur + m } := by
        refine ⟨h1, ?_⟩
        simp only [hpd]
        omega
      have hinfix : msgs <:+: pdom.res := by
        rw [← hmsgs]
        exact List.IsInfix.trans (List.take_prefix _ _).isInfix (List.drop_suffix _ _).isInfix
      have hne : msgs ≠ [] := by
        intro h
        rw [h] at hml
        simp at hml
        omega
      rw [hcount, hml, List.take_of_length_le (by omega)]
      rcases hret with ⟨hr1, hr2⟩ | ⟨hr1, k, hk1, hk2⟩
      · simp only [hr1, beq_self_eq_true, if_true, hr2]
        have hlen2 : (p.remaining { c with cur := c.cur + m }).length < fuel := by
          have := congrArg List.length hrem
          rw [List.length_append, hml] at this
          omega
        obtain ⟨o, ho, hv, new, hn1, hn2, _, hn4⟩ := ih { c with cur := c.cur + m } body
          (filled ++ [msgs]) hv2 hlen2
        refine ⟨o, ho, hv, [msgs] ++ new, by rw [hn1, List.append_assoc], ?_, ?_, ?_⟩
        · rw [List.flatten_append, List.append_assoc, hn2]
          simpa using hrem.symm
        · intro _
          simp [hne]
        · rcases hn4 with h | ⟨g1, dc, g2, batch, g3, g4⟩
          · exact Or.inl h
          · refine Or.inr ⟨g1, dc, g2, batch, ?_, g4⟩
            rw [List.getLast?_append, g3]
            rfl
      · have hr3 : ((fill_pwent x body (pdom.domain.headD { name := [] }) nctx nc now true
            false msgs).ret == ENOENT) = false := by
          rw [hr1]
          decide
        simp only [hr3, Bool.false_eq_true, if_false]
        refine ⟨_, rfl, hv2, [msgs], rfl, ?_, ?_, Or.inr ⟨hr1, pdom, hmem, msgs, rfl, ?_,
          hinfix, rfl, k, by omega, hk2⟩⟩
        · simpa using hrem.symm
        · intro _
          simp [hne]
        · rw [hml]
          exact hm3
    intro c body filled hv hlen
    obtain ⟨h1, h2⟩ := hv
    by_cases hcur : c.cur = (p.doms.getD c.dom_idx { domain := [], res := [] }).res.length
    · by_cases hnext : c.dom_idx + 1 < p.doms.length
      · have hmem := getD_mem p (c.dom_idx + 1) hnext
        have hr := remaining_advance p c hnext hcur
        rw [retpwent_loop_advance x nctx nc now p num fuel c body filled hnext hcur
          (hok _ hmem).1 (hok _ hmem).2]
        obtain ⟨o, ho, hp⟩ := fill { dom_idx := c.dom_idx + 1, cur := 0 } body filled hnext
          (Nat.pos_of_ne_zero (hok _ hmem).1) (by rw [← hr]; exact hlen)
        refine ⟨o, ho, ?_⟩
        unfold retent_post at hp ⊢
        rw [hr]
        exact hp
      · rw [retpwent_loop_end x nctx nc now p num fuel c body filled h1 hcur hnext]
        have hr := remaining_end p c hcur hnext
        exact ⟨_, rfl, ⟨h1, h2⟩, [], by simp, by simp [hr], by simp [hr],
          Or.inl ⟨rfl, rfl, hr⟩⟩
    · exact fill c body filled h1 (by omega) hlen

/-! ## The calls of `nss_cmd_retpwent` -/

theorem remaining_le_total (p : getent_ctx) (c : cli_cursor) :
    (p.remaining c).length ≤ p.total := by
  unfold getent_ctx.remaining getent_ctx.total
  by_cases h : c.dom_idx < p.doms.length
  · have hsplit : p.doms = p.doms.take c.dom_idx ++
        (p.doms.getD c.dom_idx { domain := [], res := [] } :: p.doms.drop (c.dom_idx + 1)) := by
      rw [List.getD_eq_getElem _ _ h, ← List.drop_eq_getElem_cons h, List.take_append_drop]
    conv_rhs => rw [hsplit]
    simp only [List.length_append, List.length_drop, List.length_flatMap, List.map_append,
      List.map_cons, List.sum_append, List.sum_cons, Function.comp_def]
    omega
  · have h1 : p.doms.drop (c.dom_idx + 1) = [] := List.drop_eq_nil_of_le (by omega)
    have h2 : p.doms.getD c.dom_idx { domain := [], res := [] } = { domain := [], res := [] } :=
      List.getD_eq_default _ _ (by omega)
    rw [h1, h2]
    simp

theorem remaining_zero (p : getent_ctx) :
    p.remaining { dom_idx := 0, cur := 0 } = p.records := by
  unfold getent_ctx.remaining getent_ctx.records
  cases p.doms with
  | nil => simp
  | cons d l => simp

theorem remaining_out_of_range (p : getent_ctx) (c : cli_cursor)
    (h : p.doms.length ≤ c.dom_idx) : p.remaining c = [] := by
  unfold getent_ctx.remaining
  have h1 : p.doms.drop (c.dom_idx + 1) = [] := List.drop_eq_nil_of_le (by omega)
  have h2 : p.doms.getD c.dom_idx { domain := [], res := [] } = { domain := [], res := [] } :=
    List.getD_eq_default _ _ (by omega)
  rw [h1, h2]
  simp

theorem retpwent_out_of_range (x : Ext) (e : Env) (nctx : nss_ctx) (nc : sss_nc_ctx)
    (p : getent_ctx) (num : Int) (c : cli_cursor) (body : List Nat)
    (h : p.doms.length ≤ c.dom_idx) :
    nss_cmd_retpwent x e nctx nc (some p) c body num = some (retpwent_empty e c body) := by
  unfold nss_cmd_retpwent
  simp only []
  rw [retpwent_loop]
  have h2 : c.dom_idx ≥ p.doms.length := h
  simp [h2, retpwent_empty]

theorem retpwent_at_end (x : Ext) (e : Env) (nctx : nss_ctx) (nc : sss_nc_ctx)
    (p : getent_ctx) (num : Int) (c : cli_cursor) (body : List Nat) (hok : snapshot_ok p)
    (hv : cursor_valid p c) (hrem : p.remaining c = []) :
    nss_cmd_retpwent x e nctx nc (some p) c body num = some (retpwent_empty e c body) := by
  obtain ⟨h1, h2⟩ := hv
  unfold getent_ctx.remaining at hrem
  rw [List.append_eq_nil] at hrem
  obtain ⟨hr1, hr2⟩ := hrem
  have hcur : c.cur = (p.doms.getD c.dom_idx { domain := [], res := [] }).res.length := by
    have := List.drop_eq_nil_iff.mp hr1
    omega
  have hnext : ¬ (c.dom_idx + 1 < p.doms.length) := by
    intro hn
    rw [List.drop_eq_getElem_cons hn, List.flatMap_cons, List.append_eq_nil] at hr2
    have := (hok _ (List.getElem_mem hn)).1
    rw [hr2.1] at this
    exact this rfl
  unfold nss_cmd_retpwent
  simp only []
  rw [retpwent_loop_end x nctx nc e.now p num p.total c body [] h1 hcur hnext]
  simp [retpwent_empty]

theorem retpwent_call (x : Ext) (e : Env) (nctx : nss_ctx) (nc : sss_nc_ctx)
    (p : getent_ctx) (num : Int) (hg : ∀ l n, x.grow_ret l n = EOK) (hok : snapshot_ok p)
    (hnum : 1 ≤ num) (c : cli_cursor) (body : List Nat) (hc : cursor_ok p c) :
    ∃ o, nss_cmd_retpwent x e nctx nc (some p) c body num = some o ∧ cursor_ok p o.cursor ∧
      retpwent_post x e nctx nc p num c body o := by
  rcases hc with hv | hout
  · obtain ⟨o, ho, hv2, new, hn1, hn2, hn3, hn4⟩ := retpwent_loop_spec x nctx nc e.now p num hg
      hok hnum (p.total + 1) c body [] hv (by have := remaining_le_total p c; omega)
    simp only [List.nil_append] at hn1
    unfold nss_cmd_retpwent
    simp only [ho]
    have hlen : (p.remaining o.cursor).length + new.flatten.length = (p.remaining c).length := by
      have := congrArg List.length hn2
      rw [List.length_append] at this
      omega
    rcases hn4 with ⟨g1, g2, g3⟩ | ⟨g1, g2⟩
    · refine ⟨_, rfl, ?_, ?_⟩
      · simp only [g1, beq_self_eq_true, if_true]
        exact Or.inl hv2
      · simp only [g1, beq_self_eq_true, if_true]
        unfold retpwent_post
        simp only [hn1, g2]
        exact ⟨hn2, hlen, hn3, Or.inl ⟨g3, trivial, trivial⟩⟩
    · have hne : (o.ret == ENOENT) = false := by rw [g1]; decide
      refine ⟨_, rfl, ?_, ?_⟩
      · simp only [hne, Bool.false_eq_true, if_false]
        exact Or.inl hv2
      · simp only [hne, Bool.false_eq_true, if_false]
        unfold retpwent_post
        rw [hn1]
        exact ⟨hn2, hlen, hn3, Or.inr ⟨g1, g2⟩⟩
  · rw [retpwent_out_of_range x e nctx nc p num c body hout]
    have hr := remaining_out_of_range p c hout
    refine ⟨_, rfl, Or.inr hout, ?_⟩
    unfold retpwent_post retpwent_empty
    simp [hr]

theorem retpwent_calls_spec (x : Ext) (e : Env) (nctx : nss_ctx) (nc : sss_nc_ctx)
    (p : getent_ctx) (num : Int) (hg : ∀ l n, x.grow_ret l n = EOK) (hok : snapshot_ok p)
    (hnum : 1 ≤ num) :
    ∀ (k : Nat) (c : cli_cursor), cursor_ok p c →
      ∃ c1 outs, retpwent_calls x e nctx nc (some p) num k c = some (c1, outs) ∧
        outs.length = k ∧ cursor_ok p c1 ∧
        outs.flatMap (fun o => o.filled.flatten) ++ p.remaining c1 = p.remaining c ∧
        (p.remaining c1).length ≤ (p.remaining c).length - k := by
  intro k
  induction k with
  | zero =>
    intro c hc
    exact ⟨c, [], rfl, rfl, hc, by simp, by simp⟩
  | succ k ih =>
    intro c hc
    obtain ⟨o, ho, hc2, hp1, hp2, hp3, _⟩ := retpwent_call x e nctx nc p num hg hok hnum c [] hc
    obtain ⟨c1, outs, h1, h2, h3, h4, h5⟩ := ih o.cursor hc2
    refine ⟨c1, o :: outs, ?_, by simp [h2], h3, ?_, ?_⟩
    · rw [retpwent_calls]
      simp only [ho, h1]
    · rw [List.flatMap_cons, List.append_assoc, h4, hp1]
    · by_cases hrem : p.remaining c = []
      · have h0 : (p.remaining c).length = 0 := by rw [hrem]; rfl
        omega
      · have hpos : o.filled.flatten.length ≠ 0 := by
          intro h0
          exact hp3 hrem (List.length_eq_zero.mp h0)
        omega

/-- C13: for a snapshot in which each per-domain entry holds at least one record (and
fewer than `2^31`), a requested maximum `num >= 1`, and a reply packet that can grow.
Successive calls of `nss_cmd_retpwent(num)` from the cursor (0, 0) return; after any
number `k` of calls the records the calls went through, in call order, followed by the
records from the cursor on, are the records of the snapshot in domain order and record
order, and at most `total - k` records remain; after `total` calls all records have been
gone through, each once, and a further call returns the empty packet and leaves the
cursor as it is.  Each call at a cursor that points into the snapshot goes through the
records between the old and the new cursor, and its reply is either the empty packet,
with no record remaining, or the encoding by `fill_pwent` of one batch of at most `num`
records of one per-domain entry.  At a cursor after the last record, at a domain index
out of range, and with no snapshot, the call returns the empty packet and leaves the
cursor unchanged. -/
theorem C13_retpwent_consumes_snapshot (x : Ext) (e : Env) (nctx : nss_ctx) (nc : sss_nc_ctx)
    (p : getent_ctx) (num : Int) (hg : ∀ l n, x.grow_ret l n = EOK) (hok : snapshot_ok p)
    (hnum : 1 ≤ num) :
    (∀ k, ∃ c outs,
      retpwent_calls x e nctx nc (some p) num k { dom_idx := 0, cur := 0 } = some (c, outs) ∧
      outs.length = k ∧
      outs.flatMap (fun o => o.filled.flatten) ++ p.remaining c = p.records ∧
      (p.remaining c).length ≤ p.records.length - k) ∧
    (∃ c outs,
      retpwent_calls x e nctx nc (some p) num p.records.length { dom_idx := 0, cur := 0 }
        = some (c, outs) ∧
      outs.flatMap (fun o => o.filled.flatten) = p.records ∧
      ∀ body, nss_cmd_retpwent x e nctx nc (some p) c body num
        = some (retpwent_empty e c body)) ∧
    (∀ c body, cursor_valid p c →
      ∃ o, nss_cmd_retpwent x e nctx nc (some p) c body num = some o ∧
        cursor_valid p o.cursor ∧ retpwent_post x e nctx nc p num c body o) ∧
    (∀ c body, cursor_valid p c → p.remaining c = [] →
      nss_cmd_retpwent x e nctx nc (some p) c body num = some (retpwent_empty e c body)) ∧
    (∀ c body, p.doms.length ≤ c.dom_idx →
      nss_cmd_retpwent x e nctx nc (some p) c body num = some (retpwent_empty e c body)) ∧
    (∀ c body,
      nss_cmd_retpwent x e nctx nc none c body num = some (retpwent_empty e c body)) := by
  have h00 : cursor_ok p { dom_idx := 0, cur := 0 } := by
    by_cases h : p.doms.length = 0
    · exact Or.inr (by simp [h])
    · exact Or.inl ⟨by simpa using Nat.pos_of_ne_zero h, by simp⟩
  have hseq : ∀ k, ∃ c outs,
      retpwent_calls x e nctx nc (some p) num k { dom_idx := 0, cur := 0 } = some (c, outs) ∧
      outs.length = k ∧ cursor_ok p c ∧
      outs.flatMap (fun o => o.filled.flatten) ++ p.remaining c = p.records ∧
      (p.remaining c).length ≤ p.records.length - k := by
    intro k
    obtain ⟨c, outs, h1, h2, h3, h4, h5⟩ :=
      retpwent_calls_spec x e nctx nc p num hg hok hnum k _ h00
    rw [remaining_zero] at h4 h5
    exact ⟨c, outs, h1, h2, h3, h4, h5⟩
  refine ⟨?_, ?_, ?_, ?_, ?_, ?_⟩
  · intro k
    obtain ⟨c, outs, h1, h2, _, h4, h5⟩ := hseq k
    exact ⟨c, outs, h1, h2, h4, h5⟩
  · obtain ⟨c, outs, h1, _, h3, h4, h5⟩ := hseq p.records.length
    have hrem : p.remaining c = [] := List.length_eq_zero.mp (by omega)
    refine ⟨c, outs, h1, by simpa [hrem] using h4, ?_⟩
    intro body
    rcases h3 with hv | hout
    · exact retpwent_at_end x e nctx nc p num c body hok hv hrem
    · exact retpwent_out_of_range x e nctx nc p num c body hout
  · intro c body hv
    obtain ⟨o, ho, hc, hp⟩ := retpwent_call x e nctx nc p num hg hok hnum c body (Or.inl hv)
    refine ⟨o, ho, ?_, hp⟩
    rcases hc with hc | hc
    · exact hc
    · -- the cursor keeps its domain index within range
      obtain ⟨o2, ho2, hv2, _⟩ := retpwent_loop_spec x nctx nc e.now p num hg hok hnum
        (p.total + 1) c body [] hv (by have := remaining_le_total p c; omega)
      unfold nss_cmd_retpwent at ho
      simp only [ho2, Option.some.injEq] at ho
      subst ho
      split
      · exact hv2
      · exact hv2
  · intro c body hv hrem
    exact retpwent_at_end x e nctx nc p num c body hok hv hrem
  · intro c body hout
    exact retpwent_out_of_range x e nctx nc p num c body hout
  · intro c body
    simp [nss_cmd_retpwent, retpwent_empty]

/-- Witness of C13: the snapshot of two domains with three users, read one entry at a
time. -/
theorem C13_retpwent_consumes_snapshot_witness :
    (∀ k, ∃ c outs,
      retpwent_calls ex_ext {} {} [] (some ex_snapshot) 1 k { dom_idx := 0, cur := 0 }
        = some (c, outs) ∧
      outs.length = k ∧
      outs.flatMap (fun o => o.filled.flatten) ++ ex_snapshot.remaining c
        = ex_snapshot.records ∧
      (ex_snapshot.remaining c).length ≤ ex_snapshot.records.length - k) ∧
    (∃ c outs,
      retpwent_calls ex_ext {} {} [] (some ex_snapshot) 1 ex_snapshot.records.length
        { dom_idx := 0, cur := 0 } = some (c, outs) ∧
      outs.flatMap (fun o => o.filled.flatten) = ex_snapshot.records ∧
      ∀ body, nss_cmd_retpwent ex_ext {} {} [] (some ex_snapshot) c body 1
        = some (retpwent_empty {} c body)) ∧
    (∀ c body, cursor_valid ex_snapshot c →
      ∃ o, nss_cmd_retpwent ex_ext {} {} [] (some ex_snapshot) c body 1 = some o ∧
        cursor_valid ex_snapshot o.cursor ∧
        retpwent_post ex_ext {} {} [] ex_snapshot 1 c body o) ∧
    (∀ c body, cursor_valid ex_snapshot c → ex_snapshot.remaining c = [] →
      nss_cmd_retpwent ex_ext {} {} [] (some ex_snapshot) c body 1
        = some (retpwent_empty {} c body)) ∧
    (∀ c body, ex_snapshot.doms.length ≤ c.dom_idx →
      nss_cmd_retpwent ex_ext {} {} [] (some ex_snapshot) c body 1
        = some (retpwent_empty {} c body)) ∧
    (∀ c body,
      nss_cmd_retpwent ex_ext {} {} [] none c body 1 = some (retpwent_empty {} c body)) :=
  C13_retpwent_consumes_snapshot ex_ext {} {} [] ex_snapshot 1 (fun _ _ => rfl)
    (by simp [snapshot_ok, ex_snapshot]) (by decide)

/-! ## Claims on `setpwent` and `getpwent` -/

/-- C26: `nss_cmd_done` maps the outcome `ret` of a request as follows.  For `EOK` and
`EAGAIN` it sends nothing and returns `EOK`.  For `ENOENT` it calls the sender of the
empty reply and returns `EOK`, or `EFAULT` when that sender fails.  For `EFAULT` it sends
nothing and returns `EFAULT`.  For every other code it sends an error reply carrying
that code, and then finishes the request and returns `EOK`, or returns `EFAULT` without
finishing the request when the send fails.  So it returns `EOK` or `EFAULT`, and `EFAULT`
exactly for the input `EFAULT` and for a failed send. -/
theorem C26_nss_cmd_done_table (e : Env) (st : resp_state) (ret : Nat) :
    nss_cmd_done e st EOK = (EOK, st) ∧
    nss_cmd_done e st EAGAIN = (EOK, st) ∧
    nss_cmd_done e st EFAULT = (EFAULT, st) ∧
    nss_cmd_done e st ENOENT =
      (if e.send_empty_ret = EOK then EOK else EFAULT, { st with empty_sent := true }) ∧
    ((ret ≠ EOK ∧ ret ≠ EAGAIN ∧ ret ≠ EFAULT ∧ ret ≠ ENOENT) →
      nss_cmd_done e st ret =
        if e.send_error_ret = EOK then
          (EOK, { st with err_sent := st.err_sent ++ [ret], cmd_done := true })
        else (EFAULT, { st with err_sent := st.err_sent ++ [ret] })) ∧
    ((nss_cmd_done e st ret).1 = EOK ∨ (nss_cmd_done e st ret).1 = EFAULT) ∧
    ((nss_cmd_done e st ret).1 = EFAULT ↔
      (ret = EFAULT ∨ (ret = ENOENT ∧ e.send_empty_ret ≠ EOK) ∨
        (ret ≠ EOK ∧ ret ≠ EAGAIN ∧ ret ≠ EFAULT ∧ ret ≠ ENOENT ∧
          e.send_error_ret ≠ EOK))) ∧
    ((nss_cmd_done e st ret).2.err_sent ≠ st.err_sent ↔
      (ret ≠ EOK ∧ ret ≠ EAGAIN ∧ ret ≠ EFAULT ∧ ret ≠ ENOENT)) ∧
    ((nss_cmd_done e st ret).2.empty_sent ≠ st.empty_sent →
      ret = ENOENT) := by
  have hother : (ret ≠ EOK ∧ ret ≠ EAGAIN ∧ ret ≠ EFAULT ∧ ret ≠ ENOENT) →
      nss_cmd_done e st ret =
        if e.send_error_ret = EOK then
          (EOK, { st with err_sent := st.err_sent ++ [ret], cmd_done := true })
        else (EFAULT, { st with err_sent := st.err_sent ++ [ret] }) := by
    rintro ⟨h1, h2, h3, h4⟩
    unfold nss_cmd_done
    by_cases hs : e.send_error_ret = EOK
    · simp [h1, h2, h3, h4, hs]
    · have hs2 : (e.send_error_ret != EOK) = true := by simpa using hs
      simp [h1, h2, h3, h4, hs, hs2]
  have henoent := nss_cmd_done_enoent e st
  have heok : nss_cmd_done e st EOK = (EOK, st) := by simp [nss_cmd_done]
  have heagain : nss_cmd_done e st EAGAIN = (EOK, st) := by simp [nss_cmd_done, EOK, EAGAIN, ENOENT]
  have hefault : nss_cmd_done e st EFAULT = (EFAULT, st) := by
    simp [nss_cmd_done, EOK, EAGAIN, ENOENT, EFAULT]
  refine ⟨heok, heagain, hefault, ?_, hother, ?_, ?_, ?_, ?_⟩
  · rw [henoent]
    split <;> rfl
  · by_cases h1 : ret = EOK
    · subst h1; rw [heok]; exact Or.inl rfl
    · by_cases h2 : ret = EAGAIN
      · subst h2; rw [heagain]; exact Or.inl rfl
      · by_cases h3 : ret = EFAULT
        · subst h3; rw [hefault]; exact Or.inr rfl
        · by_cases h4 : ret = ENOENT
          · subst h4; rw [henoent]; split
            · exact Or.inl rfl
            · exact Or.inr rfl
          · rw [hother ⟨h1, h2, h3, h4⟩]; split
            · exact Or.inl rfl
            · exact Or.inr rfl
  · by_cases h1 : ret = EOK
    · subst h1; rw [heok]; simp [EOK, EFAULT, ENOENT]
    · by_cases h2 : ret = EAGAIN
      · subst h2; rw [heagain]; simp [EOK, EFAULT, ENOENT, EAGAIN]
      · by_cases h3 : ret = EFAULT
        · subst h3; rw [hefault]; simp
        · by_cases h4 : ret = ENOENT
          · subst h4; rw [henoent]
            by_cases hs : e.send_empty_ret = EOK <;> simp [hs, EOK, EFAULT, ENOENT]
          · rw [hother ⟨h1, h2, h3, h4⟩]
            by_cases hs : e.send_error_ret = EOK <;> simp [hs, h1, h2, h3, h4, EOK, EFAULT]
  · by_cases h1 : ret = EOK
    · subst h1; rw [heok]; simp
    · by_cases h2 : ret = EAGAIN
      · subst h2; rw [heagain]; simp
      · by_cases h3 : ret = EFAULT
        · subst h3; rw [hefault]; simp
        · by_cases h4 : ret = ENOENT
          · subst h4; rw [henoent]
            by_cases hs : e.send_empty_ret = EOK <;> simp [hs]
          · rw [hother ⟨h1, h2, h3, h4⟩]
            by_cases hs : e.send_error_ret = EOK <;> simp [hs, h1, h2, h3, h4]
  · intro hne
    by_contra h4
    by_cases h1 : ret = EOK
    · subst h1; rw [heok] at hne; exact hne rfl
    · by_cases h2 : ret = EAGAIN
      · subst h2; rw [heagain] at hne; exact hne rfl
      · by_cases h3 : ret = EFAULT
        · subst h3; rw [hefault] at hne; exact hne rfl
        · rw [hother ⟨h1, h2, h3, h4⟩] at hne
          by_cases hs : e.send_error_ret = EOK <;> simp [hs] at hne

/-! ## Claims on the updates of the shared-memory caches -/

theorem update_memcache_records_eq (k : mc_kind) (now : Nat) :
    ∀ res : List ldb_message,
      update_memcache_records k now res =
        (res.filter (fun m =>
          decide (ldb_msg_find_attr_as_uint64 m.dataExpireTimestamp 0 < now))).filterMap
          (fun m => (k.id m).map k.call) := by
  intro res
  induction res with
  | nil => rfl
  | cons msg rest ih =>
    rw [update_memcache_records]
    by_cases h : ldb_msg_find_attr_as_uint64 msg.dataExpireTimestamp 0 ≥ now
    · have h2 : ¬ (ldb_msg_find_attr_as_uint64 msg.dataExpireTimestamp 0 < now) := by omega
      simp only [h, if_true, ih, List.filter_cons, h2, decide_False, Bool.false_eq_true,
        if_false]
    · have h2 : ldb_msg_find_attr_as_uint64 msg.dataExpireTimestamp 0 < now := by omega
      simp only [h, if_false, List.filter_cons, h2, decide_True, if_true,
        List.filterMap_cons]
      cases k.id msg with
      | none => simp only [Option.map_none', ih]
      | some id => simp only [Option.map_some', ih]

theorem filter_dropWhile_parent (l : List sss_domain_info) :
    (l.dropWhile (fun n => n.parent)).filter (fun d => !d.parent) =
      l.filter (fun d => !d.parent) := by
  induction l with
  | nil => rfl
  | cons a l ih =>
    rw [List.dropWhile_cons]
    by_cases h : a.parent = true
    · simp [h, ih]
    · simp [h]

theorem dropWhile_parent_head (l : List sss_domain_info) :
    ∀ d rest, l.dropWhile (fun n => n.parent) = d :: rest → d.parent = false := by
  intro d rest h
  have := List.head_dropWhile_not (fun n : sss_domain_info => n.parent) l
    (by rw [h]; simp)
  simp only [h, List.head_cons] at this
  simpa using this

theorem update_memcache_loop_eq (k : mc_kind) (e : Env) :
    ∀ (fuel : Nat) (domains : List sss_domain_info),
      domains.length < fuel → (∀ d rest, domains = d :: rest → d.parent = false) →
      update_memcache_loop k e fuel domains = some (update_memcache_spec k e domains) := by
  intro fuel
  induction fuel with
  | zero => intro domains h; omega
  | succ n ih =>
    intro domains hlen hhead
    cases domains with
    | nil => rfl
    | cons d rest =>
      have hd : d.parent = false := hhead d rest rfl
      have hnext : get_next_domain (d :: rest) false = rest.dropWhile (fun n => n.parent) := by
        simp [get_next_domain, hd]
      rw [update_memcache_loop, hnext]
      have hl : (rest.dropWhile (fun n => n.parent)).length < n := by
        have := (List.dropWhile_sublist (fun n : sss_domain_info => n.parent) (l := rest)).length_le
        simp at hlen
        omega
      rw [ih _ hl (dropWhile_parent_head rest)]
      simp only [update_memcache_spec, filter_dropWhile_parent, List.filter_cons, hd,
        Bool.not_false, if_true, List.flatMap_cons, update_memcache_records_eq]

/-- C22 (counterexample): at the time 100 the user with uid 1000 whose record expires at
100 is not invalidated by `nss_update_pw_memcache`, only the user with uid 1001 whose
record expired at 99 is; `nss_update_gr_memcache` likewise leaves the group that expires
at 100. -/
theorem C22_counterexample_expiry_at_now :
    nss_update_pw_memcache ex_env_expiry [ex_dom] = some [mc_call.pw_invalidate_id 1001] ∧
    nss_update_gr_memcache ex_env_expiry [ex_dom] = some [mc_call.gr_invalidate_id 6] := by
  decide

/-- C22 (amended): for a list of domains that starts with a primary domain,
`nss_update_pw_memcache` returns, and it invalidates the slot of a `uidNumber` exactly
when a record with that `uidNumber` and a cache-expire timestamp strictly before `now`
(`cache_expire < now`) is enumerated in a primary domain: a record that expires exactly at
`now` is not invalidated.  `nss_update_gr_memcache` does the same for the group records,
by `gidNumber`. -/
theorem C22_update_memcache_expired (e : Env) (domains : List sss_domain_info)
    (hhead : ∀ d rest, domains = d :: rest → d.parent = false) :
    (∃ calls, nss_update_pw_memcache e domains = some calls ∧
      calls = update_memcache_spec pw_mc e domains ∧
      ∀ c, c ∈ calls ↔
        ∃ d ∈ domains, d.parent = false ∧ ∃ res, e.sysdb_enumpwent d = some res ∧
          ∃ m ∈ res, ldb_msg_find_attr_as_uint64 m.dataExpireTimestamp 0 < e.now ∧
            ∃ id, m.uidNumber = some id ∧ c = mc_call.pw_invalidate_id id) ∧
    (∃ calls, nss_update_gr_memcache e domains = some calls ∧
      calls = update_memcache_spec gr_mc e domains ∧
      ∀ c, c ∈ calls ↔
        ∃ d ∈ domains, d.parent = false ∧ ∃ res, e.sysdb_enumgrent d = some res ∧
          ∃ m ∈ res, ldb_msg_find_attr_as_uint64 m.dataExpireTimestamp 0 < e.now ∧
            ∃ id, m.gidNumber = some id ∧ c = mc_call.gr_invalidate_id id) := by
  have key : ∀ k : mc_kind, ∀ c, c ∈ update_memcache_spec k e domains ↔
      ∃ d ∈ domains, d.parent = false ∧ ∃ res, k.enum e d = some res ∧
        ∃ m ∈ res, ldb_msg_find_attr_as_uint64 m.dataExpireTimestamp 0 < e.now ∧
          ∃ id, k.id m = some id ∧ c = k.call id := by
    intro k c
    unfold update_memcache_spec
    simp only [List.mem_flatMap, List.mem_filter, Bool.not_eq_true', decide_eq_true_eq]
    constructor
    · rintro ⟨d, ⟨hd1, hd2⟩, hc⟩
      cases hk : k.enum e d with
      | none => simp [hk] at hc
      | some res =>
        simp only [hk, List.mem_filterMap, List.mem_filter, decide_eq_true_eq,
          Option.map_eq_some'] at hc
        obtain ⟨m, ⟨hm1, hm2⟩, id, hid, hcc⟩ := hc
        exact ⟨d, hd1, hd2, res, hk, m, hm1, hm2, id, hid, hcc.symm⟩
    · rintro ⟨d, hd1, hd2, res, hk, m, hm1, hm2, id, hid, hcc⟩
      refine ⟨d, ⟨hd1, hd2⟩, ?_⟩
      simp only [hk, List.mem_filterMap, List.mem_filter, decide_eq_true_eq,
        Option.map_eq_some']
      exact ⟨m, ⟨hm1, hm2⟩, id, hid, hcc.symm⟩
  exact ⟨⟨_, update_memcache_loop_eq pw_mc e _ domains (by omega) hhead, rfl, key pw_mc⟩,
    ⟨_, update_memcache_loop_eq gr_mc e _ domains (by omega) hhead, rfl, key gr_mc⟩⟩

/-- Witness of C22: the single domain `EX` at the time 100. -/
theorem C22_update_memcache_expired_witness :
    (∃ calls, nss_update_pw_memcache ex_env_expiry [ex_dom] = some calls ∧
      calls = update_memcache_spec pw_mc ex_env_expiry [ex_dom] ∧
      ∀ c, c ∈ calls ↔
        ∃ d ∈ [ex_dom], d.parent = false ∧ ∃ res, ex_env_expiry.sysdb_enumpwent d = some res ∧
          ∃ m ∈ res, ldb_msg_find_attr_as_uint64 m.dataExpireTimestamp 0 < ex_env_expiry.now ∧
            ∃ id, m.uidNumber = some id ∧ c = mc_call.pw_invalidate_id id) ∧
    (∃ calls, nss_update_gr_memcache ex_env_expiry [ex_dom] = some calls ∧
      calls = update_memcache_spec gr_mc ex_env_expiry [ex_dom] ∧
      ∀ c, c ∈ calls ↔
        ∃ d ∈ [ex_dom], d.parent = false ∧ ∃ res, ex_env_expiry.sysdb_enumgrent d = some res ∧
          ∃ m ∈ res, ldb_msg_find_attr_as_uint64 m.dataExpireTimestamp 0 < ex_env_expiry.now ∧
            ∃ id, m.gidNumber = some id ∧ c = mc_call.gr_invalidate_id id) :=
  C22_update_memcache_expired ex_env_expiry [ex_dom] (by intro d rest h; cases h; rfl)


/-! ## Update of the shared-memory caches after an initgroups refresh -/

theorem initgr_clear_first_found (id : Nat) (gids : List Nat) :
    (initgr_clear_first id gids).2 = true ↔ id ∈ gids := by
  induction gids with
  | nil => simp [initgr_clear_first]
  | cons g rest ih =>
    rw [initgr_clear_first]
    by_cases h : g = id
    · simp [h]
    · have h2 : ¬ id = g := fun hh => h hh.symm
      simp [h, h2, ih]

theorem initgr_clear_first_filter (id : Nat) (hid : id ≠ 0) (gids : List Nat) :
    ((initgr_clear_first id gids).1).filter (fun g => g != 0)
      = (gids.filter (fun g => g != 0)).erase id := by
  induction gids with
  | nil => simp [initgr_clear_first]
  | cons g rest ih =>
    rw [initgr_clear_first]
    by_cases h : g = id
    · subst h
      simp [hid]
    · by_cases h0 : g = 0
      · subst h0
        simp [h, ih]
      · simp only [beq_iff_eq, h, if_false]
        rw [List.filter_cons_of_pos (by simpa using h0), List.filter_cons_of_pos (by simpa using h0),
          ih, List.erase_cons_tail (by simpa using h)]

theorem initgr_match_loop_unchanged (res : List ldb_message) (gids : List Nat) :
    ((initgr_match_loop res gids).1 = false ∧
        (initgr_match_loop res gids).2.any (fun g => g != 0) = false)
      ↔ List.Perm (initgr_record_gids res) (gids.filter (fun g => g != 0)) := by
  induction res generalizing gids with
  | nil =>
    simp only [initgr_match_loop, initgr_record_gids, List.map_nil, List.filter_nil, true_and]
    rw [List.nil_perm]
    simp [List.filter_eq_nil_iff]
  | cons msg rest ih =>
    rw [initgr_match_loop]
    by_cases h0 : ldb_msg_find_attr_as_uint msg.gidNumber 0 = 0
    · have hrec : initgr_record_gids (msg :: rest) = initgr_record_gids rest := by
        simp [initgr_record_gids, h0]
      simp only [h0, beq_self_eq_true, if_true, hrec]
      exact ih gids
    · have hrec : initgr_record_gids (msg :: rest)
          = ldb_msg_find_attr_as_uint msg.gidNumber 0 :: initgr_record_gids rest := by
        simp [initgr_record_gids, h0]
      have hne : (ldb_msg_find_attr_as_uint msg.gidNumber 0 == 0) = false := by simpa using h0
      simp only [hne, Bool.false_eq_true, if_false, hrec]
      rw [List.cons_perm_iff_perm_erase]
      by_cases hf : (initgr_clear_first (ldb_msg_find_attr_as_uint msg.gidNumber 0) gids).2 = true
      · have hmem := (initgr_clear_first_found _ gids).mp hf
        simp only [hf, Bool.not_true, Bool.false_eq_true, if_false]
        rw [ih, initgr_clear_first_filter _ h0]
        constructor
        · intro h
          exact ⟨List.mem_filter.mpr ⟨hmem, by simpa using h0⟩, h⟩
        · intro h
          exact h.2
      · have hnm : ldb_msg_find_attr_as_uint msg.gidNumber 0 ∉ gids :=
          fun hm => hf ((initgr_clear_first_found _ gids).mpr hm)
        have hf2 : (initgr_clear_first (ldb_msg_find_attr_as_uint msg.gidNumber 0) gids).2 = false := by
          simpa using hf
        simp only [hf2, Bool.not_false, if_true]
        constructor
        · intro h
          exact absurd h.1 (by simp)
        · intro h
          exact absurd (List.mem_filter.mp h.1).1 hnm

/-- C21 (counterexample): the cache holds the user (gid 1000) with the groups 5 and 6 and the
provider pushes the GIDs 1000, 5, 7. The two sets differ, yet the passwd slot is not invalidated
and neither is the slot of the persisted group 6: only the pushed GIDs are invalidated. -/
theorem C21_counterexample_only_pushed_gids :
    nss_update_initgr_memcache ex_env_initgr [ex_dom] [97] ex_dom.name [1000, 5, 7]
      = some [mc_call.gr_invalidate_gid 1000, mc_call.gr_invalidate_gid 5,
              mc_call.gr_invalidate_gid 7] := by
  decide

theorem initgr_find_domain_found (domain : CStr) :
    ∀ (fuel : Nat) (domains : List sss_domain_info), domains.length < fuel →
      (∀ d rest, domains = d :: rest → d.parent = false) →
      ((domains.filter (fun d => !d.parent)).find?
          (fun d => strcasecmp d.name domain == 0) = none →
        initgr_find_domain domain fuel domains = some []) ∧
      (∀ d, (domains.filter (fun d => !d.parent)).find?
          (fun d => strcasecmp d.name domain == 0) = some d →
        ∃ rest, initgr_find_domain domain fuel domains = some (d :: rest)) := by
  intro fuel
  induction fuel with
  | zero => intro domains h; omega
  | succ n ih =>
    intro domains hlen hhead
    cases domains with
    | nil =>
      refine ⟨fun _ => rfl, ?_⟩
      intro d hd
      simp at hd
    | cons d0 rest =>
      have hd0 : d0.parent = false := hhead d0 rest rfl
      have hnext : get_next_domain (d0 :: rest) false = rest.dropWhile (fun n => n.parent) := by
        simp [get_next_domain, hd0]
      have hl : (rest.dropWhile (fun n => n.parent)).length < n := by
        have := (List.dropWhile_sublist (fun n : sss_domain_info => n.parent) (l := rest)).length_le
        simp at hlen
        omega
      have hrec := ih _ hl (dropWhile_parent_head rest)
      rw [filter_dropWhile_parent] at hrec
      rw [initgr_find_domain, hnext]
      have hfilt : (d0 :: rest).filter (fun d => !d.parent)
          = d0 :: rest.filter (fun d => !d.parent) := by
        simp [List.filter_cons, hd0]
      rw [hfilt]
      by_cases hm : (strcasecmp d0.name domain == 0) = true
      · have hfind : (d0 :: rest.filter (fun d => !d.parent)).find?
            (fun d => strcasecmp d.name domain == 0) = some d0 := by
          simp [List.find?_cons, hm]
        rw [hfind, if_pos hm]
        constructor
        · intro h
          cases h
        · intro d hd
          cases hd
          exact ⟨rest, rfl⟩
      · have hfind : (d0 :: rest.filter (fun d => !d.parent)).find?
            (fun d => strcasecmp d.name domain == 0)
            = (rest.filter (fun d => !d.parent)).find?
                (fun d => strcasecmp d.name domain == 0) := by
          simp [List.find?_cons, hm]
        rw [hfind, if_neg hm]
        exact hrec

theorem initgr_memcache_found (e : Env) (domains : List sss_domain_info) (name domain : CStr)
    (groups : List Nat) (d : sss_domain_info) (rest : List sss_domain_info)
    (res : List ldb_message)
    (hfind : initgr_find_domain domain (domains.length + 1) domains = some (d :: rest))
    (hres : e.sysdb_initgroups d name = some res) (hne : res ≠ []) :
    nss_update_initgr_memcache e domains name domain groups
      = some (if List.Perm (initgr_record_gids res) (groups.filter (fun g => g != 0)) then []
              else groups.map mc_call.gr_invalidate_gid) := by
  have hlen : (res.length == 0) = false := by
    cases res with
    | nil => exact absurd rfl hne
    | cons a l => rfl
  unfold nss_update_initgr_memcache
  rw [hfind]
  simp only [hres, Option.isSome_some, if_true, Option.getD_some, hlen, bne_self_eq_false,
    Bool.false_and, Bool.false_eq_true, if_false, List.nil_append, Bool.or_false,
    show (EOK == ENOENT) = false from by decide]
  by_cases hp : List.Perm (initgr_record_gids res) (groups.filter (fun g => g != 0))
  · have h := (initgr_match_loop_unchanged res groups).mpr hp
    simp only [h.1, h.2, Bool.not_false, if_true, hp, Bool.false_eq_true, if_false]
  · simp only [hp, if_false]
    by_cases h1 : (initgr_match_loop res groups).1 = true
    · simp [h1]
    · have h1f : (initgr_match_loop res groups).1 = false := by simpa using h1
      have h2 : (initgr_match_loop res groups).2.any (fun g => g != 0) = true := by
        by_contra hc
        exact hp ((initgr_match_loop_unchanged res groups).mp ⟨h1f, by simpa using hc⟩)
      simp only [h1f, Bool.not_false, if_true, h2]

theorem initgr_memcache_gone (e : Env) (domains : List sss_domain_info) (name domain : CStr)
    (groups : List Nat) (d : sss_domain_info) (rest : List sss_domain_info)
    (hfind : initgr_find_domain domain (domains.length + 1) domains = some (d :: rest))
    (hgone : e.sysdb_initgroups d name = some [] ∨
      (e.sysdb_initgroups d name = none ∧ e.sysdb_initgroups_ret d name = ENOENT)) :
    nss_update_initgr_memcache e domains name domain groups
      = some (mc_call.pw_invalidate (cstr name) :: groups.map mc_call.gr_invalidate_gid) := by
  unfold nss_update_initgr_memcache
  rw [hfind]
  rcases hgone with h | ⟨h, h2⟩
  · simp [h, EOK, ENOENT]
  · simp [h, h2, EOK, ENOENT]

theorem initgr_memcache_error (e : Env) (domains : List sss_domain_info) (name domain : CStr)
    (groups : List Nat) (d : sss_domain_info) (rest : List sss_domain_info)
    (hfind : initgr_find_domain domain (domains.length + 1) domains = some (d :: rest))
    (hnone : e.sysdb_initgroups d name = none)
    (h1 : e.sysdb_initgroups_ret d name ≠ ENOENT) (h2 : e.sysdb_initgroups_ret d name ≠ EOK) :
    nss_update_initgr_memcache e domains name domain groups = some [] := by
  have h1b : (e.sysdb_initgroups_ret d name != ENOENT) = true := by simpa using h1
  have h2b : (e.sysdb_initgroups_ret d name != EOK) = true := by simpa using h2
  unfold nss_update_initgr_memcache
  rw [hfind]
  simp [hnone, h1b, h2b]

/-- C21 (amended): for a list of domains that starts with a primary domain,
`nss_update_initgr_memcache` looks the named domain up among the primary domains, by name
without regard to case, and invalidates nothing when there is none.  When the domain is
found and the cache holds a non-empty result for the user, it either invalidates nothing or
invalidates exactly the group slots of the pushed GIDs, in order: never the passwd slot and
never a persisted GID that was not pushed.  It invalidates the pushed GIDs whenever a
non-zero pushed GID is the `gidNumber` of no record of the result, and whenever a record
after the first has a non-zero `gidNumber` that was not pushed; when the first record carries
no non-zero `gidNumber` and the non-zero `gidNumber`s of the other records are a
rearrangement of the non-zero pushed GIDs it invalidates nothing.  When the user is gone
from the cache (an empty result or `ENOENT`) it invalidates the passwd slot of the name and
the group slots of the pushed GIDs; after another failure of the lookup it invalidates
nothing. -/
theorem C21_initgr_memcache_pushed_only (e : Env) (domains : List sss_domain_info)
    (name domain : CStr) (groups : List Nat)
    (hhead : ∀ d rest, domains = d :: rest → d.parent = false) :
    ((domains.filter (fun d => !d.parent)).find?
        (fun d => strcasecmp d.name domain == 0) = none →
      nss_update_initgr_memcache e domains name domain groups = some []) ∧
    (∀ d, (domains.filter (fun d => !d.parent)).find?
        (fun d => strcasecmp d.name domain == 0) = some d →
      (∀ user grs, e.sysdb_initgroups d name = some (user :: grs) →
        (nss_update_initgr_memcache e domains name domain groups = some [] ∨
          nss_update_initgr_memcache e domains name domain groups
            = some (groups.map mc_call.gr_invalidate_gid)) ∧
        ((∃ g ∈ groups, g ≠ 0 ∧
            ∀ m ∈ user :: grs, ldb_msg_find_attr_as_uint m.gidNumber 0 ≠ g) →
          nss_update_initgr_memcache e domains name domain groups
            = some (groups.map mc_call.gr_invalidate_gid)) ∧
        ((∃ m ∈ grs, ldb_msg_find_attr_as_uint m.gidNumber 0 ≠ 0 ∧
            ldb_msg_find_attr_as_uint m.gidNumber 0 ∉ groups) →
          nss_update_initgr_memcache e domains name domain groups
            = some (groups.map mc_call.gr_invalidate_gid)) ∧
        (ldb_msg_find_attr_as_uint user.gidNumber 0 = 0 →
          List.Perm (initgr_record_gids grs) (groups.filter (fun g => g != 0)) →
          nss_update_initgr_memcache e domains name domain groups = some [])) ∧
      ((e.sysdb_initgroups d name = some [] ∨
          (e.sysdb_initgroups d name = none ∧ e.sysdb_initgroups_ret d name = ENOENT)) →
        nss_update_initgr_memcache e domains name domain groups
          = some (mc_call.pw_invalidate (cstr name)
                    :: groups.map mc_call.gr_invalidate_gid)) ∧
      (e.sysdb_initgroups d name = none → e.sysdb_initgroups_ret d name ≠ ENOENT →
        e.sysdb_initgroups_ret d name ≠ EOK →
        nss_update_initgr_memcache e domains name domain groups = some [])) := by
  have hf := initgr_find_domain_found domain (domains.length + 1) domains (Nat.lt_succ_self _)
    hhead
  refine ⟨?_, ?_⟩
  · intro hnone
    unfold nss_update_initgr_memcache
    rw [hf.1 hnone]
  · intro d hd
    obtain ⟨rest, hfind⟩ := hf.2 d hd
    refine ⟨?_, initgr_memcache_gone e domains name domain groups d rest hfind,
      initgr_memcache_error e domains name domain groups d rest hfind⟩
    intro user grs hres
    have hcore := initgr_memcache_found e domains name domain groups d rest (user :: grs) hfind
      hres (by simp)
    have hmem : ∀ g, g ∈ initgr_record_gids (user :: grs) ↔
        g ≠ 0 ∧ ∃ m ∈ user :: grs, ldb_msg_find_attr_as_uint m.gidNumber 0 = g := by
      intro g
      simp only [initgr_record_gids, List.mem_filter, List.mem_map, bne_iff_ne, ne_eq]
      constructor
      · rintro ⟨⟨m, hm, rfl⟩, h0⟩
        exact ⟨h0, m, hm, rfl⟩
      · rintro ⟨h0, m, hm, rfl⟩
        exact ⟨⟨m, hm, rfl⟩, h0⟩
    refine ⟨?_, ?_, ?_, ?_⟩
    · rw [hcore]
      split
      · exact Or.inl rfl
      · exact Or.inr rfl
    · rintro ⟨g, hg, hg0, hno⟩
      rw [hcore, if_neg]
      intro hp
      have : g ∈ initgr_record_gids (user :: grs) :=
        hp.symm.subset (List.mem_filter.mpr ⟨hg, by simpa using hg0⟩)
      obtain ⟨_, m, hm, hmg⟩ := (hmem g).mp this
      exact hno m hm hmg
    · rintro ⟨m, hm, hm0, hno⟩
      rw [hcore, if_neg]
      intro hp
      have : ldb_msg_find_attr_as_uint m.gidNumber 0 ∈ initgr_record_gids (user :: grs) :=
        (hmem _).mpr ⟨hm0, m, List.mem_cons_of_mem _ hm, rfl⟩
      exact hno (List.mem_filter.mp (hp.subset this)).1
    · intro hu hp
      have hrec : initgr_record_gids (user :: grs) = initgr_record_gids grs := by
        simp [initgr_record_gids, hu]
      rw [hcore, hrec, if_pos hp]

theorem C21_initgr_memcache_pushed_only_witness :
    ([ex_dom_a, ex_dom_sub, ex_dom].filter (fun d => !d.parent)).find?
        (fun d => strcasecmp d.name [101, 120] == 0) = some ex_dom ∧
    nss_update_initgr_memcache ex_env_initgr [ex_dom_a, ex_dom_sub, ex_dom] [97] [101, 120]
        [1000, 5, 7]
      = some ([1000, 5, 7].map mc_call.gr_invalidate_gid) :=
  ⟨by decide,
   (((C21_initgr_memcache_pushed_only ex_env_initgr [ex_dom_a, ex_dom_sub, ex_dom] [97]
      [101, 120] [1000, 5, 7]
      (by intro d rest h; cases h; rfl)).2 ex_dom (by decide)).1
      ex_user [ex_group 5, ex_group 6] rfl).2.1 ⟨7, by decide, by decide, by decide⟩⟩


/-! ## Classification of a record found by SID -/

theorem tolower_eq_zero (c : Nat) : tolower c = 0 ↔ c = 0 := by
  unfold tolower
  split <;> omega

theorem cstr_no_nul (s : CStr) : 0 ∉ cstr s := by
  unfold cstr
  intro h
  have := List.mem_takeWhile_imp h
  simp at this

theorem cstr_of_no_nul (s : List Nat) (h : 0 ∉ s) : cstr s = s := by
  unfold cstr
  rw [List.takeWhile_eq_self_iff]
  intro x hx
  have : x ≠ 0 := fun h0 => h (h0 ▸ hx)
  simpa using this

theorem strncasecmp_bytes_abbreviated (b a : List Nat) (ha : 0 ∉ a) (hb : 0 ∉ b) :
    strncasecmp_bytes b.length a b = 0 ↔ (b.map tolower).isPrefixOf (a.map tolower) = true := by
  induction b generalizing a with
  | nil => simp [strncasecmp_bytes]
  | cons y ys ih =>
    have hy : y ≠ 0 := fun h => hb (by simp [h])
    have hys : 0 ∉ ys := fun h => hb (by simp [h])
    have hty : tolower y ≠ 0 := fun h => hy ((tolower_eq_zero y).mp h)
    cases a with
    | nil =>
      have h0 : tolower 0 = 0 := by decide
      have : 0 < tolower y := Nat.pos_of_ne_zero hty
      simp [strncasecmp_bytes, h0, this, List.isPrefixOf]
    | cons x xs =>
      have hx : x ≠ 0 := fun h => ha (by simp [h])
      have hxs : 0 ∉ xs := fun h => ha (by simp [h])
      have htx : tolower x ≠ 0 := fun h => hx ((tolower_eq_zero x).mp h)
      simp only [List.length_cons, strncasecmp_bytes, List.headD_cons, List.tail_cons,
        List.map_cons, List.isPrefixOf]
      by_cases h1 : tolower x < tolower y
      · have : ¬ tolower y = tolower x := by omega
        simp [h1, this]
      · by_cases h2 : tolower y < tolower x
        · have : ¬ tolower y = tolower x := by omega
          simp [h1, h2, this]
        · have heq : tolower y = tolower x := by omega
          simp only [h1, h2, if_false, beq_iff_eq, htx, heq, beq_self_eq_true, Bool.true_and,
            lt_self_iff_false]
          exact ih xs hxs hys

theorem find_sss_id_type_loop_any (user_class : CStr) (values : List (List Nat))
    (hv : ∀ v ∈ values, 0 ∉ v) :
    find_sss_id_type_loop user_class values
      = values.any (user_class_abbreviated user_class) := by
  induction values with
  | nil => rfl
  | cons v rest ih =>
    have hv0 : 0 ∉ v := hv v (by simp)
    have hrest := ih (fun w hw => hv w (by simp [hw]))
    have hiff := strncasecmp_bytes_abbreviated v (cstr user_class) (cstr_no_nul _) hv0
    rw [find_sss_id_type_loop, List.any_cons, hrest]
    unfold strncasecmp user_class_abbreviated
    rw [cstr_of_no_nul v hv0]
    by_cases h : strncasecmp_bytes v.length (cstr user_class) v = 0
    · simp [h, hiff.mp h]
    · have h2 : ¬ (v.map tolower).isPrefixOf ((cstr user_class).map tolower) = true :=
        fun hh => h (hiff.mpr hh)
      simp [h, h2]

/-- C23 (counterexample): a record whose only objectClass value is "us", which is not the
user class "user" as a whole value, is classified as UID, not GID. -/
theorem C23_counterexample_abbreviated_class :
    find_sss_id_type ex_user_class { objectClass := some [[117, 115]] } false
      = (EOK, some sss_id_type.SSS_ID_TYPE_UID) := by
  decide

/-- C23 (amended): find_sss_id_type fails with EINVAL exactly when the record has no
objectClass attribute; for a record whose objectClass values hold no NUL byte it returns EOK
and classifies the record as GID when no value is, case-insensitively, an initial part of the
user class (the comparison covers only the length of the value), as UID when some value is and
the domain is not mpg, and as BOTH when some value is and the domain is mpg. -/
theorem C23_find_sss_id_type_classes (user_class : CStr) (msg : ldb_message) (mpg : Bool) :
    ((find_sss_id_type user_class msg mpg).1 = EINVAL ↔ msg.objectClass = none) ∧
    (msg.objectClass = none → find_sss_id_type user_class msg mpg = (EINVAL, none)) ∧
    (∀ values, msg.objectClass = some values → (∀ v ∈ values, 0 ∉ v) →
      find_sss_id_type user_class msg mpg
        = (EOK, some (if values.any (user_class_abbreviated user_class)
                      then (if mpg then sss_id_type.SSS_ID_TYPE_BOTH
                            else sss_id_type.SSS_ID_TYPE_UID)
                      else sss_id_type.SSS_ID_TYPE_GID))) := by
  refine ⟨?_, ?_, ?_⟩
  · unfold find_sss_id_type
    cases h : msg.objectClass with
    | none => simp
    | some values =>
      simp only [reduceCtorEq, iff_false]
      split <;> [skip; split] <;> simp [EOK, EINVAL]
  · intro h
    simp [find_sss_id_type, h]
  · intro values h hv
    unfold find_sss_id_type
    simp only [h]
    rw [find_sss_id_type_loop_any user_class values hv]
    cases values.any (user_class_abbreviated user_class) <;> cases mpg <;> rfl

theorem C23_find_sss_id_type_classes_witness :
    find_sss_id_type ex_user_class { objectClass := some [[103], [85, 83, 69, 82]] } true
      = (EOK, some (if [[103], [85, 83, 69, 82]].any (user_class_abbreviated ex_user_class)
                    then (if true then sss_id_type.SSS_ID_TYPE_BOTH
                          else sss_id_type.SSS_ID_TYPE_UID)
                    else sss_id_type.SSS_ID_TYPE_GID)) :=
  (C23_find_sss_id_type_classes ex_user_class
    { objectClass := some [[103], [85, 83, 69, 82]] } true).2.2 _ rfl (by decide)


/-! ## Provider requests of a search entered again -/

theorem get_next_domain_subset (d : sss_domain_info) (rest : List sss_domain_info) (b : Bool) :
    ∀ x ∈ get_next_domain (d :: rest) b, x ∈ rest := by
  intro x hx
  unfold get_next_domain at hx
  cases b with
  | true => simpa using hx
  | false =>
    simp only [Bool.false_eq_true, if_false] at hx
    split at hx
    · cases rest with
      | nil => simp at hx
      | cons a l =>
        simp only [] at hx
        split at hx
        · exact hx
        · simp at hx
    · exact (List.dropWhile_sublist _).subset hx

theorem check_cache_dp_log (e : Env) (dctx : nss_dom_ctx) (nctx : nss_ctx) (st : resp_state)
    (res : List ldb_message) (t : sss_dp_type) (n : Option CStr) (i : Nat) :
    (check_cache e dctx nctx st res t n i).st.dp_log = st.dp_log ∨
    ∃ cb, (check_cache e dctx nctx st res t n i).st.dp_log = st.dp_log ++
      [{ dom := dctx.domain.headD { name := [] }, req_type := t, opt_name := n, opt_id := i,
         callback := cb }] := by
  unfold check_cache check_cache_error
  simp only []
  repeat' split
  all_goals first
    | exact Or.inl rfl
    | exact Or.inr ⟨_, rfl⟩

theorem delete_entry_dp_log (e : Env) (d : sss_domain_info) (name : CStr) (g : Bool)
    (st : resp_state) :
    (delete_entry_from_memcache e d name g st).2.dp_log = st.dp_log := by
  unfold delete_entry_from_memcache
  simp only []
  repeat' split
  all_goals rfl

theorem dp_once_leaf (doms : List sss_domain_info) (dctx : nss_dom_ctx) (st : resp_state)
    (r : search_out) (h : r.st.dp_log = st.dp_log) : dp_once doms dctx st r :=
  ⟨[], by simp [h], by simp, by simp⟩

theorem dp_once_next (d : sss_domain_info) (rest : List sss_domain_info) (b : Bool)
    (dctx dctx2 : nss_dom_ctx) (st st2 : resp_state) (r : search_out)
    (hst : st2.dp_log = st.dp_log)
    (h : dp_once (get_next_domain (d :: rest) b) dctx2 st2 r) :
    dp_once (d :: rest) dctx st r := by
  obtain ⟨added, h1, h2, h3⟩ := h
  refine ⟨added, by rw [h1, hst], h2, ?_⟩
  intro q hq
  have hm := get_next_domain_subset d rest b _ (h3 q hq).1
  exact ⟨List.mem_cons_of_mem _ hm, fun _ _ => hm⟩

theorem dp_once_check_cache (e : Env) (nctx : nss_ctx) (d : sss_domain_info)
    (rest : List sss_domain_info) (dctx dctx2 : nss_dom_ctx) (st st2 : resp_state)
    (res : List ldb_message) (t : sss_dp_type) (n : Option CStr) (i : Nat)
    (hdom : dctx2.domain = d :: rest) (hst : st2.dp_log = st.dp_log)
    (hq : dctx.domain = d :: rest → dctx.check_provider = false → False) (r : search_out)
    (hr : r.st = (check_cache e dctx2 nctx st2 res t n i).st) :
    dp_once (d :: rest) dctx st r := by
  rcases check_cache_dp_log e dctx2 nctx st2 res t n i with h | ⟨cb, h⟩
  · exact dp_once_leaf _ _ _ _ (by rw [hr, ← hst]; exact h)
  · refine ⟨_, by rw [hr, ← hst]; exact h, by simp, ?_⟩
    intro q hq2
    simp only [List.mem_singleton] at hq2
    subst hq2
    simp only [hdom, List.headD_cons]
    exact ⟨by simp, fun h1 h2 => absurd (hq h1 h2) id⟩

theorem getpwnam_loop_dp (e : Env) (nctx : nss_ctx) (c : nss_cmd_ctx) :
    ∀ (fuel : Nat) (dom : List sss_domain_info) (dctx : nss_dom_ctx) (st : resp_state),
      dom.length < fuel →
      returns_with (dp_once dom dctx st) (getpwnam_loop e nctx c fuel dom dctx st) := by
  intro fuel
  induction fuel with
  | zero => intro dom dctx st h; omega
  | succ n ih =>
    intro dom dctx st hlen
    cases dom with
    | nil => exact returns_with_some _ _ (dp_once_leaf _ _ _ _ rfl)
    | cons d rest =>
      have hnext : ∀ b, (get_next_domain (d :: rest) b).length < n := by
        intro b
        have := get_next_domain_length d rest b
        simp at hlen
        omega
      rw [getpwnam_loop]
      simp only []
      generalize hd1 : (if (d :: rest != dctx.domain) = true then
          { dctx with check_provider := d.provider } else dctx) = dctx1
      have hq1 : dctx1.check_provider = true → dctx.domain = d :: rest →
          dctx.check_provider = false → False := by
        intro h1 h2 h3
        rw [← hd1] at h1
        simp [h2, h3] at h1
      have rec_case : ∀ (dctx2 : nss_dom_ctx) (st2 : resp_state) (b : Bool),
          st2.dp_log = st.dp_log →
          returns_with (dp_once (d :: rest) dctx st)
            (getpwnam_loop e nctx c n (get_next_domain (d :: rest) b) dctx2 st2) := by
        intro dctx2 st2 b hst
        exact returns_with_mono _ _ _ (ih _ dctx2 st2 (hnext b))
          (fun r hr => dp_once_next d rest b dctx dctx2 st st2 r hst hr)
      have leaf : ∀ (ret : Nat) (dctx2 : nss_dom_ctx) (st2 : resp_state),
          st2.dp_log = st.dp_log →
          returns_with (dp_once (d :: rest) dctx st)
            (some { ret := ret, dctx := dctx2, st := st2 }) := by
        intro ret dctx2 st2 hst
        exact returns_with_some _ _ (dp_once_leaf _ _ _ _ hst)
      have cc : ∀ (dctx2 : nss_dom_ctx) (st2 : resp_state) (res : List ldb_message)
          (t : sss_dp_type) (nm : Option CStr) (i : Nat),
          dctx2.domain = d :: rest → st2.dp_log = st.dp_log →
          dctx1.check_provider = true →
          returns_with (dp_once (d :: rest) dctx st)
            (some (check_cache e dctx2 nctx st2 res t nm i)) := by
        intro dctx2 st2 res t nm i hdom hst hcp
        exact returns_with_some _ _
          (dp_once_check_cache e nctx d rest dctx dctx2 st st2 res t nm i hdom hst
            (hq1 hcp) _ rfl)
      have cc2 : ∀ (dctx2 : nss_dom_ctx) (st2 : resp_state) (res : List ldb_message)
          (t : sss_dp_type) (nm : Option CStr) (i : Nat) (ret : Nat) (dctx3 : nss_dom_ctx),
          dctx2.domain = d :: rest → st2.dp_log = st.dp_log →
          dctx1.check_provider = true →
          returns_with (dp_once (d :: rest) dctx st)
            (some { ret := ret, dctx := dctx3,
                    st := (check_cache e dctx2 nctx st2 res t nm i).st }) := by
        intro dctx2 st2 res t nm i ret dctx3 hdom hst hcp
        exact returns_with_some _ _
          (dp_once_check_cache e nctx d rest dctx dctx2 st st2 res t nm i hdom hst
            (hq1 hcp) _ rfl)
      split
      · exact rec_case _ _ _ rfl
      · cases e.sss_get_cased_name c.name d.case_sensitive with
        | none => exact leaf _ _ _ rfl
        | some name =>
          simp only []
          split
          · split
            · exact rec_case _ _ _ rfl
            · exact leaf _ _ _ rfl
          · split
            · exact leaf _ _ _ rfl
            · cases e.sysdb_getpwnam d name with
              | none => exact leaf _ _ _ rfl
              | some res =>
                simp only []
                split
                · exact leaf _ _ _ rfl
                · split
                  · split
                    · exact leaf _ _ _ rfl
                    · split
                      · exact rec_case _ _ _ rfl
                      · exact leaf _ _ _ (delete_entry_dp_log _ _ _ _ _)
                  · split
                    · split
                      · exact cc _ _ _ _ _ _ rfl rfl (by assumption)
                      · exact cc2 _ _ _ _ _ _ _ _ rfl rfl (by assumption)
                    · exact leaf _ _ _ rfl

theorem getgrnam_loop_dp (e : Env) (nctx : nss_ctx) (c : nss_cmd_ctx) :
    ∀ (fuel : Nat) (dom : List sss_domain_info) (dctx : nss_dom_ctx) (st : resp_state),
      dom.length < fuel →
      returns_with (dp_once dom dctx st) (getgrnam_loop e nctx c fuel dom dctx st) := by
  intro fuel
  induction fuel with
  | zero => intro dom dctx st h; omega
  | succ n ih =>
    intro dom dctx st hlen
    cases dom with
    | nil => exact returns_with_some _ _ (dp_once_leaf _ _ _ _ rfl)
    | cons d rest =>
      have hnext : ∀ b, (get_next_domain (d :: rest) b).length < n := by
        intro b
        have := get_next_domain_length d rest b
        simp at hlen
        omega
      rw [getgrnam_loop]
      simp only []
      generalize hd1 : (if (d :: rest != dctx.domain) = true then
          { dctx with check_provider := d.provider } else dctx) = dctx1
      have hq1 : dctx1.check_provider = true → dctx.domain = d :: rest →
          dctx.check_provider = false → False := by
        intro h1 h2 h3
        rw [← hd1] at h1
        simp [h2, h3] at h1
      have rec_case : ∀ (dctx2 : nss_dom_ctx) (st2 : resp_state) (b : Bool),
          st2.dp_log = st.dp_log →
          returns_with (dp_once (d :: rest) dctx st)
            (getgrnam_loop e nctx c n (get_next_domain (d :: rest) b) dctx2 st2) := by
        intro dctx2 st2 b hst
        exact returns_with_mono _ _ _ (ih _ dctx2 st2 (hnext b))
          (fun r hr => dp_once_next d rest b dctx dctx2 st st2 r hst hr)
      have leaf : ∀ (ret : Nat) (dctx2 : nss_dom_ctx) (st2 : resp_state),
          st2.dp_log = st.dp_log →
          returns_with (dp_once (d :: rest) dctx st)
            (some { ret := ret, dctx := dctx2, st := st2 }) := by
        intro ret dctx2 st2 hst
        exact returns_with_some _ _ (dp_once_leaf _ _ _ _ hst)
      have cc : ∀ (dctx2 : nss_dom_ctx) (st2 : resp_state) (res : List ldb_message)
          (t : sss_dp_type) (nm : Option CStr) (i : Nat),
          dctx2.domain = d :: rest → st2.dp_log = st.dp_log →
          dctx1.check_provider = true →
          returns_with (dp_once (d :: rest) dctx st)
            (some (check_cache e dctx2 nctx st2 res t nm i)) := by
        intro dctx2 st2 res t nm i hdom hst hcp
        exact returns_with_some _ _
          (dp_once_check_cache e nctx d rest dctx dctx2 st st2 res t nm i hdom hst
            (hq1 hcp) _ rfl)
      have cc2 : ∀ (dctx2 : nss_dom_ctx) (st2 : resp_state) (res : List ldb_message)
          (t : sss_dp_type) (nm : Option CStr) (i : Nat) (ret : Nat) (dctx3 : nss_dom_ctx),
          dctx2.domain = d :: rest → st2.dp_log = st.dp_log →
          dctx1.check_provider = true →
          returns_with (dp_once (d :: rest) dctx st)
            (some { ret := ret, dctx := dctx3,
                    st := (check_cache e dctx2 nctx st2 res t nm i).st }) := by
        intro dctx2 st2 res t nm i ret dctx3 hdom hst hcp
        exact returns_with_some _ _
          (dp_once_check_cache e nctx d rest dctx dctx2 st st2 res t nm i hdom hst
            (hq1 hcp) _ rfl)
      split
      · exact rec_case _ _ _ rfl
      · cases e.sss_get_cased_name c.name d.case_sensitive with
        | none => exact leaf _ _ _ rfl
        | some name =>
          simp only []
          split
          · split
            · exact rec_case _ _ _ rfl
            · exact leaf _ _ _ rfl
          · split
            · exact leaf _ _ _ rfl
            · cases e.sysdb_getgrnam d name with
              | none => exact leaf _ _ _ rfl
              | some res =>
                simp only []
                split
                · exact leaf _ _ _ rfl
                · split
                  · split
                    · exact leaf _ _ _ rfl
                    · split
                      · exact rec_case _ _ _ rfl
                      · exact leaf _ _ _ (delete_entry_dp_log _ _ _ _ _)
                  · split
                    · split
                      · exact cc _ _ _ _ _ _ rfl rfl (by assumption)
                      · exact cc2 _ _ _ _ _ _ _ _ rfl rfl (by assumption)
                    · exact leaf _ _ _ rfl

theorem initgroups_loop_dp (e : Env) (nctx : nss_ctx) (c : nss_cmd_ctx) :
    ∀ (fuel : Nat) (dom : List sss_domain_info) (dctx : nss_dom_ctx) (st : resp_state),
      dom.length < fuel →
      returns_with (dp_once dom dctx st) (initgroups_loop e nctx c fuel dom dctx st) := by
  intro fuel
  induction fuel with
  | zero => intro dom dctx st h; omega
  | succ n ih =>
    intro dom dctx st hlen
    cases dom with
    | nil => exact returns_with_some _ _ (dp_once_leaf _ _ _ _ rfl)
    | cons d rest =>
      have hnext : ∀ b, (get_next_domain (d :: rest) b).length < n := by
        intro b
        have := get_next_domain_length d rest b
        simp at hlen
        omega
      rw [initgroups_loop]
      simp only []
      generalize hd1 : (if (d :: rest != dctx.domain) = true then
          { dctx with check_provider := d.provider } else dctx) = dctx1
      have hq1 : dctx1.check_provider = true → dctx.domain = d :: rest →
          dctx.check_provider = false → False := by
        intro h1 h2 h3
        rw [← hd1] at h1
        simp [h2, h3] at h1
      have rec_case : ∀ (dctx2 : nss_dom_ctx) (st2 : resp_state) (b : Bool),
          st2.dp_log = st.dp_log →
          returns_with (dp_once (d :: rest) dctx st)
            (initgroups_loop e nctx c n (get_next_domain (d :: rest) b) dctx2 st2) := by
        intro dctx2 st2 b hst
        exact returns_with_mono _ _ _ (ih _ dctx2 st2 (hnext b))
          (fun r hr => dp_once_next d rest b dctx dctx2 st st2 r hst hr)
      have leaf : ∀ (ret : Nat) (dctx2 : nss_dom_ctx) (st2 : resp_state),
          st2.dp_log = st.dp_log →
          returns_with (dp_once (d :: rest) dctx st)
            (some { ret := ret, dctx := dctx2, st := st2 }) := by
        intro ret dctx2 st2 hst
        exact returns_with_some _ _ (dp_once_leaf _ _ _ _ hst)
      have cc : ∀ (dctx2 : nss_dom_ctx) (st2 : resp_state) (res : List ldb_message)
          (t : sss_dp_type) (nm : Option CStr) (i : Nat),
          dctx2.domain = d :: rest → st2.dp_log = st.dp_log →
          dctx1.check_provider = true →
          returns_with (dp_once (d :: rest) dctx st)
            (some (check_cache e dctx2 nctx st2 res t nm i)) := by
        intro dctx2 st2 res t nm i hdom hst hcp
        exact returns_with_some _ _
          (dp_once_check_cache e nctx d rest dctx dctx2 st st2 res t nm i hdom hst
            (hq1 hcp) _ rfl)
      have cc2 : ∀ (dctx2 : nss_dom_ctx) (st2 : resp_state) (res : List ldb_message)
          (t : sss_dp_type) (nm : Option CStr) (i : Nat) (ret : Nat) (dctx3 : nss_dom_ctx),
          dctx2.domain = d :: rest → st2.dp_log = st.dp_log →
          dctx1.check_provider = true →
          returns_with (dp_once (d :: rest) dctx st)
            (some { ret := ret, dctx := dctx3,
                    st := (check_cache e dctx2 nctx st2 res t nm i).st }) := by
        intro dctx2 st2 res t nm i ret dctx3 hdom hst hcp
        exact returns_with_some _ _
          (dp_once_check_cache e nctx d rest dctx dctx2 st st2 res t nm i hdom hst
            (hq1 hcp) _ rfl)
      split
      · exact rec_case _ _ _ rfl
      · cases e.sss_get_cased_name c.name d.case_sensitive with
        | none => exact leaf _ _ _ rfl
        | some name =>
          simp only []
          split
          · split
            · exact rec_case _ _ _ rfl
            · exact leaf _ _ _ rfl
          · split
            · exact leaf _ _ _ rfl
            · cases e.sysdb_initgroups d name with
              | none => exact leaf _ _ _ rfl
              | some res =>
                simp only []
                split
                · split
                  · exact leaf _ _ _ rfl
                  · split
                    · exact rec_case _ _ _ rfl
                    · exact leaf _ _ _ rfl
                · split
                  · split
                    · exact cc _ _ _ _ _ _ rfl rfl (by assumption)
                    · exact cc2 _ _ _ _ _ _ _ _ rfl rfl (by assumption)
                  · exact leaf _ _ _ rfl

theorem getbyid_loop_dp (k : id_kind) (e : Env) (nctx : nss_ctx) (c : nss_cmd_ctx) :
    ∀ (fuel : Nat) (dom : List sss_domain_info) (dctx : nss_dom_ctx) (st : resp_state),
      dom.length < fuel →
      returns_with (dp_once dom dctx st) (getbyid_loop k e nctx c fuel dom dctx st) := by
  intro fuel
  induction fuel with
  | zero => intro dom dctx st h; omega
  | succ n ih =>
    intro dom dctx st hlen
    cases dom with
    | nil => exact returns_with_some _ _ (dp_once_leaf _ _ _ _ rfl)
    | cons d rest =>
      have hnext : ∀ b, (get_next_domain (d :: rest) b).length < n := by
        intro b
        have := get_next_domain_length d rest b
        simp at hlen
        omega
      rw [getbyid_loop]
      simp only []
      generalize hd1 : (if (d :: rest != dctx.domain) = true then
          { dctx with check_provider := d.provider } else dctx) = dctx1
      have hq1 : dctx1.check_provider = true → dctx.domain = d :: rest →
          dctx.check_provider = false → False := by
        intro h1 h2 h3
        rw [← hd1] at h1
        simp [h2, h3] at h1
      have rec_case : ∀ (dctx2 : nss_dom_ctx) (st2 : resp_state) (b : Bool),
          st2.dp_log = st.dp_log →
          returns_with (dp_once (d :: rest) dctx st)
            (getbyid_loop k e nctx c n (get_next_domain (d :: rest) b) dctx2 st2) := by
        intro dctx2 st2 b hst
        exact returns_with_mono _ _ _ (ih _ dctx2 st2 (hnext b))
          (fun r hr => dp_once_next d rest b dctx dctx2 st st2 r hst hr)
      have leaf : ∀ (ret : Nat) (dctx2 : nss_dom_ctx) (st2 : resp_state),
          st2.dp_log = st.dp_log →
          returns_with (dp_once (d :: rest) dctx st)
            (some { ret := ret, dctx := dctx2, st := st2 }) := by
        intro ret dctx2 st2 hst
        exact returns_with_some _ _ (dp_once_leaf _ _ _ _ hst)
      have cc : ∀ (dctx2 : nss_dom_ctx) (st2 : resp_state) (res : List ldb_message)
          (t : sss_dp_type) (nm : Option CStr) (i : Nat),
          dctx2.domain = d :: rest → st2.dp_log = st.dp_log →
          dctx1.check_provider = true →
          returns_with (dp_once (d :: rest) dctx st)
            (some (check_cache e dctx2 nctx st2 res t nm i)) := by
        intro dctx2 st2 res t nm i hdom hst hcp
        exact returns_with_some _ _
          (dp_once_check_cache e nctx d rest dctx dctx2 st st2 res t nm i hdom hst
            (hq1 hcp) _ rfl)
      have cc2 : ∀ (dctx2 : nss_dom_ctx) (st2 : resp_state) (res : List ldb_message)
          (t : sss_dp_type) (nm : Option CStr) (i : Nat) (ret : Nat) (dctx3 : nss_dom_ctx),
          dctx2.domain = d :: rest → st2.dp_log = st.dp_log →
          dctx1.check_provider = true →
          returns_with (dp_once (d :: rest) dctx st)
            (some { ret := ret, dctx := dctx3,
                    st := (check_cache e dctx2 nctx st2 res t nm i).st }) := by
        intro dctx2 st2 res t nm i ret dctx3 hdom hst hcp
        exact returns_with_some _ _
          (dp_once_check_cache e nctx d rest dctx dctx2 st st2 res t nm i hdom hst
            (hq1 hcp) _ rfl)
      split
      · split
        · exact rec_case _ _ _ rfl
        · exact leaf _ _ _ rfl
      · split
        · exact leaf _ _ _ rfl
        · cases k.lookup e d c.id with
          | none => exact leaf _ _ _ rfl
          | some res =>
            simp only []
            split
            · exact leaf _ _ _ rfl
            · split
              · split
                · exact rec_case _ _ _ rfl
                · exact leaf _ _ _ rfl
              · split
                · split
                  · exact cc _ _ _ _ _ _ rfl rfl (by assumption)
                  · exact cc2 _ _ _ _ _ _ _ _ rfl rfl (by assumption)
                · exact leaf _ _ _ rfl

set_option maxHeartbeats 1600000 in
theorem getsidby_loop_dp (e : Env) (nctx : nss_ctx) (c : nss_cmd_ctx) :
    ∀ (fuel : Nat) (dom : List sss_domain_info) (dctx : nss_dom_ctx) (st : resp_state),
      dom.length < fuel →
      ∃ r, getsidby_loop e nctx c fuel dom dctx st = some r ∧ dp_once dom dctx st r.2 := by
  intro fuel
  induction fuel with
  | zero => intro dom dctx st h; omega
  | succ n ih =>
    intro dom dctx st hlen
    cases dom with
    | nil => exact ⟨_, rfl, dp_once_leaf _ _ _ _ rfl⟩
    | cons d rest =>
      have hnext : ∀ b, (get_next_domain (d :: rest) b).length < n := by
        intro b
        have := get_next_domain_length d rest b
        simp at hlen
        omega
      rw [getsidby_loop]
      have hq1 : ∀ dctx1, (if (d :: rest != dctx.domain) = true then
          { dctx with check_provider := d.provider } else dctx) = dctx1 →
          dctx1.check_provider = true → dctx.domain = d :: rest →
          dctx.check_provider = false → False := by
        intro dctx1 hd1 h1 h2 h3
        rw [← hd1] at h1
        simp [h2, h3] at h1
      have rec_case : ∀ (dctx2 : nss_dom_ctx) (st2 : resp_state) (b : Bool),
          st2.dp_log = st.dp_log →
          ∃ r, getsidby_loop e nctx c n (get_next_domain (d :: rest) b) dctx2 st2 = some r ∧
            dp_once (d :: rest) dctx st r.2 := by
        intro dctx2 st2 b hst
        obtain ⟨r, h1, h2⟩ := ih _ dctx2 st2 (hnext b)
        exact ⟨r, h1, dp_once_next d rest b dctx dctx2 st st2 r.2 hst h2⟩
      have leaf : ∀ (f : Bool) (ret : Nat) (dctx2 : nss_dom_ctx) (st2 : resp_state),
          st2.dp_log = st.dp_log →
          ∃ r, some (f, ({ ret := ret, dctx := dctx2, st := st2 } : search_out)) = some r ∧
            dp_once (d :: rest) dctx st r.2 := by
        intro f ret dctx2 st2 hst
        exact ⟨_, rfl, dp_once_leaf _ _ _ _ hst⟩
      have cc : ∀ (f : Bool) (dctx2 : nss_dom_ctx) (st2 : resp_state) (res : List ldb_message)
          (t : sss_dp_type) (nm : Option CStr) (i : Nat),
          dctx2.domain = d :: rest → st2.dp_log = st.dp_log →
          (dctx.domain = d :: rest → dctx.check_provider = false → False) →
          ∃ r, some (f, check_cache e dctx2 nctx st2 res t nm i) = some r ∧
            dp_once (d :: rest) dctx st r.2 := by
        intro f dctx2 st2 res t nm i hdom hst hcp
        exact ⟨_, rfl, dp_once_check_cache e nctx d rest dctx dctx2 st st2 res t nm i hdom hst
            hcp _ rfl⟩
      have cc2 : ∀ (f : Bool) (dctx2 : nss_dom_ctx) (st2 : resp_state) (res : List ldb_message)
          (t : sss_dp_type) (nm : Option CStr) (i : Nat) (ret : Nat) (dctx3 : nss_dom_ctx),
          dctx2.domain = d :: rest → st2.dp_log = st.dp_log →
          (dctx.domain = d :: rest → dctx.check_provider = false → False) →
          ∃ r, some (f, search_out.mk ret dctx3 (check_cache e dctx2 nctx st2 res t nm i).st)
              = some r ∧ dp_once (d :: rest) dctx st r.2 := by
        intro f dctx2 st2 res t nm i ret dctx3 hdom hst hcp
        exact ⟨_, rfl, dp_once_check_cache e nctx d rest dctx dctx2 st st2 res t nm i hdom hst
            hcp _ rfl⟩
      by_cases hb : c.cmd = sss_cli_command.SSS_NSS_GETSIDBYID
      · simp only [hb, beq_self_eq_true, Bool.true_and, Bool.not_true, Bool.false_and,
          Bool.false_eq_true, if_false, if_true]
        by_cases hout : id_out_of_range d c.id = true
        · simp only [hout, if_true]
          split
          · exact rec_case _ _ _ rfl
          · exact leaf _ _ _ _ rfl
        · have hin : id_out_of_range d c.id = false := by simpa using hout
          simp only [hin, Bool.false_eq_true, if_false]
          by_cases hs : d.sysdb = true
          · simp only [hs, Bool.not_true, Bool.false_eq_true, if_false]
            generalize (if (e.sysdb_search_user_by_uid d c.id == some none) = true then
                [sysdb_query.search_user_by_uid d c.id,
                 sysdb_query.search_group_by_gid d c.id]
              else [sysdb_query.search_user_by_uid d c.id]) = L
            have hne : (sss_cli_command.SSS_NSS_GETSIDBYID ==
                sss_cli_command.SSS_NSS_GETSIDBYNAME) = false := rfl
            simp only [hne, Bool.false_eq_true, if_false, bne_self_eq_false]
            generalize hd1 : (if (d :: rest != dctx.domain) = true then
                { dctx with check_provider := d.provider } else dctx) = dctx1
            cases getsidby_lookup (e.sysdb_search_user_by_uid d c.id)
                (e.sysdb_search_group_by_gid d c.id) with
            | none => exact leaf _ _ _ _ rfl
            | some t =>
              obtain ⟨uf, gf, msg⟩ := t
              simp only []
              generalize (if (uf || gf) = true then msg.toList else []) = res
              repeat' split
              all_goals first
                | exact leaf _ _ _ _ rfl
                | exact rec_case _ _ _ rfl
                | exact cc _ _ _ _ _ _ _ rfl rfl (hq1 _ hd1 (by assumption))
                | exact cc2 _ _ _ _ _ _ _ _ _ rfl rfl (hq1 _ hd1 (by assumption))
          · have hs2 : d.sysdb = false := by simpa using hs
            simp only [hs2, Bool.not_false, if_true]
            exact leaf _ _ _ _ rfl
      · have hb2 : (c.cmd == sss_cli_command.SSS_NSS_GETSIDBYID) = false := by simpa using hb
        simp only [hb2, Bool.false_and, Bool.not_false, Bool.true_and, Bool.false_eq_true,
          if_false]
        by_cases hfq : (c.check_next && d.fqnames) = true
        · simp only [hfq, if_true]
          exact rec_case _ _ _ rfl
        · simp only [hfq, if_false]
          generalize hd1 : (if (d :: rest != dctx.domain) = true then
              { dctx with check_provider := d.provider } else dctx) = dctx1
          cases e.sss_get_cased_name c.name d.case_sensitive with
          | none => exact leaf _ _ _ _ rfl
          | some name =>
            simp only []
            cases (if d.parent = true then e.sss_tc_fqname d name else some name) with
            | none => exact leaf _ _ _ _ rfl
            | some sysdb_name =>
              simp only []
              by_cases hnc : (sss_ncache_check_user st.ncache e.now nctx.neg_timeout d name
                  == EEXIST) = true
              · by_cases hcn : c.check_next = true
                · simp only [hnc, hcn, if_true]
                  exact rec_case _ _ _ rfl
                · simp only [hnc, hcn, if_true, if_false]
                  exact leaf _ _ _ _ rfl
              · simp only [hnc, if_false]
                by_cases hs : d.sysdb = true
                · simp only [hs, Bool.not_true, Bool.false_eq_true, if_false]
                  generalize (if (e.sysdb_search_user_by_name d sysdb_name == some none) = true then
                      [sysdb_query.search_user_by_name d (cstr sysdb_name),
                       sysdb_query.search_group_by_name d (cstr sysdb_name)]
                    else [sysdb_query.search_user_by_name d (cstr sysdb_name)]) = L
                  cases getsidby_lookup (e.sysdb_search_user_by_name d sysdb_name)
                      (e.sysdb_search_group_by_name d sysdb_name) with
                  | none => exact leaf _ _ _ _ rfl
                  | some t =>
                    obtain ⟨uf, gf, msg⟩ := t
                    simp only []
                    generalize (if (uf || gf) = true then msg.toList else []) = res
                    generalize hn1 : (if (c.cmd == sss_cli_command.SSS_NSS_GETSIDBYNAME) = true
                      then ncache_set e st.ncache false (nc_user_key d name)
                      else (EOK, st.ncache)) = n1
                    generalize hn2 : (if (c.cmd == sss_cli_command.SSS_NSS_GETSIDBYNAME) = true
                      then ncache_set e n1.2 false (nc_group_key d name)
                      else (EOK, n1.2)) = n2
                    repeat' split
                    all_goals first
                      | exact leaf _ _ _ _ rfl
                      | exact rec_case _ _ _ rfl
                      | exact cc _ _ _ _ _ _ _ rfl rfl (hq1 _ hd1 (by assumption))
                      | exact cc2 _ _ _ _ _ _ _ _ _ rfl rfl (hq1 _ hd1 (by assumption))
                · have hs2 : d.sysdb = false := by simpa using hs
                  simp only [hs2, Bool.not_false, if_true]
                  exact leaf _ _ _ _ rfl

theorem getbyid_done_dp_log (k : id_kind) (e : Env) (c : nss_cmd_ctx) (r : search_out) :
    (getbyid_done k e c r).st.dp_log = r.st.dp_log := by
  unfold getbyid_done
  split <;> rfl

theorem getsidby_done_dp_log (e : Env) (c : nss_cmd_ctx) (r : search_out) :
    (getsidby_done e c r).st.dp_log = r.st.dp_log := by
  unfold getsidby_done
  simp only []
  repeat' split
  all_goals rfl

theorem check_cache_eagain (e : Env) (dctx : nss_dom_ctx) (nctx : nss_ctx) (st : resp_state)
    (res : List ldb_message) (t : sss_dp_type) (n : Option CStr) (i : Nat)
    (hsend : e.send_error_ret ≠ EAGAIN)
    (hret : (check_cache e dctx nctx st res t n i).ret = EAGAIN) :
    (check_cache e dctx nctx st res t n i).dctx.check_provider = false ∧
    (check_cache e dctx nctx st res t n i).st.dp_log = st.dp_log ++
      [{ dom := dctx.domain.headD { name := [] }, req_type := t, opt_name := n, opt_id := i,
         callback := true }] := by
  revert hret
  unfold check_cache check_cache_error
  simp only []
  repeat' split
  all_goals
    intro hret
    first
      | exact ⟨rfl, rfl⟩
      | exact absurd hret hsend
      | exact absurd hret (by decide)
      | simp at hret

theorem check_cache_midpoint (e : Env) (dctx : nss_dom_ctx) (nctx : nss_ctx) (st : resp_state)
    (msg : ldb_message) (tl : List ldb_message) (t : sss_dp_type) (n : Option CStr) (i : Nat)
    (hone : ((t == sss_dp_type.SSS_DP_USER || t == sss_dp_type.SSS_DP_NETGR)
              && decide ((msg :: tl).length > 1)) = false)
    (hmid : e.sss_cmd_check_cache msg nctx.cache_refresh_percent (check_cache_expire t msg)
              = EAGAIN) :
    check_cache e dctx nctx st (msg :: tl) t n i
      = { ret := EOK, dctx := dctx,
          st := if e.dp_send_ok then
                  { st with dp_log := st.dp_log ++
                      [{ dom := dctx.domain.headD { name := [] }, req_type := t, opt_name := n,
                         opt_id := i, callback := false }] }
                else st } := by
  unfold check_cache
  simp only [hone, Bool.false_eq_true, if_false, hmid]
  simp

theorem reentry_of_dp_once (dctx : nss_dom_ctx) (st : resp_state) (d : sss_domain_info)
    (rest : List sss_domain_info) (hdom : dctx.domain = d :: rest)
    (hcp : dctx.check_provider = false) (o : Option search_out)
    (h : returns_with (dp_once dctx.domain dctx st) o) : reentry_quiet rest st o := by
  obtain ⟨r, h1, added, h2, h3, h4⟩ := h
  refine ⟨r, h1, added, h2, h3, ?_⟩
  intro q hq
  have := (h4 q hq).2 rfl hcp
  rw [hdom] at this
  exact this


/-! ## Entries of the passwd encoder in a domain that qualifies names -/

theorem fill_pwent_entry_fq (x : Ext) (dom : sss_domain_info) (nctx : nss_ctx)
    (m : Bool) (dl uid gid : Nat) (n g h sh pf : CStr) (B J : List Nat) (s : pw_state)
    (hB : s.rp = B.length) (hd : s.delim = 1)
    (hL : strlen (x.sss_fqname dom n) = strlen n + 1 + dl)
    (hJ : J.length = 8 + (strlen n + 1) + (strlen g + 1) + (strlen h + 1) + (strlen sh + 1)
      + (strlen pf + 1) + (1 + dl)) :
    fill_pwent_entry x dom nctx m true dl uid gid (to_sized_string n) (to_sized_string g)
      (to_sized_string h) (to_sized_string sh) (to_sized_string pf) (B ++ J) s =
    Sum.inr { s with
      body := B ++ pw_entry uid gid (x.sss_fqname dom n) pf g h sh
      rp := s.rp + (pw_entry uid gid (x.sss_fqname dom n) pf g h sh).length
      num := s.num + 1
      mc := if m && nctx.pwd_mc_ctx then
              s.mc ++ [{ fullname := cstr (x.sss_fqname dom n), pwfield := cstr pf, uid := uid,
                         gid := gid, gecos := cstr g, homedir := cstr h, shell := cstr sh }]
            else s.mc } := by
  have hL2 : (cstr (x.sss_fqname dom n)).length = strlen n + 1 + dl := hL
  have hstr : (to_sized_string n).str = n := rfl
  unfold fill_pwent_entry
  simp only [if_true, sss_fqname_print, hd, hstr]
  have hsz : (to_sized_string n).len + 1 + dl = strlen n + 1 + 1 + dl := by
    simp [to_sized_string]
  have hge : ¬ (cstr (x.sss_fqname dom n)).length ≥ (to_sized_string n).len + 1 + dl := by
    rw [hL2, hsz]; omega
  have hne : ((cstr (x.sss_fqname dom n)).length != (to_sized_string n).len + 1 + dl - 1)
      = false := by
    rw [hL2, hsz]; simp
  have hz : ((to_sized_string n).len + 1 + dl == 0) = false := by
    rw [hsz]; simp
  have htake : List.take ((to_sized_string n).len + 1 + dl - 1) (cstr (x.sss_fqname dom n))
      = cstr (x.sss_fqname dom n) := by
    apply List.take_of_length_le
    rw [hL2, hsz]; omega
  simp only [hge, if_false, hne, Bool.false_eq_true, hz, htake]
  rw [write_at_at B J (le32 uid) s.rp hB]
  rw [write_at_at (B ++ le32 uid) _ (le32 gid) (s.rp + 4) (by simp [hB, le32_length])]
  rw [write_at_at (B ++ le32 uid ++ le32 gid) _ (cstr (x.sss_fqname dom n) ++ [0]) (s.rp + 4 + 4)
    (by simp [hB, le32_length])]
  simp only [to_sized_string, sized_bytes, strlen]
  have e1 : ∀ X : List Nat, List.drop (s.rp + 4 + 4)
      (B ++ le32 uid ++ le32 gid ++ (cstr (x.sss_fqname dom n) ++ [0]) ++ X)
      = (cstr (x.sss_fqname dom n) ++ [0]) ++ X := by
    intro X
    rw [List.append_assoc (B ++ le32 uid ++ le32 gid)]
    have hlen : s.rp + 4 + 4 = (B ++ le32 uid ++ le32 gid).length := by
      simp [hB, le32_length]
    rw [hlen, List.drop_left]
  simp only [e1, cstr_sized_append]
  rw [write_at_at (B ++ le32 uid ++ le32 gid ++ (cstr (x.sss_fqname dom n) ++ [0])) _
    (cstr pf ++ [0]) _ (by simp [hB, le32_length] ; omega)]
  rw [write_at_at (B ++ le32 uid ++ le32 gid ++ (cstr (x.sss_fqname dom n) ++ [0])
      ++ (cstr pf ++ [0])) _
    (cstr g ++ [0]) _ (by simp [hB, le32_length] ; omega)]
  rw [write_at_at (B ++ le32 uid ++ le32 gid ++ (cstr (x.sss_fqname dom n) ++ [0])
      ++ (cstr pf ++ [0])
      ++ (cstr g ++ [0])) _ (cstr h ++ [0]) _ (by simp [hB, le32_length] ; omega)]
  rw [write_at_at (B ++ le32 uid ++ le32 gid ++ (cstr (x.sss_fqname dom n) ++ [0])
      ++ (cstr pf ++ [0])
      ++ (cstr g ++ [0]) ++ (cstr h ++ [0])) _ (cstr sh ++ [0]) _
    (by simp [hB, le32_length] ; omega)]
  have hnil : ∀ k, J.length ≤ k → List.drop k J = [] := fun k hk => List.drop_eq_nil_of_le hk
  simp only [List.drop_drop]
  rw [hnil _ (by simp [hJ, strlen, le32_length, hL2] ; omega)]
  simp [pw_entry, le32_length]
  omega

theorem fill_pwent_loop_step_fq (x : Ext) (dom : sss_domain_info) (nctx : nss_ctx)
    (nc : sss_nc_ctx) (now : Nat) (f m : Bool) (msg : ldb_message)
    (rest : List ldb_message) (i : Nat) (s : pw_state)
    (hc : pw_complete x dom nctx nc now f msg) (hfit : fq_presized x dom msg)
    (hg : ∀ l n, x.grow_ret l n = EOK) (hd : s.delim = 1)
    (hst : (s.packet_initialized = true ∧ s.rp = s.body.length) ∨
           (s.packet_initialized = false ∧ s.body = [] ∧ s.rp = 8)) :
    fill_pwent_loop x dom nctx nc now f m true (x.sss_fqdom_len dom) (msg :: rest) i s =
    fill_pwent_loop x dom nctx nc now f m true (x.sss_fqdom_len dom) rest (i + 1)
      { body := (if s.packet_initialized then s.body else junk_bytes x 0 8)
                  ++ pw_entry_fq_of x dom nctx msg
        rp := (if s.packet_initialized then s.body else junk_bytes x 0 8).length
                  + (pw_entry_fq_of x dom nctx msg).length
        num := s.num + 1
        packet_initialized := true
        delim := s.delim
        mc := if m && nctx.pwd_mc_ctx then s.mc ++ [pw_mc_fq_of x dom nctx msg] else s.mc } := by
  obtain ⟨n, hn, hu, hgid, hf, hcn⟩ := hc
  obtain ⟨cn, hcn⟩ := Option.isSome_iff_exists.mp hcn
  have hfit2 : strlen (x.sss_fqname dom cn) = strlen cn + 1 + x.sss_fqdom_len dom := by
    have := hfit
    simpa [fq_presized, hn, hcn] using this
  have hf2 : (f && sss_ncache_check_user nc now nctx.neg_timeout dom n == EEXIST) = false := by
    cases f with
    | false => rfl
    | true => simpa using hf rfl
  have hu2 : (ldb_msg_find_attr_as_uint64 msg.uidNumber 0 % 2 ^ 32 == 0) = false := by
    simpa using hu
  have hg2 : (get_gid_override msg dom == 0) = false := by simpa using hgid
  rw [fill_pwent_loop]
  simp only [hn, hu2, hg2, hf2, hcn, sss_packet_grow, hg, bne_self_eq_false,
    Bool.or_self, Bool.false_eq_true, if_false, if_true]
  rcases hst with ⟨h1, h2⟩ | ⟨h1, h2, h3⟩
  · simp only [h1, if_true]
    rw [fill_pwent_entry_fq x dom nctx m _ _ _ cn _ _ _ _ s.body _ _ (by simpa using h2)
      (by simpa using hd) hfit2
      (by simp [junk_bytes_length, to_sized_string, hd])]
    simp [pw_entry_fq_of, pw_mc_fq_of, hn, hcn, h1, h2, to_sized_string]
  · simp only [h1, h2, Bool.false_eq_true, if_false, List.nil_append, List.length_nil]
    rw [fill_pwent_entry_fq x dom nctx m _ _ _ cn _ _ _ _ (junk_bytes x 0 8) _ _
      (by simp [junk_bytes_length, h3]) (by simpa using hd) hfit2
      (by simp [junk_bytes_length, to_sized_string, hd])]
    simp [pw_entry_fq_of, pw_mc_fq_of, hn, hcn, h1, h2, h3, junk_bytes_length, to_sized_string]

theorem fill_pwent_loop_all_fq (x : Ext) (dom : sss_domain_info) (nctx : nss_ctx)
    (nc : sss_nc_ctx) (now : Nat) (f m : Bool)
    (hg : ∀ l n, x.grow_ret l n = EOK) :
    ∀ (msgs : List ldb_message) (i : Nat) (s : pw_state),
      (∀ msg ∈ msgs, pw_complete x dom nctx nc now f msg ∧ fq_presized x dom msg) →
      s.packet_initialized = true → s.rp = s.body.length → s.delim = 1 →
      fill_pwent_loop x dom nctx nc now f m true (x.sss_fqdom_len dom) msgs i s =
        pw_exit.done (i + msgs.length)
          { body := s.body ++ msgs.flatMap (pw_entry_fq_of x dom nctx)
            rp := s.rp + (msgs.flatMap (pw_entry_fq_of x dom nctx)).length
            num := s.num + msgs.length
            packet_initialized := true
            delim := s.delim
            mc := if m && nctx.pwd_mc_ctx then s.mc ++ msgs.map (pw_mc_fq_of x dom nctx)
                  else s.mc } := by
  intro msgs
  induction msgs with
  | nil =>
    intro i s _ h1 h2 _
    cases s
    simp_all [fill_pwent_loop]
  | cons msg rest ih =>
    intro i s hall h1 h2 h3
    rw [fill_pwent_loop_step_fq x dom nctx nc now f m msg rest i s
      (hall msg (List.mem_cons_self _ _)).1 (hall msg (List.mem_cons_self _ _)).2 hg h3
      (Or.inl ⟨h1, h2⟩)]
    rw [ih _ _ (fun a ha => hall a (List.mem_cons_of_mem _ ha)) rfl (by simp [h1]) (by exact h3)]
    simp only [h1, if_true, List.flatMap_cons, List.length_cons, List.length_append,
      List.map_cons, List.append_assoc, h2]
    congr 1
    · omega
    · congr 1
      · omega
      · omega
      · split <;> simp

theorem fill_pwent_fq (x : Ext) (dom : sss_domain_info) (nctx : nss_ctx)
    (nc : sss_nc_ctx) (now : Nat) (f m : Bool) (msg : ldb_message) (rest : List ldb_message)
    (hadd : (!dom.parent && dom.fqnames) = true)
    (hg : ∀ l n, x.grow_ret l n = EOK)
    (hall : ∀ a ∈ msg :: rest, pw_complete x dom nctx nc now f a ∧ fq_presized x dom a) :
    fill_pwent x [] dom nctx nc now f m (msg :: rest) =
      { ret := EOK
        count := (msg :: rest).length
        body := le32 (msg :: rest).length ++ le32 0
                  ++ (msg :: rest).flatMap (pw_entry_fq_of x dom nctx)
        mc := if m && nctx.pwd_mc_ctx then (msg :: rest).map (pw_mc_fq_of x dom nctx)
              else [] } := by
  unfold fill_pwent
  simp only [hadd, if_true]
  rw [fill_pwent_loop_step_fq x dom nctx nc now f m msg rest 0 _
      (hall msg (List.mem_cons_self _ _)).1 (hall msg (List.mem_cons_self _ _)).2 hg rfl
      (Or.inr ⟨rfl, rfl, rfl⟩)]
  rw [fill_pwent_loop_all_fq x dom nctx nc now f m hg rest _ _
      (fun a ha => hall a (List.mem_cons_of_mem _ ha)) rfl (by simp) rfl]
  simp only [Bool.false_eq_true, if_false, Bool.not_true, List.append_assoc]
  rw [header_write _ _ (junk_bytes_length x 0 8)]
  simp only [List.flatMap_cons, List.length_cons, List.map_cons, List.nil_append, Nat.zero_add,
    List.append_assoc]
  congr 1
  · omega
  · congr 2
    omega
  · split <;> simp

/-- C7 (amended): for every user record without homedir attribute, in a configuration
with neither `override_homedir` nor `fallback_homedir` (domain or global), the homedir
field that `fill_pwent` writes is `"/"`, wherever the record stands in the list of records
that `fill_pwent` encodes into a fresh packet: the body is the count, the reserved word,
the entries of the records before it, the entry of the record with the homedir `"/"`, and
the entries of the records after it.  This holds in a domain that does not add the domain
to names and in one that does (there the name field is the qualified name), for complete
records and a packet that can grow, and, in a domain that adds the domain to names, for
qualified names that have the length reserved for them. -/
theorem C7_missing_homedir_is_slash (x : Ext) (dom : sss_domain_info) (nctx : nss_ctx)
    (nc : sss_nc_ctx) (now : Nat) (f m : Bool) (before after : List ldb_message)
    (msg : ldb_message)
    (h1 : dom.override_homedir = none) (h2 : nctx.override_homedir = none)
    (h3 : dom.fallback_homedir = none) (h4 : nctx.fallback_homedir = none)
    (hh : msg.homeDirectory = none)
    (hg : ∀ l n, x.grow_ret l n = EOK)
    (hc : ∀ a ∈ before ++ msg :: after, pw_complete x dom nctx nc now f a)
    (hfit : (!dom.parent && dom.fqnames) = true →
      ∀ a ∈ before ++ msg :: after, fq_presized x dom a) :
    (fill_pwent x [] dom nctx nc now f m (before ++ msg :: after)).body =
      le32 (before ++ msg :: after).length ++ le32 0
        ++ before.flatMap (if !dom.parent && dom.fqnames then pw_entry_fq_of x dom nctx
                           else pw_entry_of x dom nctx)
        ++ pw_entry (ldb_msg_find_attr_as_uint64 msg.uidNumber 0 % 2 ^ 32)
            (get_gid_override msg dom)
            (if !dom.parent && dom.fqnames then
               x.sss_fqname dom
                 ((x.sss_get_cased_name (msg.name.getD []) dom.case_sensitive).getD [])
             else (x.sss_get_cased_name (msg.name.getD []) dom.case_sensitive).getD [])
            nctx.pwfield (pw_gecos_field msg.gecos) [47]
            (pw_shell_field (get_shell_override x msg nctx dom))
        ++ after.flatMap (if !dom.parent && dom.fqnames then pw_entry_fq_of x dom nctx
                          else pw_entry_of x dom nctx) := by
  have hhome : ∀ name uid,
      pw_homedir_field (get_homedir_override x msg nctx dom name uid) = [47] := by
    intro name uid
    simp [get_homedir_override, h1, h2, h3, h4, hh, homedir_missing, talloc_strdup,
      pw_homedir_field]
  obtain ⟨a0, rest, hl⟩ : ∃ a0 rest, before ++ msg :: after = a0 :: rest := by
    cases before with
    | nil => exact ⟨msg, after, rfl⟩
    | cons b bs => exact ⟨b, bs ++ msg :: after, rfl⟩
  by_cases hadd : (!dom.parent && dom.fqnames) = true
  · have hbody := fill_pwent_fq x dom nctx nc now f m a0 rest hadd hg
      (by rw [← hl]; exact fun a ha => ⟨hc a ha, hfit hadd a ha⟩)
    rw [← hl] at hbody
    rw [hbody]
    simp only [hadd, if_true, List.flatMap_append, List.flatMap_cons, List.append_assoc]
    simp only [pw_entry_fq_of, hhome]
  · have hadd2 : (!dom.parent && dom.fqnames) = false := by simpa using hadd
    have hbody := fill_pwent_plain x dom nctx nc now f m a0 rest hadd2 hg
      (by rw [← hl]; exact hc)
    rw [← hl] at hbody
    rw [hbody]
    simp only [hadd2, Bool.false_eq_true, if_false, List.flatMap_append, List.flatMap_cons,
      List.append_assoc]
    simp only [pw_entry_of, hhome]

/-- Witness of C7: the user `a` between two users with a homedir, in the domain `EX`. -/
theorem C7_missing_homedir_is_slash_witness :
    (fill_pwent ex_ext [] ex_dom {} [] 0 false false
      [{ ex_user with homeDirectory := some [47, 104] }, ex_user,
       { ex_user with homeDirectory := some [47, 105] }]).body =
      le32 3 ++ le32 0
        ++ pw_entry 1000 1000 [97] [42] [] [47, 104] []
        ++ pw_entry 1000 1000 [97] [42] [] [47] []
        ++ pw_entry 1000 1000 [97] [42] [] [47, 105] [] :=
  C7_missing_homedir_is_slash ex_ext ex_dom {} [] 0 false false
    [{ ex_user with homeDirectory := some [47, 104] }] [{ ex_user with homeDirectory := some [47, 105] }]
    ex_user rfl rfl rfl rfl rfl (fun _ _ => rfl)
    (by
      intro a ha
      simp only [List.cons_append, List.nil_append, List.mem_cons, List.mem_singleton,
        List.not_mem_nil, or_false] at ha
      rcases ha with rfl | rfl | rfl <;> exact ⟨[97], rfl, by decide, by decide, by simp, rfl⟩)
    (fun h => by cases h)

/-- C25 (counterexample): in the domain `EX` with fqnames = false the entry of user `a`
carries the plain name `a` in its name field and as its key in the shared-memory cache,
not the fully qualified name `a@EX` that the name format of the domain gives. -/
theorem C25_counterexample_plain_name :
    ex_dom.fqnames = false ∧
    cstr (ex_ext.sss_fqname ex_dom [97]) = [97, 64, 69, 88] ∧
    fill_pwent ex_ext [] ex_dom { pwd_mc_ctx := true } [] 0 false true [ex_user]
      = { ret := EOK, count := 1,
          body := le32 1 ++ le32 0 ++ pw_entry 1000 1000 [97] [42] [] [47] [],
          mc := [{ fullname := [97], pwfield := [42], uid := 1000, gid := 1000, gecos := [],
                   homedir := [47], shell := [] }] } := by
  refine ⟨rfl, by decide, by decide⟩

/-- C25 (amended): for a non-empty list of complete records on a fresh packet that can grow,
the name field of each passwd entry written by fill_pwent, and the name key handed to the
shared-memory cache with it, is the fully qualified name only in a domain with fqnames = true
that is not a subdomain (given that each qualified name has the length reserved for it: name,
delimiter and the length of the domain part); in a domain with fqnames = false, and in every
subdomain, both are the plain name in the case of the domain. -/
theorem C25_fill_pwent_name_field (x : Ext) (dom : sss_domain_info) (nctx : nss_ctx)
    (nc : sss_nc_ctx) (now : Nat) (f m : Bool) (msgs : List ldb_message)
    (hg : ∀ l n, x.grow_ret l n = EOK)
    (hne : msgs ≠ [])
    (hall : ∀ a ∈ msgs, pw_complete x dom nctx nc now f a) :
    ((!dom.parent && dom.fqnames) = false →
      (fill_pwent x [] dom nctx nc now f m msgs).body =
        le32 msgs.length ++ le32 0 ++ msgs.flatMap (pw_entry_of x dom nctx) ∧
      (fill_pwent x [] dom nctx nc now f m msgs).mc =
        if m && nctx.pwd_mc_ctx then msgs.map (pw_mc_of x dom nctx) else []) ∧
    ((!dom.parent && dom.fqnames) = true → (∀ a ∈ msgs, fq_presized x dom a) →
      (fill_pwent x [] dom nctx nc now f m msgs).body =
        le32 msgs.length ++ le32 0 ++ msgs.flatMap (pw_entry_fq_of x dom nctx) ∧
      (fill_pwent x [] dom nctx nc now f m msgs).mc =
        if m && nctx.pwd_mc_ctx then msgs.map (pw_mc_fq_of x dom nctx) else []) ∧
    (∀ a : ldb_message,
      (pw_mc_of x dom nctx a).fullname =
        cstr ((x.sss_get_cased_name (a.name.getD []) dom.case_sensitive).getD []) ∧
      (pw_mc_fq_of x dom nctx a).fullname =
        cstr (x.sss_fqname dom
          ((x.sss_get_cased_name (a.name.getD []) dom.case_sensitive).getD []))) := by
  cases msgs with
  | nil => exact absurd rfl hne
  | cons msg rest =>
    refine ⟨?_, ?_, fun a => ⟨rfl, rfl⟩⟩
    · intro hadd
      rw [fill_pwent_plain x dom nctx nc now f m msg rest hadd hg hall]
      exact ⟨rfl, rfl⟩
    · intro hadd hfit
      rw [fill_pwent_fq x dom nctx nc now f m msg rest hadd hg
        (fun a ha => ⟨hall a ha, hfit a ha⟩)]
      exact ⟨rfl, rfl⟩

theorem C25_fill_pwent_name_field_witness :
    (fill_pwent ex_ext [] ex_dom_fq { pwd_mc_ctx := true } [] 0 false true [ex_user]).body =
      le32 1 ++ le32 0 ++ pw_entry 1000 1000 [97, 64, 69, 88] [42] [] [47] [] ∧
    (fill_pwent ex_ext [] ex_dom_fq { pwd_mc_ctx := true } [] 0 false true [ex_user]).mc =
      [{ fullname := [97, 64, 69, 88], pwfield := [42], uid := 1000, gid := 1000, gecos := [],
         homedir := [47], shell := [] }] :=
  (C25_fill_pwent_name_field ex_ext ex_dom_fq { pwd_mc_ctx := true } [] 0 false true [ex_user]
    (fun _ _ => rfl) (by simp)
    (by
      intro a ha
      simp only [List.mem_singleton] at ha
      subst ha
      exact ⟨[97], rfl, by decide, by decide, by simp, rfl⟩)).2.1 rfl
    (by
      intro a ha
      simp only [List.mem_singleton] at ha
      subst ha
      show strlen _ = _
      decide)


/-! ## Entry point of the requests by name -/


/-! ## The group encoder: a member whose qualified name did not fit -/

theorem fill_members_regrown (x : Ext) (dom : sss_domain_info) (nctx : nss_ctx)
    (nc : sss_nc_ctx) (now : Nat) (el : List CStr) (v tmpstr : CStr) (s : mem_state)
    (dl : Nat)
    (hcn : x.sss_get_cased_name v dom.case_sensitive = some tmpstr)
    (hflt : nctx.filter_users_in_groups = false)
    (hg : ∀ l n, x.grow_ret l n = EOK) (hs : ∀ l n, x.shrink_ret l n = EOK)
    (hd : 1 ≤ s.delim)
    (hL : strlen (x.sss_fqname dom tmpstr) ≥ (strlen tmpstr + 1) + s.delim + dl) :
    ∃ body2,
      fill_members_loop x dom nctx nc now true dl (v :: el) s =
        fill_members_loop x dom nctx nc now true dl el
          { s with body := body2,
                   delim := s.delim + fill_members_t (strlen (x.sss_fqname dom tmpstr))
                              (strlen tmpstr + 1) s.delim dl } := by
  have hL2 : (cstr (x.sss_fqname dom tmpstr)).length ≥ (strlen tmpstr + 1) + s.delim + dl := hL
  rw [fill_members_loop]
  simp only [hcn, hflt, Bool.false_and, Bool.false_eq_true, if_false, sss_packet_grow, hg,
    bne_self_eq_false, if_true, sss_fqname_print, to_sized_string, sss_packet_shrink, hs]
  rw [if_pos hL2]
  have hne : ((cstr (x.sss_fqname dom tmpstr)).length !=
      strlen tmpstr + 1 + (s.delim + fill_members_t (cstr (x.sss_fqname dom tmpstr)).length
        (strlen tmpstr + 1) s.delim dl) + dl - 1) = true := by
    simp only [fill_members_t, bne_iff_ne, ne_eq]
    omega
  rw [if_pos hne]
  exact ⟨_, rfl⟩

/-- C30 (the code at the failing input): in a domain that qualifies names, when the first
expansion of a member's name has a length L that does not fit the buffer of
name.len + delim + dom_len bytes, `fill_members` grows the packet by
`L - name.len + delim + dom_len + 1` bytes, which is `2 * (delim + dom_len)` more than the
`L - (name.len + delim + dom_len) + 1` of `fill_pwent` and `fill_grent`; the length check
after the retry then fails and the member is skipped: `fill_members` returns `EOK` with
`memnum` and `rsize` unchanged.  With the amount of `fill_pwent` the check would pass. -/
theorem C30_fill_members_regrow_skips_member (x : Ext) (dom : sss_domain_info)
    (nctx : nss_ctx) (nc : sss_nc_ctx) (now : Nat) (v tmpstr : CStr) (body : List Nat)
    (rzero rsize memnum : Nat)
    (hadd : (!dom.parent && dom.fqnames) = true)
    (hcn : x.sss_get_cased_name v dom.case_sensitive = some tmpstr)
    (hflt : nctx.filter_users_in_groups = false)
    (hg : ∀ l n, x.grow_ret l n = EOK) (hs : ∀ l n, x.shrink_ret l n = EOK)
    (hL : strlen (x.sss_fqname dom tmpstr) ≥ (strlen tmpstr + 1) + 1 + x.sss_fqdom_len dom) :
    (fill_members x body dom nctx nc now [v] rzero rsize memnum).1 = EOK ∧
    (fill_members x body dom nctx nc now [v] rzero rsize memnum).2.memnum = memnum ∧
    (fill_members x body dom nctx nc now [v] rzero rsize memnum).2.rsize = rsize ∧
    fill_members_t (strlen (x.sss_fqname dom tmpstr)) (strlen tmpstr + 1) 1
        (x.sss_fqdom_len dom)
      = fill_entry_t (strlen (x.sss_fqname dom tmpstr)) (strlen tmpstr + 1) 1
          (x.sss_fqdom_len dom) + 2 * (1 + x.sss_fqdom_len dom) ∧
    strlen (x.sss_fqname dom tmpstr)
      = (strlen tmpstr + 1)
          + (1 + fill_entry_t (strlen (x.sss_fqname dom tmpstr)) (strlen tmpstr + 1) 1
                   (x.sss_fqdom_len dom))
          + x.sss_fqdom_len dom - 1 := by
  have hm : ∃ s2 : mem_state,
      fill_members x body dom nctx nc now [v] rzero rsize memnum = (0, s2) ∧
      s2.memnum = memnum ∧ s2.rsize = rsize := by
    unfold fill_members
    simp only [hadd, if_true]
    obtain ⟨b2, h⟩ := fill_members_regrown x dom nctx nc now [] v tmpstr
      { body := body, rzero := rzero, rsize := rsize, memnum := memnum, delim := 1 }
      (x.sss_fqdom_len dom) hcn hflt hg hs (Nat.le_refl 1) hL
    rw [h]
    exact ⟨_, rfl, rfl, rfl⟩
  obtain ⟨s2, h1, h2, h3⟩ := hm
  rw [h1]
  refine ⟨rfl, h2, h3, ?_, ?_⟩
  · unfold fill_members_t fill_entry_t
    omega
  · unfold fill_entry_t
    omega

theorem C30_fill_members_regrow_skips_member_witness :
    strlen (ex_ext_long.sss_fqname ex_dom_fq [97]) ≥ (strlen [97] + 1) + 1 + 2 ∧
    (fill_members ex_ext_long [] ex_dom_fq {} [] 0 [[97]] 0 0 0).2.memnum = 0 ∧
    (fill_pwent ex_ext_long [] ex_dom_fq {} [] 0 false false [ex_user]).body =
      le32 1 ++ le32 0 ++ pw_entry 1000 1000 [97, 64, 64, 69, 88] [42] [] [47] [] :=
  ⟨by decide,
   (C30_fill_members_regrow_skips_member ex_ext_long ex_dom_fq {} [] 0 [97] [97] [] 0 0 0
      rfl rfl rfl (fun _ _ => rfl) (fun _ _ => rfl) (by decide)).2.1,
   by decide⟩


/-! ## Enumeration: batches that are never finished -/

theorem fill_pwent_nil (x : Ext) (body : List Nat) (dom : sss_domain_info) (nctx : nss_ctx)
    (nc : sss_nc_ctx) (now : Nat) (f m : Bool) :
    fill_pwent x body dom nctx nc now f m [] =
      { ret := ENOENT, count := 0, body := body, mc := [] } := by
  simp [fill_pwent, fill_pwent_loop]

theorem fill_grent_nil (x : Ext) (body : List Nat) (dom : sss_domain_info) (nctx : nss_ctx)
    (nc : sss_nc_ctx) (now : Nat) (f m : Bool)
    (hg : ∀ l n, x.grow_ret l n = EOK) (hs : x.set_size_ret = EOK) :
    fill_grent x body dom nctx nc now f m [] =
      { ret := ENOENT, count := 0, body := [], mc := [] } := by
  simp [fill_grent, fill_grent_loop, sss_packet_grow, hg, hs]

theorem retpwent_loop_never (x : Ext) (nctx : nss_ctx) (nc : sss_nc_ctx) (now : Nat)
    (p : getent_ctx) (num : Int) (c : cli_cursor) (body : List Nat)
    (hrem : records_remain p c) (hnum : num ≤ 0) :
    ∀ (fuel : Nat) (filled : List (List ldb_message)),
      retpwent_loop x nctx nc now p num fuel c body filled = none := by
  obtain ⟨h1, h2, h3⟩ := hrem
  intro fuel
  induction fuel with
  | zero => intro filled; rfl
  | succ k ih =>
    intro filled
    have hn : to_int32 (((p.doms.getD c.dom_idx { domain := [], res := [] }).res.length : Int)
        - (c.cur : Int))
        = ((p.doms.getD c.dom_idx { domain := [], res := [] }).res.length : Int)
            - (c.cur : Int) := by
      apply to_int32_eq
      · omega
      · have : ((p.doms.getD c.dom_idx { domain := [], res := [] }).res.length : Int)
            < 2 ^ 31 := by exact_mod_cast h3
        omega
    have hpos : (0 : Int) < ((p.doms.getD c.dom_idx { domain := [], res := [] }).res.length : Int)
        - (c.cur : Int) := by omega
    rw [retpwent_loop]
    have hge : ¬ c.dom_idx ≥ p.doms.length := by omega
    have hle : ¬ (((p.doms.getD c.dom_idx { domain := [], res := [] }).res.length : Int)
        - (c.cur : Int) ≤ 0) := by omega
    have hz : ((((p.doms.getD c.dom_idx { domain := [], res := [] }).res.length : Int)
        - (c.cur : Int)) == 0) = false := by
      simp only [beq_eq_false_iff_ne, ne_eq]
      omega
    have hneg : ¬ (((p.doms.getD c.dom_idx { domain := [], res := [] }).res.length : Int)
        - (c.cur : Int) < 0) := by omega
    have hgt : ((p.doms.getD c.dom_idx { domain := [], res := [] }).res.length : Int)
        - (c.cur : Int) > num := by omega
    have ht : num.toNat = 0 := by omega
    simp only [hge, if_false, hn, hle, decide_False, Bool.false_and, Bool.false_eq_true, hz,
      hneg, hgt, if_true, ht, List.take_zero, fill_pwent_nil, beq_self_eq_true, Nat.add_zero]
    exact ih _

theorem retgrent_loop_never (x : Ext) (nctx : nss_ctx) (nc : sss_nc_ctx) (now : Nat)
    (p : getent_ctx) (num : Int) (c : cli_cursor)
    (hg : ∀ l n, x.grow_ret l n = EOK) (hs : x.set_size_ret = EOK)
    (hrem : records_remain p c) (hnum : num ≤ 0) :
    ∀ (fuel : Nat) (body : List Nat) (filled : List (List ldb_message)),
      retgrent_loop x nctx nc now p num fuel c body filled = none := by
  obtain ⟨h1, h2, h3⟩ := hrem
  intro fuel
  induction fuel with
  | zero => intro body filled; rfl
  | succ k ih =>
    intro body filled
    have hn : to_int32 (((p.doms.getD c.dom_idx { domain := [], res := [] }).res.length : Int)
        - (c.cur : Int))
        = ((p.doms.getD c.dom_idx { domain := [], res := [] }).res.length : Int)
            - (c.cur : Int) := by
      apply to_int32_eq
      · omega
      · have : ((p.doms.getD c.dom_idx { domain := [], res := [] }).res.length : Int)
            < 2 ^ 31 := by exact_mod_cast h3
        omega
    rw [retgrent_loop]
    have hge : ¬ c.dom_idx ≥ p.doms.length := by omega
    have hle : ¬ (((p.doms.getD c.dom_idx { domain := [], res := [] }).res.length : Int)
        - (c.cur : Int) ≤ 0) := by omega
    have hz : ((((p.doms.getD c.dom_idx { domain := [], res := [] }).res.length : Int)
        - (c.cur : Int)) == 0) = false := by
      simp only [beq_eq_false_iff_ne, ne_eq]
      omega
    have hgt : ((p.doms.getD c.dom_idx { domain := [], res := [] }).res.length : Int)
        - (c.cur : Int) > num := by omega
    have ht : num.toNat = 0 := by omega
    simp only [hge, if_false, hn, hle, decide_False, Bool.false_and, Bool.false_eq_true, hz,
      hgt, if_true, ht, List.take_zero, fill_grent_nil _ _ _ _ _ _ _ _ hg hs, beq_self_eq_true,
      Nat.add_zero]
    exact ih _ _

theorem retgrent_loop_beyond (x : Ext) (nctx : nss_ctx) (nc : sss_nc_ctx) (now : Nat)
    (p : getent_ctx) (num : Int) (c : cli_cursor)
    (hg : ∀ l n, x.grow_ret l n = EOK) (hs : x.set_size_ret = EOK)
    (hb : cursor_beyond_last p c) :
    ∀ (fuel : Nat) (body : List Nat) (filled : List (List ldb_message)),
      retgrent_loop x nctx nc now p num fuel c body filled = none := by
  obtain ⟨h1, h2, h3⟩ := hb
  intro fuel
  induction fuel with
  | zero => intro body filled; rfl
  | succ k ih =>
    intro body filled
    have key : ∀ L cur : Nat, L < cur → cur < 2 ^ 31 →
        to_int32 ((L : Int) - (cur : Int)) < 0 := by
      intro L cur hl hc
      have h3i : (cur : Int) < 2 ^ 31 := by exact_mod_cast hc
      unfold to_int32
      norm_num at h3i ⊢
      omega
    have hlt : to_int32 (((p.doms.getD c.dom_idx { domain := [], res := [] }).res.length : Int)
        - (c.cur : Int)) < 0 := key _ _ h2 h3
    generalize hn : to_int32 (((p.doms.getD c.dom_idx { domain := [], res := [] }).res.length
        : Int) - (c.cur : Int)) = n at hlt
    rw [retgrent_loop]
    have hge : ¬ c.dom_idx ≥ p.doms.length := by omega
    have hadv : ¬ c.dom_idx + 1 < p.doms.length := by omega
    have hz : (n == 0) = false := by
      simp only [beq_eq_false_iff_ne, ne_eq]
      omega
    have ht : (if n > num then num else n).toNat = 0 := by
      split <;> omega
    simp only [hge, if_false, hn, hadv, decide_False, Bool.and_false, Bool.false_eq_true, hz,
      ht, List.take_zero, fill_grent_nil _ _ _ _ _ _ _ _ hg hs, beq_self_eq_true,
      Nat.add_zero]
    exact ih _ _

/-- C27 (the code at the failing inputs): the batch loops do not always terminate.  For a
requested maximum `num <= 0` (a request of 0 entries, or of 2^31 or more, negative as
`int`) while records remain in the domain of the read pointer, the loop of
`nss_cmd_retpwent` never returns, whatever the number of iterations it is given:
`fill_pwent` is called for no record, returns `ENOENT` and leaves the read pointer where it
was.  The loop of `nss_cmd_retgrent` does the same (with a packet that can grow and be
reset), and it also never returns for a read pointer beyond the records of the last domain,
for every `num`, because it lacks the test `n < 0` with which `nss_cmd_retpwent` leaves
its loop in that case. -/
theorem C27_retent_loops_never_return (x : Ext) (e : Env) (nctx : nss_ctx)
    (nc : sss_nc_ctx) (p : getent_ctx) (c : cli_cursor) (body : List Nat) (num : Int)
    (hg : ∀ l n, x.grow_ret l n = EOK) (hs : x.set_size_ret = EOK) :
    (records_remain p c → num ≤ 0 →
      (∀ fuel filled, retpwent_loop x nctx nc e.now p num fuel c body filled = none) ∧
      nss_cmd_retpwent x e nctx nc (some p) c body num = none ∧
      (∀ fuel filled, retgrent_loop x nctx nc e.now p num fuel c body filled = none) ∧
      nss_cmd_retgrent x e nctx nc (some p) c body num = none) ∧
    (cursor_beyond_last p c →
      (∀ fuel filled, retgrent_loop x nctx nc e.now p num fuel c body filled = none) ∧
      nss_cmd_retgrent x e nctx nc (some p) c body num = none ∧
      ∃ o, nss_cmd_retpwent x e nctx nc (some p) c body num = some o) := by
  constructor
  · intro hrem hnum
    have h1 := retpwent_loop_never x nctx nc e.now p num c body hrem hnum
    have h2 := retgrent_loop_never x nctx nc e.now p num c hg hs hrem hnum
    refine ⟨h1, ?_, fun fuel filled => h2 fuel body filled, ?_⟩
    · simp only [nss_cmd_retpwent, h1]
    · simp only [nss_cmd_retgrent, h2]
  · intro hb
    have h2 := retgrent_loop_beyond x nctx nc e.now p num c hg hs hb
    refine ⟨fun fuel filled => h2 fuel body filled, ?_, ?_⟩
    · simp only [nss_cmd_retgrent, h2]
    · obtain ⟨b1, b2, b3⟩ := hb
      have key : ∀ L cur : Nat, L < cur → cur < 2 ^ 31 →
          to_int32 ((L : Int) - (cur : Int)) < 0 := by
        intro L cur hl hc
        have h3i : (cur : Int) < 2 ^ 31 := by exact_mod_cast hc
        unfold to_int32
        norm_num at h3i ⊢
        omega
      have hlt := key _ _ b2 b3
      generalize hn : to_int32 (((p.doms.getD c.dom_idx { domain := [], res := [] }).res.length
          : Int) - (c.cur : Int)) = n at hlt
      have hge : ¬ c.dom_idx ≥ p.doms.length := by omega
      have hadv : ¬ c.dom_idx + 1 < p.doms.length := by omega
      have hz : (n == 0) = false := by
        simp only [beq_eq_false_iff_ne, ne_eq]
        omega
      simp only [nss_cmd_retpwent]
      rw [retpwent_loop]
      simp only [hge, if_false, hn, hadv, decide_False, Bool.and_false, Bool.false_eq_true, hz,
        hlt, if_true]
      exact ⟨_, rfl⟩

theorem C27_retent_loops_never_return_witness :
    records_remain ex_snapshot {} ∧
    nss_cmd_retpwent ex_ext {} {} [] (some ex_snapshot) {} [] 0 = none ∧
    nss_cmd_retgrent ex_ext {} {} [] (some ex_snapshot) {} [] 0 = none :=
  ⟨⟨by decide, by decide, by decide⟩,
   ((C27_retent_loops_never_return ex_ext {} {} [] ex_snapshot {} [] 0 (fun _ _ => rfl)
      rfl).1 ⟨by decide, by decide, by decide⟩ (by decide)).2.1,
   ((C27_retent_loops_never_return ex_ext {} {} [] ex_snapshot {} [] 0 (fun _ _ => rfl)
      rfl).1 ⟨by decide, by decide, by decide⟩ (by decide)).2.2.2⟩


/-! ## Saving of services fetched from LDAP -/

/-- C29 (the code at the failing input): for two services that are both saved, with the
USNs "10" and then "9", a committed `sdap_save_services` hands back "9", which is not the
numerically greatest USN: the test `strlen(usn_value) > strlen(higher_usn) ||
strcmp(usn_value, higher_usn) > 0` lets the shorter "9" replace "10" because "9" sorts
after "10" as a string.  In the other order the result is "10".  A service that fails to be
saved does not fail the batch. -/
theorem C29_highest_usn_not_numeric_greatest :
    sdap_save_services {} [ex_service [49, 48], ex_service [57]] = (EOK, some [57]) ∧
    usn_number [57] < usn_number [49, 48] ∧
    sdap_save_services {} [ex_service [57], ex_service [49, 48]] = (EOK, some [49, 48]) ∧
    sdap_save_services {} [{ store_ret := EIO, usn_values := [[57, 57]] }, ex_service [55]]
      = (EOK, some [55]) := by
  decide

/-! ## The provider callback -/

theorem nss_cmd_done_logs (e : Env) (st : resp_state) (ret : Nat) :
    (nss_cmd_done e st ret).2.sysdb_log = st.sysdb_log ∧
    (nss_cmd_done e st ret).2.dp_log = st.dp_log ∧
    (nss_cmd_done e st ret).2.nc_checked = st.nc_checked ∧
    (nss_cmd_done e st ret).2.ncache = st.ncache := by
  unfold nss_cmd_done
  simp only []
  repeat' split
  all_goals exact ⟨rfl, rfl, rfl, rfl⟩

theorem cb_done_logs (e : Env) (dctx : nss_dom_ctx) (r : reply_out) :
    (cb_done e dctx r).dctx = dctx ∧
    (cb_done e dctx r).st.sysdb_log = r.st.sysdb_log ∧
    (cb_done e dctx r).st.dp_log = r.st.dp_log ∧
    (cb_done e dctx r).st.nc_checked = r.st.nc_checked ∧
    (cb_done e dctx r).st.ncache = r.st.ncache := by
  obtain ⟨h1, h2, h3, h4⟩ := nss_cmd_done_logs e r.st r.ret
  unfold cb_done
  simp only []
  split
  · exact ⟨trivial, h1, h2, h3, h4⟩
  · exact ⟨trivial, h1, h2, h3, h4⟩

theorem cb_reply_logs (x : Ext) (e : Env) (nctx : nss_ctx) (cmdctx : nss_cmd_ctx)
    (dctx : nss_dom_ctx) (st : resp_state) (r : reply_out)
    (h : cb_reply x e nctx cmdctx dctx st = some r) :
    r.st.sysdb_log = st.sysdb_log ∧ r.st.dp_log = st.dp_log ∧
    r.st.nc_checked = st.nc_checked ∧ r.st.ncache = st.ncache := by
  unfold cb_reply nss_cmd_getpw_send_reply nss_cmd_getgr_send_reply nss_cmd_initgr_send_reply
    nss_cmd_getbysid_send_reply at h
  simp only [] at h
  repeat' split at h
  all_goals first
    | (cases h; exact ⟨rfl, rfl, rfl, rfl⟩)
    | exact absurd h (by simp)

theorem cb_retained_iff (cmdctx : nss_cmd_ctx) (dctx : nss_dom_ctx) :
    cb_retained cmdctx dctx = true ↔
      ∃ res, dctx.res = some res ∧
        (res.length = 1 ∨ (cmdctx.cmd = sss_cli_command.SSS_NSS_INITGR ∧ res.length ≠ 0)) := by
  unfold cb_retained
  cases dctx.res with
  | none => simp
  | some res => simp

theorem cb_check_subdomains_eq (cmdctx : nss_cmd_ctx) :
    cb_check_subdomains cmdctx =
      decide (cmdctx.cmd = sss_cli_command.SSS_NSS_GETPWUID ∨
              cmdctx.cmd = sss_cli_command.SSS_NSS_GETGRGID ∨
              cmdctx.cmd = sss_cli_command.SSS_NSS_GETSIDBYID) := by
  unfold cb_check_subdomains
  cases cmdctx.cmd <;> rfl

theorem cb_search_dp (e : Env) (nctx : nss_ctx) (cmdctx : nss_cmd_ctx) (dctx : nss_dom_ctx)
    (st : resp_state) (d : sss_domain_info) (rest : List sss_domain_info)
    (hdom : dctx.domain = d :: rest) :
    returns_with (dp_once dctx.domain dctx st) (cb_search e nctx cmdctx dctx st) := by
  have byid : ∀ k, returns_with (dp_once dctx.domain dctx st)
      ((getbyid_loop k e nctx cmdctx (dctx.domain.length + 1) dctx.domain dctx st).map
        (getbyid_done k e cmdctx)) := by
    intro k
    obtain ⟨r, h1, a, h2, h3, h4⟩ :=
      getbyid_loop_dp k e nctx cmdctx _ dctx.domain dctx st (Nat.lt_succ_self _)
    rw [h1]
    exact ⟨_, rfl, a, by rw [getbyid_done_dp_log]; exact h2, h3, h4⟩
  have sidby : returns_with (dp_once dctx.domain dctx st)
      ((getsidby_loop e nctx cmdctx (dctx.domain.length + 1) dctx.domain dctx st).map
        (fun r => if r.1 then getsidby_done e cmdctx r.2 else r.2)) := by
    obtain ⟨r, h1, a, h2, h3, h4⟩ :=
      getsidby_loop_dp e nctx cmdctx _ dctx.domain dctx st (Nat.lt_succ_self _)
    rw [h1]
    refine ⟨_, rfl, a, ?_, h3, h4⟩
    simp only [Option.map_some']
    split
    · rw [getsidby_done_dp_log]; exact h2
    · exact h2
  have bysid : returns_with (dp_once dctx.domain dctx st)
      (nss_cmd_getbysid_search e nctx cmdctx dctx st) := by
    unfold nss_cmd_getbysid_search
    rw [hdom]
    simp only []
    by_cases hs : d.sysdb = true
    · simp only [hs, Bool.not_true, Bool.false_eq_true, if_false]
      cases e.sysdb_search_object_by_sid d cmdctx.secid with
      | none => exact ⟨_, rfl, dp_once_leaf _ _ _ _ rfl⟩
      | some res =>
        simp only []
        by_cases hcp : dctx.check_provider = true
        · simp only [hcp, Bool.not_true, Bool.and_false, Bool.false_eq_true, if_false, if_true]
          split
          · exact ⟨_, rfl, dp_once_leaf _ _ _ _ rfl⟩
          · split
            · refine ⟨_, rfl, dp_once_check_cache e nctx d rest dctx _ st _ res _ _ _ ?_ ?_ ?_ _ rfl⟩
              · rfl
              · rfl
              · intro _ h; rw [hcp] at h; exact absurd h (by decide)
            · refine ⟨_, rfl, dp_once_check_cache e nctx d rest dctx _ st _ res _ _ _ ?_ ?_ ?_ _ rfl⟩
              · rfl
              · rfl
              · intro _ h; rw [hcp] at h; exact absurd h (by decide)
        · have hcp2 : dctx.check_provider = false := by simpa using hcp
          simp only [hcp2, Bool.not_false, Bool.and_true, Bool.false_eq_true, if_false]
          repeat' split
          all_goals exact ⟨_, rfl, dp_once_leaf _ _ _ _ rfl⟩
    · have hs2 : d.sysdb = false := by simpa using hs
      simp only [hs2, Bool.not_false, if_true]
      exact ⟨_, rfl, dp_once_leaf _ _ _ _ rfl⟩
  unfold cb_search
  cases cmdctx.cmd with
  | SSS_NSS_GETPWNAM => exact getpwnam_loop_dp e nctx cmdctx _ _ dctx st (Nat.lt_succ_self _)
  | SSS_NSS_GETGRNAM => exact getgrnam_loop_dp e nctx cmdctx _ _ dctx st (Nat.lt_succ_self _)
  | SSS_NSS_INITGR => exact initgroups_loop_dp e nctx cmdctx _ _ dctx st (Nat.lt_succ_self _)
  | SSS_NSS_GETPWUID => exact byid pw_kind
  | SSS_NSS_GETGRGID => exact byid gr_kind
  | SSS_NSS_GETNAMEBYSID => exact bysid
  | SSS_NSS_GETIDBYSID => exact bysid
  | SSS_NSS_GETSIDBYNAME => exact sidby
  | SSS_NSS_GETSIDBYID => exact sidby

theorem cb_search_named (e : Env) (nctx : nss_ctx) (cmdctx : nss_cmd_ctx) (dctx : nss_dom_ctx)
    (st : resp_state) (S : Option search_out)
    (s1 : cmdctx.cmd = sss_cli_command.SSS_NSS_GETPWNAM →
      S = nss_cmd_getpwnam_search e nctx cmdctx dctx st)
    (s2 : cmdctx.cmd = sss_cli_command.SSS_NSS_GETGRNAM →
      S = nss_cmd_getgrnam_search e nctx cmdctx dctx st)
    (s3 : cmdctx.cmd = sss_cli_command.SSS_NSS_INITGR →
      S = nss_cmd_initgroups_search e nctx cmdctx dctx st)
    (s4 : cmdctx.cmd = sss_cli_command.SSS_NSS_GETPWUID →
      S = nss_cmd_getpwuid_search e nctx cmdctx dctx st)
    (s5 : cmdctx.cmd = sss_cli_command.SSS_NSS_GETGRGID →
      S = nss_cmd_getgrgid_search e nctx cmdctx dctx st)
    (s6 : cmdctx.cmd = sss_cli_command.SSS_NSS_GETNAMEBYSID ∨
          cmdctx.cmd = sss_cli_command.SSS_NSS_GETIDBYSID →
      S = nss_cmd_getbysid_search e nctx cmdctx dctx st)
    (s7 : cmdctx.cmd = sss_cli_command.SSS_NSS_GETSIDBYNAME ∨
          cmdctx.cmd = sss_cli_command.SSS_NSS_GETSIDBYID →
      S = nss_cmd_getsidby_search e nctx cmdctx dctx st) :
    S = cb_search e nctx cmdctx dctx st := by
  cases hc : cmdctx.cmd with
  | SSS_NSS_GETPWNAM => rw [s1 hc]; simp only [cb_search, hc]
  | SSS_NSS_GETGRNAM => rw [s2 hc]; simp only [cb_search, hc]
  | SSS_NSS_INITGR => rw [s3 hc]; simp only [cb_search, hc]
  | SSS_NSS_GETPWUID => rw [s4 hc]; simp only [cb_search, hc]
  | SSS_NSS_GETGRGID => rw [s5 hc]; simp only [cb_search, hc]
  | SSS_NSS_GETNAMEBYSID => rw [s6 (Or.inl hc)]; simp only [cb_search, hc]
  | SSS_NSS_GETIDBYSID => rw [s6 (Or.inr hc)]; simp only [cb_search, hc]
  | SSS_NSS_GETSIDBYNAME => rw [s7 (Or.inl hc)]; simp only [cb_search, hc]
  | SSS_NSS_GETSIDBYID => rw [s7 (Or.inr hc)]; simp only [cb_search, hc]


theorem cb_search_reply_of_search (x : Ext) (e : Env) (nctx : nss_ctx) (cmdctx : nss_cmd_ctx)
    (dctx : nss_dom_ctx) (st : resp_state) (r : search_out)
    (hs : cb_search e nctx cmdctx dctx st = some r) :
    (r.ret ≠ EOK →
      cb_search_reply x e nctx cmdctx dctx st =
        some { dctx := r.dctx
               st := if (nss_cmd_done e r.st r.ret).1 = EOK then (nss_cmd_done e r.st r.ret).2
                     else { (nss_cmd_done e r.st r.ret).2 with killed := true } }) ∧
    (∀ o, cb_search_reply x e nctx cmdctx dctx st = some o →
      o.dctx = r.dctx ∧ o.st.sysdb_log = r.st.sysdb_log ∧ o.st.dp_log = r.st.dp_log ∧
      o.st.nc_checked = r.st.nc_checked ∧ o.st.ncache = r.st.ncache) := by
  unfold cb_search_reply
  rw [hs]
  simp only []
  constructor
  · intro hne
    have hb : (r.ret == EOK) = false := by simpa using hne
    simp only [hb, Bool.false_eq_true, if_false, cb_done, EOK]
    congr 1
    by_cases hd : (nss_cmd_done e r.st r.ret).1 = 0
    · simp [hd]
    · simp [hd]
  · intro o ho
    split at ho
    · cases hr : cb_reply x e nctx cmdctx r.dctx r.st with
      | none => rw [hr] at ho; exact absurd ho (by simp)
      | some rp =>
        rw [hr] at ho
        simp only [Option.map_some', Option.some.injEq] at ho
        subst ho
        obtain ⟨h1, h2, h3, h4⟩ := cb_reply_logs x e nctx cmdctx r.dctx r.st rp hr
        obtain ⟨g0, g1, g2, g3, g4⟩ := cb_done_logs e r.dctx rp
        exact ⟨g0, g1.trans h1, g2.trans h2, g3.trans h3, g4.trans h4⟩
    · simp only [Option.some.injEq] at ho
      subst ho
      exact cb_done_logs e r.dctx { ret := r.ret, st := r.st }

theorem reply_made (st : resp_state) (ret : Nat) (body : List Nat) (pm : List mc_pw_entry)
    (gm : List mc_gr_entry) :
    ∃ rp : reply_out,
      (if ret != 0 then
         some ({ ret := ret, st := st, out := some body, pw_mc := pm, gr_mc := gm } : reply_out)
       else
         some { ret := EOK, st := { st with cmd_done := true }, out := some body,
                status := some EOK, pw_mc := pm, gr_mc := gm }) = some rp ∧
      rp.out = some body ∧ rp.pw_mc = pm ∧ rp.gr_mc = gm ∧ rp.ret = ret ∧
      (ret = EOK → rp.st = { st with cmd_done := true } ∧ rp.status = some EOK) ∧
      (ret ≠ EOK → rp.st = st ∧ rp.status = none) := by
  by_cases h : ret = 0
  · subst h
    exact ⟨{ ret := EOK, st := { st with cmd_done := true }, out := some body,
             status := some EOK, pw_mc := pm, gr_mc := gm },
      by simp, rfl, rfl, rfl, rfl, fun _ => ⟨rfl, rfl⟩, fun h => absurd rfl h⟩
  · have hb : (ret != 0) = true := by simpa using h
    exact ⟨{ ret := ret, st := st, out := some body, pw_mc := pm, gr_mc := gm },
      by rw [if_pos hb], rfl, rfl, rfl, rfl, fun h2 => absurd h2 h, fun _ => ⟨rfl, rfl⟩⟩

theorem find_sss_id_type_none (uc : CStr) (msg : ldb_message) (mpg : Bool) (c : Nat)
    (h : find_sss_id_type uc msg mpg = (c, none)) : c = EINVAL := by
  unfold find_sss_id_type at h
  repeat' split at h
  all_goals simp only [Prod.mk.injEq] at h
  all_goals first
    | exact h.1.symm
    | exact absurd h.2 (by simp)

/-- C19: in `nss_cmd_getby_dp_callback` with a provider error (`err_maj != 0`).  When
the context holds a retained result of exactly one record (for initgroups: of at least
one record), the callback makes no search (the context and the logs of the persistent
cache, of the provider and of the negative cache are as before); if no reply packet can
be made the connection is ended, and otherwise the reply packet is the one the encoder
of the command makes of the retained records (`fill_pwent`, `fill_grent`, `fill_initgr`,
and for the requests by SID `fill_name`, `fill_id` or `fill_sid` for the type that
`find_sss_id_type` gives), released with status EOK when the encoder returned EOK and
handed to `nss_cmd_done` with the code of the encoder otherwise.  When there is no such
result, the search is over several domains and `get_next_domain` (descending into
subdomains for getpwuid, getgrgid and getsidbyid) gives a next domain, the callback does
what it does without a provider error on the context moved to that domain with
`check_provider` taken from the provider of that domain: the search of the command runs
there and returns, and a code other than EOK goes to `nss_cmd_done`.  Otherwise the
outcome is ENOENT: the empty reply is sent and nothing else changes. -/
theorem C19_dp_callback_provider_error (x : Ext) (e : Env) (nctx : nss_ctx)
    (cmdctx : nss_cmd_ctx) (err_maj : Nat) (dctx : nss_dom_ctx) (st : resp_state)
    (herr : err_maj ≠ 0) :
    (∀ res, dctx.res = some res →
      (res.length = 1 ∨ (cmdctx.cmd = sss_cli_command.SSS_NSS_INITGR ∧ res.length ≠ 0)) →
      (∀ o, nss_cmd_getby_dp_callback x e nctx cmdctx err_maj dctx st = some o →
        o.dctx = dctx ∧ o.st.sysdb_log = st.sysdb_log ∧ o.st.dp_log = st.dp_log ∧
        o.st.nc_checked = st.nc_checked ∧ o.st.ncache = st.ncache) ∧
      (e.packet_new_ret ≠ EOK →
        nss_cmd_getby_dp_callback x e nctx cmdctx err_maj dctx st =
          some { dctx := dctx, st := { st with killed := true } }) ∧
      (e.packet_new_ret = EOK → ∀ d rest, dctx.domain = d :: rest →
        ∀ (ret : Nat) (body : List Nat) (pm : List mc_pw_entry) (gm : List mc_gr_entry),
        (cmdctx.cmd = sss_cli_command.SSS_NSS_GETPWNAM →
          (ret, body, pm, gm) =
            ((fill_pwent x [] d nctx st.ncache e.now false true res).ret,
             (fill_pwent x [] d nctx st.ncache e.now false true res).body,
             (fill_pwent x [] d nctx st.ncache e.now false true res).mc, [])) →
        (cmdctx.cmd = sss_cli_command.SSS_NSS_GETPWUID →
          (ret, body, pm, gm) =
            ((fill_pwent x [] d nctx st.ncache e.now true true res).ret,
             (fill_pwent x [] d nctx st.ncache e.now true true res).body,
             (fill_pwent x [] d nctx st.ncache e.now true true res).mc, [])) →
        (cmdctx.cmd = sss_cli_command.SSS_NSS_GETGRNAM →
          (ret, body, pm, gm) =
            ((fill_grent x [] d nctx st.ncache e.now false true res).ret,
             (fill_grent x [] d nctx st.ncache e.now false true res).body, [],
             (fill_grent x [] d nctx st.ncache e.now false true res).mc)) →
        (cmdctx.cmd = sss_cli_command.SSS_NSS_GETGRGID →
          (ret, body, pm, gm) =
            ((fill_grent x [] d nctx st.ncache e.now true true res).ret,
             (fill_grent x [] d nctx st.ncache e.now true true res).body, [],
             (fill_grent x [] d nctx st.ncache e.now true true res).mc)) →
        (cmdctx.cmd = sss_cli_command.SSS_NSS_INITGR →
          (ret, body, pm, gm) = ((fill_initgr x [] res).1, (fill_initgr x [] res).2, [], [])) →
        (cmdctx.cmd = sss_cli_command.SSS_NSS_GETNAMEBYSID → ∀ msg, res = [msg] →
          (ret, body, pm, gm) =
            match find_sss_id_type x.SYSDB_USER_CLASS msg d.mpg with
            | (_, some t) => ((fill_name x e [] d t msg).1, (fill_name x e [] d t msg).2, [], [])
            | (c, none) => (c, [], [], [])) →
        (cmdctx.cmd = sss_cli_command.SSS_NSS_GETIDBYSID → ∀ msg, res = [msg] →
          (ret, body, pm, gm) =
            match find_sss_id_type x.SYSDB_USER_CLASS msg d.mpg with
            | (_, some t) => ((fill_id x [] t msg).1, (fill_id x [] t msg).2, [], [])
            | (c, none) => (c, [], [], [])) →
        (cmdctx.cmd = sss_cli_command.SSS_NSS_GETSIDBYNAME ∨
         cmdctx.cmd = sss_cli_command.SSS_NSS_GETSIDBYID → ∀ msg, res = [msg] →
          (ret, body, pm, gm) =
            match find_sss_id_type x.SYSDB_USER_CLASS msg d.mpg with
            | (_, some t) => ((fill_sid x [] t msg).1, (fill_sid x [] t msg).2, [], [])
            | (c, none) => (c, [], [], [])) →
        nss_cmd_getby_dp_callback x e nctx cmdctx err_maj dctx st =
          some { dctx := dctx
                 st := if ret = EOK then { st with cmd_done := true }
                       else if (nss_cmd_done e st ret).1 = EOK then (nss_cmd_done e st ret).2
                       else { (nss_cmd_done e st ret).2 with killed := true }
                 out := some body
                 status := if ret = EOK then some EOK else none
                 pw_mc := pm
                 gr_mc := gm })) ∧
    ((∀ res, dctx.res = some res →
        ¬ (res.length = 1 ∨ (cmdctx.cmd = sss_cli_command.SSS_NSS_INITGR ∧ res.length ≠ 0))) →
      cmdctx.check_next = true →
      ∀ n rest,
        get_next_domain dctx.domain
          (decide (cmdctx.cmd = sss_cli_command.SSS_NSS_GETPWUID ∨
                   cmdctx.cmd = sss_cli_command.SSS_NSS_GETGRGID ∨
                   cmdctx.cmd = sss_cli_command.SSS_NSS_GETSIDBYID)) = n :: rest →
        nss_cmd_getby_dp_callback x e nctx cmdctx err_maj dctx st =
          nss_cmd_getby_dp_callback x e nctx cmdctx 0
            { dctx with domain := n :: rest, check_provider := n.provider } st ∧
        ∀ S : Option search_out,
          (cmdctx.cmd = sss_cli_command.SSS_NSS_GETPWNAM →
            S = nss_cmd_getpwnam_search e nctx cmdctx
                  { dctx with domain := n :: rest, check_provider := n.provider } st) →
          (cmdctx.cmd = sss_cli_command.SSS_NSS_GETGRNAM →
            S = nss_cmd_getgrnam_search e nctx cmdctx
                  { dctx with domain := n :: rest, check_provider := n.provider } st) →
          (cmdctx.cmd = sss_cli_command.SSS_NSS_INITGR →
            S = nss_cmd_initgroups_search e nctx cmdctx
                  { dctx with domain := n :: rest, check_provider := n.provider } st) →
          (cmdctx.cmd = sss_cli_command.SSS_NSS_GETPWUID →
            S = nss_cmd_getpwuid_search e nctx cmdctx
                  { dctx with domain := n :: rest, check_provider := n.provider } st) →
          (cmdctx.cmd = sss_cli_command.SSS_NSS_GETGRGID →
            S = nss_cmd_getgrgid_search e nctx cmdctx
                  { dctx with domain := n :: rest, check_provider := n.provider } st) →
          (cmdctx.cmd = sss_cli_command.SSS_NSS_GETNAMEBYSID ∨
           cmdctx.cmd = sss_cli_command.SSS_NSS_GETIDBYSID →
            S = nss_cmd_getbysid_search e nctx cmdctx
                  { dctx with domain := n :: rest, check_provider := n.provider } st) →
          (cmdctx.cmd = sss_cli_command.SSS_NSS_GETSIDBYNAME ∨
           cmdctx.cmd = sss_cli_command.SSS_NSS_GETSIDBYID →
            S = nss_cmd_getsidby_search e nctx cmdctx
                  { dctx with domain := n :: rest, check_provider := n.provider } st) →
          ∃ r, S = some r ∧
            (r.ret ≠ EOK →
              nss_cmd_getby_dp_callback x e nctx cmdctx err_maj dctx st =
                some { dctx := r.dctx
                       st := if (nss_cmd_done e r.st r.ret).1 = EOK then
                               (nss_cmd_done e r.st r.ret).2
                             else { (nss_cmd_done e r.st r.ret).2 with killed := true } }) ∧
            (∀ o, nss_cmd_getby_dp_callback x e nctx cmdctx err_maj dctx st = some o →
              o.dctx = r.dctx ∧ o.st.sysdb_log = r.st.sysdb_log ∧
              o.st.dp_log = r.st.dp_log ∧ o.st.nc_checked = r.st.nc_checked ∧
              o.st.ncache = r.st.ncache)) ∧
    ((∀ res, dctx.res = some res →
        ¬ (res.length = 1 ∨ (cmdctx.cmd = sss_cli_command.SSS_NSS_INITGR ∧ res.length ≠ 0))) →
      (cmdctx.check_next = false ∨
        get_next_domain dctx.domain
          (decide (cmdctx.cmd = sss_cli_command.SSS_NSS_GETPWUID ∨
                   cmdctx.cmd = sss_cli_command.SSS_NSS_GETGRGID ∨
                   cmdctx.cmd = sss_cli_command.SSS_NSS_GETSIDBYID)) = []) →
      nss_cmd_getby_dp_callback x e nctx cmdctx err_maj dctx st =
        some { dctx := dctx
               st := if e.send_empty_ret = EOK then { st with empty_sent := true }
                     else { st with empty_sent := true, killed := true } }) := by
  have hb : (err_maj != 0) = true := by simpa using herr
  have hnot : (∀ res, dctx.res = some res →
        ¬ (res.length = 1 ∨ (cmdctx.cmd = sss_cli_command.SSS_NSS_INITGR ∧ res.length ≠ 0))) →
      cb_retained cmdctx dctx = false := by
    intro h
    cases hr : cb_retained cmdctx dctx with
    | false => rfl
    | true =>
      obtain ⟨res, h1, h2⟩ := (cb_retained_iff cmdctx dctx).1 hr
      exact absurd h2 (h res h1)
  refine ⟨?_, ?_, ?_⟩
  · intro res hres hret
    have hr : cb_retained cmdctx dctx = true := (cb_retained_iff cmdctx dctx).2 ⟨res, hres, hret⟩
    have heq : nss_cmd_getby_dp_callback x e nctx cmdctx err_maj dctx st =
        (cb_reply x e nctx cmdctx dctx st).map (cb_done e dctx) := by
      unfold nss_cmd_getby_dp_callback
      simp only [hb, hr, if_true]
    refine ⟨?_, ?_, ?_⟩
    · intro o ho
      rw [heq] at ho
      cases hrp : cb_reply x e nctx cmdctx dctx st with
      | none => rw [hrp] at ho; exact absurd ho (by simp)
      | some rp =>
        rw [hrp] at ho
        simp only [Option.map_some', Option.some.injEq] at ho
        subst ho
        obtain ⟨h1, h2, h3, h4⟩ := cb_reply_logs x e nctx cmdctx dctx st rp hrp
        obtain ⟨g0, g1, g2, g3, g4⟩ := cb_done_logs e dctx rp
        exact ⟨g0, g1.trans h1, g2.trans h2, g3.trans h3, g4.trans h4⟩
    · intro hpk
      have hpb : (e.packet_new_ret != EOK) = true := by simpa using hpk
      have hrp : cb_reply x e nctx cmdctx dctx st = some { ret := EFAULT, st := st } := by
        unfold cb_reply nss_cmd_getpw_send_reply nss_cmd_getgr_send_reply
          nss_cmd_initgr_send_reply nss_cmd_getbysid_send_reply
        rcases hret with h1 | ⟨h1, h2⟩
        · obtain ⟨msg, hm⟩ := List.length_eq_one.1 h1
          subst hm
          cases cmdctx.cmd <;> simp only [hpb, hres, if_true]
        · simp only [h1, hpb, if_true]
      rw [heq, hrp]
      rfl
    · intro hpk d rest hdom ret body pm gm c1 c2 c3 c4 c5 c6 c7 c8
      have hpb : (e.packet_new_ret != EOK) = false := by simpa using hpk
      have fin : ∀ (rp : reply_out), cb_reply x e nctx cmdctx dctx st = some rp →
          rp.out = some body → rp.pw_mc = pm → rp.gr_mc = gm → rp.ret = ret →
          (ret = EOK → rp.st = { st with cmd_done := true } ∧ rp.status = some EOK) →
          (ret ≠ EOK → rp.st = st ∧ rp.status = none) →
          nss_cmd_getby_dp_callback x e nctx cmdctx err_maj dctx st =
            some { dctx := dctx
                   st := if ret = EOK then { st with cmd_done := true }
                         else if (nss_cmd_done e st ret).1 = EOK then (nss_cmd_done e st ret).2
                         else { (nss_cmd_done e st ret).2 with killed := true }
                   out := some body
                   status := if ret = EOK then some EOK else none
                   pw_mc := pm
                   gr_mc := gm } := by
        intro rp hrp h1 h2 h3 h4 h5 h6
        rw [heq, hrp]
        simp only [Option.map_some', cb_done, h1, h2, h3, h4]
        by_cases hz : ret = EOK
        · obtain ⟨h7, h8⟩ := h5 hz
          subst hz
          simp only [h7, h8, if_true]
          rfl
        · obtain ⟨h7, h8⟩ := h6 hz
          simp only [h7, h8, hz, if_false]
          congr 2
          by_cases hd : (nss_cmd_done e st ret).1 = 0
          · simp [hd, EOK]
          · simp [hd, EOK]
      have hone : cmdctx.cmd ≠ sss_cli_command.SSS_NSS_INITGR → ∃ msg, res = [msg] := by
        intro hn
        rcases hret with h1 | ⟨h1, _⟩
        · exact List.length_eq_one.1 h1
        · exact absurd h1 hn
      have bysid : ∀ (msg : ldb_message) (enc : sss_id_type → Nat × List Nat), res = [msg] →
          (ret, body, pm, gm) =
            (match find_sss_id_type x.SYSDB_USER_CLASS msg d.mpg with
             | (_, some t) => ((enc t).1, (enc t).2, [], [])
             | (c, none) => (c, [], [], [])) →
          (∀ t,
            cb_reply x e nctx cmdctx { dctx with res := some [msg], domain := d :: rest } st =
              (if (enc t).1 != 0 then
                 some ({ ret := (enc t).1, st := st, out := some (enc t).2, pw_mc := [],
                         gr_mc := [] } : reply_out)
               else
                 some { ret := EOK, st := { st with cmd_done := true }, out := some (enc t).2,
                        status := some EOK, pw_mc := [], gr_mc := [] }) ∨
            find_sss_id_type x.SYSDB_USER_CLASS msg d.mpg ≠
              ((find_sss_id_type x.SYSDB_USER_CLASS msg d.mpg).1, some t)) →
          (∀ c, find_sss_id_type x.SYSDB_USER_CLASS msg d.mpg = (c, none) →
            cb_reply x e nctx cmdctx { dctx with res := some [msg], domain := d :: rest } st =
              some { ret := c, st := st, out := some [] }) →
          nss_cmd_getby_dp_callback x e nctx cmdctx err_maj dctx st =
            some { dctx := dctx
                   st := if ret = EOK then { st with cmd_done := true }
                         else if (nss_cmd_done e st ret).1 = EOK then (nss_cmd_done e st ret).2
                         else { (nss_cmd_done e st ret).2 with killed := true }
                   out := some body
                   status := if ret = EOK then some EOK else none
                   pw_mc := pm
                   gr_mc := gm } := by
        intro msg enc hm ht hsome hnone
        have hd : dctx = { dctx with res := some [msg], domain := d :: rest } := by
          cases dctx
          simp only [nss_dom_ctx.mk.injEq] at hres hdom ⊢
          subst hm
          exact ⟨hdom, trivial, hres⟩
        rcases hf : find_sss_id_type x.SYSDB_USER_CLASS msg d.mpg with ⟨c, _ | t⟩
        · rw [hf] at ht
          simp only [Prod.mk.injEq] at ht
          obtain ⟨t1, t2, t3, t4⟩ := ht
          subst t1 t2 t3 t4
          have hc := find_sss_id_type_none _ _ _ _ hf
          have hr2 := hnone ret hf
          rw [← hd] at hr2
          exact fin _ hr2 rfl rfl rfl rfl (fun h => absurd (hc.symm.trans h) (by decide))
            (fun _ => ⟨rfl, rfl⟩)
        · rw [hf] at ht
          simp only [Prod.mk.injEq] at ht
          obtain ⟨t1, t2, t3, t4⟩ := ht
          subst t1 t2 t3 t4
          obtain ⟨rp, hrp, p1, p2, p3, p4, p5, p6⟩ := reply_made st (enc t).1 (enc t).2 [] []
          rcases hsome t with h1 | h1
          · rw [← hd, hrp] at h1
            exact fin rp h1 p1 p2 p3 p4 p5 p6
          · rw [hf] at h1
            exact absurd rfl h1
      cases hc : cmdctx.cmd with
      | SSS_NSS_GETPWNAM =>
        have ht := c1 hc
        simp only [Prod.mk.injEq] at ht
        obtain ⟨t1, t2, t3, t4⟩ := ht
        subst t1 t2 t3 t4
        obtain ⟨rp, hrp, p1, p2, p3, p4, p5, p6⟩ := reply_made st
          (fill_pwent x [] d nctx st.ncache e.now false true res).ret
          (fill_pwent x [] d nctx st.ncache e.now false true res).body
          (fill_pwent x [] d nctx st.ncache e.now false true res).mc []
        refine fin rp ?_ p1 p2 p3 p4 p5 p6
        simp only [cb_reply, hc, nss_cmd_getpw_send_reply, hpb, hres, hdom, Bool.false_eq_true,
          if_false]
        exact hrp
      | SSS_NSS_GETPWUID =>
        have ht := c2 hc
        simp only [Prod.mk.injEq] at ht
        obtain ⟨t1, t2, t3, t4⟩ := ht
        subst t1 t2 t3 t4
        obtain ⟨rp, hrp, p1, p2, p3, p4, p5, p6⟩ := reply_made st
          (fill_pwent x [] d nctx st.ncache e.now true true res).ret
          (fill_pwent x [] d nctx st.ncache e.now true true res).body
          (fill_pwent x [] d nctx st.ncache e.now true true res).mc []
        refine fin rp ?_ p1 p2 p3 p4 p5 p6
        simp only [cb_reply, hc, nss_cmd_getpw_send_reply, hpb, hres, hdom, Bool.false_eq_true,
          if_false]
        exact hrp
      | SSS_NSS_GETGRNAM =>
        have ht := c3 hc
        simp only [Prod.mk.injEq] at ht
        obtain ⟨t1, t2, t3, t4⟩ := ht
        subst t1 t2 t3 t4
        obtain ⟨rp, hrp, p1, p2, p3, p4, p5, p6⟩ := reply_made st
          (fill_grent x [] d nctx st.ncache e.now false true res).ret
          (fill_grent x [] d nctx st.ncache e.now false true res).body []
          (fill_grent x [] d nctx st.ncache e.now false true res).mc
        refine fin rp ?_ p1 p2 p3 p4 p5 p6
        simp only [cb_reply, hc, nss_cmd_getgr_send_reply, hpb, hres, hdom, Bool.false_eq_true,
          if_false]
        exact hrp
      | SSS_NSS_GETGRGID =>
        have ht := c4 hc
        simp only [Prod.mk.injEq] at ht
        obtain ⟨t1, t2, t3, t4⟩ := ht
        subst t1 t2 t3 t4
        obtain ⟨rp, hrp, p1, p2, p3, p4, p5, p6⟩ := reply_made st
          (fill_grent x [] d nctx st.ncache e.now true true res).ret
          (fill_grent x [] d nctx st.ncache e.now true true res).body []
          (fill_grent x [] d nctx st.ncache e.now true true res).mc
        refine fin rp ?_ p1 p2 p3 p4 p5 p6
        simp only [cb_reply, hc, nss_cmd_getgr_send_reply, hpb, hres, hdom, Bool.false_eq_true,
          if_false]
        exact hrp
      | SSS_NSS_INITGR =>
        have ht := c5 hc
        simp only [Prod.mk.injEq] at ht
        obtain ⟨t1, t2, t3, t4⟩ := ht
        subst t1 t2 t3 t4
        obtain ⟨rp, hrp, p1, p2, p3, p4, p5, p6⟩ := reply_made st
          (fill_initgr x [] res).1 (fill_initgr x [] res).2 [] []
        refine fin rp ?_ p1 p2 p3 p4 p5 p6
        simp only [cb_reply, hc, nss_cmd_initgr_send_reply, hpb, hres, Bool.false_eq_true,
          if_false]
        exact hrp
      | SSS_NSS_GETNAMEBYSID =>
        obtain ⟨msg, hm⟩ := hone (by rw [hc]; decide)
        refine bysid msg (fun t => fill_name x e [] d t msg) hm (c6 hc msg hm) ?_ ?_
        · intro t
          by_cases hf : find_sss_id_type x.SYSDB_USER_CLASS msg d.mpg =
              ((find_sss_id_type x.SYSDB_USER_CLASS msg d.mpg).1, some t)
          · left
            simp only [cb_reply, hc, nss_cmd_getbysid_send_reply, hpb, Bool.false_eq_true,
              if_false]
            rw [hf]
          · exact Or.inr hf
        · intro c hf
          simp only [cb_reply, hc, nss_cmd_getbysid_send_reply, hpb, Bool.false_eq_true,
            if_false]
          rw [hf]
      | SSS_NSS_GETIDBYSID =>
        obtain ⟨msg, hm⟩ := hone (by rw [hc]; decide)
        refine bysid msg (fun t => fill_id x [] t msg) hm (c7 hc msg hm) ?_ ?_
        · intro t
          by_cases hf : find_sss_id_type x.SYSDB_USER_CLASS msg d.mpg =
              ((find_sss_id_type x.SYSDB_USER_CLASS msg d.mpg).1, some t)
          · left
            simp only [cb_reply, hc, nss_cmd_getbysid_send_reply, hpb, Bool.false_eq_true,
              if_false]
            rw [hf]
          · exact Or.inr hf
        · intro c hf
          simp only [cb_reply, hc, nss_cmd_getbysid_send_reply, hpb, Bool.false_eq_true,
            if_false]
          rw [hf]
      | SSS_NSS_GETSIDBYNAME =>
        obtain ⟨msg, hm⟩ := hone (by rw [hc]; decide)
        refine bysid msg (fun t => fill_sid x [] t msg) hm (c8 (Or.inl hc) msg hm) ?_ ?_
        · intro t
          by_cases hf : find_sss_id_type x.SYSDB_USER_CLASS msg d.mpg =
              ((find_sss_id_type x.SYSDB_USER_CLASS msg d.mpg).1, some t)
          · left
            simp only [cb_reply, hc, nss_cmd_getbysid_send_reply, hpb, Bool.false_eq_true,
              if_false]
            rw [hf]
          · exact Or.inr hf
        · intro c hf
          simp only [cb_reply, hc, nss_cmd_getbysid_send_reply, hpb, Bool.false_eq_true,
            if_false]
          rw [hf]
      | SSS_NSS_GETSIDBYID =>
        obtain ⟨msg, hm⟩ := hone (by rw [hc]; decide)
        refine bysid msg (fun t => fill_sid x [] t msg) hm (c8 (Or.inr hc) msg hm) ?_ ?_
        · intro t
          by_cases hf : find_sss_id_type x.SYSDB_USER_CLASS msg d.mpg =
              ((find_sss_id_type x.SYSDB_USER_CLASS msg d.mpg).1, some t)
          · left
            simp only [cb_reply, hc, nss_cmd_getbysid_send_reply, hpb, Bool.false_eq_true,
              if_false]
            rw [hf]
          · exact Or.inr hf
        · intro c hf
          simp only [cb_reply, hc, nss_cmd_getbysid_send_reply, hpb, Bool.false_eq_true,
            if_false]
          rw [hf]
  · intro hnr hcn n rest hnext
    have hr := hnot hnr
    have heq : nss_cmd_getby_dp_callback x e nctx cmdctx err_maj dctx st =
        cb_search_reply x e nctx cmdctx
          { dctx with domain := n :: rest, check_provider := n.provider } st := by
      unfold nss_cmd_getby_dp_callback
      simp only [hb, hr, cb_check_subdomains_eq, hnext, hcn, if_true, Bool.false_eq_true,
        if_false]
    have heq0 : nss_cmd_getby_dp_callback x e nctx cmdctx 0
          { dctx with domain := n :: rest, check_provider := n.provider } st =
        cb_search_reply x e nctx cmdctx
          { dctx with domain := n :: rest, check_provider := n.provider } st := by
      unfold nss_cmd_getby_dp_callback
      simp only [bne_self_eq_false, Bool.false_eq_true, if_false]
    refine ⟨heq.trans heq0.symm, ?_⟩
    intro S s1 s2 s3 s4 s5 s6 s7
    have hS : S = cb_search e nctx cmdctx
        { dctx with domain := n :: rest, check_provider := n.provider } st :=
      cb_search_named e nctx cmdctx _ st S s1 s2 s3 s4 s5 s6 s7
    obtain ⟨r, hsr, _⟩ := cb_search_dp e nctx cmdctx
      { dctx with domain := n :: rest, check_provider := n.provider } st n rest rfl
    obtain ⟨k1, k2⟩ := cb_search_reply_of_search x e nctx cmdctx
      { dctx with domain := n :: rest, check_provider := n.provider } st r hsr
    refine ⟨r, hS.trans hsr, ?_, ?_⟩
    · intro hne
      rw [heq]
      exact k1 hne
    · intro o ho
      rw [heq] at ho
      exact k2 o ho
  · intro hnr hor
    have hr := hnot hnr
    have heq : nss_cmd_getby_dp_callback x e nctx cmdctx err_maj dctx st =
        some (cb_done e dctx { ret := ENOENT, st := st }) := by
      unfold nss_cmd_getby_dp_callback
      simp only [hb, hr, cb_check_subdomains_eq, if_true, Bool.false_eq_true, if_false]
      rcases hor with h1 | h1
      · simp only [h1, Bool.false_eq_true, if_false]
        split <;> rfl
      · rw [h1]
    rw [heq]
    by_cases hs : e.send_empty_ret = EOK
    · simp [cb_done, nss_cmd_done, hs, EOK, ENOENT]
    · simp [cb_done, nss_cmd_done, hs, EOK, ENOENT, EFAULT]

theorem C19_dp_callback_provider_error_witness :
    nss_cmd_getby_dp_callback ex_ext {} {}
        { cmd := sss_cli_command.SSS_NSS_GETPWNAM, name := [97] } 1
        { domain := [ex_dom], check_provider := false, res := some [ex_user] } {} =
      some { dctx := { domain := [ex_dom], check_provider := false, res := some [ex_user] }
             st := { cmd_done := true }
             out := some [1, 0, 0, 0, 0, 0, 0, 0, 232, 3, 0, 0, 232, 3, 0, 0,
                          97, 0, 42, 0, 0, 47, 0, 0]
             status := some EOK } ∧
    nss_cmd_getby_dp_callback ex_ext {} {}
        { cmd := sss_cli_command.SSS_NSS_GETPWNAM, name := [97], check_next := true } 1
        { domain := [ex_dom_a, ex_dom], check_provider := true } {} =
      nss_cmd_getby_dp_callback ex_ext {} {}
        { cmd := sss_cli_command.SSS_NSS_GETPWNAM, name := [97], check_next := true } 0
        { domain := [ex_dom], check_provider := false } {} ∧
    nss_cmd_getby_dp_callback ex_ext {} {}
        { cmd := sss_cli_command.SSS_NSS_GETPWNAM, name := [97] } 1
        { domain := [ex_dom], check_provider := false } {} =
      some { dctx := { domain := [ex_dom], check_provider := false }
             st := { empty_sent := true } } :=
  ⟨(((C19_dp_callback_provider_error ex_ext {} {}
        { cmd := sss_cli_command.SSS_NSS_GETPWNAM, name := [97] } 1
        { domain := [ex_dom], check_provider := false, res := some [ex_user] } {}
        (by decide)).1 [ex_user] rfl (Or.inl rfl)).2.2 rfl ex_dom [] rfl
        (fill_pwent ex_ext [] ex_dom {} [] 0 false true [ex_user]).ret
        (fill_pwent ex_ext [] ex_dom {} [] 0 false true [ex_user]).body
        (fill_pwent ex_ext [] ex_dom {} [] 0 false true [ex_user]).mc []
        (fun _ => rfl) (fun h => absurd h (by decide)) (fun h => absurd h (by decide))
        (fun h => absurd h (by decide)) (fun h => absurd h (by decide))
        (fun h => absurd h (by decide)) (fun h => absurd h (by decide))
        (fun h => absurd h (by decide))).trans (by decide),
   ((C19_dp_callback_provider_error ex_ext {} {}
        { cmd := sss_cli_command.SSS_NSS_GETPWNAM, name := [97], check_next := true } 1
        { domain := [ex_dom_a, ex_dom], check_provider := true } {}
        (by decide)).2.1 (fun _ h => Option.noConfusion h) rfl ex_dom []
        (by decide)).1,
   ((C19_dp_callback_provider_error ex_ext {} {}
        { cmd := sss_cli_command.SSS_NSS_GETPWNAM, name := [97] } 1
        { domain := [ex_dom], check_provider := false } {}
        (by decide)).2.2 (fun _ h => Option.noConfusion h) (Or.inl rfl)).trans
      (by decide)⟩

theorem cb_search_reentry (e : Env) (nctx : nss_ctx) (cmdctx : nss_cmd_ctx)
    (dctx : nss_dom_ctx) (st : resp_state) (d : sss_domain_info) (rest : List sss_domain_info)
    (hdom : dctx.domain = d :: rest) (hcp : dctx.check_provider = false) :
    reentry_quiet rest st (cb_search e nctx cmdctx dctx st) :=
  reentry_of_dp_once dctx st d rest hdom hcp _ (cb_search_dp e nctx cmdctx dctx st d rest hdom)

theorem dp_callback_reentry (x : Ext) (e : Env) (nctx : nss_ctx) (cmdctx : nss_cmd_ctx)
    (err_maj : Nat) (dctx : nss_dom_ctx) (st : resp_state) (d : sss_domain_info)
    (rest : List sss_domain_info) (hdom : dctx.domain = d :: rest)
    (hcp : dctx.check_provider = false) (o : cb_out)
    (ho : nss_cmd_getby_dp_callback x e nctx cmdctx err_maj dctx st = some o) :
    ∃ added, o.st.dp_log = st.dp_log ++ added ∧ added.length ≤ 1 ∧
      ∀ q ∈ added, q.dom ∈ rest := by
  have quiet : ∀ r : reply_out, r.st.dp_log = st.dp_log →
      ∃ added, (cb_done e dctx r).st.dp_log = st.dp_log ++ added ∧ added.length ≤ 1 ∧
        ∀ q ∈ added, q.dom ∈ rest := by
    intro r hr
    exact ⟨[], by rw [(cb_done_logs e dctx r).2.2.1, hr]; simp, by simp, by simp⟩
  unfold nss_cmd_getby_dp_callback at ho
  by_cases herr : err_maj = 0
  · have hb : (err_maj != 0) = false := by simpa using herr
    simp only [hb, Bool.false_eq_true, if_false] at ho
    obtain ⟨r, hr, added, h1, h2, h3⟩ := cb_search_reentry e nctx cmdctx dctx st d rest hdom hcp
    refine ⟨added, ?_, h2, h3⟩
    rw [((cb_search_reply_of_search x e nctx cmdctx dctx st r hr).2 o ho).2.2.1]
    exact h1
  · have hb : (err_maj != 0) = true := by simpa using herr
    simp only [hb, if_true] at ho
    split at ho
    · cases hrp : cb_reply x e nctx cmdctx dctx st with
      | none => rw [hrp] at ho; exact absurd ho (by simp)
      | some rp =>
        rw [hrp] at ho
        simp only [Option.map_some', Option.some.injEq] at ho
        subst ho
        exact quiet rp (cb_reply_logs x e nctx cmdctx dctx st rp hrp).2.1
    · split at ho
      · rename_i n rest2 hnext
        split at ho
        · obtain ⟨r, hr, added, h1, h2, h3⟩ := cb_search_dp e nctx cmdctx
            { dctx with domain := n :: rest2, check_provider := n.provider } st n rest2 rfl
          refine ⟨added, ?_, h2, ?_⟩
          · rw [((cb_search_reply_of_search x e nctx cmdctx _ st r hr).2 o ho).2.2.1]
            exact h1
          · intro q hq
            have hm := (h3 q hq).1
            rw [hdom] at hnext
            rw [← hnext] at hm
            exact get_next_domain_subset d rest _ _ hm
        · simp only [Option.some.injEq] at ho
          subst ho
          exact quiet _ rfl
      · simp only [Option.some.injEq] at ho
        subst ho
        exact quiet _ rfl

/-- C28: check_cache returns EAGAIN only after it has cleared `check_provider` and handed the
provider one request with a callback for the domain of the context (the sender of an error
reply is taken not to fail with EAGAIN itself); a midpoint refresh, where the freshness check
of the single cached record says EAGAIN, returns EOK with the context untouched and registers
no callback; and with the context that check_cache left behind, in any later state of the
cache, the search of the command entered again (for each of the nine commands of the provider
callback) returns and hands the provider at most one further request, which is for a domain
behind the one already refreshed, and so does the provider callback itself whenever it
returns, with or without a provider error. -/
theorem C28_one_blocking_refresh_per_domain (x : Ext) (e e2 : Env) (nctx : nss_ctx)
    (cmdctx : nss_cmd_ctx) (dctx : nss_dom_ctx) (st st2 : resp_state)
    (res : List ldb_message) (t : sss_dp_type) (nm : Option CStr) (i : Nat)
    (d : sss_domain_info) (rest : List sss_domain_info)
    (hdom : dctx.domain = d :: rest)
    (hsend : e.send_error_ret ≠ EAGAIN) :
    ((check_cache e dctx nctx st res t nm i).ret = EAGAIN →
      (check_cache e dctx nctx st res t nm i).dctx.check_provider = false ∧
      (check_cache e dctx nctx st res t nm i).dctx.domain = d :: rest ∧
      (check_cache e dctx nctx st res t nm i).st.dp_log = st.dp_log ++
        [{ dom := d, req_type := t, opt_name := nm, opt_id := i, callback := true }]) ∧
    (∀ msg tl, res = msg :: tl →
      ((t == sss_dp_type.SSS_DP_USER || t == sss_dp_type.SSS_DP_NETGR)
        && decide ((msg :: tl).length > 1)) = false →
      e.sss_cmd_check_cache msg nctx.cache_refresh_percent (check_cache_expire t msg) = EAGAIN →
      (check_cache e dctx nctx st res t nm i).ret = EOK ∧
      (check_cache e dctx nctx st res t nm i).dctx = dctx ∧
      (check_cache e dctx nctx st res t nm i).st.dp_log = st.dp_log ++
        (if e.dp_send_ok then
          [{ dom := d, req_type := t, opt_name := nm, opt_id := i, callback := false }]
         else [])) ∧
    ((check_cache e dctx nctx st res t nm i).ret = EAGAIN →
      (∀ S : Option search_out,
        (cmdctx.cmd = sss_cli_command.SSS_NSS_GETPWNAM →
          S = nss_cmd_getpwnam_search e2 nctx cmdctx
                (check_cache e dctx nctx st res t nm i).dctx st2) →
        (cmdctx.cmd = sss_cli_command.SSS_NSS_GETGRNAM →
          S = nss_cmd_getgrnam_search e2 nctx cmdctx
                (check_cache e dctx nctx st res t nm i).dctx st2) →
        (cmdctx.cmd = sss_cli_command.SSS_NSS_INITGR →
          S = nss_cmd_initgroups_search e2 nctx cmdctx
                (check_cache e dctx nctx st res t nm i).dctx st2) →
        (cmdctx.cmd = sss_cli_command.SSS_NSS_GETPWUID →
          S = nss_cmd_getpwuid_search e2 nctx cmdctx
                (check_cache e dctx nctx st res t nm i).dctx st2) →
        (cmdctx.cmd = sss_cli_command.SSS_NSS_GETGRGID →
          S = nss_cmd_getgrgid_search e2 nctx cmdctx
                (check_cache e dctx nctx st res t nm i).dctx st2) →
        (cmdctx.cmd = sss_cli_command.SSS_NSS_GETNAMEBYSID ∨
         cmdctx.cmd = sss_cli_command.SSS_NSS_GETIDBYSID →
          S = nss_cmd_getbysid_search e2 nctx cmdctx
                (check_cache e dctx nctx st res t nm i).dctx st2) →
        (cmdctx.cmd = sss_cli_command.SSS_NSS_GETSIDBYNAME ∨
         cmdctx.cmd = sss_cli_command.SSS_NSS_GETSIDBYID →
          S = nss_cmd_getsidby_search e2 nctx cmdctx
                (check_cache e dctx nctx st res t nm i).dctx st2) →
        reentry_quiet rest st2 S) ∧
      (∀ err_maj o,
        nss_cmd_getby_dp_callback x e2 nctx cmdctx err_maj
          (check_cache e dctx nctx st res t nm i).dctx st2 = some o →
        ∃ added, o.st.dp_log = st2.dp_log ++ added ∧ added.length ≤ 1 ∧
          ∀ q ∈ added, q.dom ∈ rest)) := by
  refine ⟨?_, ?_, ?_⟩
  · intro hret
    have hc := check_cache_eagain e dctx nctx st res t nm i hsend hret
    refine ⟨hc.1, by rw [check_cache_domain, hdom], ?_⟩
    rw [hc.2, hdom]
    rfl
  · intro msg tl hres hone hmid
    subst hres
    rw [check_cache_midpoint e dctx nctx st msg tl t nm i hone hmid, hdom]
    refine ⟨rfl, rfl, ?_⟩
    cases e.dp_send_ok <;> simp
  · intro hret
    have hc := check_cache_eagain e dctx nctx st res t nm i hsend hret
    have hd : (check_cache e dctx nctx st res t nm i).dctx.domain = d :: rest := by
      rw [check_cache_domain, hdom]
    constructor
    · intro S s1 s2 s3 s4 s5 s6 s7
      rw [cb_search_named e2 nctx cmdctx _ st2 S s1 s2 s3 s4 s5 s6 s7]
      exact cb_search_reentry e2 nctx cmdctx _ st2 d rest hd hc.1
    · intro err_maj o ho
      exact dp_callback_reentry x e2 nctx cmdctx err_maj _ st2 d rest hd hc.1 o ho

theorem C28_one_blocking_refresh_per_domain_witness :
    (check_cache {} { domain := [ex_dom_prov, ex_dom], check_provider := true } {} {} []
        sss_dp_type.SSS_DP_USER (some [97]) 0).ret = EAGAIN ∧
    reentry_quiet [ex_dom] {}
      (nss_cmd_getpwnam_search ex_env_fresh {} { cmd := sss_cli_command.SSS_NSS_GETPWNAM }
        (check_cache {} { domain := [ex_dom_prov, ex_dom], check_provider := true } {} {} []
          sss_dp_type.SSS_DP_USER (some [97]) 0).dctx {}) :=
  ⟨by decide,
   ((C28_one_blocking_refresh_per_domain ex_ext {} ex_env_fresh {}
      { cmd := sss_cli_command.SSS_NSS_GETPWNAM }
      { domain := [ex_dom_prov, ex_dom], check_provider := true } {} {} []
      sss_dp_type.SSS_DP_USER (some [97]) 0 ex_dom_prov [ex_dom] rfl (by decide)).2.2
      (by decide)).1 _ (fun _ => rfl) (fun h => absurd h (by decide))
      (fun h => absurd h (by decide)) (fun h => absurd h (by decide))
      (fun h => absurd h (by decide)) (fun h => absurd h (by decide))
      (fun h => absurd h (by decide))⟩

/-- C24, counterexample: for getpwnam with a body that holds only the terminating NUL, in a
responder whose name parser rejects the empty name, `nss_cmd_getbynam` hands ENOENT to
`nss_cmd_done`: the empty reply is sent and no error reply; a body without the
terminating NUL gets the error reply with EINVAL. -/
theorem C24_counterexample_nul_only_body :
    nss_cmd_getbynam ex_ext ex_env_parse {} [ex_dom] sss_cli_command.SSS_NSS_GETPWNAM [0] {} =
      some { ret := EOK
             done_arg := some ENOENT
             cmdctx := { cmd := sss_cli_command.SSS_NSS_GETPWNAM }
             dctx := { domain := [], check_provider := false }
             st := { empty_sent := true } } ∧
    nss_cmd_getbynam ex_ext ex_env_parse {} [ex_dom] sss_cli_command.SSS_NSS_GETPWNAM [97] {} =
      some { ret := EOK
             done_arg := some EINVAL
             cmdctx := { cmd := sss_cli_command.SSS_NSS_GETPWNAM }
             dctx := { domain := [], check_provider := false }
             st := { err_sent := [EINVAL], cmd_done := true } } := by
  constructor <;> decide

/-- C24, amended: for getpwnam, getgrnam, initgroups and getsidbyname and a body that is
not empty.  When the last byte of the body is not NUL, or the bytes before it are not
valid UTF-8, `nss_cmd_getbynam` hands EINVAL to `nss_cmd_done`: the error reply with
EINVAL is sent, and the logs of the persistent cache, of the provider and of the negative
cache, and the negative cache itself, are as before.  When the body holds only the
terminating NUL, the UTF-8 check accepts no bytes and the name parser answers with a code
other than EOK and EAGAIN, `nss_cmd_getbynam` hands ENOENT to `nss_cmd_done`: the empty
reply is sent, no error reply, and nothing else changes. -/
theorem C24_getbynam_invalid_input (x : Ext) (e : Env) (nctx : nss_ctx)
    (domains : List sss_domain_info) (cmd : sss_cli_command) (st : resp_state)
    (hcmd : cmd = sss_cli_command.SSS_NSS_GETPWNAM ∨ cmd = sss_cli_command.SSS_NSS_GETGRNAM ∨
            cmd = sss_cli_command.SSS_NSS_INITGR ∨ cmd = sss_cli_command.SSS_NSS_GETSIDBYNAME) :
    (∀ body last, body.getLast? = some last →
      (last ≠ 0 ∨ e.sss_utf8_check body.dropLast = false) →
      nss_cmd_getbynam x e nctx domains cmd body st =
        some { ret := if e.send_error_ret = EOK then EOK else EFAULT
               done_arg := some EINVAL
               cmdctx := { cmd := cmd }
               dctx := { domain := [], check_provider := false }
               st := if e.send_error_ret = EOK then
                       { st with err_sent := st.err_sent ++ [EINVAL], cmd_done := true }
                     else { st with err_sent := st.err_sent ++ [EINVAL] } }) ∧
    (e.sss_utf8_check [] = true →
      (e.sss_parse_name_for_domains domains [0]).1 ≠ EOK →
      (e.sss_parse_name_for_domains domains [0]).1 ≠ EAGAIN →
      nss_cmd_getbynam x e nctx domains cmd [0] st =
        some { ret := if e.send_empty_ret = EOK then EOK else EFAULT
               done_arg := some ENOENT
               cmdctx := { cmd := cmd, name := (e.sss_parse_name_for_domains domains [0]).2.2 }
               dctx := { domain := [], check_provider := false }
               st := { st with empty_sent := true } }) := by
  have hc : (cmd == sss_cli_command.SSS_NSS_GETPWNAM || cmd == sss_cli_command.SSS_NSS_GETGRNAM
        || cmd == sss_cli_command.SSS_NSS_INITGR
        || cmd == sss_cli_command.SSS_NSS_GETSIDBYNAME) = true := by
    rcases hcmd with h1 | h1 | h1 | h1 <;> subst h1 <;> rfl
  have einval : nss_cmd_done e st EINVAL =
      (if e.send_error_ret = EOK then EOK else EFAULT,
       if e.send_error_ret = EOK then
         { st with err_sent := st.err_sent ++ [EINVAL], cmd_done := true }
       else { st with err_sent := st.err_sent ++ [EINVAL] }) := by
    by_cases hs : e.send_error_ret = EOK
    · simp [nss_cmd_done, hs, EOK, EINVAL, ENOENT, EAGAIN, EFAULT]
    · simp [nss_cmd_done, hs, EOK, EINVAL, ENOENT, EAGAIN, EFAULT]
  have enoent : nss_cmd_done e st ENOENT =
      (if e.send_empty_ret = EOK then EOK else EFAULT, { st with empty_sent := true }) := by
    by_cases hs : e.send_empty_ret = EOK
    · simp [nss_cmd_done, hs, EOK, ENOENT]
    · simp [nss_cmd_done, hs, EOK, ENOENT]
  refine ⟨?_, ?_⟩
  · intro body last hl hbad
    unfold nss_cmd_getbynam
    simp only [hc, Bool.not_true, Bool.false_eq_true, if_false, hl, einval]
    by_cases h0 : last = 0
    · have hu : e.sss_utf8_check body.dropLast = false := by
        rcases hbad with h | h
        · exact absurd h0 h
        · exact h
      simp [h0, hu]
    · have hb : (last != 0) = true := by simpa using h0
      simp [hb]
  · intro hutf h1 h2
    have h1b : ((e.sss_parse_name_for_domains domains [0]).1 != EOK) = true := by simpa using h1
    have h2b : ((e.sss_parse_name_for_domains domains [0]).1 == EAGAIN) = false := by
      simpa using h2
    simp [nss_cmd_getbynam, hc, hutf, h1b, h2b, enoent]

theorem C24_getbynam_invalid_input_witness :
    nss_cmd_getbynam ex_ext ex_env_parse {} [ex_dom] sss_cli_command.SSS_NSS_GETSIDBYNAME
        [97, 98] {} =
      some { ret := EOK
             done_arg := some EINVAL
             cmdctx := { cmd := sss_cli_command.SSS_NSS_GETSIDBYNAME }
             dctx := { domain := [], check_provider := false }
             st := { err_sent := [EINVAL], cmd_done := true } } ∧
    nss_cmd_getbynam ex_ext ex_env_parse {} [ex_dom] sss_cli_command.SSS_NSS_GETSIDBYNAME
        [0] {} =
      some { ret := EOK
             done_arg := some ENOENT
             cmdctx := { cmd := sss_cli_command.SSS_NSS_GETSIDBYNAME }
             dctx := { domain := [], check_provider := false }
             st := { empty_sent := true } } :=
  ⟨((C24_getbynam_invalid_input ex_ext ex_env_parse {} [ex_dom]
      sss_cli_command.SSS_NSS_GETSIDBYNAME {} (Or.inr (Or.inr (Or.inr rfl)))).1
      [97, 98] 98 rfl (Or.inl (by decide))).trans (by decide),
   ((C24_getbynam_invalid_input ex_ext ex_env_parse {} [ex_dom]
      sss_cli_command.SSS_NSS_GETSIDBYNAME {} (Or.inr (Or.inr (Or.inr rfl)))).2
      rfl (by decide) (by decide)).trans (by decide)⟩

end NssSrv
